import Mathlib

/-!
# Propeller assembler back end (gas/config/tc-propeller.c)

A shallow embedding of the fixup/relocation emitter (`md_apply_fix`,
`tc_gen_reloc`), of `pack_native` and of the compression engine and byte
emission at the end of `md_assemble`, followed by the theorems about them.

Machine integers are natural numbers holding the bit pattern.  `valueT` is the
host's `unsigned long`; its width `W` (32 or 64) is a parameter of every
function that computes in `valueT`, and wrap-around is written `% 2 ^ W`.
-/

namespace Propeller

/-! ## Machine arithmetic on `W`-bit words -/

/-- The C operator `~x` on a `W`-bit unsigned word. -/
def bitnot (W x : Nat) : Nat := (2 ^ W - 1) ^^^ x

/-- The C operator `a - b` on `W`-bit unsigned words. -/
def subW (W a b : Nat) : Nat := (a + (2 ^ W - b % 2 ^ W)) % 2 ^ W

/-- The C operator `a + b` on `W`-bit unsigned words. -/
def addW (W a b : Nat) : Nat := (a + b) % 2 ^ W

/-- The C operator `-a` on a `W`-bit unsigned word. -/
def negW (W a : Nat) : Nat := (2 ^ W - a % 2 ^ W) % 2 ^ W

/-- The C operator `a << s` on a `W`-bit unsigned word. -/
def shlW (W a s : Nat) : Nat := (a <<< s) % 2 ^ W

/-- Conversion of a (signed) integer to the `W`-bit unsigned word holding its
two's-complement pattern. -/
def toValueT (W : Nat) (v : Int) : Nat := (v % (2 : Int) ^ W).toNat

/-- The signed reading of a `W`-bit pattern. -/
def toSigned (W x : Nat) : Int :=
  if x % 2 ^ W < 2 ^ (W - 1) then ((x % 2 ^ W : Nat) : Int)
  else ((x % 2 ^ W : Nat) : Int) - (2 : Int) ^ W

/-- Conversion of a 32-bit `int` pattern to `long`/`valueT` (sign extension to
`W` bits). -/
def long_of_int (W x : Nat) : Nat :=
  if x &&& 0x80000000 ≠ 0 then x ||| (2 ^ W - 2 ^ 32) else x

/-! ## Relocation kinds and fixups -/

/-- The relocation codes named in tc-propeller.c. -/
inductive bfd_reloc_code_real_type
  | BFD_RELOC_NONE
  | BFD_RELOC_32
  | BFD_RELOC_16
  | BFD_RELOC_8
  | BFD_RELOC_32_PCREL
  | BFD_RELOC_16_PCREL
  | BFD_RELOC_8_PCREL
  | BFD_RELOC_PROPELLER_SRC
  | BFD_RELOC_PROPELLER_SRC_IMM
  | BFD_RELOC_PROPELLER_DST
  | BFD_RELOC_PROPELLER_DST_IMM
  | BFD_RELOC_PROPELLER_23
  | BFD_RELOC_PROPELLER_REPINSCNT
  | BFD_RELOC_PROPELLER_REPS
  | BFD_RELOC_PROPELLER_REPSREL
  | BFD_RELOC_PROPELLER_PCREL10
  | BFD_RELOC_PROPELLER_32_DIV4
  | BFD_RELOC_PROPELLER_16_DIV4
  | BFD_RELOC_PROPELLER_8_DIV4
  deriving DecidableEq, Repr

open bfd_reloc_code_real_type

/-- The fields of a `fixS` that tc-propeller.c reads or writes.  A symbol is
represented by the `vma` of its section, the only thing `md_apply_fix` reads
from it; `fr_address` is `fx_frag->fr_address`. -/
structure fixS where
  fx_addsy : Option Nat
  fx_subsy : Option Nat
  fx_pcrel : Bool
  fx_done : Bool
  fx_size : Nat
  fx_where : Nat
  fx_offset : Int
  fx_addnumber : Nat
  fx_r_type : bfd_reloc_code_real_type
  fr_address : Nat

/-- The byte `con[i]` of an `unsigned char` buffer. -/
def byte_at (con : Nat → Nat) (i : Nat) : Nat := con i % 256

/-- `md_chars_to_number`: little-endian read of `nbytes` bytes.  The arithmetic
is done in `int`; for four bytes the 32-bit `int` is then widened to `long`.
`none` is `BAD_CASE`. -/
def md_chars_to_number (W : Nat) (con : Nat → Nat) (nbytes : Nat) : Option Nat :=
  match nbytes with
  | 0 => some 0
  | 1 => some (byte_at con 0)
  | 2 => some ((byte_at con 1 <<< 8) ||| byte_at con 0)
  | 3 => some ((byte_at con 2 <<< (2 * 8)) ||| (byte_at con 1 <<< 8) ||| byte_at con 0)
  | 4 => some (long_of_int W
      (shlW 32 ((byte_at con 3 <<< 8) ||| byte_at con 2) (2 * 8)
        ||| ((byte_at con 1 <<< 8) ||| byte_at con 0)))
  | _ => none

/-- Modelled from the spec: `md_number_to_chars` is not defined in
tc-propeller.c; it stores the low `n` bytes of `val` at `buf`, least
significant byte first (the order `md_chars_to_number` reads them in). -/
def md_number_to_chars (buf : Nat → Nat) (val n : Nat) : Nat → Nat :=
  fun i => if i < n then (val >>> (8 * i)) &&& 0xff else buf i

/-- The value canonicalization at the start of `md_apply_fix`:
`val &= 0xffffffff; val ^= 0x80000000; val -= 0x80000000;` in `valueT`. -/
def canon_val (W val : Nat) : Nat :=
  let val := val &&& 0xffffffff
  let val := val ^^^ 0x80000000
  subW W val 0x80000000

/-- The same three statements applied to the signed `offsetT fx_offset`. -/
def canon_offset (W : Nat) (fx_offset : Int) : Int :=
  toSigned W (canon_val W (toValueT W fx_offset))

/-- The `switch (fixP->fx_r_type)` of `md_apply_fix`: from the kind and the
canonical `val` to `(val, mask, shift, rshift)`; `none` is `BAD_CASE`. -/
def reloc_switch (W : Nat) (r_type : bfd_reloc_code_real_type) (val : Nat) :
    Option (Nat × Nat × Nat × Nat) :=
  match r_type with
  | BFD_RELOC_PROPELLER_REPINSCNT => some (subW W val 1, 0x0000003f, 0, 0)
  | BFD_RELOC_PROPELLER_SRC_IMM => some (val, 0x000001ff, 0, 0)
  | BFD_RELOC_PROPELLER_SRC => some (val, 0x000001ff, 0, 2)
  | BFD_RELOC_PROPELLER_DST_IMM => some (val, 0x0003fe00, 9, 0)
  | BFD_RELOC_PROPELLER_DST => some (val, 0x0003fe00, 9, 2)
  | BFD_RELOC_PROPELLER_23 => some (val, 0x007fffff, 0, 0)
  | BFD_RELOC_32 => some (val, 0xffffffff, 0, 0)
  | BFD_RELOC_PROPELLER_32_DIV4 => some (val, 0xffffffff, 0, 2)
  | BFD_RELOC_16 => some (val, 0x0000ffff, 0, 0)
  | BFD_RELOC_PROPELLER_16_DIV4 => some (val, 0x0000ffff, 0, 2)
  | BFD_RELOC_8 => some (val, 0x000000ff, 0, 0)
  | BFD_RELOC_PROPELLER_8_DIV4 => some (val, 0x000000ff, 0, 2)
  | BFD_RELOC_8_PCREL =>
      let mask := 0x0000007f
      if val &&& 0x80000000 ≠ 0 then
        if val &&& 0xFFFFFF80 = 0xFFFFFF80 then
          some (val &&& 0xFF, mask ||| 0x80, 0, 0)
        else some (val, mask, 0, 0)
      else some (val, mask, 0, 0)
  | BFD_RELOC_16_PCREL =>
      let mask := 0x00007fff
      if val &&& 0x80000000 ≠ 0 then
        if val &&& 0xFFFF8000 = 0xFFFF8000 then
          some (val &&& 0xFFFF, mask ||| 0x8000, 0, 0)
        else some (val, mask, 0, 0)
      else some (val, mask, 0, 0)
  | BFD_RELOC_PROPELLER_PCREL10 =>
      let mask := 0x000001ff
      if val &&& 0x80000000 ≠ 0 then
        let val := negW W val &&& 0xffffffff
        let val := val ||| 0x04000000
        some (val, mask ||| 0x04000000, 0, 0)
      else some (val, mask, 0, 0)
  | BFD_RELOC_PROPELLER_REPSREL => some (subW W val 1, 0x0000003f, 0, 2)
  | _ => none

/-- What a call of `md_apply_fix` leaves behind: the updated fixup, `*valP`,
the patched buffer and whether "Relocation overflows" was reported. -/
structure FixResult where
  fixP : fixS
  valP : Nat
  buf : Nat → Nat
  overflow : Bool

/-- The value `(val >> rshift) << shift` of `md_apply_fix`, in `valueT`. -/
def shifted (W val shift rshift : Nat) : Nat := shlW W (val >>> rshift) shift

/-- The merge `code &= ~mask; code |= ((val>>rshift) << shift) & mask;`. -/
def merge (W code val mask shift rshift : Nat) : Nat :=
  (code &&& bitnot W mask) ||| (shifted W val shift rshift &&& mask)

/-- The test guarding `as_bad_where (..., "Relocation overflows")`. -/
def overflows (W val mask shift rshift : Nat) : Bool :=
  decide (((shifted W val shift rshift) &&& 0xffffffff) &&& bitnot W mask ≠ 0)

/-- The value of `val` at the overflow test and the merge: after the switch,
the section `vma` of the symbol is added (or that of the subtracted symbol
subtracted), and an unresolved fixup uses 0. -/
def final_val (W : Nat) (fixP : fixS) (fx_done : Bool) (val : Nat) : Nat :=
  let val :=
    match fixP.fx_addsy with
    | some vma => addW W val vma
    | none =>
      match fixP.fx_subsy with
      | some vma => subW W val vma
      | none => val
  if !fx_done then 0 else val

/-- `md_apply_fix (fixP, valP, seg)`; `buf` is the memory at
`fixP->fx_where + fixP->fx_frag->fr_literal`.  `none` is an abort
(`BAD_CASE`). -/
def md_apply_fix (W : Nat) (fixP : fixS) (valP : Nat) (buf : Nat → Nat) :
    Option FixResult :=
  let fx_done := if fixP.fx_addsy.isNone && !fixP.fx_pcrel then true else fixP.fx_done
  let size := fixP.fx_size
  match md_chars_to_number W buf size with
  | none => none
  | some code =>
    let val := canon_val W valP
    let fx_offset := canon_offset W fixP.fx_offset
    match reloc_switch W fixP.fx_r_type val with
    | none => none
    | some (val1, mask, shift, rshift) =>
      let val2 := final_val W fixP fx_done val1
      some {
        fixP := { fixP with fx_done := fx_done, fx_addnumber := val, fx_offset := fx_offset }
        valP := val
        buf := md_number_to_chars buf (merge W code val2 mask shift rshift) size
        overflow := overflows W val2 mask shift rshift }

/-- The constants `(mask, shift, rshift)` that the cases of the switch in
`md_apply_fix` assign, before any folding of a negative value. -/
def table_entry : bfd_reloc_code_real_type → Option (Nat × Nat × Nat)
  | BFD_RELOC_PROPELLER_REPINSCNT => some (0x0000003f, 0, 0)
  | BFD_RELOC_PROPELLER_SRC_IMM => some (0x000001ff, 0, 0)
  | BFD_RELOC_PROPELLER_SRC => some (0x000001ff, 0, 2)
  | BFD_RELOC_PROPELLER_DST_IMM => some (0x0003fe00, 9, 0)
  | BFD_RELOC_PROPELLER_DST => some (0x0003fe00, 9, 2)
  | BFD_RELOC_PROPELLER_23 => some (0x007fffff, 0, 0)
  | BFD_RELOC_32 => some (0xffffffff, 0, 0)
  | BFD_RELOC_PROPELLER_32_DIV4 => some (0xffffffff, 0, 2)
  | BFD_RELOC_16 => some (0x0000ffff, 0, 0)
  | BFD_RELOC_PROPELLER_16_DIV4 => some (0x0000ffff, 0, 2)
  | BFD_RELOC_8 => some (0x000000ff, 0, 0)
  | BFD_RELOC_PROPELLER_8_DIV4 => some (0x000000ff, 0, 2)
  | BFD_RELOC_8_PCREL => some (0x0000007f, 0, 0)
  | BFD_RELOC_16_PCREL => some (0x00007fff, 0, 0)
  | BFD_RELOC_PROPELLER_PCREL10 => some (0x000001ff, 0, 0)
  | BFD_RELOC_PROPELLER_REPSREL => some (0x0000003f, 0, 2)
  | _ => none

/-- A resolved fixup (no symbol, not pc-relative, not yet marked done) of kind
`r_type` on a field of `size` bytes at offset 0 of its frag. -/
def resolved_fix (r_type : bfd_reloc_code_real_type) (size : Nat) : fixS :=
  { fx_addsy := none, fx_subsy := none, fx_pcrel := false, fx_done := false,
    fx_size := size, fx_where := 0, fx_offset := 0, fx_addnumber := 0,
    fx_r_type := r_type, fr_address := 0 }

/-- The `arelent` that `tc_gen_reloc` fills in; `H` is the type of the BFD
howto entries and `sym_ptr_ptr` holds `symbol_get_bfdsym (fixp->fx_addsy)`. -/
structure arelent (H : Type) where
  sym_ptr_ptr : Option Nat
  address : Nat
  addend : Nat
  howto : H

/-- `tc_gen_reloc (section, fixp)`.  `bfd_reloc_type_lookup` (BFD, not under
src/) is a parameter; `none` is the `NULL` result (after `BAD_CASE` or the
"Can not represent" diagnostic).  The function reads the symbol through
`fixp->fx_addsy` without a test, so a fixup without symbol is outside its
domain and also yields `none`. -/
def tc_gen_reloc {H : Type} (W : Nat)
    (bfd_reloc_type_lookup : bfd_reloc_code_real_type → Option H) (fixp : fixS) :
    Option (arelent H) :=
  match fixp.fx_addsy with
  | none => none
  | some sym =>
  let address := addW W fixp.fr_address fixp.fx_where
  let addend := toValueT W fixp.fx_offset
  let sw : Option (Nat × bfd_reloc_code_real_type) :=
    match fixp.fx_r_type with
    | BFD_RELOC_32_PCREL
    | BFD_RELOC_16_PCREL
    | BFD_RELOC_8_PCREL
    | BFD_RELOC_PROPELLER_PCREL10
    | BFD_RELOC_PROPELLER_REPSREL => some (subW W addend fixp.fx_size, fixp.fx_r_type)
    | BFD_RELOC_32
    | BFD_RELOC_16
    | BFD_RELOC_8
    | BFD_RELOC_PROPELLER_SRC
    | BFD_RELOC_PROPELLER_SRC_IMM
    | BFD_RELOC_PROPELLER_DST
    | BFD_RELOC_PROPELLER_DST_IMM
    | BFD_RELOC_PROPELLER_23
    | BFD_RELOC_PROPELLER_REPINSCNT
    | BFD_RELOC_PROPELLER_REPS
    | BFD_RELOC_PROPELLER_32_DIV4
    | BFD_RELOC_PROPELLER_16_DIV4
    | BFD_RELOC_PROPELLER_8_DIV4 => some (addend, fixp.fx_r_type)
    | _ => none
  match sw with
  | none => none
  | some (addend, code) =>
    match bfd_reloc_type_lookup code with
    | none => none
    | some howto =>
      some { sym_ptr_ptr := some sym, address := address, addend := addend, howto := howto }

/-- The pc-relative kinds of the first group of cases in `tc_gen_reloc`. -/
def is_pcrel_kind (k : bfd_reloc_code_real_type) : Bool :=
  k = BFD_RELOC_32_PCREL || k = BFD_RELOC_16_PCREL || k = BFD_RELOC_8_PCREL
    || k = BFD_RELOC_PROPELLER_PCREL10 || k = BFD_RELOC_PROPELLER_REPSREL

/-! ## Instruction encoding: `pack_native` and the end of `md_assemble` -/

/-- Constants of include/opcode/propeller.h that the compression engine uses.
The header is not under src/, so their values are parameters. -/
structure OpcodeConsts where
  PREFIX_PACK_NATIVE : Nat
  PREFIX_REGREG : Nat
  PREFIX_REGIMM4 : Nat
  PREFIX_REGIMM12 : Nat
  PREFIX_XMOVREG : Nat
  PREFIX_XMOVIMM : Nat
  PREFIX_ZEROREG : Nat
  PREFIX_MVIB : Nat
  PREFIX_MVIW : Nat
  PREFIX_SKIP2 : Nat
  PREFIX_SKIP3 : Nat
  MACRO_NATIVE : Nat
  MACRO_ADDSP : Nat
  MACRO_MVREG : Nat
  MACRO_XMVREG : Nat
  XOP_ADD : Nat
  XOP_SUB : Nat
  XOP_CMPU : Nat
  XOP_CMPS : Nat
  XOP_WRB : Nat
  XOP_WRL : Nat
  COMPRESS_XOP : Nat
  COMPRESS_MOV : Nat

/-- `#define SP_REGNUM 16`. -/
def SP_REGNUM : Nat := 16

/-- `#define PC_REGNUM 17`. -/
def PC_REGNUM : Nat := 17

/-- `#define CC_REGNUM 18`. -/
def CC_REGNUM : Nat := 18

/-- `#define FFFFFFFF_REGNUM 19`. -/
def FFFFFFFF_REGNUM : Nat := 19

/-- `pack_native (code)`.  Only bits 0..31 of `code` are read and, for a tag
that fits a byte, the result is below 2^32, so the width of `unsigned long`
plays no role. -/
def pack_native (K : OpcodeConsts) (code : Nat) : Nat :=
  let bottom := code &&& 0x3FFFF
  let top := (code >>> 26) &&& 0x3F
  let eeeI := (code >>> 22) &&& 0xF
  let bottom := bottom ||| (top <<< 18)
  K.PREFIX_PACK_NATIVE ||| eeeI ||| (bottom <<< 8)

/-- The operators of `expressionS` that tc-propeller.c names; `O_other`
stands for every other operator. -/
inductive operatorT
  | O_illegal
  | O_constant
  | O_symbol
  | O_register
  | O_add
  | O_subtract
  | O_other
  deriving DecidableEq, Repr

/-- The part of an `expressionS` that tc-propeller.c inspects. -/
structure expressionS where
  X_op : operatorT
  X_add_number : Int
  X_add_symbol : Option String
  deriving DecidableEq, Repr

/-- The `reloc` member of `struct propeller_code`. -/
structure propeller_reloc where
  type : bfd_reloc_code_real_type
  exp : expressionS
  pc_rel : Bool
  deriving DecidableEq, Repr

/-- `struct propeller_code`; `code` holds the 32-bit pattern of the `int`. -/
structure propeller_code where
  error : Option String
  code : Nat
  reloc : propeller_reloc
  deriving DecidableEq, Repr

/-- `struct propeller_opcode` (declared in include/opcode/propeller.h): the
members that tc-propeller.c reads. -/
structure propeller_opcode where
  name : String
  opcode : Nat
  format : Nat
  flags : Nat
  hardware : Nat
  compress_type : Nat
  copc : Nat
  deriving DecidableEq, Repr

/-- The locals of `md_assemble` that are live once the operands and effect
flags of a line have been parsed without a diagnostic. -/
structure AsmLocals where
  insn : propeller_code
  insn2 : propeller_code
  op1 : propeller_code
  op2 : propeller_code
  op3 : propeller_code
  op4 : propeller_code
  size : Nat
  condmask : Nat
  insn_compressed : Bool
  insn2_compressed : Bool
  reloc_prefix : Nat
  xmov_flag : Bool
  deriving DecidableEq, Repr

/-- Outcome of the block "check for possible compression": a diagnostic
followed by `return`, `goto skip_compress`, or arrival at `compress_done`
with `newcode` and `size`. -/
inductive Attempt
  | bad (msg : String)
  | skip
  | done (newcode size : Nat)
  deriving DecidableEq, Repr

/-- The `xmov_flag` block: checks the first move and switches to the fields of
the second instruction.  Yields `(destval, srcval, immediate, effects,
movbyte)` or the diagnostic. -/
def xmov_fields (st : AsmLocals) (destval srcval immediate effects : Nat) :
    Except String (Nat × Nat × Nat × Nat × Nat) :=
  if st.xmov_flag then
    if immediate ≠ 0 then .error "xmov may not have immediate argument for mov"
    else if effects ≠ 1 then .error "No effects permitted in xmov"
    else
      let effects := (st.insn2.code >>> 23) &&& 0x7
      if destval > 15 ∨ srcval > 15 then .error "Illegal register in xmov"
      else
        let movbyte := shlW 32 destval 4 ||| srcval
        let immediate := (st.insn2.code >>> 22) &&& 1
        let srcval := st.insn2.code &&& 0x1ff
        let destval := (st.insn2.code >>> 9) &&& 0x1ff
        .ok (destval, srcval, immediate, effects, movbyte)
  else .ok (destval, srcval, immediate, effects, 0)

/-- The `switch (op->copc)` that sets `expectedeffects`: 6 (wz,wc,nr) for the
compares, 0 for the writes, 1 (just the R field) otherwise. -/
def expectedeffects (K : OpcodeConsts) (copc : Nat) : Nat :=
  if copc = K.XOP_CMPU ∨ copc = K.XOP_CMPS then 6
  else if copc = K.XOP_WRB ∨ copc = K.XOP_WRL then 0
  else 1

/-- The branch `op->compress_type == COMPRESS_XOP`. -/
def compress_xop (K : OpcodeConsts) (copc : Nat) (xmov_flag : Bool)
    (destval srcval immediate effects movbyte : Nat) : Attempt :=
  if effects ≠ expectedeffects K copc then .skip
  else if destval > 15 then
    if xmov_flag then .skip
    else if destval = SP_REGNUM ∧ immediate ≠ 0 ∧ srcval < 128 then
      if copc = K.XOP_ADD then .done (K.MACRO_ADDSP ||| shlW 32 srcval 8) 2
      else if copc = K.XOP_SUB then
        let srcval := negW 32 srcval &&& 0xff
        .done (K.MACRO_ADDSP ||| shlW 32 srcval 8) 2
      else .skip
    else .skip
  else
    let special := immediate = 0 ∧ srcval = FFFFFFFF_REGNUM
    let immediate := if special then 1 else immediate
    let srcval := if special then toValueT 32 (-1) &&& 0x00000FFF else srcval
    let body : Option (Nat × Nat × Nat) :=
      if immediate ≠ 0 then
        if srcval > 15 then
          if xmov_flag then none
          else
            let newcode := K.PREFIX_REGIMM12 ||| destval
            let xopbyte := srcval &&& 0xff
            let xopbyte := xopbyte ||| shlW 32 (((srcval >>> 8) &&& 0xf) ||| shlW 32 copc 4) 8
            some (newcode, xopbyte, 3)
        else
          let newcode :=
            if xmov_flag then K.PREFIX_XMOVIMM ||| destval else K.PREFIX_REGIMM4 ||| destval
          let xopbyte := shlW 32 srcval 4 ||| copc
          some (newcode, xopbyte, 2)
      else
        if srcval > 15 then none
        else
          let newcode :=
            if xmov_flag then K.PREFIX_XMOVREG ||| destval else K.PREFIX_REGREG ||| destval
          let xopbyte := shlW 32 srcval 4 ||| copc
          some (newcode, xopbyte, 2)
    match body with
    | none => .skip
    | some (newcode, xopbyte, size) =>
      if xmov_flag then
        let newcode := newcode ||| shlW 32 movbyte 8
        let newcode := newcode ||| shlW 32 xopbyte 16
        .done newcode (size + 1)
      else
        .done (newcode ||| shlW 32 xopbyte 8) size

/-- The branch `op->compress_type == COMPRESS_MOV`. -/
def compress_mov (K : OpcodeConsts) (xmov_flag : Bool) (condmask : Nat)
    (destval srcval immediate effects movbyte : Nat) : Attempt :=
  if destval > 15 then .skip
  else if effects ≠ 1 then .skip
  else if immediate ≠ 0 then
    if xmov_flag then .bad "mov immediate not supported in xmov"
    else if srcval = 0 ∧ condmask = 0xf then .done (K.PREFIX_ZEROREG ||| destval) 1
    else if srcval ≤ 255 then .done ((K.PREFIX_MVIB ||| destval) ||| shlW 32 srcval 8) 2
    else .done ((K.PREFIX_MVIW ||| destval) ||| shlW 32 srcval 8) 3
  else
    if srcval > 15 then .skip
    else if xmov_flag then
      let newcode := K.MACRO_XMVREG
      let newcode := newcode ||| (shlW 32 movbyte 8 ||| shlW 32 (shlW 32 destval 4 ||| srcval) 16)
      .done newcode 3
    else
      let newcode := K.MACRO_MVREG
      let newcode := newcode ||| shlW 32 (shlW 32 destval 4 ||| srcval) 8
      .done newcode 2

/-- The body of `if (compress && op->compress_type && !insn_compressed)` up to
the label `compress_done`. -/
def compress_attempt (K : OpcodeConsts) (op : propeller_opcode) (st : AsmLocals) : Attempt :=
  if st.size > 4 ∧ 0xf ≠ st.condmask ∧ st.xmov_flag = false then .skip
  else if st.op2.reloc.type ≠ BFD_RELOC_NONE then .skip
  else
    let destval := (st.insn.code >>> 9) &&& 0x1ff
    if st.op1.reloc.type ≠ BFD_RELOC_NONE then .skip
    else
      let immediate := (st.insn.code >>> 22) &&& 0x1
      let srcval := st.insn.code &&& 0x1ff
      let effects := (st.insn.code >>> 23) &&& 0x7
      match xmov_fields st destval srcval immediate effects with
      | .error msg => .bad msg
      | .ok (destval, srcval, immediate, effects, movbyte) =>
        if op.compress_type = K.COMPRESS_XOP then
          compress_xop K op.copc st.xmov_flag destval srcval immediate effects movbyte
        else if op.compress_type = K.COMPRESS_MOV then
          compress_mov K st.xmov_flag st.condmask destval srcval immediate effects movbyte
        else .skip

/-- The statements from the label `compress_done` to the end of the
compression block. -/
def compress_done (K : OpcodeConsts) (st : AsmLocals) (newcode size : Nat) : AsmLocals :=
  let wrapped : Nat × Nat × Nat :=
    if st.condmask ≠ 0xf then
      let newcode := shlW 32 newcode 8
      let condmask := bitnot 32 st.condmask &&& 0xf
      let newcode :=
        if size = 3 then newcode ||| (K.PREFIX_SKIP3 ||| condmask)
        else newcode ||| (K.PREFIX_SKIP2 ||| condmask)
      (newcode, size + 1, condmask)
    else (newcode, size, st.condmask)
  { st with
    size := wrapped.2.1
    condmask := wrapped.2.2
    insn := { st.insn with code := wrapped.1,
                           reloc := { st.insn.reloc with type := BFD_RELOC_NONE } }
    insn_compressed := true
    op1 := { st.op1 with reloc := { st.op1.reloc with type := BFD_RELOC_NONE } }
    op2 := { st.op2 with reloc := { st.op2.reloc with type := BFD_RELOC_NONE } }
    insn2 := { st.insn2 with code := 0,
                             reloc := { st.insn2.reloc with type := BFD_RELOC_NONE } } }

/-- The packed-native fallback after the label `skip_compress`. -/
def pack_fallback (K : OpcodeConsts) (compress : Bool) (st : AsmLocals) : AsmLocals :=
  if compress ∧ st.insn_compressed = false ∧ st.size = 4 ∧ st.condmask = 0xf then
    { st with
      insn := { st.insn with code := pack_native K st.insn.code % 2 ^ 32 }
      reloc_prefix := 1
      insn_compressed := true }
  else st

/-- The operand whose `reloc.exp` a fixup refers to. -/
inductive Slot
  | insn
  | op1
  | op2
  | insn2
  | op3
  | op4
  deriving DecidableEq, Repr

/-- The arguments of one call `fix_new_exp (frag_now, where, size, exp, pcrel,
r_type)`; `fx_where` counts from the first byte reserved for the line. -/
structure fix_new_exp_args where
  fx_where : Nat
  fx_size : Nat
  exp : expressionS
  pcrel : Bool
  r_type : bfd_reloc_code_real_type
  deriving DecidableEq, Repr

/-- What `md_assemble` hands to the output for one line: the number of bytes
reserved with `frag_more`, the bytes stored into them in order, the fixups
recorded, and whether `EF_PROPELLER_COMPRESS` was set. -/
structure Emitted where
  reserved : Nat
  bytes : List Nat
  fixes : List fix_new_exp_args
  compress_flag : Bool
  deriving DecidableEq, Repr

/-- Result of the end of `md_assemble`: a diagnostic followed by `return`, an
`abort ()` from `CHECK_WRITTEN`, or the emitted line. -/
inductive AsmResult
  | bad (msg : String)
  | abort
  | emitted (o : Emitted)
  deriving DecidableEq, Repr

/-- The `n` bytes that `md_number_to_chars (to, val, n)` stores at `to`. -/
def number_bytes (val n : Nat) : List Nat :=
  (List.range n).map (md_number_to_chars (fun _ => 0) val n)

/-- The fixup recorded for `p` when `p.reloc.type != BFD_RELOC_NONE`. -/
def fix_for (p : propeller_code) (fx_where fx_size : Nat) : List fix_new_exp_args :=
  if p.reloc.type ≠ BFD_RELOC_NONE then
    [{ fx_where := fx_where, fx_size := fx_size, exp := p.reloc.exp,
       pcrel := p.reloc.pc_rel, r_type := p.reloc.type }]
  else []

/-- The emission block at the end of `md_assemble` (from the computation of
`insn_size` to the update of `elf_flags`).  `CHECK_WRITTEN` aborts as soon as
more bytes have been stored than `frag_more` reserved. -/
def emit (K : OpcodeConsts) (compress : Bool) (st : AsmLocals) : AsmResult :=
  let has_insn2 : Bool := st.insn2.reloc.type ≠ BFD_RELOC_NONE ∨ st.insn2.code ≠ 0
  let size :=
    if compress ∧ st.insn_compressed = false then
      st.size + 1 + (if has_insn2 then (if st.insn2_compressed then 0 else 1) else 0)
    else st.size
  let insn_size :=
    if compress ∧ st.insn_compressed = false then 4
    else if compress then size
    else 4
  let alloc_size := size
  -- the optional first store: the native tag, or the head of a long compact form
  let pre : List Nat × Nat × propeller_code × propeller_code :=
    if compress then
      if st.insn_compressed = false then
        (number_bytes K.MACRO_NATIVE 1, insn_size, st.insn, st.insn2)
      else if insn_size > 4 then
        (number_bytes st.insn.code (insn_size - 4), 4, st.insn2,
          { st.insn2 with code := 0,
                          reloc := { st.insn2.reloc with type := BFD_RELOC_NONE } })
      else ([], insn_size, st.insn, st.insn2)
    else ([], insn_size, st.insn, st.insn2)
  let bytes0 := pre.1
  let insn_size := pre.2.1
  let insn := pre.2.2.1
  let insn2 := pre.2.2.2
  if bytes0.length > alloc_size then .abort
  else
    let to_ := bytes0.length
    let bytes1 := bytes0 ++ number_bytes insn.code insn_size
    if bytes1.length > alloc_size then .abort
    else
      let fx_where := to_ + st.reloc_prefix
      let fx_size := subW 32 insn_size st.reloc_prefix
      let fixes1 := fix_for insn fx_where fx_size ++ fix_for st.op1 fx_where fx_size
        ++ fix_for st.op2 fx_where fx_size
      if insn2.reloc.type ≠ BFD_RELOC_NONE ∨ insn2.code ≠ 0 then
        let tag : List Nat :=
          if compress ∧ st.insn2_compressed = false then number_bytes K.MACRO_NATIVE 1 else []
        let bytes2 := bytes1 ++ tag
        if bytes2.length > alloc_size then .abort
        else
          let to_ := bytes2.length
          let bytes3 := bytes2 ++ number_bytes insn2.code 4
          if bytes3.length > alloc_size then .abort
          else
            let fixes2 := fix_for insn2 to_ 4 ++ fix_for st.op3 to_ 4 ++ fix_for st.op4 to_ 4
            .emitted { reserved := alloc_size, bytes := bytes3, fixes := fixes1 ++ fixes2,
                       compress_flag := st.insn_compressed }
      else
        .emitted { reserved := alloc_size, bytes := bytes1, fixes := fixes1,
                   compress_flag := st.insn_compressed }

/-- The end of `md_assemble`, from the comment "check for possible
compression" to the closing brace, on the locals left by operand and effect
parsing; `compress` is the global mode flag. -/
def md_assemble_tail (K : OpcodeConsts) (compress : Bool) (op : propeller_opcode)
    (st : AsmLocals) : AsmResult :=
  let after : Except String AsmLocals :=
    if compress ∧ op.compress_type ≠ 0 ∧ st.insn_compressed = false then
      match compress_attempt K op st with
      | .bad msg => .error msg
      | .skip => .ok st
      | .done newcode size => .ok (compress_done K st newcode size)
    else .ok st
  match after with
  | .error msg => .bad msg
  | .ok st => emit K compress (pack_fallback K compress st)

/-! ## Operand parsing and the head of `md_assemble` -/

/-- The operand formats `PROPELLER_OPERAND_*` for which the
`switch (op->format)` of `md_assemble` has a case (the enumeration is declared
in include/opcode/propeller.h); `other` stands for a value without a case. -/
inductive operand_format
  | PROPELLER_OPERAND_IGNORE
  | PROPELLER_OPERAND_NO_OPS
  | PROPELLER_OPERAND_DEST_ONLY
  | PROPELLER_OPERAND_DESTIMM_SRCIMM
  | PROPELLER_OPERAND_DESTIMM
  | PROPELLER_OPERAND_SETINDA
  | PROPELLER_OPERAND_SETINDB
  | PROPELLER_OPERAND_SETINDS
  | PROPELLER_OPERAND_TWO_OPS
  | PROPELLER_OPERAND_JMPRET
  | PROPELLER_OPERAND_MOVA
  | PROPELLER_OPERAND_PTRS_OPS
  | PROPELLER_OPERAND_PTRD_OPS
  | PROPELLER_OPERAND_LDI
  | PROPELLER_OPERAND_BRS
  | PROPELLER_OPERAND_BRW
  | PROPELLER_OPERAND_BRL
  | PROPELLER_OPERAND_XMMIO
  | PROPELLER_OPERAND_FCACHE
  | PROPELLER_OPERAND_MACRO_8
  | PROPELLER_OPERAND_LRET
  | PROPELLER_OPERAND_MACRO_0
  | PROPELLER_OPERAND_LEASP
  | PROPELLER_OPERAND_XMOV
  | PROPELLER_OPERAND_LCALL
  | PROPELLER_OPERAND_MVI
  | PROPELLER_OPERAND_SOURCE_ONLY
  | PROPELLER_OPERAND_JMP
  | PROPELLER_OPERAND_CALL
  | PROPELLER_OPERAND_REPD
  | PROPELLER_OPERAND_REPS
  | PROPELLER_OPERAND_JMPTASK
  | PROPELLER_OPERAND_BIT
  | other
  deriving DecidableEq, Repr

open operand_format

/-- `pasm_replace_expression (exp)`: the expression after the call and the
value returned.  A constant or register is left alone (0); anything else has
`X_add_number` multiplied by 4 (1). -/
def pasm_replace_expression (exp : expressionS) : expressionS × Bool :=
  match exp.X_op with
  | .O_constant => (exp, false)
  | .O_register => (exp, false)
  | _ => ({ exp with X_add_number := exp.X_add_number * 4 }, true)

/-- The `switch (operand->reloc.exp.X_op)` of `parse_src`, on the operand left
by `parse_expression`.  `val` is an `int`, hence the 32-bit pattern of
`X_add_number`; `pcrel_reloc` is `none` for the C value 0.  Yields the operand
and the instruction after the switch. -/
def parse_src_switch (format : operand_format)
    (pcrel_reloc : Option bfd_reloc_code_real_type) (integer_reloc : Bool)
    (operand insn : propeller_code) : propeller_code × propeller_code :=
  let plain : propeller_code :=
    { operand with reloc := { operand.reloc with
        type :=
          if format = PROPELLER_OPERAND_REPD then BFD_RELOC_PROPELLER_REPINSCNT
          else if integer_reloc then BFD_RELOC_PROPELLER_SRC_IMM
          else BFD_RELOC_PROPELLER_SRC,
        pc_rel := false } }
  let symbolic : propeller_code :=
    match pcrel_reloc with
    | some r => { operand with reloc := { operand.reloc with type := r, pc_rel := true } }
    | none => plain
  let constant : propeller_code × propeller_code :=
    let val := toValueT 32 operand.reloc.exp.X_add_number
    if format = PROPELLER_OPERAND_REPD then
      let val := subW 32 val 1
      if val &&& bitnot 32 0x3f ≠ 0 then
        ({ operand with error := some "6-bit constant out of range" }, insn)
      else (operand, { insn with code := insn.code ||| val })
    else
      if val &&& bitnot 32 0x1ff ≠ 0 then
        ({ operand with error := some "9-bit constant out of range" }, insn)
      else (operand, { insn with code := insn.code ||| val })
  match operand.reloc.exp.X_op with
  | .O_constant => constant
  | .O_register => constant
  | .O_symbol => (symbolic, insn)
  | .O_add => (symbolic, insn)
  | .O_subtract => (symbolic, insn)
  | .O_illegal => ({ operand with error := some "Illegal operand in source" }, insn)
  | .O_other =>
    match pcrel_reloc with
    | some _ =>
      ({ operand with
          error := some "Source operand too complicated for relative instruction" }, insn)
    | none => (plain, insn)

/-- `parse_src (str, operand, insn, format)` on a source operand whose text
starts with `#`, so that neither the register check nor `parse_indx` is
reached.  `compress` and `pasm_default` are the global flags; `mark` is
`some false` when `@` follows the `#`, `some true` when `&` follows it and
`none` otherwise; `parsed` is the expression that `parse_expression` stores
in `operand->reloc.exp`, or `none` when `expression ()` fails.  Yields the
operand and the instruction after the call. -/
def parse_src_hash (compress pasm_default : Bool) (format : operand_format)
    (mark : Option Bool) (parsed : Option expressionS) (operand insn : propeller_code) :
    propeller_code × propeller_code :=
  if format = PROPELLER_OPERAND_PTRS_OPS then
    ({ operand with error := some "Immediate operand not allowed here" }, insn)
  else
    let pasm_expr : Bool :=
      match mark with
      | some b => b
      | none => pasm_default
    let insn := { insn with code := insn.code ||| (1 <<< 22) }
    let integer_reloc : Bool :=
      pasm_expr || (format ≠ PROPELLER_OPERAND_JMP && format ≠ PROPELLER_OPERAND_JMPRET
        && format ≠ PROPELLER_OPERAND_MOVA)
    let pcrel_reloc : Option bfd_reloc_code_real_type :=
      if format = PROPELLER_OPERAND_BRS then
        some (if compress then BFD_RELOC_8_PCREL else BFD_RELOC_PROPELLER_PCREL10)
      else none
    match parsed with
    | none => ({ operand with error := some "Error in expression" }, insn)
    | some exp =>
      let operand := { operand with reloc := { operand.reloc with exp := exp, pc_rel := false } }
      if operand.error ≠ none then (operand, insn)
      else
        let r := parse_src_switch format pcrel_reloc integer_reloc operand insn
        let replaced := pasm_replace_expression r.1.reloc.exp
        if pasm_expr ∧ (r.1.reloc.type = BFD_RELOC_PROPELLER_SRC_IMM
            ∨ r.1.reloc.type = BFD_RELOC_PROPELLER_SRC) ∧ replaced.2 then
          ({ r.1 with reloc := { r.1.reloc with exp := replaced.1,
                                                type := BFD_RELOC_PROPELLER_SRC } }, r.2)
        else r

/-- The flag bits of `struct propeller_opcode.flags` that `md_assemble` tests
by name; include/opcode/propeller.h is not under src/, so their values are
parameters. -/
structure FlagConsts where
  FLAG_R : Nat
  FLAG_R_DEF : Nat

/-- `struct propeller_effect` (declared in include/opcode/propeller.h): the
members that `md_assemble` reads. -/
structure propeller_effect where
  name : String
  flag : Nat
  ormask : Nat
  andmask : Nat
  deriving DecidableEq, Repr

/-- The statement "set the r bit to its default state for this insn". -/
def set_r_default (F : FlagConsts) (op : propeller_opcode) (st : AsmLocals) : AsmLocals :=
  if op.flags &&& F.FLAG_R ≠ 0 then
    let bit := shlW 32 (if op.flags &&& F.FLAG_R_DEF ≠ 0 then 1 else 0) 23
    if st.xmov_flag then { st with insn2 := { st.insn2 with code := st.insn2.code ||| bit } }
    else { st with insn := { st.insn with code := st.insn.code ||| bit } }
  else st

/-- The loop "Find and process any effect flags": `effs` lists, in order, the
effects that `hash_find (eff_hash, ...)` finds on the rest of the line.  An
effect that the opcode does not allow ends `md_assemble` with a diagnostic. -/
def effect_loop (op : propeller_opcode) : List propeller_effect → AsmLocals →
    Except String AsmLocals
  | [], st => .ok st
  | eff :: rest, st =>
    if op.flags &&& eff.flag ≠ 0 then
      if st.xmov_flag then
        effect_loop op rest
          { st with insn2 := { st.insn2 with
              code := (st.insn2.code ||| eff.ormask) &&& eff.andmask } }
      else
        effect_loop op rest
          { st with insn := { st.insn with
              code := (st.insn.code ||| eff.ormask) &&& eff.andmask } }
    else .error ("Effect \x27" ++ eff.name ++ "\x27 not allowed with this instruction")

/-- The chain that selects `err` after the effect loop: the first stored
message of `op1`, `op2`, `insn2`, `op3`, `op4`, else "Too many operands" when
text is left on the line (`rest_blank = false`). -/
def first_error (st : AsmLocals) (rest_blank : Bool) : Option String :=
  match st.op1.error with
  | some e => some e
  | none =>
    match st.op2.error with
    | some e => some e
    | none =>
      match st.insn2.error with
      | some e => some e
      | none =>
        match st.op3.error with
        | some e => some e
        | none =>
          match st.op4.error with
          | some e => some e
          | none => if rest_blank then none else some "Too many operands"

/-- The part of `md_assemble` after the `switch (op->format)`: default R bit,
effect flags, the report of a stored diagnostic (`as_bad` and `return`), then
compression and emission.  `st` holds the locals as the switch left them and
`op` the opcode entry current at that point. -/
def md_assemble_after_switch (K : OpcodeConsts) (F : FlagConsts) (compress : Bool)
    (op : propeller_opcode) (st : AsmLocals) (effs : List propeller_effect)
    (rest_blank : Bool) : AsmResult :=
  match effect_loop op effs (set_r_default F op st) with
  | .error msg => .bad msg
  | .ok st =>
    match first_error st rest_blank with
    | some err => .bad err
    | none => md_assemble_tail K compress op st

/-- The case `PROPELLER_OPERAND_TWO_OPS` of the switch from the call of
`parse_src` on, for a source operand written `#expr`: `st` holds the locals
after `parse_dest` and the separator. -/
def two_ops_hash_source (compress pasm_default : Bool) (mark : Option Bool)
    (parsed : Option expressionS) (st : AsmLocals) : AsmLocals :=
  let r := parse_src_hash compress pasm_default PROPELLER_OPERAND_TWO_OPS mark parsed
    st.op2 st.insn
  { st with op2 := r.1, insn := r.2 }

/-- What the `switch (op->format)` of `md_assemble` decides about the layout
of the line.  `insn2_empty` records that the case leaves `insn2` with code 0
and relocation `BFD_RELOC_NONE` (it never stores into it, or clears it). -/
structure Layout where
  size : Nat
  insn_compressed : Bool
  insn2_compressed : Bool
  xmov_flag : Bool
  insn2_empty : Bool
  deriving DecidableEq, Repr

/-- How a case of the switch ends: `bad_case` is `BAD_CASE` or `as_fatal`;
`diagnostic` is an exit through a `break` or `return` that follows a stored or
reported message, after which `md_assemble` emits nothing; `layout` is the
end of the case. -/
inductive SwitchOutcome
  | bad_case
  | diagnostic
  | layout (l : Layout)
  deriving DecidableEq, Repr

/-- The size and flag assignments of the `switch (op->format)` of
`md_assemble`; the operand words and relocations are whatever the parsers
store.  `condmask` is the condition of the line.  The facts that come from
the text of the line are parameters: `early_exit` (the case is left through
one of its `break`s or `return`s after a message, such as a missing comma),
`leasp_reg_ok` (`!op1.error`, `op1.reloc.type == BFD_RELOC_NONE` and the
5-bit destination is at most 15), `mvi_clean` (none of `op1.error`,
`op2.error`, `insn2.error` is set), `copc_mviw` (`op->copc == PREFIX_MVIW`)
and `macro_known` (`op->copc` is one of the macro codes of the inner
switch).  Calls of `as_bad` that do not leave the case (the LMM-mode checks,
"conditional brl not allowed") change no local and are not represented. -/
def format_switch (compress : Bool) (format : operand_format) (condmask : Nat)
    (early_exit leasp_reg_ok mvi_clean copc_mviw macro_known : Bool) : SwitchOutcome :=
  let native (size : Nat) (insn2_empty : Bool) : SwitchOutcome :=
    .layout { size := size, insn_compressed := false, insn2_compressed := false,
              xmov_flag := false, insn2_empty := insn2_empty }
  let compact (size : Nat) (insn2_empty : Bool) : SwitchOutcome :=
    .layout { size := size, insn_compressed := true, insn2_compressed := false,
              xmov_flag := false, insn2_empty := insn2_empty }
  let data8 : SwitchOutcome :=
    .layout { size := 8, insn_compressed := false, insn2_compressed := true,
              xmov_flag := false, insn2_empty := false }
  match format with
  | PROPELLER_OPERAND_IGNORE => if compress then compact 1 true else native 4 true
  | PROPELLER_OPERAND_NO_OPS => native 4 true
  | PROPELLER_OPERAND_DEST_ONLY => native 4 true
  | PROPELLER_OPERAND_DESTIMM_SRCIMM => if early_exit then .diagnostic else native 4 true
  | PROPELLER_OPERAND_DESTIMM => native 4 true
  | PROPELLER_OPERAND_SETINDA => native 4 true
  | PROPELLER_OPERAND_SETINDB => native 4 true
  | PROPELLER_OPERAND_SETINDS => if early_exit then .diagnostic else native 4 true
  | PROPELLER_OPERAND_TWO_OPS => if early_exit then .diagnostic else native 4 true
  | PROPELLER_OPERAND_JMPRET => if early_exit then .diagnostic else native 4 true
  | PROPELLER_OPERAND_MOVA => if early_exit then .diagnostic else native 4 true
  | PROPELLER_OPERAND_PTRS_OPS => if early_exit then .diagnostic else native 4 true
  | PROPELLER_OPERAND_PTRD_OPS => native 4 true
  | PROPELLER_OPERAND_LDI => if early_exit then .diagnostic else native 8 true
  | PROPELLER_OPERAND_BRS =>
    if early_exit then .diagnostic
    else if compress then compact 2 true else native 4 true
  | PROPELLER_OPERAND_BRW => if compress then compact 3 true else data8
  | PROPELLER_OPERAND_BRL => if compress then compact 5 false else data8
  | PROPELLER_OPERAND_XMMIO => if early_exit then .diagnostic else native 8 false
  | PROPELLER_OPERAND_FCACHE => if compress then compact 3 true else data8
  | PROPELLER_OPERAND_MACRO_8 =>
    if compress then compact 2 true
    else if macro_known then native 8 false else .bad_case
  | PROPELLER_OPERAND_LRET => if compress then compact 1 true else native 4 true
  | PROPELLER_OPERAND_MACRO_0 =>
    if compress then compact 1 true
    else if macro_known then native 4 true else .bad_case
  | PROPELLER_OPERAND_LEASP =>
    if early_exit then .diagnostic
    else if compress ∧ leasp_reg_ok then
      if condmask ≠ 0xf then compact 3 true else compact 2 true
    else native 8 false
  | PROPELLER_OPERAND_XMOV =>
    if early_exit then .diagnostic
    else .layout { size := 8, insn_compressed := false, insn2_compressed := false,
                   xmov_flag := true, insn2_empty := false }
  | PROPELLER_OPERAND_LCALL => if compress then compact 3 true else native 8 false
  | PROPELLER_OPERAND_MVI =>
    if early_exit then .diagnostic
    else if compress ∧ mvi_clean then
      if copc_mviw then compact 3 true else compact 5 false
    else native 8 false
  | PROPELLER_OPERAND_SOURCE_ONLY => native 4 true
  | PROPELLER_OPERAND_JMP => native 4 true
  | PROPELLER_OPERAND_CALL => if early_exit then .diagnostic else native 4 true
  | PROPELLER_OPERAND_REPD => native 4 true
  | PROPELLER_OPERAND_REPS => native 4 true
  | PROPELLER_OPERAND_JMPTASK => native 4 true
  | PROPELLER_OPERAND_BIT => native 4 true
  | other => .bad_case

/-- The locals `st` agree with the layout `l` that the switch decided. -/
def has_layout (st : AsmLocals) (l : Layout) : Prop :=
  st.size = l.size ∧ st.insn_compressed = l.insn_compressed
    ∧ st.insn2_compressed = l.insn2_compressed ∧ st.xmov_flag = l.xmov_flag
    ∧ (l.insn2_empty = true → st.insn2.code = 0 ∧ st.insn2.reloc.type = BFD_RELOC_NONE)

/-! ## Sample data used to instantiate the theorems -/

/-- A sample assignment of the header constants: one-byte tags with a zero low
nibble, small macro and operation codes.  The values are illustrative;
no theorem about the encoder depends on them. -/
def sample_consts : OpcodeConsts :=
  { PREFIX_PACK_NATIVE := 0xB0, PREFIX_REGREG := 0x10, PREFIX_REGIMM4 := 0x20,
    PREFIX_REGIMM12 := 0x30, PREFIX_XMOVREG := 0x40, PREFIX_XMOVIMM := 0x50,
    PREFIX_ZEROREG := 0x60, PREFIX_MVIB := 0x70, PREFIX_MVIW := 0x80,
    PREFIX_SKIP2 := 0x90, PREFIX_SKIP3 := 0xA0,
    MACRO_NATIVE := 0x01, MACRO_ADDSP := 0x02, MACRO_MVREG := 0x03, MACRO_XMVREG := 0x04,
    XOP_ADD := 0, XOP_SUB := 1, XOP_CMPU := 2, XOP_CMPS := 3, XOP_WRB := 4, XOP_WRL := 5,
    COMPRESS_XOP := 1, COMPRESS_MOV := 2 }

/-- An operand slot without error, value or relocation. -/
def empty_code : propeller_code :=
  { error := none, code := 0,
    reloc := { type := BFD_RELOC_NONE,
               exp := { X_op := operatorT.O_constant, X_add_number := 0, X_add_symbol := none },
               pc_rel := false } }

/-- The locals after parsing a line that produced the single native word
`code` under the condition `condmask`, with resolved operands. -/
def single_word (code condmask : Nat) : AsmLocals :=
  { insn := { empty_code with code := code }, insn2 := empty_code,
    op1 := empty_code, op2 := empty_code, op3 := empty_code, op4 := empty_code,
    size := 4, condmask := condmask, insn_compressed := false, insn2_compressed := false,
    reloc_prefix := 0, xmov_flag := false }

/-- A sample table row of the given compressibility class and compact
operation code. -/
def sample_op (compress_type copc : Nat) : propeller_opcode :=
  { name := "op", opcode := 0x80000000, format := 0, flags := 0, hardware := 0,
    compress_type := compress_type, copc := copc }

/-- A sample `BFD_RELOC_16_PCREL` fixup of size 2 at offset 1 of a frag placed
at address 0x100, with `fx_offset` 10. -/
def sample_pcrel_fix : fixS :=
  { fx_addsy := some 0, fx_subsy := none, fx_pcrel := true, fx_done := false,
    fx_size := 2, fx_where := 1, fx_offset := 10, fx_addnumber := 0,
    fx_r_type := BFD_RELOC_16_PCREL, fr_address := 0x100 }

/-- The locals for `add sp, #8` (destination field 16, immediate 8, default
effects, condition 0xF). -/
def add_sp_8 : AsmLocals := single_word 0x80FC2008 0xf

/-- The locals for `add r3, __MASK_FFFFFFFF` (destination 3, source register
19, default effects, condition 0xF). -/
def add_r3_mask : AsmLocals := single_word 0x80BC0613 0xf

/-- The locals for `add r3, sp` (destination 3, source register 16, default
effects, condition 0xF). -/
def add_r3_sp : AsmLocals := single_word 0x80BC0610 0xf

/-- The locals for `mov r1, #5` (destination 1, immediate 5, default effects)
under the condition `condmask`. -/
def mov_r1_5 (condmask : Nat) : AsmLocals :=
  single_word (0xA0C00205 ||| (condmask <<< 18)) condmask

/-- The locals after the case `PROPELLER_OPERAND_XMOV` for a line whose first
move is the word `code` and whose second instruction is the word `code2`
(condition 0xF, register operands, so no relocation is pending). -/
def xmov_line (code code2 : Nat) : AsmLocals :=
  { insn := { empty_code with code := code }, insn2 := { empty_code with code := code2 },
    op1 := empty_code, op2 := empty_code, op3 := empty_code, op4 := empty_code,
    size := 8, condmask := 0xf, insn_compressed := false, insn2_compressed := false,
    reloc_prefix := 0, xmov_flag := true }

/-- The locals for `xmov r1,r2 mov r3,r4`. -/
def xmov_mov_mov : AsmLocals := xmov_line 0xA0BC0202 0xA0BC0604

/-- The expression that `expression ()` stores for the integer constant `c`. -/
def constant_exp (c : Int) : expressionS :=
  { X_op := operatorT.O_constant, X_add_number := c, X_add_symbol := none }

/-- A sample assignment of the flag bits of `struct propeller_opcode.flags`. -/
def sample_flags : FlagConsts := { FLAG_R := 0x10, FLAG_R_DEF := 0x20 }

/-- The locals for `add r3, ...` after `parse_dest` and the separator: the
`add` opcode with condition 0xF, destination 3, source field still empty. -/
def add_r3_pending : AsmLocals := single_word 0x80BC0600 0xf

/-- An operand slot holding a pending relocation of kind `r_type` against the
symbol `name`. -/
def symbol_operand (r_type : bfd_reloc_code_real_type) (name : String) : propeller_code :=
  { error := none, code := 0,
    reloc := { type := r_type,
               exp := { X_op := operatorT.O_symbol, X_add_number := 0,
                        X_add_symbol := some name },
               pc_rel := false } }

/-- The locals after the case `PROPELLER_OPERAND_XMOV` for the line
`xmov r0,r1 add r2,#foo`: the first move is `mov r0,r1`, the second
instruction is `add r2,#...` with an empty source field, and `op4` holds the
pending `BFD_RELOC_PROPELLER_SRC_IMM` relocation against `foo` that
`parse_src` stored. -/
def xmov_add_symbol : AsmLocals :=
  { insn := { empty_code with code := 0xA0BC0001 },
    insn2 := { empty_code with code := 0x80FC0400 },
    op1 := empty_code, op2 := empty_code, op3 := empty_code,
    op4 := symbol_operand BFD_RELOC_PROPELLER_SRC_IMM "foo",
    size := 8, condmask := 0xf, insn_compressed := false, insn2_compressed := false,
    reloc_prefix := 0, xmov_flag := true }

/-- The locals after the case `PROPELLER_OPERAND_XMMIO` for the line
`xmmio rdbyte,r0,r2`: `mov __TMP0,#(0<<4)+2` with a pending destination
relocation against `__TMP0`, followed by the `jmpret` word 0x5C800000 with
the condition 1111 and the immediate bit that `parse_src` sets for
`#__LMM_RDBYTEI`; its destination and source are pending relocations against
`__LMM_RDBYTEI_ret` and `__LMM_RDBYTEI`. -/
def xmmio_line : AsmLocals :=
  { insn := { empty_code with code := 0xA0FC0002 },
    insn2 := { empty_code with code := 0x5CFC0000 },
    op1 := symbol_operand BFD_RELOC_PROPELLER_DST "__TMP0",
    op2 := empty_code,
    op3 := symbol_operand BFD_RELOC_PROPELLER_DST "__LMM_RDBYTEI_ret",
    op4 := symbol_operand BFD_RELOC_PROPELLER_SRC "__LMM_RDBYTEI",
    size := 8, condmask := 0xf, insn_compressed := false, insn2_compressed := false,
    reloc_prefix := 0, xmov_flag := false }

/-- The layout that the switch decides for `PROPELLER_OPERAND_XMMIO`. -/
def xmmio_layout : Layout :=
  { size := 8, insn_compressed := false, insn2_compressed := false, xmov_flag := false,
    insn2_empty := false }

/-- The layout that the switch decides for a two-operand line. -/
def two_ops_layout : Layout :=
  { size := 4, insn_compressed := false, insn2_compressed := false, xmov_flag := false,
    insn2_empty := true }

/-- The line emitted for `mov r1, #5` with compression on under the sample
constants. -/
def mov_r1_5_emitted : Emitted :=
  { reserved := 2, bytes := [0x71, 0x05], fixes := [], compress_flag := true }

/-! ## Mnemonic lookup, condition codes and register operands -/

/-- The hardware bits of `struct propeller_opcode.hardware`
(include/opcode/propeller.h is not under src/, so their values are
parameters). -/
structure HardwareConsts where
  PROP_1 : Nat
  PROP_2 : Nat
  PROP_1_LMM : Nat
  PROP_2_LMM : Nat

/-- The flag `add` that the loop of `md_begin` computes for a table row with
the given `hardware` member. -/
def md_begin_adds (H : HardwareConsts) (prop2 lmm : Bool) (hardware : Nat) : Bool :=
  if prop2 then
    (hardware &&& H.PROP_2 ≠ 0) || (hardware &&& H.PROP_2_LMM ≠ 0 && lmm)
  else
    (hardware &&& H.PROP_1 ≠ 0) || (hardware &&& H.PROP_1_LMM ≠ 0 && lmm)

/-- The contents of `insn_hash` after `md_begin`: the rows of the opcode table
for which `add` is set, in table order. -/
def insn_hash (H : HardwareConsts) (prop2 lmm : Bool) (table : List propeller_opcode) :
    List propeller_opcode :=
  table.filter (fun row => md_begin_adds H prop2 lmm row.hardware)

/-- `hash_find (insn_hash, str)`: the first row inserted under the name `str`
(`hash_insert` does not replace an existing key). -/
def hash_find_insn (hash : List propeller_opcode) (str : String) : Option propeller_opcode :=
  hash.find? (fun row => decide (row.name = str))

/-- The constants that `md_assemble` and `parse_indx` use for the condition
field.  `CC_ALWAYS` and `CC_MASK` are defined in tc-propeller.c (lines 32 and
35), both as `0xf << 18`; the flag bit `FLAG_CC` comes from
include/opcode/propeller.h, which is not under src/.  The theorems that need
the value of `CC_ALWAYS` or `CC_MASK` assume `0xf << 18`. -/
structure CondConsts where
  CC_ALWAYS : Nat
  CC_MASK : Nat
  FLAG_CC : Nat

/-- `struct propeller_condition` (declared in include/opcode/propeller.h). -/
structure propeller_condition where
  name : String
  value : Nat
  deriving DecidableEq, Repr

/-- The part of `md_assemble` from the use of the condition found (`cond`, or
`none` when the first word is not a condition) to `size = 4`, for the opcode
row `op` that `hash_find` returned.  The operand slots start without error
and without relocation; their other members are not initialised by the C
code and are taken from `empty_code`. -/
def md_assemble_head (C : CondConsts) (cond : Option propeller_condition)
    (op : propeller_opcode) : Except String AsmLocals :=
  let code : Nat :=
    match cond with
    | some c => c.value
    | none => C.CC_ALWAYS
  let condmask := 0xf &&& (code >>> 18)
  if op.flags &&& C.FLAG_CC = 0 ∧ cond.isSome then
    .error "Condition code not allowed with this instruction"
  else
    let code := if op.flags &&& C.FLAG_CC = 0 then 0 else code
    .ok { insn := { empty_code with code := code ||| op.opcode },
          insn2 := empty_code, op1 := empty_code, op2 := empty_code,
          op3 := empty_code, op4 := empty_code,
          size := 4, condmask := condmask, insn_compressed := false,
          insn2_compressed := false, reloc_prefix := 0, xmov_flag := false }

/-- `md_assemble` on a line whose mnemonic is `str`, with the work of the
`switch (op->format)` on the operand text given by `format_case`: it yields
the opcode row and the locals at the end of the switch, or the message of an
`as_bad` followed by `return` inside the switch. -/
def md_assemble (K : OpcodeConsts) (F : FlagConsts) (C : CondConsts) (H : HardwareConsts)
    (compress prop2 lmm : Bool) (table : List propeller_opcode)
    (cond : Option propeller_condition) (str : String)
    (format_case : propeller_opcode → AsmLocals → Except String (propeller_opcode × AsmLocals))
    (effs : List propeller_effect) (rest_blank : Bool) : AsmResult :=
  match hash_find_insn (insn_hash H prop2 lmm table) str with
  | none => .bad ("Unknown instruction \x27" ++ str ++ "\x27")
  | some op =>
    match md_assemble_head C cond op with
    | .error msg => .bad msg
    | .ok st =>
      match format_case op st with
      | .error msg => .bad msg
      | .ok (op, st) => md_assemble_after_switch K F compress op st effs rest_blank

/-- The case `PROPELLER_OPERAND_IGNORE` of the switch. -/
def case_ignore (compress : Bool) (op : propeller_opcode) (st : AsmLocals) :
    Except String (propeller_opcode × AsmLocals) :=
  let st := { st with insn := { st.insn with code := 0 } }
  if compress then .ok (op, { st with size := 1, insn_compressed := true })
  else .ok (op, st)

/-- The message of the `as_bad` calls of the switch that test `lmm` and do not
leave the case, for the branch that the mode selects (`mvi_native` says that
the `else` branch of the MVI case is taken). -/
def switch_lmm_diagnostic (compress lmm : Bool) (format : operand_format)
    (mvi_native : Bool) : Option String :=
  if lmm then none
  else
    match format with
    | PROPELLER_OPERAND_LDI => some "instruction only supported in LMM mode"
    | PROPELLER_OPERAND_BRW =>
      if compress then none else some "instruction only supported in LMM mode"
    | PROPELLER_OPERAND_BRL =>
      if compress then none else some "instruction only supported in LMM mode"
    | PROPELLER_OPERAND_FCACHE =>
      if compress then none else some "fcache only supported in LMM mode"
    | PROPELLER_OPERAND_MACRO_8 =>
      if compress then none else some "pushm/popm only supported in LMM mode"
    | PROPELLER_OPERAND_LCALL =>
      if compress then none else some "lcall only supported in LMM mode"
    | PROPELLER_OPERAND_MVI =>
      if mvi_native then some "lmvi only supported in LMM mode" else none
    | _ => none

/-- `skip_whitespace`: blanks and tabs are skipped. -/
def skip_whitespace : List Char → List Char
  | [] => []
  | c :: cs => if c = Char.ofNat 32 ∨ c = Char.ofNat 9 then skip_whitespace cs else c :: cs

/-- `matchregname (str, match)`: the text after the name when `str` starts
with it and the next character is not a digit, a letter or an underscore;
`none` is `NULL`. -/
def matchregname (str name : List Char) : Option (List Char) :=
  if name.isPrefixOf str then
    match str.drop name.length with
    | [] => some []
    | c :: cs => if c.isDigit ∨ c.isAlpha ∨ c = '_' then none else some (c :: cs)
  else none

/-- The table `lmm_regs`. -/
def lmm_regs : List (String × Nat) :=
  [("lr", 15), ("LR", 15), ("sp", SP_REGNUM), ("pc", PC_REGNUM), ("ccr", CC_REGNUM),
   ("__MASK_FFFFFFFF", FFFFFFFF_REGNUM)]

/-- The first row of a register table whose name `matchregname` accepts, with
the text after the name. -/
def find_regname (str : List Char) : List (String × Nat) → Option (List Char × Nat)
  | [] => none
  | (name, regno) :: rows =>
    match matchregname str (String.toList name) with
    | some newstr => some (newstr, regno)
    | none => find_regname str rows

/-- The loop `while (ISDIGIT (*str)) reg = 10*reg + (*str - 48)` of
`parse_regspec`; `reg` is the 32-bit pattern of the `int`.  Yields the text
after the digits and the final pattern. -/
def regspec_digits : List Char → Nat → List Char × Nat
  | [], reg => ([], reg)
  | c :: cs, reg =>
    if c.isDigit then regspec_digits cs ((10 * reg + (c.toNat - 48)) % 2 ^ 32)
    else (c :: cs, reg)

/-- What a call of `parse_regspec` leaves: the pointer returned (`none` is
`NULL`), the value stored into `*regnum` if one is stored, and the message
stored into `operand->error` if one is stored. -/
structure regspec_result where
  rest : Option (List Char)
  regnum : Option Nat
  error : Option String
  deriving DecidableEq, Repr

/-- `parse_regspec (str, regnum, operand, give_error)`. -/
def parse_regspec (compress give_error : Bool) (str : List Char) : regspec_result :=
  let str := skip_whitespace str
  match find_regname str lmm_regs with
  | some (newstr, reg) =>
    if compress = false ∧ reg > PC_REGNUM then
      { rest := none, regnum := none,
        error := if give_error then some "bad register" else none }
    else { rest := some newstr, regnum := some reg, error := none }
  | none =>
    let expected : regspec_result :=
      { rest := some str, regnum := none,
        error := if give_error then some "expected register number" else none }
    match str with
    | [] => expected
    | c :: cs =>
      let next_is_digit : Bool :=
        match cs with
        | [] => false
        | d :: _ => d.isDigit
      if (c ≠ 'r' ∧ c ≠ 'R') ∨ next_is_digit = false then expected
      else
        let r := regspec_digits cs 0
        if toSigned 32 r.2 > 15 ∨ toSigned 32 r.2 < 0 then
          { rest := some r.1, regnum := none,
            error := if give_error then some "illegal register number" else none }
        else { rest := some r.1, regnum := some r.2, error := none }

/-- `parse_src_or_dest (str, operand, insn, type, delta)`.  `W` is the width of
`offsetT`; `parsed` is the expression that `parse_expression` stores when the
call is reached, or `none` when `expression ()` fails.  Yields the operand and
the instruction after the call. -/
def parse_src_or_dest (W : Nat) (compress : Bool) (str : List Char)
    (parsed : Option expressionS) (type : bfd_reloc_code_real_type) (delta : Int)
    (operand insn : propeller_code) : propeller_code × propeller_code :=
  let isdest : Bool :=
    type = BFD_RELOC_PROPELLER_DST || type = BFD_RELOC_PROPELLER_DST_IMM
  let shift : Nat := if isdest then 9 else 0
  let reg : Option Nat :=
    if compress then (parse_regspec compress false (skip_whitespace str)).regnum else none
  match reg with
  | some regnum =>
    ({ operand with
        reloc := { type := BFD_RELOC_NONE, pc_rel := false,
                   exp := { operand.reloc.exp with X_op := operatorT.O_register,
                                                   X_add_number := regnum } } },
     { insn with code := insn.code ||| shlW 32 regnum shift })
  | none =>
    match parsed with
    | none => ({ operand with error := some "Error in expression" }, insn)
    | some exp =>
      let operand := { operand with reloc := { operand.reloc with exp := exp, pc_rel := false } }
      if operand.error ≠ none then (operand, insn)
      else
        let range_checked (operand : propeller_code) : propeller_code × propeller_code :=
          if toValueT W operand.reloc.exp.X_add_number &&& bitnot W 0x1ff ≠ 0 then
            ({ operand with error := some "9-bit destination out of range" }, insn)
          else
            (operand,
             { insn with
                code := insn.code
                  ||| shlW 32 (toValueT W operand.reloc.exp.X_add_number) shift })
        let symbolic : propeller_code × propeller_code :=
          ({ operand with reloc := { operand.reloc with type := type, pc_rel := false } }, insn)
        match exp.X_op with
        | .O_constant =>
          range_checked
            { operand with reloc := { operand.reloc with
                exp := { operand.reloc.exp with
                  X_add_number := operand.reloc.exp.X_add_number + delta } } }
        | .O_register => range_checked operand
        | .O_symbol => symbolic
        | .O_add => symbolic
        | .O_subtract => symbolic
        | .O_illegal =>
          ({ operand with
              error := some (if isdest then "Illegal operand in destination"
                             else "Illegal operand in source") }, insn)
        | .O_other => symbolic

/-- `parse_dest (str, operand, insn)`.  `indx` is the outcome of `parse_indx`
when `prop2` is set and it does not return `NULL`, otherwise `none`. -/
def parse_dest (W : Nat) (compress pasm_default : Bool)
    (indx : Option (propeller_code × propeller_code)) (str : List Char)
    (parsed : Option expressionS) (operand insn : propeller_code) :
    propeller_code × propeller_code :=
  match indx with
  | some r => r
  | none =>
    let r := parse_src_or_dest W compress str parsed BFD_RELOC_PROPELLER_DST 0 operand insn
    if pasm_default then
      ({ r.1 with reloc := { r.1.reloc with exp := (pasm_replace_expression r.1.reloc.exp).1 } },
       r.2)
    else r

/-- The case `PROPELLER_OPERAND_TWO_OPS` of the switch for a line
`op dest, #expr` on which `parse_indx` does not apply and the comma is
present: `parse_dest`, then `parse_src` on the `#` operand. -/
def case_two_ops_hash (W : Nat) (compress pasm_default : Bool) (dest : List Char)
    (dest_parsed : Option expressionS) (mark : Option Bool) (src_parsed : Option expressionS)
    (op : propeller_opcode) (st : AsmLocals) : Except String (propeller_opcode × AsmLocals) :=
  let r := parse_dest W compress pasm_default none dest dest_parsed st.op1 st.insn
  .ok (op, two_ops_hash_source compress pasm_default mark src_parsed
    { st with op1 := r.1, insn := r.2 })

/-- The update operator written before or after a pointer name. -/
inductive update_op
  | no_update
  | increment
  | decrement
  deriving DecidableEq, Repr

/-- The name that `parse_ptr` finds with `matchregname`; `other_name` is
anything else. -/
inductive pointer_name
  | ptra
  | ptrb
  | inda
  | indb
  | other_name
  deriving DecidableEq, Repr

/-- `parse_ptr (str, operand, insn, format)`.  The text of the operand enters
through `prefix_op` and `suffix_op` (the `++` or `--` found before and after
the name), `name`, and `index`: `none` when no `[` follows, otherwise the
expression that `parse_expression` stores (`none` when `expression ()` fails)
and whether `]` follows it.  `ndx` is an `int`, hence a 32-bit pattern. -/
def parse_ptr (prefix_op suffix_op : update_op) (name : pointer_name)
    (index : Option (Option expressionS × Bool)) (format : operand_format)
    (operand insn : propeller_code) : propeller_code × propeller_code :=
  let ndx : Nat :=
    match prefix_op with
    | .increment => 1
    | .decrement => toValueT 32 (-1)
    | .no_update => 0
  if name = .other_name then
    ({ operand with
        error := some "Can only use ++ or -- with ptra, ptrb, inda, or indb" }, insn)
  else
    let field : Nat := if name = .ptrb then 0x100 else 0
    let regnum : Nat := if name = .inda then 0x1f6 else if name = .indb then 0x1f7 else 0
    let isindx : Bool := name = .inda || name = .indb
    let ndx : Nat :=
      match suffix_op with
      | .increment => 1
      | .decrement => toValueT 32 (-1)
      | .no_update => ndx
    if prefix_op ≠ .no_update ∧ suffix_op ≠ .no_update then
      ({ operand with error := some "Can\x27t use both prefix and postfix update" }, insn)
    else if isindx then
      if prefix_op ≠ .no_update ∧ ndx = toValueT 32 (-1) then
        ({ operand with error := some "Can\x27t use prefix -- with inda or indb" }, insn)
      else
        let code :=
          if prefix_op ≠ .no_update then insn.code ||| shlW 32 3 18
          else if suffix_op ≠ .no_update then
            insn.code ||| shlW 32 (if ndx = 1 then 1 else 2) 18
          else insn.code
        ({ operand with
            reloc := { type := BFD_RELOC_NONE, pc_rel := false,
                       exp := { operand.reloc.exp with X_op := operatorT.O_register,
                                                       X_add_number := regnum } } },
         { insn with code := code ||| regnum })
    else
      let field : Nat :=
        if prefix_op ≠ .no_update then field ||| 0x080
        else if suffix_op ≠ .no_update then field ||| 0x0c0
        else field
      -- the optional index: the operand after it and `ndx`, or the operand with a message
      let indexed : Except propeller_code (propeller_code × Nat) :=
        match index with
        | none => .ok (operand, ndx)
        | some (parsed, bracket) =>
          match parsed with
          | none => .error { operand with error := some "Error in expression" }
          | some exp =>
            let operand :=
              { operand with reloc := { operand.reloc with exp := exp, pc_rel := false } }
            if operand.error ≠ none then .error operand
            else if exp.X_op = operatorT.O_constant then
              let ndx : Nat :=
                if toSigned 32 ndx < 0 then negW 32 (toValueT 32 exp.X_add_number)
                else toValueT 32 exp.X_add_number
              if bracket then .ok (operand, ndx)
              else .error { operand with error := some "Missing right bracket" }
            else .error { operand with error := some "Index must be a constant expression" }
      match indexed with
      | .error operand => (operand, insn)
      | .ok (operand, ndx) =>
        if toSigned 32 ndx < -32 ∨ toSigned 32 ndx > 31 then
          ({ operand with error := some "6-bit value out of range" }, insn)
        else
          let field := field ||| (ndx &&& 0x3f)
          match format with
          | PROPELLER_OPERAND_PTRS_OPS =>
            (operand, { insn with code := insn.code ||| (0x00400000 ||| field) })
          | PROPELLER_OPERAND_PTRD_OPS =>
            (operand, { insn with code := insn.code ||| (0x00c00000 ||| shlW 32 field 9) })
          | _ => ({ operand with error := some "Internal error" }, insn)

/-- Specification of the effect flags: the word obtained from `w` when each
effect of `effs`, in order, ORs its `ormask` into the word and then ANDs its
`andmask`. -/
def spec_effects_word (w : Nat) (effs : List propeller_effect) : Nat :=
  effs.foldl (fun w eff => (w ||| eff.ormask) &&& eff.andmask) w

/-- The effect `wc` with sample values: flag bit 0x02, OR mask bit 24. -/
def sample_wc : propeller_effect :=
  { name := "wc", flag := 0x02, ormask := 0x01000000, andmask := 0xFFFFFFFF }

/-- The effect `nr` with sample values: flag bit 0x04, AND mask clearing
bit 23. -/
def sample_nr : propeller_effect :=
  { name := "nr", flag := 0x04, ormask := 0, andmask := 0xFF7FFFFF }

/-- A sample table row of the given compressibility class whose `flags` allow
the effects `wc` and `nr` of the sample effects. -/
def sample_op_effects (compress_type copc : Nat) : propeller_opcode :=
  { name := "op", opcode := 0x80000000, format := 0, flags := 0x06, hardware := 0,
    compress_type := compress_type, copc := copc }

/-- The locals for a two-operand line whose comma is missing: `parse_dest` has
stored register 3, the case has stored the message into `op2.error`. -/
def missing_comma_line : AsmLocals :=
  { insn := { empty_code with code := 0x80BC0600 }, insn2 := empty_code,
    op1 := empty_code, op2 := { empty_code with error := some "Missing \x27,\x27" },
    op3 := empty_code, op4 := empty_code,
    size := 4, condmask := 0xf, insn_compressed := false, insn2_compressed := false,
    reloc_prefix := 0, xmov_flag := false }

/-- The effect `wz` with sample values: flag bit 0x01, OR mask bit 25. -/
def sample_wz : propeller_effect :=
  { name := "wz", flag := 0x01, ormask := 0x02000000, andmask := 0xFFFFFFFF }

/-- The value of the local `reloc_prefix` at the end of a case of
`switch (op->format)`, under the same parameters as `format_switch`.  The
local starts at 0; the compact branches of the cases BRS, BRW, FCACHE,
MACRO_8, LEASP, LCALL and of MVI with `PREFIX_MVIW` set it to 1 (LEASP with a
condition increments it once more), and the compact branch of BRL stores 0
("relocation is in insn2"). -/
def switch_reloc_prefix (compress : Bool) (format : operand_format) (condmask : Nat)
    (early_exit leasp_reg_ok mvi_clean copc_mviw : Bool) : Nat :=
  match format with
  | PROPELLER_OPERAND_BRS => if early_exit then 0 else if compress then 1 else 0
  | PROPELLER_OPERAND_BRW => if compress then 1 else 0
  | PROPELLER_OPERAND_BRL => 0
  | PROPELLER_OPERAND_FCACHE => if compress then 1 else 0
  | PROPELLER_OPERAND_MACRO_8 => if compress then 1 else 0
  | PROPELLER_OPERAND_LEASP =>
    if early_exit then 0
    else if compress ∧ leasp_reg_ok then
      if condmask ≠ 0xf then 2 else 1
    else 0
  | PROPELLER_OPERAND_LCALL => if compress then 1 else 0
  | PROPELLER_OPERAND_MVI =>
    if early_exit then 0
    else if compress ∧ mvi_clean then
      if copc_mviw then 1 else 0
    else 0
  | _ => 0

/-- The bytes that `emit` stores before the secondary word when the long
compact branch is not taken: the optional native tag, the primary word, and
the optional native tag of the secondary word. -/
def secondary_head (K : OpcodeConsts) (compress : Bool) (st : AsmLocals) : List Nat :=
  (if compress ∧ st.insn_compressed = false then number_bytes K.MACRO_NATIVE 1 else [])
    ++ number_bytes st.insn.code (if compress ∧ st.insn_compressed = true then st.size else 4)
    ++ (if compress ∧ st.insn2_compressed = false then number_bytes K.MACRO_NATIVE 1 else [])

/-- The fixups that `emit` records for the primary word when the long compact
branch is not taken. -/
def primary_fixes (compress : Bool) (st : AsmLocals) : List fix_new_exp_args :=
  let fx_where := (if compress ∧ st.insn_compressed = false then 1 else 0) + st.reloc_prefix
  let fx_size :=
    subW 32 (if compress ∧ st.insn_compressed = true then st.size else 4) st.reloc_prefix
  fix_for st.insn fx_where fx_size ++ fix_for st.op1 fx_where fx_size
    ++ fix_for st.op2 fx_where fx_size

/-- The locals after the case `PROPELLER_OPERAND_BRL` with compression on for a
long branch to the symbol `far`: one tag byte in `insn`, the 32-bit target as
a pending `BFD_RELOC_32` in `insn2`, size 5. -/
def brl_long_line : AsmLocals :=
  { insn := { empty_code with code := 0x0F },
    insn2 := symbol_operand BFD_RELOC_32 "far",
    op1 := empty_code, op2 := empty_code, op3 := empty_code, op4 := empty_code,
    size := 5, condmask := 0xf, insn_compressed := true, insn2_compressed := false,
    reloc_prefix := 0, xmov_flag := false }

/-- The layout that the switch decides for `PROPELLER_OPERAND_BRL` with
compression on. -/
def brl_long_layout : Layout :=
  { size := 5, insn_compressed := true, insn2_compressed := false, xmov_flag := false,
    insn2_empty := false }

/-- The line emitted for `xmmio_line` with compression on under the sample
constants: two native tags, two words, and the three fixups. -/
def xmmio_emitted_compact : Emitted :=
  { reserved := 10, bytes := [1, 2, 0, 252, 160, 1, 0, 0, 252, 92],
    fixes := [{ fx_where := 1, fx_size := 4,
                exp := { X_op := operatorT.O_symbol, X_add_number := 0,
                         X_add_symbol := some "__TMP0" },
                pcrel := false, r_type := BFD_RELOC_PROPELLER_DST },
              { fx_where := 6, fx_size := 4,
                exp := { X_op := operatorT.O_symbol, X_add_number := 0,
                         X_add_symbol := some "__LMM_RDBYTEI_ret" },
                pcrel := false, r_type := BFD_RELOC_PROPELLER_DST },
              { fx_where := 6, fx_size := 4,
                exp := { X_op := operatorT.O_symbol, X_add_number := 0,
                         X_add_symbol := some "__LMM_RDBYTEI" },
                pcrel := false, r_type := BFD_RELOC_PROPELLER_SRC }],
    compress_flag := false }

/-- The line emitted for `brl_long_line` with compression on: the tag byte,
the 32-bit word, and its fixup. -/
def brl_long_emitted : Emitted :=
  { reserved := 5, bytes := [15, 0, 0, 0, 0],
    fixes := [{ fx_where := 1, fx_size := 4,
                exp := { X_op := operatorT.O_symbol, X_add_number := 0,
                         X_add_symbol := some "far" },
                pcrel := false, r_type := BFD_RELOC_32 }],
    compress_flag := true }

/-- The condition constants with the values of tc-propeller.c for `CC_ALWAYS`
and `CC_MASK` (`0xf << 18`) and a sample value for `FLAG_CC`. -/
def sample_cond : CondConsts := { CC_ALWAYS := 0x3C0000, CC_MASK := 0x3C0000, FLAG_CC := 0x08 }

/-- A sample assignment of the hardware bits. -/
def sample_hw : HardwareConsts := { PROP_1 := 1, PROP_2 := 2, PROP_1_LMM := 4, PROP_2_LMM := 8 }

/-- A sample table row for `mov`: opcode bits 26..31 are 101000, a condition
and the three effects are allowed, the result is written by default. -/
def mov_row : propeller_opcode :=
  { name := "mov", opcode := 0xA0000000, format := 0, flags := 0x3F, hardware := 1,
    compress_type := 2, copc := 0 }

/-- The condition `if_z` with the sample value 0b1010 in bits 18..21. -/
def sample_if_z : propeller_condition := { name := "if_z", value := 0x280000 }

/-- Specification of "decimal digits with value n": the number that the digit
characters `ds` denote in base ten, continuing from `acc`. -/
def spec_decimal_value (acc : Nat) (ds : List Char) : Nat :=
  ds.foldl (fun acc c => 10 * acc + (c.toNat - 48)) acc

/-- The expression that `expression ()` stores for a name that is a symbol
without an absolute value. -/
def symbol_exp (name : String) : expressionS :=
  { X_op := operatorT.O_symbol, X_add_number := 0, X_add_symbol := some name }

/-- The instruction slot after the head of `md_assemble` for `mov` without a
condition: the sample `mov` opcode with `CC_ALWAYS`. -/
def mov_head_insn : propeller_code := { empty_code with code := 0xA03C0000 }

/-- The line emitted for `mov r1, #5` with compression off under the sample
constants when `r1` is read as a symbol: the word 0xA0FC0005 with an empty
destination field, and the fixup of the destination. -/
def mov_r1_5_native : Emitted :=
  { reserved := 4, bytes := [5, 0, 252, 160],
    fixes := [{ fx_where := 0, fx_size := 4, exp := symbol_exp "r1", pcrel := false,
                r_type := BFD_RELOC_PROPELLER_DST }],
    compress_flag := false }

/-- Specification of the index of a pointer operand: `k` (no update or an
increment) or `-k` (a decrement) when the bracketed constant `k` is written,
otherwise +1 or -1 for an update and 0 for none.  The update is the postfix
one when it is written, else the prefix one. -/
def spec_ptr_ndx (prefix_op suffix_op : update_op) (k : Option Int) : Int :=
  let update := if suffix_op ≠ .no_update then suffix_op else prefix_op
  match k with
  | some v => if update = .decrement then -v else v
  | none =>
    match update with
    | .increment => 1
    | .decrement => -1
    | .no_update => 0

/-- Specification of the 9-bit pointer field: 0x100 for `ptrb`, 0x080 for a
prefix update or 0x0c0 for a postfix update, and the low six bits of the
two's-complement index. -/
def spec_ptr_field (prefix_op suffix_op : update_op) (name : pointer_name) (ndx : Int) : Nat :=
  (if name = .ptrb then 0x100 else 0)
    ||| (if prefix_op ≠ .no_update then 0x080 else if suffix_op ≠ .no_update then 0x0c0 else 0)
    ||| (toValueT 32 ndx &&& 0x3f)

/-- The operand slot after `parse_expression` has stored the bracketed
constant, if one is written. -/
def ptr_operand_after (k : Option Int) (operand : propeller_code) : propeller_code :=
  match k with
  | some v => { operand with reloc := { operand.reloc with exp := constant_exp v, pc_rel := false } }
  | none => operand

/-- The `index` argument of `parse_ptr` for an optional bracketed constant
followed by `]`. -/
def ptr_index (k : Option Int) : Option (Option expressionS × Bool) :=
  k.map (fun v => (some (constant_exp v), true))

/-- A sample table row for `lcall` that carries only the LMM hardware bit of
the first chip. -/
def lcall_row : propeller_opcode :=
  { name := "lcall", opcode := 0x5C000000, format := 0, flags := 0x08, hardware := 4,
    compress_type := 0, copc := 0 }

/-- The locals at the end of the native branch of the case
`PROPELLER_OPERAND_LCALL` for `lcall #far`: the word `jmp #0` with a pending
source relocation against `__LMM_CALL`, and the 32-bit target as a pending
`BFD_RELOC_32` in `insn2`. -/
def lcall_line : AsmLocals :=
  { insn := { empty_code with code := 0x5C7C0000 },
    insn2 := symbol_operand BFD_RELOC_32 "far",
    op1 := empty_code, op2 := symbol_operand BFD_RELOC_PROPELLER_SRC "__LMM_CALL",
    op3 := empty_code, op4 := empty_code,
    size := 8, condmask := 0xf, insn_compressed := false, insn2_compressed := false,
    reloc_prefix := 0, xmov_flag := false }

/-- `parse_indx (str, operand, insn, type)`.  The text enters through
`prefix_inc` (a `++` before the name), `name` and `suffix_op`; `cc_flag` and
`cc_cleared` are the two static flags.  `none` is the return value `NULL`;
otherwise the operand, the instruction and `cc_cleared` after the call. -/
def parse_indx (C : CondConsts) (cc_flag cc_cleared prefix_inc : Bool) (name : pointer_name)
    (suffix_op : update_op) (type : bfd_reloc_code_real_type)
    (operand insn : propeller_code) : Option (propeller_code × propeller_code × Bool) :=
  if name ≠ .inda ∧ name ≠ .indb then
    if prefix_inc then
      some ({ operand with error := some "Can only use ++ with inda or indb" }, insn, cc_cleared)
    else none
  else
    let regnum : Nat := if name = .inda then 0x1f6 else 0x1f7
    if cc_flag then
      some ({ operand with error := some "Condition can not be used with inda or indb" },
            insn, cc_cleared)
    else
      let insn :=
        if cc_cleared then insn
        else { insn with code := insn.code &&& bitnot 32 C.CC_MASK }
      if prefix_inc ∧ suffix_op ≠ .no_update then
        some ({ operand with error := some "Can\x27t use both prefix and postfix update" },
              insn, true)
      else
        let shift : Nat := if type = BFD_RELOC_PROPELLER_SRC then 18 else 20
        let code :=
          if prefix_inc then insn.code ||| shlW 32 3 shift
          else if suffix_op ≠ .no_update then
            insn.code ||| shlW 32 (if suffix_op = .increment then 1 else 2) shift
          else insn.code
        let field_shift : Nat := if type = BFD_RELOC_PROPELLER_SRC then 0 else 9
        some ({ operand with
                  reloc := { type := BFD_RELOC_NONE, pc_rel := false,
                             exp := { operand.reloc.exp with X_op := operatorT.O_register,
                                                             X_add_number := regnum } } },
              { insn with code := code ||| shlW 32 regnum field_shift }, true)

/-- The memory of a line that holds the four bytes of the word `c`, stored by
`md_number_to_chars (to, c, 4)`. -/
def word_buf (c : Nat) : Nat → Nat := md_number_to_chars (fun _ => 0) c 4

/-- The memory at offset 1 of a line that holds the four bytes of
`pack_native (c)`: the place `fx_where + fr_literal` of a fixup recorded with
`reloc_prefix` 1. -/
def packed_payload_buf (K : OpcodeConsts) (c : Nat) : Nat → Nat :=
  fun i => word_buf (pack_native K c) (i + 1)

/-- The fixup `fixP` recorded with the size `n`. -/
def resize_fix (fixP : fixS) (n : Nat) : fixS := { fixP with fx_size := n }

/-- `parse_src_reloc (str, operand, default_reloc, pcrel, nbits)`; `parsed` is
the expression that `parse_expression` stores, or `none` when `expression ()`
fails.  `W` is the width of `long` and `offsetT`. -/
def parse_src_reloc (W : Nat) (parsed : Option expressionS)
    (default_reloc : bfd_reloc_code_real_type) (pcrel : Bool) (nbits : Nat)
    (operand : propeller_code) : propeller_code :=
  match parsed with
  | none => { operand with error := some "Error in expression" }
  | some exp =>
    let operand := { operand with reloc := { operand.reloc with exp := exp, pc_rel := false } }
    if operand.error ≠ none then operand
    else
      let symbolic : propeller_code :=
        { operand with reloc := { operand.reloc with type := default_reloc, pc_rel := pcrel } }
      let constant : propeller_code :=
        if nbits < 32 ∧ toValueT W exp.X_add_number &&& bitnot W (shlW W 1 nbits - 1) ≠ 0 then
          { operand with error := some "value out of range" }
        else
          { operand with code := toValueT 32 exp.X_add_number,
                         reloc := { operand.reloc with type := BFD_RELOC_NONE } }
      match exp.X_op with
      | .O_constant => constant
      | .O_register => constant
      | .O_symbol => symbolic
      | .O_add => symbolic
      | .O_subtract => symbolic
      | .O_illegal => { operand with error := some "Illegal operand in source" }
      | .O_other => symbolic

/-- `parse_src_n (str, operand, nbits)`; `hash` says that the first character
after the blanks is `#`. -/
def parse_src_n (W : Nat) (hash : Bool) (parsed : Option expressionS) (nbits : Nat)
    (operand : propeller_code) : propeller_code :=
  let default_reloc : bfd_reloc_code_real_type :=
    if nbits = 32 then BFD_RELOC_32
    else if nbits = 16 then BFD_RELOC_16
    else if nbits = 8 then BFD_RELOC_8
    else BFD_RELOC_PROPELLER_23
  if hash then parse_src_reloc W parsed default_reloc false nbits operand
  else { operand with error := some "immediate operand required" }

/-- The native branch (`compress` is 0) of the case `PROPELLER_OPERAND_LCALL`:
`parse_src` on the text `#__LMM_CALL`, for which `expression ()` stores
`call_parsed`, then `parse_src_n (str, &insn2, 32)` on the operand text, and
`size = 8`. -/
def case_lcall_native (W : Nat) (pasm_default : Bool) (call_parsed : Option expressionS)
    (hash : Bool) (parsed : Option expressionS) (op : propeller_opcode) (st : AsmLocals) :
    Except String (propeller_opcode × AsmLocals) :=
  let r := parse_src_hash false pasm_default PROPELLER_OPERAND_JMP none call_parsed
    st.op2 st.insn
  .ok (op, { st with op2 := r.1, insn := r.2,
                     insn2 := parse_src_n W hash parsed 32 st.insn2, size := 8 })

/-- The line emitted for `lcall #0` with compression off under the sample
constants: 8 bytes reserved, the four bytes of the `jmp` word stored, one
fixup for its source. -/
def lcall_zero_emitted : Emitted :=
  { reserved := 8, bytes := [0, 0, 124, 92],
    fixes := [{ fx_where := 0, fx_size := 4, exp := symbol_exp "__LMM_CALL", pcrel := false,
                r_type := BFD_RELOC_PROPELLER_SRC }],
    compress_flag := false }

/-- `parse_separator (str, &error)`: the text after the blanks and the comma,
and whether the comma is missing. -/
def parse_separator (str : List Char) : List Char × Bool :=
  match skip_whitespace str with
  | [] => ([], true)
  | c :: cs => if c = ',' then (cs, false) else (c :: cs, true)

/-- The first statements of the case `PROPELLER_OPERAND_MVI`:
`str = parse_regspec (str, &reg, &op1, 1)` followed by
`str = parse_separator (str, &error)`.  `none` stands for the call of
`parse_separator` on a `NULL` pointer, which `skip_whitespace` dereferences. -/
def mvi_register_and_separator (compress : Bool) (str : List Char) :
    Option (regspec_result × List Char × Bool) :=
  let r := parse_regspec compress true str
  match r.rest with
  | none => none
  | some rest => some (r, parse_separator rest)

/-! ## The prologue analyzer of the debugger (gdb/propeller-tdep.c) -/

/-- `#define PROPELLER_NUM_REGS 19`. -/
def PROPELLER_NUM_REGS : Nat := 19

/-- `#define PROPELLER_PC_REGNUM 17`. -/
def PROPELLER_PC_REGNUM : Nat := 17

/-- `#define SUB4_P(op) ((op & 0xfffc01ff) == 0x84fc0004)`. -/
def SUB4_P (op : Nat) : Bool := op &&& 0xfffc01ff = 0x84fc0004

/-- `#define SUB_P(op) ((op & 0xfffc0000) == 0x84fc0000)`. -/
def SUB_P (op : Nat) : Bool := op &&& 0xfffc0000 = 0x84fc0000

/-- `#define MOVE_P(op) ((op & 0xffbc0000) == 0xa0bc0000)`. -/
def MOVE_P (op : Nat) : Bool := op &&& 0xffbc0000 = 0xa0bc0000

/-- `#define WRLONG_P(op) ((op & 0xfffc0000) == 0x083c0000)`. -/
def WRLONG_P (op : Nat) : Bool := op &&& 0xfffc0000 = 0x083c0000

/-- `#define GET_DST(op) ((op >> 9) & 0x1ff)`. -/
def GET_DST (op : Nat) : Nat := (op >>> 9) &&& 0x1ff

/-- `#define GET_SRC(op) (op & 0x1ff)`. -/
def GET_SRC (op : Nat) : Nat := op &&& 0x1ff

/-- `CALL_P (op, arch)`; `call_ins` is `gdbarch_tdep (arch)->call_ins`. -/
def CALL_P (op call_ins : Nat) : Bool := op &&& 0xfffc0000 = call_ins

/-- `struct propeller_frame_cache`; `CORE_ADDR` values are 64-bit patterns and
`saved_regs` holds the `PROPELLER_NUM_REGS` elements of the array. -/
structure propeller_frame_cache where
  base : Nat
  args : Nat
  reg_bytes_saved : Nat
  sp_offset : Nat
  pc : Nat
  saved_regs : List Nat
  saved_sp : Nat
  locals : Int
  deriving DecidableEq, Repr

/-- The assignment `cache->saved_regs[reg] = v`.  A store with `reg` outside
the array has no defined result; it is reported as `.error reg`. -/
def store_saved_reg (cache : propeller_frame_cache) (reg v : Nat) :
    Except Nat propeller_frame_cache :=
  if reg < PROPELLER_NUM_REGS then
    .ok { cache with saved_regs := cache.saved_regs.set reg v }
  else .error reg

/-- `read_memory_unsigned_integer (pc, 4, byte_order)` on a memory that maps
an address to the 32-bit word stored there. -/
def read_word (mem : Nat → Nat) (pc : Nat) : Nat := mem pc % 2 ^ 32

/-- The statements `cache->saved_regs[reg] = v; if (reg == 15)
cache->saved_regs[PROPELLER_PC_REGNUM] = pcv;` of the two `wrlong` branches. -/
def store_reg_and_pc (cache : propeller_frame_cache) (reg v pcv : Nat) :
    Except Nat propeller_frame_cache :=
  match store_saved_reg cache reg v with
  | .error e => .error e
  | .ok cache =>
    if reg = 15 then store_saved_reg cache PROPELLER_PC_REGNUM pcv else .ok cache

/-- The loop `for (; count; count--)` of the push-multiple branch. -/
def push_multiple_loop : Nat → Nat → propeller_frame_cache → Except Nat propeller_frame_cache
  | 0, _, cache => .ok cache
  | count + 1, reg, cache =>
    let cache := { cache with sp_offset := addW 64 cache.sp_offset 4 }
    let after_pc : Except Nat propeller_frame_cache :=
      if reg = 15 then store_saved_reg cache PROPELLER_PC_REGNUM cache.sp_offset else .ok cache
    match after_pc with
    | .error e => .error e
    | .ok cache =>
      match store_saved_reg cache reg cache.sp_offset with
      | .error e => .error e
      | .ok cache => push_multiple_loop count (reg + 1) cache

/-- The loop `while (pc < current_pc)` of `propeller_analyze_prologue`; each
turn that goes on advances `pc` by 12, and `fuel` bounds the number of
turns.  Yields `pc` and the cache at the exit of the loop. -/
def parameter_loop (mem : Nat → Nat) (current_pc : Nat) :
    Nat → Nat → propeller_frame_cache → Except Nat (Nat × propeller_frame_cache)
  | 0, pc, cache => .ok (pc, cache)
  | fuel + 1, pc, cache =>
    if pc < current_pc then
      if MOVE_P (read_word mem pc) then
        let op := read_word mem (addW 64 pc 4)
        if SUB_P op then
          let offset := GET_SRC op
          let op := read_word mem (addW 64 pc 8)
          if WRLONG_P op then
            let reg := GET_DST op
            let cache := if offset > cache.args then { cache with args := offset } else cache
            match store_reg_and_pc cache reg (addW 64 cache.sp_offset offset)
                cache.sp_offset with
            | .error e => .error e
            | .ok cache => parameter_loop mem current_pc fuel (addW 64 pc 12) cache
          else .ok (pc, cache)
        else .ok (pc, cache)
      else .ok (pc, cache)
    else .ok (pc, cache)

/-- `propeller_analyze_prologue (gdbarch, pc, current_pc, cache)`: the address
returned and the cache, or `.error reg` for a store into
`cache->saved_regs[reg]` outside the array. -/
def propeller_analyze_prologue (call_ins : Nat) (mem : Nat → Nat) (fuel : Nat)
    (pc current_pc : Nat) (cache : propeller_frame_cache) :
    Except Nat (Nat × propeller_frame_cache) :=
  let base_pc := pc
  let finish (r : Except Nat (Nat × propeller_frame_cache)) :
      Except Nat (Nat × propeller_frame_cache) :=
    match r with
    | .error e => .error e
    | .ok (pc, cache) => if pc ≥ current_pc then .ok (current_pc, cache) else .ok (pc, cache)
  -- the common tail of the two prologue forms: `mov` then `sub`
  let move_sub (pc : Nat) (cache : propeller_frame_cache) (extra : Int) (set : Bool) :
      Except Nat (Nat × propeller_frame_cache) :=
    if MOVE_P (read_word mem pc) then
      let pc := addW 64 pc 4
      let op := read_word mem pc
      if SUB_P op then
        let locals : Int := if set then (GET_SRC op : Int) + extra else cache.locals + GET_SRC op
        finish (parameter_loop mem current_pc fuel (addW 64 pc 4)
          { cache with locals := locals })
      else .ok (base_pc, cache)
    else .ok (base_pc, cache)
  if pc ≥ current_pc then .ok (current_pc, cache)
  else
    let op := read_word mem pc
    if SUB4_P op then
      let pc := addW 64 pc 4
      let op := read_word mem pc
      if WRLONG_P op then
        let reg := GET_DST op
        let cache := { cache with sp_offset := addW 64 cache.sp_offset 4 }
        match store_reg_and_pc cache reg cache.sp_offset cache.sp_offset with
        | .error e => .error e
        | .ok cache =>
          let pc := addW 64 pc 4
          let cache := { cache with reg_bytes_saved := 4 }
          move_sub pc cache 4 true
      else .ok (base_pc, cache)
    else if MOVE_P op then
      let reg := GET_SRC op &&& 0xf
      let count := (GET_SRC op &&& 0xf0) >>> 4
      let op := read_word mem (addW 64 pc 4)
      if CALL_P op call_ins then
        let pc := addW 64 pc 8
        let cache := { cache with locals := 4 * (count : Int), reg_bytes_saved := 4 * count }
        match push_multiple_loop count reg cache with
        | .error e => .error e
        | .ok cache => move_sub pc cache 0 false
      else .ok (base_pc, cache)
    else finish (parameter_loop mem current_pc fuel pc cache)

/-- A frame cache with every member zero. -/
def zero_cache : propeller_frame_cache :=
  { base := 0, args := 0, reg_bytes_saved := 0, sp_offset := 0, pc := 0,
    saved_regs := List.replicate 19 0, saved_sp := 0, locals := 0 }

/-- A memory holding at 0x100 the words `sub sp, #4` (0x84fc2004) and a
`wrlong` whose destination field is 0x1ff (0x083ffe00), and zero elsewhere. -/
def wrlong_prologue_mem : Nat → Nat :=
  fun a => if a = 0x100 then 0x84fc2004 else if a = 0x104 then 0x083ffe00 else 0

/-- A memory holding at 0x100 a push-multiple prologue: `mov __TMP0, #0x5f`
(0xa0fcee5f: first register 15, count 5) and the call `jmpret` word
0x5cfcd462, and zero elsewhere. -/
def pushm_prologue_mem : Nat → Nat :=
  fun a => if a = 0x100 then 0xa0fcee5f else if a = 0x104 then 0x5cfcd462 else 0

/-- The four forms of operand that `parse_setind_operand` tells apart by the
first characters of the text: plain, `#`, `++` and `--`. -/
inductive setind_form
  | plain
  | hash
  | inc
  | dec
  deriving DecidableEq, Repr

/-- `parse_setind_operand (str, operand, insn, type)`.  `form` is the form of
the operand text and `parsed` the expression that `parse_expression` stores
for the rest of it (`none` when `expression ()` fails); `W` is the width of
`offsetT`.  Yields the operand and the instruction after the call. -/
def parse_setind_operand (W : Nat) (pasm_default : Bool) (form : setind_form)
    (parsed : Option expressionS) (type : bfd_reloc_code_real_type)
    (operand insn : propeller_code) : propeller_code × propeller_code :=
  let incflag : Bool := form = .inc
  let decflag : Bool := form = .dec
  let mask : Nat := if incflag ∨ decflag then 0xff else 0x1ff
  let fixup : Bool := form = .hash
  match parsed with
  | none => ({ operand with error := some "Error in expression" }, insn)
  | some exp =>
    let operand := { operand with reloc := { operand.reloc with exp := exp, pc_rel := false } }
    if operand.error ≠ none then (operand, insn)
    else
      let isdst : Bool := type = BFD_RELOC_PROPELLER_DST
      let shift : Nat := if isdst then 9 else 0
      let must_be_constant : propeller_code × propeller_code :=
        ({ operand with error := some "Must be a constant expression" }, insn)
      let out_of_range : propeller_code × propeller_code :=
        ({ operand with error := some "9-bit value out of range" }, insn)
      let symbolic (operand : propeller_code) : propeller_code × propeller_code :=
        ({ operand with reloc := { operand.reloc with type := type, pc_rel := false } }, insn)
      match exp.X_op with
      | .O_constant =>
        if toValueT W exp.X_add_number &&& bitnot W mask ≠ 0 then out_of_range
        else
          let number : Int := if decflag then 512 - exp.X_add_number else exp.X_add_number
          let operand :=
            { operand with reloc := { operand.reloc with
                exp := { operand.reloc.exp with X_add_number := number } } }
          let code :=
            if incflag ∨ decflag then insn.code ||| shlW 32 1 (if isdst then 21 else 19)
            else insn.code
          (operand, { insn with code := code ||| shlW 32 (toValueT W number) shift })
      | .O_register =>
        if incflag ∨ decflag then must_be_constant
        else if toValueT W exp.X_add_number &&& bitnot W mask ≠ 0 then out_of_range
        else
          (operand,
           { insn with code := insn.code ||| shlW 32 (toValueT W exp.X_add_number) shift })
      | .O_symbol | .O_add | .O_subtract =>
        if incflag ∨ decflag then must_be_constant
        else
          let r := symbolic operand
          if pasm_default ∧ fixup then
            ({ r.1 with reloc := { r.1.reloc with
                exp := (pasm_replace_expression r.1.reloc.exp).1 } }, r.2)
          else r
      | .O_illegal =>
        ({ operand with
            error := some (if isdst then "Illegal operand in destination"
                           else "Illegal operand in source") }, insn)
      | .O_other => symbolic operand

/-- The part of `parse_reps` from its first statement to the end of the
`switch` on the repeat count.  `hash` says that the first character after the
blanks is `#`, `parsed` is the expression that `parse_expression` stores
(`none` when `expression ()` fails).  Yields `op1`, the instruction, and
whether the function goes on to the separator (it returns at once
otherwise).  The arithmetic on `offsetT` is done on integers. -/
def parse_reps_count (W : Nat) (hash : Bool) (parsed : Option expressionS)
    (op1 insn : propeller_code) : propeller_code × propeller_code × Bool :=
  let insn := { insn with code := insn.code &&& bitnot 32 0x003c0000 }
  if hash = false then
    ({ op1 with error := some "immediate operand required for reps count" }, insn, false)
  else
    match parsed with
    | none => ({ op1 with error := some "Error in expression" }, insn, false)
    | some exp =>
      let op1 := { op1 with reloc := { op1.reloc with exp := exp, pc_rel := false } }
      if op1.error ≠ none then (op1, insn, false)
      else
        match exp.X_op with
        | .O_constant =>
          let number : Int := exp.X_add_number - 1
          let op1 :=
            { op1 with reloc := { op1.reloc with
                exp := { op1.reloc.exp with X_add_number := number } } }
          if number < 0 ∨ number ≥ 1 <<< 14 then
            ({ op1 with error := some "14-bit value out of range" }, insn, false)
          else
            let code := insn.code ||| shlW 32 (toValueT W number &&& 0x1fff) 9
            let code := code ||| shlW 32 (toValueT W number &&& 0x2000) (25 - 13)
            (op1, { insn with code := code }, true)
        | _ =>
          ({ op1 with error := some "Repeat count must be a constant expression" }, insn,
            false)

/-- The form of the second operand of `reps`: `#`, `@`, or anything else. -/
inductive reps_range_form
  | hash
  | at_sign
  | other
  deriving DecidableEq, Repr

/-- `parse_reps (str, op1, op2, insn)`.  After the count, `comma` says that
the separator is present and `form` is the form of the second operand; for
the `#` form the work of `parse_src (str, op2, insn, PROPELLER_OPERAND_REPD)`
on the text after the `#` is the parameter `src`, for the `@` form `parsed2`
is the expression stored for `parse_src_reloc`.  Yields `op1`, `op2` and the
instruction. -/
def parse_reps (W : Nat) (hash : Bool) (parsed : Option expressionS) (comma : Bool)
    (form : reps_range_form)
    (src : propeller_code → propeller_code → propeller_code × propeller_code)
    (parsed2 : Option expressionS) (op1 op2 insn : propeller_code) :
    propeller_code × propeller_code × propeller_code :=
  let r := parse_reps_count W hash parsed op1 insn
  if r.2.2 = false then (r.1, op2, r.2.1)
  else if comma = false then (r.1, { op2 with error := some "Missing \x27,\x27" }, r.2.1)
  else
    match form with
    | .hash =>
      let s := src op2 r.2.1
      (r.1, s.1, s.2)
    | .at_sign =>
      (r.1, parse_src_reloc W parsed2 BFD_RELOC_PROPELLER_REPSREL true 6 op2, r.2.1)
    | .other =>
      (r.1, { op2 with error := some "immediate operand required for reps range" }, r.2.1)

/-- The static variables of tc-propeller.c declared in lines 81 to 88; each is
an `int`, held as its 32-bit pattern. -/
structure Globals where
  pasm_default : Nat
  lmm : Nat
  compress : Nat
  prop2 : Nat
  compress_default : Nat
  elf_flags : Nat
  cc_flag : Nat
  cc_cleared : Nat
  deriving DecidableEq, Repr

/-- How a call of `md_assemble` begins: `ignore_input ()` holds; the first
word is empty; the first word is a condition and nothing follows it; or the
mnemonic `str` is reached, after the condition `cond` when the first word is
one. -/
inductive line_start
  | ignored
  | no_instruction
  | no_instruction_after_condition
  | mnemonic (cond : Option propeller_condition) (str : String)
  deriving DecidableEq, Repr

/-- `md_assemble` with the static variables passed explicitly.  The statements
that assign to a static variable are `cc_flag = cc_cleared = 0`,
`cc_flag = 1`, `cc_cleared = 1` in `parse_indx` (reached only from the
switch) and `elf_flags |= EF_PROPELLER_COMPRESS`.  The switch is the parameter
`format_case`: it reads the static variables and yields, with its outcome,
whether a call of `parse_indx` stored 1 in `cc_cleared`.  `none` is the return
without a message when input is ignored. -/
def md_assemble_globals (K : OpcodeConsts) (F : FlagConsts) (C : CondConsts)
    (H : HardwareConsts) (EF_PROPELLER_COMPRESS : Nat) (g : Globals)
    (table : List propeller_opcode) (start : line_start)
    (format_case : Globals → propeller_opcode → AsmLocals →
      Except String (propeller_opcode × AsmLocals) × Bool)
    (effs : List propeller_effect) (rest_blank : Bool) : Option AsmResult × Globals :=
  match start with
  | .ignored => (none, g)
  | .no_instruction =>
    (some (.bad "No instruction found"), { g with cc_flag := 0, cc_cleared := 0 })
  | .no_instruction_after_condition =>
    (some (.bad "No instruction found after condition"),
      { g with cc_flag := 0, cc_cleared := 0 })
  | .mnemonic cond str =>
    let g := { g with cc_flag := 0, cc_cleared := 0 }
    let g := if cond.isSome then { g with cc_flag := 1 } else g
    match hash_find_insn (insn_hash H (decide (g.prop2 ≠ 0)) (decide (g.lmm ≠ 0)) table) str with
    | none => (some (.bad ("Unknown instruction \x27" ++ str ++ "\x27")), g)
    | some op =>
      match md_assemble_head C cond op with
      | .error msg => (some (.bad msg), g)
      | .ok st =>
        let r := format_case g op st
        let g := if r.2 then { g with cc_cleared := 1 } else g
        match r.1 with
        | .error msg => (some (.bad msg), g)
        | .ok (op, st) =>
          match md_assemble_after_switch K F (decide (g.compress ≠ 0)) op st effs rest_blank with
          | .emitted o =>
            (some (.emitted o),
              if o.compress_flag then
                { g with elf_flags := g.elf_flags ||| EF_PROPELLER_COMPRESS }
              else g)
          | res => (some res, g)

/-- The case `PROPELLER_OPERAND_PTRS_OPS` of the switch for a line whose
second operand passes `check_ptr`: `parse_dest`, the separator (present), then
`parse_ptr`.  `indx` is the outcome of `parse_indx` inside `parse_dest`. -/
def case_ptrs_ops_ptr (W : Nat) (compress pasm_default : Bool)
    (indx : Option (propeller_code × propeller_code)) (dest : List Char)
    (dest_parsed : Option expressionS) (prefix_op suffix_op : update_op) (name : pointer_name)
    (index : Option (Option expressionS × Bool))
    (op : propeller_opcode) (st : AsmLocals) : Except String (propeller_opcode × AsmLocals) :=
  let r := parse_dest W compress pasm_default indx dest dest_parsed st.op1 st.insn
  let p := parse_ptr prefix_op suffix_op name index PROPELLER_OPERAND_PTRS_OPS st.op2 r.2
  .ok (op, { st with op1 := r.1, op2 := p.1, insn := p.2 })

/-- A sample table row of the pointer-source shape, registered for the second
chip: opcode bits 26..31 are 000010, a condition and the effects are allowed,
the result is written by default. -/
def rdlong_row : propeller_opcode :=
  { name := "rdlong", opcode := 0x08000000, format := 0, flags := 0x3F, hardware := 2,
    compress_type := 0, copc := 0 }

/-- The update code of an indexed operand: 3 for a prefix `++`, 1 for a postfix
`++`, 2 for a postfix `--`, 0 without an update. -/
def spec_update_code (prefix_inc : Bool) (suffix_op : update_op) : Nat :=
  if prefix_inc then 3
  else
    match suffix_op with
    | .increment => 1
    | .decrement => 2
    | .no_update => 0

/-- The operand slot that `parse_indx` and `parse_ptr` leave for an index
register: no relocation, the expression a register with the number `regnum`. -/
def index_register_operand (regnum : Int) : propeller_code :=
  { empty_code with
      reloc := { type := BFD_RELOC_NONE, pc_rel := false,
                 exp := { X_op := operatorT.O_register, X_add_number := regnum,
                          X_add_symbol := none } } }

/-- The compact branch (`compress` set) of the case `PROPELLER_OPERAND_BRS`.
The operand text is rewritten to `pc,#<text>`: `parse_dest` reads `pc`, the
separator is present, and `parse_src` reads the `#` operand with the format
`PROPELLER_OPERAND_BRS`; then the instruction word is replaced by the tag
byte with the condition.  `PREFIX_BRS` is a constant of
include/opcode/propeller.h, which is not under src/. -/
def case_brs_compact (W : Nat) (PREFIX_BRS : Nat) (pasm_default : Bool) (mark : Option Bool)
    (parsed : Option expressionS) (op : propeller_opcode) (st : AsmLocals) :
    Except String (propeller_opcode × AsmLocals) :=
  let d := parse_dest W true pasm_default none ['p', 'c'] none st.op1 st.insn
  let s := parse_src_hash true pasm_default PROPELLER_OPERAND_BRS mark parsed st.op2 d.2
  let byte0 := PREFIX_BRS ||| ((s.2.code >>> 18) &&& 0xf)
  .ok (op, { st with
              op1 := { d.1 with reloc := { d.1.reloc with type := BFD_RELOC_NONE } },
              op2 := s.1,
              insn := { s.2 with code := byte0 },
              reloc_prefix := 1, size := 2, insn_compressed := true })

/-- The compact branch (`compress` set) of the cases `PROPELLER_OPERAND_BRW`
and `PROPELLER_OPERAND_BRL` for the format `PROPELLER_OPERAND_BRW`:
`parse_src_reloc` with the 16-bit pc-relative kind, then the instruction word
is replaced by the tag byte with `condmask`.  `PREFIX_BRW` is a constant of
include/opcode/propeller.h. -/
def case_brw_compact (W : Nat) (PREFIX_BRW : Nat) (parsed : Option expressionS)
    (op : propeller_opcode) (st : AsmLocals) : Except String (propeller_opcode × AsmLocals) :=
  let op2 := parse_src_reloc W parsed BFD_RELOC_16_PCREL true 16 st.op2
  .ok (op, { st with
              op2 := op2,
              insn := { st.insn with code := PREFIX_BRW ||| st.condmask },
              size := 3, reloc_prefix := 1, insn_compressed := true })

/-- The bytes of the frag at the place of a fixup, `fr_literal + fx_where + i`,
as `md_assemble` stored them for the line. -/
def fixup_field (o : Emitted) (f : fix_new_exp_args) : Nat → Nat :=
  fun i => o.bytes.getD (f.fx_where + i) 0

/-- A sample table row for `brs`, registered in LMM mode: a condition is
allowed, the result is written by default. -/
def brs_row : propeller_opcode :=
  { name := "brs", opcode := 0x80FC0000, format := 0, flags := 0x3F, hardware := 4,
    compress_type := 0, copc := 0 }

/-- A sample table row for `brw` on which the R bit is allowed and set by
default (`FLAG_R` and `FLAG_R_DEF` under the sample flags). -/
def brw_wr_row : propeller_opcode :=
  { name := "brw", opcode := 0x5C7C0000, format := 0, flags := 0x3F, hardware := 4,
    compress_type := 0, copc := 0 }

/-- Specification of "the condition field": bits 18..21 of a word. -/
def spec_condition_field (w : Nat) : Nat := (w >>> 18) &&& 0xf

/-- Specification of "differs only in bits 18..21": the word with the four
bits of the condition field cleared. -/
def spec_outside_condition (w : Nat) : Nat := w ^^^ (w &&& (0xf <<< 18))

/-- Specification of "the operand case leaves the condition field alone":
when the case `r` of the switch, run on the locals `st`, ends without an
early `as_bad`, bits 18..21 of the instruction word are those of `st`. -/
def keeps_condition_field (r : Except String (propeller_opcode × AsmLocals))
    (st : AsmLocals) : Bool :=
  match r with
  | .ok x => decide (spec_condition_field x.2.insn.code = spec_condition_field st.insn.code)
  | .error _ => true

/-- Two sets of locals that agree in everything but bits 18..21 of the
instruction word and `condmask`. -/
def agree_outside_condition (a b : AsmLocals) : Bool :=
  decide (spec_outside_condition a.insn.code = spec_outside_condition b.insn.code
    ∧ a.insn.error = b.insn.error ∧ a.insn.reloc = b.insn.reloc
    ∧ a.insn2 = b.insn2 ∧ a.op1 = b.op1 ∧ a.op2 = b.op2 ∧ a.op3 = b.op3 ∧ a.op4 = b.op4
    ∧ a.size = b.size ∧ a.insn_compressed = b.insn_compressed
    ∧ a.insn2_compressed = b.insn2_compressed ∧ a.reloc_prefix = b.reloc_prefix
    ∧ a.xmov_flag = b.xmov_flag)

/-- Specification of "the operand case does not look at the condition": the
outcomes `ra` and `rc` of the case on the locals of the line without and with
the condition mnemonic are both messages, and equal, or both locals that agree
outside the condition field, with the same opcode row. -/
def condition_blind (ra rc : Except String (propeller_opcode × AsmLocals)) : Bool :=
  match ra, rc with
  | .ok x, .ok y => decide (x.1 = y.1) && agree_outside_condition x.2 y.2
  | .error m, .error n => decide (m = n)
  | _, _ => false

/-! ## Lemmas on bit patterns -/

theorem byte_at_lt (con : Nat → Nat) (k : Nat) : byte_at con k < 2 ^ 8 := by
  unfold byte_at; omega

theorem byte_at_testBit_ge (con : Nat → Nat) (k j : Nat) (h : 8 ≤ j) :
    (byte_at con k).testBit j = false := by
  apply Nat.testBit_lt_two_pow
  exact Nat.lt_of_lt_of_le (byte_at_lt con k) (Nat.pow_le_pow_right (by decide) h)

theorem testBit_range (m n i : Nat) (h : n ≤ m) :
    (2 ^ m - 2 ^ n).testBit i = decide (n ≤ i ∧ i < m) := by
  have h1 : 2 ^ n - 1 < 2 ^ m := by
    have : 2 ^ n ≤ 2 ^ m := Nat.pow_le_pow_right (by decide) h
    have : 0 < 2 ^ n := Nat.two_pow_pos n
    omega
  have h2 : 2 ^ m - 2 ^ n = 2 ^ m - ((2 ^ n - 1) + 1) := by
    have : 0 < 2 ^ n := Nat.two_pow_pos n
    omega
  rw [h2, Nat.testBit_two_pow_sub_succ h1, Nat.testBit_two_pow_sub_one]
  by_cases a : i < m
  · by_cases b : i < n
    · have c : ¬ n ≤ i := by omega
      simp [a, b, c]
    · have c : n ≤ i := by omega
      simp [a, b, c]
  · simp [a]

theorem long_of_int_testBit (W x i : Nat) (hW : 32 ≤ W) (hi : i < 32) :
    (long_of_int W x).testBit i = x.testBit i := by
  unfold long_of_int
  split
  · rw [Nat.testBit_or, testBit_range W 32 i hW]
    have : ¬ (32 ≤ i ∧ i < W) := by omega
    simp [this]
  · rfl

theorem md_chars_to_number_testBit (W : Nat) (hW : 32 ≤ W) (con : Nat → Nat) (n code : Nat)
    (h : md_chars_to_number W con n = some code) :
    n ≤ 4 ∧ ∀ i, i < 8 * n → code.testBit i = (byte_at con (i / 8)).testBit (i % 8) := by
  match n, h with
  | 0, h => exact ⟨by omega, fun i hi => by omega⟩
  | 1, h =>
    refine ⟨by omega, fun i hi => ?_⟩
    simp only [md_chars_to_number, Option.some.injEq] at h
    subst h
    have a : i / 8 = 0 := by omega
    have b : i % 8 = i := by omega
    rw [a, b]
  | 2, h =>
    refine ⟨by omega, fun i hi => ?_⟩
    simp only [md_chars_to_number, Option.some.injEq] at h
    subst h
    simp only [Nat.testBit_or, Nat.testBit_shiftLeft]
    by_cases c : i < 8
    · have a : i / 8 = 0 := by omega
      have b : i % 8 = i := by omega
      have d : ¬ i ≥ 8 := by omega
      simp [a, b, d]
    · have a : i / 8 = 1 := by omega
      have b : i % 8 = i - 8 := by omega
      have d : i ≥ 8 := by omega
      simp [a, b, d, byte_at_testBit_ge con 0 i d]
  | 3, h =>
    refine ⟨by omega, fun i hi => ?_⟩
    simp only [md_chars_to_number, Option.some.injEq] at h
    subst h
    simp only [Nat.testBit_or, Nat.testBit_shiftLeft]
    by_cases c : i < 8
    · have a : i / 8 = 0 := by omega
      have b : i % 8 = i := by omega
      have d : ¬ i ≥ 8 := by omega
      have e : ¬ i ≥ 2 * 8 := by omega
      simp [a, b, d, e]
    · have d : i ≥ 8 := by omega
      by_cases c2 : i < 16
      · have a : i / 8 = 1 := by omega
        have b : i % 8 = i - 8 := by omega
        have e : ¬ i ≥ 2 * 8 := by omega
        simp [a, b, d, e, byte_at_testBit_ge con 0 i d]
      · have a : i / 8 = 2 := by omega
        have b : i % 8 = i - 2 * 8 := by omega
        have e : i ≥ 2 * 8 := by omega
        simp [a, b, d, e, byte_at_testBit_ge con 0 i d,
          byte_at_testBit_ge con 1 (i - 8) (by omega)]
  | 4, h =>
    refine ⟨by omega, fun i hi => ?_⟩
    simp only [md_chars_to_number, Option.some.injEq] at h
    subst h
    rw [long_of_int_testBit W _ i hW (by omega)]
    simp only [shlW, Nat.testBit_or, Nat.testBit_shiftLeft, Nat.testBit_mod_two_pow]
    have f : i < 32 := by omega
    by_cases c : i < 8
    · have a : i / 8 = 0 := by omega
      have b : i % 8 = i := by omega
      have d : ¬ i ≥ 8 := by omega
      have e : ¬ i ≥ 2 * 8 := by omega
      simp [a, b, d, e]
    · have d : i ≥ 8 := by omega
      by_cases c2 : i < 16
      · have a : i / 8 = 1 := by omega
        have b : i % 8 = i - 8 := by omega
        have e : ¬ i ≥ 2 * 8 := by omega
        simp [a, b, d, e, byte_at_testBit_ge con 0 i d]
      · have e : i ≥ 2 * 8 := by omega
        by_cases c3 : i < 24
        · have a : i / 8 = 2 := by omega
          have b : i % 8 = i - 2 * 8 := by omega
          have g : ¬ i - 2 * 8 ≥ 8 := by omega
          simp [a, b, d, e, f, g, byte_at_testBit_ge con 0 i d,
            byte_at_testBit_ge con 1 (i - 8) (by omega)]
        · have a : i / 8 = 3 := by omega
          have b : i % 8 = i - 2 * 8 - 8 := by omega
          have g : i - 2 * 8 ≥ 8 := by omega
          simp [a, b, d, e, f, g, byte_at_testBit_ge con 0 i d,
            byte_at_testBit_ge con 1 (i - 8) (by omega),
            byte_at_testBit_ge con 2 (i - 2 * 8) (by omega)]
  | n + 5, h => simp [md_chars_to_number] at h

theorem md_chars_to_number_some (W : Nat) (con : Nat → Nat) (n : Nat) (h : n ≤ 4) :
    ∃ code, md_chars_to_number W con n = some code := by
  match n, h with
  | 0, _ => exact ⟨_, rfl⟩
  | 1, _ => exact ⟨_, rfl⟩
  | 2, _ => exact ⟨_, rfl⟩
  | 3, _ => exact ⟨_, rfl⟩
  | 4, _ => exact ⟨_, rfl⟩

theorem md_number_to_chars_testBit (buf : Nat → Nat) (val n i : Nat) (hi : i < 8 * n) :
    (byte_at (md_number_to_chars buf val n) (i / 8)).testBit (i % 8) = val.testBit i := by
  have a : i / 8 < n := by omega
  have e : (0xff : Nat) = 2 ^ 8 - 1 := by norm_num
  have e2 : (256 : Nat) = 2 ^ 8 := by norm_num
  simp only [byte_at, md_number_to_chars, a, if_true, e, e2, Nat.and_pow_two_sub_one_eq_mod,
    Nat.testBit_mod_two_pow, Nat.testBit_shiftRight]
  have b : i % 8 < 8 := Nat.mod_lt _ (by decide)
  have c : 8 * (i / 8) + i % 8 = i := Nat.div_add_mod i 8
  simp [b, c]

theorem and_range (y m n : Nat) (h : n ≤ m) :
    y &&& (2 ^ m - 2 ^ n) = (y % 2 ^ m) / 2 ^ n * 2 ^ n := by
  apply Nat.eq_of_testBit_eq
  intro i
  rw [Nat.testBit_and, testBit_range m n i h, ← Nat.shiftLeft_eq, ← Nat.shiftRight_eq_div_pow,
    Nat.testBit_shiftLeft, Nat.testBit_shiftRight, Nat.testBit_mod_two_pow]
  by_cases b : n ≤ i
  · rw [Nat.add_sub_cancel' b]
    by_cases a : i < m
    · simp [a, b]
    · simp [a, b]
  · simp [b]

theorem xor_two_pow_lt (u n : Nat) (h : u < 2 ^ n) : u ^^^ 2 ^ n = u + 2 ^ n := by
  have e : u + 2 ^ n = 2 ^ n * 1 ||| u := by
    rw [← Nat.mul_add_lt_is_or h 1]; omega
  rw [e]
  apply Nat.eq_of_testBit_eq
  intro i
  rw [Nat.testBit_xor, Nat.testBit_or, Nat.mul_one, Nat.testBit_two_pow]
  by_cases a : n = i
  · subst a
    simp [Nat.testBit_lt_two_pow h]
  · simp [a]

theorem xor_two_pow_ge (u n : Nat) (h1 : 2 ^ n ≤ u) (h2 : u < 2 ^ (n + 1)) :
    u ^^^ 2 ^ n = u - 2 ^ n := by
  have hb : u - 2 ^ n < 2 ^ n := by
    rw [Nat.pow_succ] at h2; omega
  have e : u = 2 ^ n * 1 ||| (u - 2 ^ n) := by
    rw [← Nat.mul_add_lt_is_or hb 1]; omega
  conv_lhs => rw [e]
  apply Nat.eq_of_testBit_eq
  intro i
  rw [Nat.testBit_xor, Nat.testBit_or, Nat.mul_one, Nat.testBit_two_pow]
  by_cases a : n = i
  · subst a
    simp [Nat.testBit_lt_two_pow hb]
  · simp [a]

theorem xor_msb (u : Nat) (h : u < 2 ^ 32) :
    u ^^^ 0x80000000 = if u < 2 ^ 31 then u + 2 ^ 31 else u - 2 ^ 31 := by
  have e : (0x80000000 : Nat) = 2 ^ 31 := by norm_num
  rw [e]
  split
  · next h1 => exact xor_two_pow_lt u 31 h1
  · next h1 => exact xor_two_pow_ge u 31 (by omega) h

theorem canon_val_eq (W : Nat) (hW : W = 32 ∨ W = 64) (v : Nat) :
    canon_val W v =
      if v % 2 ^ 32 < 2 ^ 31 then v % 2 ^ 32 else v % 2 ^ 32 + (2 ^ W - 2 ^ 32) := by
  have e : (0xffffffff : Nat) = 2 ^ 32 - 1 := by norm_num
  have hu : v % 2 ^ 32 < 2 ^ 32 := Nat.mod_lt _ (by norm_num)
  unfold canon_val subW
  simp only [e, Nat.and_pow_two_sub_one_eq_mod, xor_msb _ hu]
  rcases hW with rfl | rfl <;> split <;> omega


theorem canon_val_mod (W : Nat) (hW : W = 32 ∨ W = 64) (v : Nat) :
    canon_val W v % 2 ^ 32 = v % 2 ^ 32 ∧ canon_val W v < 2 ^ W := by
  rw [canon_val_eq W hW]
  rcases hW with rfl | rfl <;> split <;> omega

theorem canon_val_idem (W : Nat) (hW : W = 32 ∨ W = 64) (v : Nat) :
    canon_val W (canon_val W v) = canon_val W v := by
  rw [canon_val_eq W hW (canon_val W v), (canon_val_mod W hW v).1, ← canon_val_eq W hW v]

theorem toSigned_canon_val (W : Nat) (hW : W = 32 ∨ W = 64) (v : Nat) :
    toSigned W (canon_val W v) =
      if v % 2 ^ 32 < 2 ^ 31 then ((v % 2 ^ 32 : Nat) : Int)
      else ((v % 2 ^ 32 : Nat) : Int) - (2 : Int) ^ 32 := by
  unfold toSigned
  rw [canon_val_eq W hW]
  rcases hW with rfl | rfl
  · norm_num
  · norm_num
    split <;> split <;> omega

theorem toValueT_mod (W : Nat) (hW : W = 32 ∨ W = 64) (v : Int) :
    ((toValueT W v % 2 ^ 32 : Nat) : Int) = v % (2 : Int) ^ 32 := by
  unfold toValueT
  rcases hW with rfl | rfl <;> norm_num <;> omega

theorem canon_offset_spec (W : Nat) (hW : W = 32 ∨ W = 64) (v : Int) :
    -(2 : Int) ^ 31 ≤ canon_offset W v ∧ canon_offset W v < (2 : Int) ^ 31
      ∧ (canon_offset W v - v) % (2 : Int) ^ 32 = 0 := by
  unfold canon_offset
  rw [toSigned_canon_val W hW]
  have h := toValueT_mod W hW v
  norm_num at h ⊢
  split <;> omega

theorem toValueT_toSigned (W : Nat) (hW : W = 32 ∨ W = 64) (x : Nat) (hx : x < 2 ^ W) :
    toValueT W (toSigned W x) = x := by
  unfold toValueT toSigned
  rcases hW with rfl | rfl <;> norm_num at hx ⊢ <;> split <;> omega

/-- C5: the canonicalization at the start of `md_apply_fix` (mask to 32 bits,
xor `0x80000000`, subtract `0x80000000`) maps every input integer v to the
unique integer in [-2^31, 2^31) congruent to v modulo 2^32 and is idempotent;
a value already in that range is returned unchanged.  The same holds for the
treatment of `fx_offset`. -/
theorem C5_canonicalization (W : Nat) (hW : W = 32 ∨ W = 64) (v : Int) :
    (-(2 : Int) ^ 31 ≤ toSigned W (canon_val W (toValueT W v))
      ∧ toSigned W (canon_val W (toValueT W v)) < (2 : Int) ^ 31
      ∧ (toSigned W (canon_val W (toValueT W v)) - v) % (2 : Int) ^ 32 = 0)
    ∧ (∀ c : Int, -(2 : Int) ^ 31 ≤ c → c < (2 : Int) ^ 31 → (c - v) % (2 : Int) ^ 32 = 0 →
        c = toSigned W (canon_val W (toValueT W v)))
    ∧ canon_val W (canon_val W (toValueT W v)) = canon_val W (toValueT W v)
    ∧ (-(2 : Int) ^ 31 ≤ v → v < (2 : Int) ^ 31 → canon_val W (toValueT W v) = toValueT W v)
    ∧ canon_offset W v = toSigned W (canon_val W (toValueT W v))
    ∧ canon_offset W (canon_offset W v) = canon_offset W v
    ∧ (-(2 : Int) ^ 31 ≤ v → v < (2 : Int) ^ 31 → canon_offset W v = v) := by
  have h := canon_offset_spec W hW v
  have h2 := canon_offset_spec W hW (canon_offset W v)
  have e : canon_offset W v = toSigned W (canon_val W (toValueT W v)) := rfl
  rw [← e]
  have hfix : -(2 : Int) ^ 31 ≤ v → v < (2 : Int) ^ 31 → canon_offset W v = v := by
    intro a b; norm_num at h a b ⊢; omega
  refine ⟨h, ?_, canon_val_idem W hW _, ?_, rfl, ?_, hfix⟩
  · intro c a b d
    norm_num at h a b d ⊢; omega
  · intro a b
    have hv := hfix a b
    have hlt := (canon_val_mod W hW (toValueT W v)).2
    have := toValueT_toSigned W hW _ hlt
    rw [← e, hv] at this
    exact this.symm
  · norm_num at h h2 ⊢; omega

theorem bitnot_testBit (W m i : Nat) :
    (bitnot W m).testBit i = (decide (i < W) ^^ m.testBit i) := by
  unfold bitnot
  rw [Nat.testBit_xor, Nat.testBit_two_pow_sub_one]

theorem testBit_false_of_lt_of_le (x k i : Nat) (hx : x < 2 ^ k) (hi : k ≤ i) :
    x.testBit i = false :=
  Nat.testBit_lt_two_pow (Nat.lt_of_lt_of_le hx (Nat.pow_le_pow_right (by decide) hi))

theorem merge_testBit (W code val mask shift rshift i : Nat) (hi : i < W) :
    (merge W code val mask shift rshift).testBit i =
      if mask.testBit i then (shifted W val shift rshift).testBit i else code.testBit i := by
  unfold merge
  rw [Nat.testBit_or, Nat.testBit_and, Nat.testBit_and, bitnot_testBit]
  cases hm : mask.testBit i <;> simp [hi]

theorem shifted_eq (W val shift rshift : Nat) :
    shifted W val shift rshift = (val / 2 ^ rshift * 2 ^ shift) % 2 ^ W := by
  unfold shifted shlW
  rw [Nat.shiftLeft_eq, Nat.shiftRight_eq_div_pow]

theorem bitnot_low (W n : Nat) (h : n ≤ W) : bitnot W (2 ^ n - 1) = 2 ^ W - 2 ^ n := by
  apply Nat.eq_of_testBit_eq
  intro i
  rw [bitnot_testBit, Nat.testBit_two_pow_sub_one, testBit_range W n i h]
  by_cases a : i < W
  · by_cases b : i < n
    · have c : ¬ (n ≤ i ∧ i < W) := by omega
      simp [a, b, c]
    · have c : n ≤ i ∧ i < W := by omega
      simp [a, b, c]
  · have b : ¬ i < n := by omega
    have c : ¬ (n ≤ i ∧ i < W) := by omega
    simp [a, b, c]

theorem md_apply_fix_eq (W : Nat) (fixP : fixS) (valP : Nat) (buf : Nat → Nat)
    (code v mask shift rshift : Nat)
    (hc : md_chars_to_number W buf fixP.fx_size = some code)
    (hs : reloc_switch W fixP.fx_r_type (canon_val W valP) = some (v, mask, shift, rshift)) :
    md_apply_fix W fixP valP buf = some {
      fixP := { fixP with
        fx_done := if fixP.fx_addsy.isNone && !fixP.fx_pcrel then true else fixP.fx_done
        fx_addnumber := canon_val W valP
        fx_offset := canon_offset W fixP.fx_offset }
      valP := canon_val W valP
      buf := md_number_to_chars buf
        (merge W code (final_val W fixP
          (if fixP.fx_addsy.isNone && !fixP.fx_pcrel then true else fixP.fx_done) v)
          mask shift rshift) fixP.fx_size
      overflow := overflows W (final_val W fixP
          (if fixP.fx_addsy.isNone && !fixP.fx_pcrel then true else fixP.fx_done) v)
          mask shift rshift } := by
  simp only [md_apply_fix, hc, hs]

theorem final_val_resolved (W : Nat) (fixP : fixS) (v : Nat)
    (hadd : fixP.fx_addsy = none) (hsub : fixP.fx_subsy = none) (hpc : fixP.fx_pcrel = false) :
    final_val W fixP (if fixP.fx_addsy.isNone && !fixP.fx_pcrel then true else fixP.fx_done) v
      = v := by
  simp [final_val, hadd, hsub, hpc]

/-- The patched field, read back with `md_chars_to_number`: inside `mask` it
holds the bits of the shifted value, outside it the bits of the prior word. -/
theorem patched_word (W : Nat) (hW : 32 ≤ W) (buf : Nat → Nat) (size code t mask merged : Nat)
    (hc : md_chars_to_number W buf size = some code)
    (hmask : mask < 2 ^ (8 * size))
    (hm : ∀ i, i < W → merged.testBit i = if mask.testBit i then t.testBit i else code.testBit i) :
    ∃ code', md_chars_to_number W (md_number_to_chars buf merged size) size = some code'
      ∧ code' &&& mask = t &&& mask
      ∧ ∀ i, i < 8 * size → mask.testBit i = false → code'.testBit i = code.testBit i := by
  have hsz := (md_chars_to_number_testBit W hW buf size code hc).1
  obtain ⟨code', hc'⟩ := md_chars_to_number_some W (md_number_to_chars buf merged size) size hsz
  have hb := (md_chars_to_number_testBit W hW _ size code' hc').2
  have key : ∀ i, i < 8 * size →
      code'.testBit i = if mask.testBit i then t.testBit i else code.testBit i := by
    intro i hi
    rw [hb i hi, md_number_to_chars_testBit buf merged size i hi, hm i (by omega)]
  refine ⟨code', hc', ?_, ?_⟩
  · apply Nat.eq_of_testBit_eq
    intro i
    rw [Nat.testBit_and, Nat.testBit_and]
    by_cases hi : i < 8 * size
    · rw [key i hi]
      cases mask.testBit i <;> simp
    · rw [testBit_false_of_lt_of_le mask (8 * size) i hmask (by omega)]
      simp
  · intro i hi hmi
    rw [key i hi, hmi]
    simp

theorem div_mul_ne_zero_iff (y n : Nat) : y / 2 ^ n * 2 ^ n ≠ 0 ↔ 2 ^ n ≤ y := by
  have hp : 0 < 2 ^ n := Nat.two_pow_pos n
  constructor
  · intro h
    by_contra hlt
    rw [Nat.div_eq_of_lt (by omega)] at h
    simp at h
  · intro h
    have := Nat.div_pos h hp
    have := Nat.mul_pos this hp
    omega

theorem overflows_low (W n val shift rshift : Nat) (hW : W = 32 ∨ W = 64) (hn : n ≤ 32) :
    overflows W val (2 ^ n - 1) shift rshift
      = decide (2 ^ n ≤ shifted W val shift rshift % 2 ^ 32) := by
  have e : (0xffffffff : Nat) = 2 ^ 32 - 1 := by norm_num
  have hnW : n ≤ W := by rcases hW with rfl | rfl <;> omega
  have h32 : (2 : Nat) ^ 32 ≤ 2 ^ W := Nat.pow_le_pow_right (by decide) (by rcases hW with rfl | rfl <;> omega)
  have hy : shifted W val shift rshift % 2 ^ 32 < 2 ^ W :=
    Nat.lt_of_lt_of_le (Nat.mod_lt _ (Nat.two_pow_pos 32)) h32
  unfold overflows
  rw [bitnot_low W n hnW, e, Nat.and_pow_two_sub_one_eq_mod, and_range _ W n hnW,
    Nat.mod_eq_of_lt hy]
  exact decide_eq_decide.mpr (div_mul_ne_zero_iff _ n)

/-- C2: for a resolved fixup (no symbol, not pc-relative) of the 9-bit
source-immediate kind `BFD_RELOC_PROPELLER_SRC_IMM`, `md_apply_fix` reports
"Relocation overflows" if and only if the canonicalized 32-bit value lies
outside 0..511; the value `0x200` is reported and `0x1ff` is not. -/
theorem C2_src_imm_overflow_iff (W : Nat) (hW : W = 32 ∨ W = 64) (fixP : fixS) (valP : Nat)
    (buf : Nat → Nat)
    (hadd : fixP.fx_addsy = none) (hsub : fixP.fx_subsy = none) (hpc : fixP.fx_pcrel = false)
    (hk : fixP.fx_r_type = BFD_RELOC_PROPELLER_SRC_IMM) (hsz : fixP.fx_size ≤ 4) :
    ∃ r, md_apply_fix W fixP valP buf = some r
      ∧ r.valP = canon_val W valP
      ∧ (r.overflow = true ↔ (toSigned W r.valP < 0 ∨ 511 < toSigned W r.valP))
      ∧ (valP = 0x200 → r.overflow = true)
      ∧ (valP = 0x1ff → r.overflow = false) := by
  obtain ⟨code, hc⟩ := md_chars_to_number_some W buf fixP.fx_size hsz
  have hs : reloc_switch W fixP.fx_r_type (canon_val W valP)
      = some (canon_val W valP, 0x000001ff, 0, 0) := by
    rw [hk]; rfl
  have e9 : (0x000001ff : Nat) = 2 ^ 9 - 1 := by norm_num
  have hov : ∀ v, overflows W (canon_val W v) 0x000001ff 0 0 = true ↔
      (toSigned W (canon_val W v) < 0 ∨ 511 < toSigned W (canon_val W v)) := by
    intro v
    rw [e9, overflows_low W 9 _ 0 0 hW (by omega), shifted_eq, toSigned_canon_val W hW,
      decide_eq_true_iff]
    have h1 := canon_val_mod W hW v
    rcases hW with rfl | rfl <;> norm_num <;> split <;> omega
  refine ⟨_, md_apply_fix_eq W fixP valP buf code _ _ _ _ hc hs, rfl, ?_, ?_, ?_⟩
  · simp only [final_val_resolved W fixP _ hadd hsub hpc]
    exact hov valP
  · intro hv
    simp only [final_val_resolved W fixP _ hadd hsub hpc]
    rw [hov valP, toSigned_canon_val W hW, hv]
    norm_num
  · intro hv
    simp only [final_val_resolved W fixP _ hadd hsub hpc]
    rw [← Bool.not_eq_true, hov valP, toSigned_canon_val W hW, hv]
    norm_num

theorem and_msb (x : Nat) : x &&& 0x80000000 ≠ 0 ↔ 2 ^ 31 ≤ x % 2 ^ 32 := by
  have e : (0x80000000 : Nat) = 2 ^ 32 - 2 ^ 31 := by norm_num
  rw [e, and_range x 32 31 (by omega)]
  omega

theorem and_low_eq (a b n : Nat) (h : a &&& (2 ^ n - 1) = b &&& (2 ^ n - 1)) :
    a % 2 ^ n = b % 2 ^ n := by
  rwa [Nat.and_pow_two_sub_one_eq_mod, Nat.and_pow_two_sub_one_eq_mod] at h

theorem switch_table (W : Nat) (hW : W = 32 ∨ W = 64) (kind : bfd_reloc_code_real_type)
    (valP m0 shift rshift : Nat) (ht : table_entry kind = some (m0, shift, rshift)) :
    ∃ v mask, reloc_switch W kind (canon_val W valP) = some (v, mask, shift, rshift)
      ∧ mask < 2 ^ 32
      ∧ (0 ≤ toSigned W (canon_val W valP) → mask = m0)
      ∧ (mask = m0
          ∨ (kind = BFD_RELOC_8_PCREL ∧ mask = m0 ||| 0x80)
          ∨ (kind = BFD_RELOC_16_PCREL ∧ mask = m0 ||| 0x8000)
          ∨ (kind = BFD_RELOC_PROPELLER_PCREL10 ∧ mask = m0 ||| 0x04000000)) := by
  have hneg : canon_val W valP &&& 0x80000000 ≠ 0 → ¬ 0 ≤ toSigned W (canon_val W valP) := by
    intro h
    rw [and_msb, (canon_val_mod W hW valP).1] at h
    rw [toSigned_canon_val W hW]
    norm_num at h ⊢
    split <;> omega
  cases kind <;> simp only [table_entry, Option.some.injEq, Prod.mk.injEq, reduceCtorEq] at ht
  all_goals obtain ⟨rfl, rfl, rfl⟩ := ht
  all_goals simp only [reloc_switch]
  all_goals first
    | exact ⟨_, _, rfl, by norm_num, fun _ => rfl, Or.inl rfl⟩
    | skip
  all_goals split_ifs with h1
  all_goals first
    | exact ⟨_, _, rfl, by norm_num, fun _ => rfl, Or.inl rfl⟩
    | exact ⟨_, _, rfl, by decide, fun h => absurd h (hneg h1), by simp⟩

/-- C1 (amended): for every kind handled by `md_apply_fix`, every prior word
`code` and every value, the word written back is
`(code AND NOT mask) OR (((val >> rshift) << shift) AND mask)`, where `shift`
and `rshift` are the kind's table entry, `val` is the value at the merge and
`mask` is the kind's table mask, widened by the sign bit (`0x80`, `0x8000`) or
the subtract bit (`0x04000000`) only for the three folding pc-relative kinds
on a negative value; every bit of the field outside that mask is unchanged,
whether or not an overflow is reported, and no byte after the field is
written. -/
theorem C1_merge_frame (W : Nat) (hW : W = 32 ∨ W = 64) (fixP : fixS) (valP : Nat)
    (buf : Nat → Nat) (m0 shift rshift : Nat)
    (ht : table_entry fixP.fx_r_type = some (m0, shift, rshift))
    (hsz : fixP.fx_size ≤ 4) :
    ∃ r code v mask, md_apply_fix W fixP valP buf = some r
      ∧ md_chars_to_number W buf fixP.fx_size = some code
      ∧ reloc_switch W fixP.fx_r_type (canon_val W valP) = some (v, mask, shift, rshift)
      ∧ (0 ≤ toSigned W (canon_val W valP) → mask = m0)
      ∧ (mask = m0
          ∨ (fixP.fx_r_type = BFD_RELOC_8_PCREL ∧ mask = m0 ||| 0x80)
          ∨ (fixP.fx_r_type = BFD_RELOC_16_PCREL ∧ mask = m0 ||| 0x8000)
          ∨ (fixP.fx_r_type = BFD_RELOC_PROPELLER_PCREL10 ∧ mask = m0 ||| 0x04000000))
      ∧ r.buf = md_number_to_chars buf
          ((code &&& bitnot W mask)
            ||| (shlW W (final_val W fixP r.fixP.fx_done v >>> rshift) shift &&& mask))
          fixP.fx_size
      ∧ (∀ i, i < 8 * fixP.fx_size →
          (byte_at r.buf (i / 8)).testBit (i % 8) =
            if mask.testBit i then
              (shlW W (final_val W fixP r.fixP.fx_done v >>> rshift) shift).testBit i
            else (byte_at buf (i / 8)).testBit (i % 8))
      ∧ (∀ j, fixP.fx_size ≤ j → r.buf j = buf j) := by
  obtain ⟨code, hc⟩ := md_chars_to_number_some W buf fixP.fx_size hsz
  obtain ⟨v, mask, hs, _, h0, hdisj⟩ := switch_table W hW fixP.fx_r_type valP m0 shift rshift ht
  have hW32 : 32 ≤ W := by rcases hW with rfl | rfl <;> omega
  have hfix := md_apply_fix_eq W fixP valP buf code v mask shift rshift hc hs
  refine ⟨_, code, v, mask, hfix, hc, hs, h0, hdisj, rfl, ?_, ?_⟩
  · intro i hi
    simp only []
    rw [md_number_to_chars_testBit buf _ fixP.fx_size i hi,
      merge_testBit W code _ mask shift rshift i (by omega),
      (md_chars_to_number_testBit W hW32 buf fixP.fx_size code hc).2 i hi]
    rfl
  · intro j hj
    simp only [md_number_to_chars]
    rw [if_neg (by omega)]

/-- C1 (counterexample): for `BFD_RELOC_8_PCREL` the table mask is `0x7f`, so
bit 7 lies outside it; on the value -1 and the prior byte 0 the byte written
back is `0xff`: bit 7 has changed, and the merge formula taken with the table
mask would have given `0x7f`. -/
theorem C1_counterexample :
    table_entry BFD_RELOC_8_PCREL = some (0x7f, 0, 0)
      ∧ (md_apply_fix 32 (resolved_fix BFD_RELOC_8_PCREL 1) 0xFFFFFFFF (fun _ => 0)).map
          (fun r => (r.buf 0, r.overflow)) = some (0xff, false)
      ∧ Nat.testBit 0x7f 7 = false
      ∧ Nat.testBit 0xff 7 ≠ Nat.testBit 0 7
      ∧ ((0 &&& bitnot 32 0x7f) ||| (shlW 32 (0xFFFFFFFF >>> 0) 0 &&& 0x7f)) % 256 ≠ 0xff := by
  decide

/-- C1 (witness): the amended claim at a `BFD_RELOC_PROPELLER_DST` fixup. -/
theorem C1_merge_frame_witness :
    (32 = 32 ∨ 32 = 64)
      ∧ table_entry (resolved_fix BFD_RELOC_PROPELLER_DST 4).fx_r_type = some (0x0003fe00, 9, 2)
      ∧ (resolved_fix BFD_RELOC_PROPELLER_DST 4).fx_size ≤ 4
      ∧ ∃ r code v mask,
        md_apply_fix 32 (resolved_fix BFD_RELOC_PROPELLER_DST 4) 0x40 (fun _ => 0xff) = some r
        ∧ md_chars_to_number 32 (fun _ => 0xff) (resolved_fix BFD_RELOC_PROPELLER_DST 4).fx_size
            = some code
        ∧ reloc_switch 32 (resolved_fix BFD_RELOC_PROPELLER_DST 4).fx_r_type (canon_val 32 0x40)
            = some (v, mask, 9, 2)
        ∧ (0 ≤ toSigned 32 (canon_val 32 0x40) → mask = 0x0003fe00)
        ∧ (mask = 0x0003fe00
            ∨ ((resolved_fix BFD_RELOC_PROPELLER_DST 4).fx_r_type = BFD_RELOC_8_PCREL
                ∧ mask = 0x0003fe00 ||| 0x80)
            ∨ ((resolved_fix BFD_RELOC_PROPELLER_DST 4).fx_r_type = BFD_RELOC_16_PCREL
                ∧ mask = 0x0003fe00 ||| 0x8000)
            ∨ ((resolved_fix BFD_RELOC_PROPELLER_DST 4).fx_r_type = BFD_RELOC_PROPELLER_PCREL10
                ∧ mask = 0x0003fe00 ||| 0x04000000))
        ∧ r.buf = md_number_to_chars (fun _ => 0xff)
            ((code &&& bitnot 32 mask)
              ||| (shlW 32 (final_val 32 (resolved_fix BFD_RELOC_PROPELLER_DST 4)
                    r.fixP.fx_done v >>> 2) 9 &&& mask))
            (resolved_fix BFD_RELOC_PROPELLER_DST 4).fx_size
        ∧ (∀ i, i < 8 * (resolved_fix BFD_RELOC_PROPELLER_DST 4).fx_size →
            (byte_at r.buf (i / 8)).testBit (i % 8) =
              if mask.testBit i then
                (shlW 32 (final_val 32 (resolved_fix BFD_RELOC_PROPELLER_DST 4)
                  r.fixP.fx_done v >>> 2) 9).testBit i
              else (byte_at (fun _ => 0xff) (i / 8)).testBit (i % 8))
        ∧ (∀ j, (resolved_fix BFD_RELOC_PROPELLER_DST 4).fx_size ≤ j → r.buf j = 0xff) :=
  ⟨Or.inl rfl, rfl, by decide,
    C1_merge_frame 32 (Or.inl rfl) (resolved_fix BFD_RELOC_PROPELLER_DST 4) 0x40 (fun _ => 0xff)
      0x0003fe00 9 2 rfl (by decide)⟩

/-- C2 (witness): the value `0x200` on a four-byte source-immediate field. -/
theorem C2_src_imm_overflow_iff_witness :
    (64 = 32 ∨ 64 = 64)
      ∧ (resolved_fix BFD_RELOC_PROPELLER_SRC_IMM 4).fx_addsy = none
      ∧ (resolved_fix BFD_RELOC_PROPELLER_SRC_IMM 4).fx_subsy = none
      ∧ (resolved_fix BFD_RELOC_PROPELLER_SRC_IMM 4).fx_pcrel = false
      ∧ (resolved_fix BFD_RELOC_PROPELLER_SRC_IMM 4).fx_r_type = BFD_RELOC_PROPELLER_SRC_IMM
      ∧ (resolved_fix BFD_RELOC_PROPELLER_SRC_IMM 4).fx_size ≤ 4
      ∧ ∃ r, md_apply_fix 64 (resolved_fix BFD_RELOC_PROPELLER_SRC_IMM 4) 0x200 (fun _ => 0)
            = some r
        ∧ r.valP = canon_val 64 0x200
        ∧ (r.overflow = true ↔ (toSigned 64 r.valP < 0 ∨ 511 < toSigned 64 r.valP))
        ∧ ((0x200 : Nat) = 0x200 → r.overflow = true)
        ∧ ((0x200 : Nat) = 0x1ff → r.overflow = false) :=
  ⟨Or.inr rfl, rfl, rfl, rfl, rfl, by decide,
    C2_src_imm_overflow_iff 64 (Or.inr rfl) (resolved_fix BFD_RELOC_PROPELLER_SRC_IMM 4) 0x200
      (fun _ => 0) rfl rfl rfl rfl (by decide)⟩

/-- The mask of a non-negative displacement leaves the top bit of the field as
it was: `BFD_RELOC_8_PCREL`, displacement 5, on a byte that already holds
`0x80` gives `0x85` without overflow.  `md_assemble` never leaves such a byte
in the field of an 8-bit pc-relative fixup (see `brs_compact_field_zero`). -/
theorem narrow_pcrel_prior_top_bit :
    (md_apply_fix 64 (resolved_fix BFD_RELOC_8_PCREL 1) 5 (fun _ => 0x80)).map
        (fun r => (toSigned 64 r.valP, r.overflow, md_chars_to_number 64 r.buf 1))
      = some (5, false, some 0x85)
    ∧ (0x85 : Nat) % 2 ^ 8 ≠ 5 % 2 ^ 8
    ∧ Nat.testBit 0x85 7 = true := by
  decide

/-- C4 (failing input): `BFD_RELOC_PROPELLER_PCREL10`, displacement
-0x04000000 (|d| >= 512) on a four-byte field holding 0: no overflow is
reported and the word written back is `0x04000000`, the subtract bit with
magnitude 0.  The positive displacement 0x04000000 is reported. -/
theorem C4_pcrel10_missed_overflow :
    (md_apply_fix 32 (resolved_fix BFD_RELOC_PROPELLER_PCREL10 4) (toValueT 32 (-0x04000000))
        (fun _ => 0)).map
        (fun r => (toSigned 32 r.valP, r.overflow, md_chars_to_number 32 r.buf 4))
      = some (-0x04000000, false, some 0x04000000)
    ∧ (md_apply_fix 64 (resolved_fix BFD_RELOC_PROPELLER_PCREL10 4) (toValueT 64 (-0x04000000))
        (fun _ => 0)).map
        (fun r => (toSigned 64 r.valP, r.overflow, md_chars_to_number 64 r.buf 4))
      = some (-0x04000000, false, some 0x04000000)
    ∧ (md_apply_fix 64 (resolved_fix BFD_RELOC_PROPELLER_PCREL10 4) (toValueT 64 0x04000000)
        (fun _ => 0)).map (fun r => (toSigned 64 r.valP, r.overflow))
      = some (0x04000000, true) := by
  decide

/-- C6 (failing input): `BFD_RELOC_PROPELLER_DST`, byte address 0x2000000
(>= 2048, < 2^31) on a four-byte field holding 0: no overflow is reported and
the destination field is written as 0.  The same address is reported for
`BFD_RELOC_PROPELLER_SRC`. -/
theorem C6_dst_missed_overflow :
    (md_apply_fix 32 (resolved_fix BFD_RELOC_PROPELLER_DST 4) 0x2000000 (fun _ => 0)).map
        (fun r => (toSigned 32 r.valP, r.overflow, md_chars_to_number 32 r.buf 4))
      = some (0x2000000, false, some 0)
    ∧ (md_apply_fix 64 (resolved_fix BFD_RELOC_PROPELLER_DST 4) 0x2000000 (fun _ => 0)).map
        (fun r => (toSigned 64 r.valP, r.overflow, md_chars_to_number 64 r.buf 4))
      = some (0x2000000, false, some 0)
    ∧ (md_apply_fix 64 (resolved_fix BFD_RELOC_PROPELLER_SRC 4) 0x2000000 (fun _ => 0)).map
        (fun r => (toSigned 64 r.valP, r.overflow))
      = some (0x2000000, true) := by
  decide

theorem subW_toValueT (W : Nat) (hW : W = 32 ∨ W = 64) (o : Int) (s : Nat) :
    subW W (toValueT W o) s = toValueT W (o - s) := by
  unfold subW toValueT
  rcases hW with rfl | rfl <;> norm_num <;> omega

theorem toSigned_toValueT (W : Nat) (hW : W = 32 ∨ W = 64) (v : Int)
    (h1 : -(2 : Int) ^ (W - 1) ≤ v) (h2 : v < (2 : Int) ^ (W - 1)) :
    toSigned W (toValueT W v) = v := by
  unfold toSigned toValueT
  rcases hW with rfl | rfl <;> norm_num at h1 h2 ⊢ <;> split <;> omega

/-- C7: for a fixup with a symbol whose kind the BFD knows, `tc_gen_reloc` returns a record whose
address is the frag address plus `fx_where`, and whose addend is `fx_offset`
minus `fx_size` for the five pc-relative kinds and `fx_offset` itself for
every other supported kind (as `valueT` words, hence exactly whenever the
difference is representable). -/
theorem C7_tc_gen_reloc_addend {H : Type} (W : Nat) (hW : W = 32 ∨ W = 64)
    (lookup : bfd_reloc_code_real_type → Option H) (fixp : fixS) (howto : H)
    (sym : Nat) (hsym : fixp.fx_addsy = some sym)
    (hk : fixp.fx_r_type ≠ BFD_RELOC_NONE)
    (hl : lookup fixp.fx_r_type = some howto) :
    ∃ r, tc_gen_reloc W lookup fixp = some r
      ∧ r.address = (fixp.fr_address + fixp.fx_where) % 2 ^ W
      ∧ (fixp.fr_address + fixp.fx_where < 2 ^ W →
          r.address = fixp.fr_address + fixp.fx_where)
      ∧ (is_pcrel_kind fixp.fx_r_type = true →
          r.addend = toValueT W (fixp.fx_offset - fixp.fx_size)
          ∧ (-(2 : Int) ^ (W - 1) ≤ fixp.fx_offset - fixp.fx_size →
              fixp.fx_offset - fixp.fx_size < (2 : Int) ^ (W - 1) →
              toSigned W r.addend = fixp.fx_offset - fixp.fx_size))
      ∧ (is_pcrel_kind fixp.fx_r_type = false →
          r.addend = toValueT W fixp.fx_offset
          ∧ (-(2 : Int) ^ (W - 1) ≤ fixp.fx_offset → fixp.fx_offset < (2 : Int) ^ (W - 1) →
              toSigned W r.addend = fixp.fx_offset)) := by
  have hsub := subW_toValueT W hW fixp.fx_offset fixp.fx_size
  have ha : tc_gen_reloc W lookup fixp = some
      { sym_ptr_ptr := some sym, address := addW W fixp.fr_address fixp.fx_where,
        addend := if is_pcrel_kind fixp.fx_r_type = true
          then subW W (toValueT W fixp.fx_offset) fixp.fx_size
          else toValueT W fixp.fx_offset,
        howto := howto } := by
    unfold tc_gen_reloc
    rw [hsym]
    cases hkind : fixp.fx_r_type <;> rw [hkind] at hl hk <;>
      simp [is_pcrel_kind, hl] at hk ⊢
  refine ⟨_, ha, rfl, fun h => Nat.mod_eq_of_lt h, ?_, ?_⟩
  · intro hp
    simp only [hp, if_true, hsub]
    exact ⟨trivial, fun a1 a2 => toSigned_toValueT W hW _ a1 a2⟩
  · intro hp
    simp only [hp, Bool.false_eq_true, if_false]
    exact ⟨trivial, fun a1 a2 => toSigned_toValueT W hW _ a1 a2⟩

theorem number_bytes_one (v : Nat) : number_bytes v 1 = [v % 2 ^ 8] := by
  have e8 : (0xff : Nat) = 2 ^ 8 - 1 := by norm_num
  simp only [number_bytes, md_number_to_chars, List.range, List.range.loop, List.map,
    e8, Nat.and_pow_two_sub_one_eq_mod, Nat.shiftRight_eq_div_pow]
  simp

theorem number_bytes_two (v : Nat) : number_bytes v 2 = [v % 2 ^ 8, v / 2 ^ 8 % 2 ^ 8] := by
  have e8 : (0xff : Nat) = 2 ^ 8 - 1 := by norm_num
  simp only [number_bytes, md_number_to_chars, List.range, List.range.loop, List.map,
    e8, Nat.and_pow_two_sub_one_eq_mod, Nat.shiftRight_eq_div_pow]
  simp

theorem number_bytes_three (v : Nat) :
    number_bytes v 3 = [v % 2 ^ 8, v / 2 ^ 8 % 2 ^ 8, v / 2 ^ 16 % 2 ^ 8] := by
  have e8 : (0xff : Nat) = 2 ^ 8 - 1 := by norm_num
  simp only [number_bytes, md_number_to_chars, List.range, List.range.loop, List.map,
    e8, Nat.and_pow_two_sub_one_eq_mod, Nat.shiftRight_eq_div_pow]
  simp

theorem number_bytes_four (v : Nat) :
    number_bytes v 4
      = [v % 2 ^ 8, v / 2 ^ 8 % 2 ^ 8, v / 2 ^ 16 % 2 ^ 8, v / 2 ^ 24 % 2 ^ 8] := by
  have e8 : (0xff : Nat) = 2 ^ 8 - 1 := by norm_num
  simp only [number_bytes, md_number_to_chars, List.range, List.range.loop, List.map,
    e8, Nat.and_pow_two_sub_one_eq_mod, Nat.shiftRight_eq_div_pow]
  simp

theorem or_shift_add (a b n : Nat) (hb : b < 2 ^ n) : (a <<< n) ||| b = a * 2 ^ n + b := by
  rw [Nat.shiftLeft_eq, Nat.mul_comm a, Nat.mul_add_lt_is_or hb]

theorem pack_native_eq (K : OpcodeConsts) (c : Nat) (htag : K.PREFIX_PACK_NATIVE < 256) :
    pack_native K c
      = ((c / 2 ^ 26) % 2 ^ 6 * 2 ^ 18 + c % 2 ^ 18) * 2 ^ 8
        + (K.PREFIX_PACK_NATIVE ||| (c / 2 ^ 22) % 2 ^ 4)
      ∧ (K.PREFIX_PACK_NATIVE ||| (c / 2 ^ 22) % 2 ^ 4) < 2 ^ 8 := by
  have e18 : (0x3FFFF : Nat) = 2 ^ 18 - 1 := by norm_num
  have e6 : (0x3F : Nat) = 2 ^ 6 - 1 := by norm_num
  have e4 : (0xF : Nat) = 2 ^ 4 - 1 := by norm_num
  have h18 : c % 2 ^ 18 < 2 ^ 18 := Nat.mod_lt _ (Nat.two_pow_pos 18)
  have h4 : (c / 2 ^ 22) % 2 ^ 4 < 2 ^ 8 := by
    have := Nat.mod_lt (c / 2 ^ 22) (Nat.two_pow_pos 4)
    omega
  have hb : (K.PREFIX_PACK_NATIVE ||| (c / 2 ^ 22) % 2 ^ 4) < 2 ^ 8 :=
    Nat.or_lt_two_pow (by norm_num; exact htag) h4
  refine ⟨?_, hb⟩
  unfold pack_native
  simp only [e18, e6, e4, Nat.and_pow_two_sub_one_eq_mod, Nat.shiftRight_eq_div_pow]
  rw [Nat.or_comm (c % 2 ^ 18), or_shift_add _ _ 18 h18,
    Nat.or_comm (K.PREFIX_PACK_NATIVE ||| _), or_shift_add _ _ 8 hb]

theorem tag_or_eq_add (t e : Nat) (ht : t &&& 0xF = 0) (he : e < 2 ^ 4) : t ||| e = t + e := by
  have e4 : (0xF : Nat) = 2 ^ 4 - 1 := by norm_num
  rw [e4, Nat.and_pow_two_sub_one_eq_mod] at ht
  have h : t = (t / 2 ^ 4) <<< 4 := by
    rw [Nat.shiftLeft_eq]; omega
  rw [h, or_shift_add _ _ 4 he, ← Nat.shiftLeft_eq, ← h]

/-- C8: for every 32-bit native word `c`, `pack_native c` is
`TAG | ((c >> 22) & 0xF) | (P << 8)` with the 24-bit payload
`P = (c & 0x3FFFF) | (((c >> 26) & 0x3F) << 18)`.  With a tag that fits a byte
and has a zero low nibble, the low byte is the tag plus bits 22..25 of `c`,
and the three bytes above it hold `P`: the low 18 bits of `c` with the top 6
bits of `c` above them. -/
theorem C8_pack_native_layout (K : OpcodeConsts) (c : Nat) (hc : c < 2 ^ 32)
    (htag : K.PREFIX_PACK_NATIVE < 256) (hnib : K.PREFIX_PACK_NATIVE &&& 0xF = 0) :
    pack_native K c
        = K.PREFIX_PACK_NATIVE ||| ((c >>> 22) &&& 0xF)
          ||| (((c &&& 0x3FFFF) ||| (((c >>> 26) &&& 0x3F) <<< 18)) <<< 8)
      ∧ ((c &&& 0x3FFFF) ||| (((c >>> 26) &&& 0x3F) <<< 18)) < 2 ^ 24
      ∧ pack_native K c < 2 ^ 32
      ∧ pack_native K c % 2 ^ 8 = K.PREFIX_PACK_NATIVE + (c / 2 ^ 22) % 2 ^ 4
      ∧ pack_native K c / 2 ^ 8 = (c &&& 0x3FFFF) ||| (((c >>> 26) &&& 0x3F) <<< 18)
      ∧ ((c &&& 0x3FFFF) ||| (((c >>> 26) &&& 0x3F) <<< 18)) % 2 ^ 18 = c % 2 ^ 18
      ∧ ((c &&& 0x3FFFF) ||| (((c >>> 26) &&& 0x3F) <<< 18)) / 2 ^ 18 = c / 2 ^ 26
      ∧ number_bytes (pack_native K c) 4
          = [K.PREFIX_PACK_NATIVE + (c / 2 ^ 22) % 2 ^ 4,
             c % 2 ^ 8, (c / 2 ^ 8) % 2 ^ 8,
             (c / 2 ^ 26) * 2 ^ 2 + (c / 2 ^ 16) % 2 ^ 2] := by
  have e18 : (0x3FFFF : Nat) = 2 ^ 18 - 1 := by norm_num
  have e6 : (0x3F : Nat) = 2 ^ 6 - 1 := by norm_num
  have e8 : (0xff : Nat) = 2 ^ 8 - 1 := by norm_num
  have h18 : c % 2 ^ 18 < 2 ^ 18 := Nat.mod_lt _ (Nat.two_pow_pos 18)
  have hP : (c &&& 0x3FFFF) ||| (((c >>> 26) &&& 0x3F) <<< 18)
      = (c / 2 ^ 26) % 2 ^ 6 * 2 ^ 18 + c % 2 ^ 18 := by
    simp only [e18, e6, Nat.and_pow_two_sub_one_eq_mod, Nat.shiftRight_eq_div_pow]
    rw [Nat.or_comm, or_shift_add _ _ 18 h18]
  obtain ⟨hp, hb⟩ := pack_native_eq K c htag
  have h4 : (c / 2 ^ 22) % 2 ^ 4 < 2 ^ 4 := Nat.mod_lt _ (Nat.two_pow_pos 4)
  rw [tag_or_eq_add _ _ hnib h4] at hp hb
  refine ⟨rfl, ?_, ?_, ?_, ?_, ?_, ?_, ?_⟩
  · rw [hP]; omega
  · rw [hp]; omega
  · rw [hp]; omega
  · rw [hp, hP]; omega
  · rw [hP]; omega
  · rw [hP]; omega
  · rw [number_bytes_four]
    generalize pack_native K c = p at hp
    generalize hy : (c / 2 ^ 26) % 2 ^ 6 * 2 ^ 18 + c % 2 ^ 18 = y at hp
    generalize ht : K.PREFIX_PACK_NATIVE + (c / 2 ^ 22) % 2 ^ 4 = t at hp hb
    have q0 : p % 2 ^ 8 = t := by omega
    have q1 : p / 2 ^ 8 = y := by omega
    have q2 : p / 2 ^ 16 = y / 2 ^ 8 := by omega
    have q3 : p / 2 ^ 24 = y / 2 ^ 16 := by omega
    rw [q0, q1, q2, q3, ← hy]
    clear hP hp hnib q0 q1 q2 q3 hy ht hb
    simp only [List.cons.injEq, and_true, true_and]
    refine ⟨?_, ?_, ?_⟩ <;> omega

theorem number_bytes_length (v n : Nat) : (number_bytes v n).length = n := by
  simp [number_bytes]

theorem number_bytes_mod32 (v : Nat) : number_bytes (v % 2 ^ 32) 4 = number_bytes v 4 := by
  rw [number_bytes_four, number_bytes_four]
  simp only [List.cons.injEq, and_true]
  refine ⟨?_, ?_, ?_, ?_⟩ <;> omega

theorem tail_no_compaction (K : OpcodeConsts) (op : propeller_opcode) (st : AsmLocals)
    (hskip : op.compress_type = 0 ∨ compress_attempt K op st = .skip) :
    md_assemble_tail K true op st = emit K true (pack_fallback K true st) := by
  unfold md_assemble_tail
  rcases hskip with h | h
  · simp [h]
  · simp [h]

/-- C9: with compression active and no compact form chosen for a single
native word (size 4, no secondary word): when the condition is 0xF the word
is replaced by `pack_native (word)` and exactly 4 bytes are emitted; otherwise
exactly 5 bytes are emitted, the `MACRO_NATIVE` tag byte followed by the
unmodified native word, least significant byte first. -/
theorem C9_fallback_encoding (K : OpcodeConsts) (op : propeller_opcode) (st : AsmLocals)
    (hnat : K.MACRO_NATIVE < 256)
    (hnc : st.insn_compressed = false)
    (hskip : op.compress_type = 0 ∨ compress_attempt K op st = .skip)
    (h2c : st.insn2.code = 0) (h2r : st.insn2.reloc.type = BFD_RELOC_NONE)
    (h4 : st.size = 4) :
    (st.condmask = 0xf →
      ∃ o, md_assemble_tail K true op st = .emitted o
        ∧ o.reserved = 4
        ∧ o.bytes = number_bytes (pack_native K st.insn.code) 4
        ∧ o.bytes.length = 4)
    ∧ (st.condmask ≠ 0xf →
      ∃ o, md_assemble_tail K true op st = .emitted o
        ∧ o.reserved = 5
        ∧ o.bytes = K.MACRO_NATIVE :: number_bytes st.insn.code 4
        ∧ o.bytes = [K.MACRO_NATIVE, st.insn.code % 2 ^ 8, st.insn.code / 2 ^ 8 % 2 ^ 8,
            st.insn.code / 2 ^ 16 % 2 ^ 8, st.insn.code / 2 ^ 24 % 2 ^ 8]
        ∧ o.bytes.length = 5) := by
  rw [tail_no_compaction K op st hskip]
  constructor
  · intro hc
    have hp : pack_fallback K true st = { st with
        insn := { st.insn with code := pack_native K st.insn.code % 2 ^ 32 }
        reloc_prefix := 1
        insn_compressed := true } := by
      simp [pack_fallback, hnc, h4, hc]
    rw [hp]
    simp [emit, h2c, h2r, h4, number_bytes_length]
    exact number_bytes_mod32 _
  · intro hc
    have hp : pack_fallback K true st = st := by
      simp [pack_fallback, hc]
    rw [hp]
    have h1 : number_bytes K.MACRO_NATIVE 1 = [K.MACRO_NATIVE] := by
      rw [number_bytes_one]
      congr 1
      omega
    simp [emit, h2c, h2r, h4, hnc, number_bytes_length, h1, number_bytes_four]

theorem two_bytes (b x : Nat) (hb : b < 256) (hx : x < 256) :
    number_bytes (b ||| shlW 32 x 8) 2 = [b, x] := by
  have h1 : shlW 32 x 8 = x <<< 8 := by
    unfold shlW
    rw [Nat.shiftLeft_eq]
    omega
  rw [h1, Nat.or_comm, or_shift_add x b 8 (by omega), number_bytes_two]
  simp only [List.cons.injEq, and_true]
  constructor <;> omega

theorem nibble_byte (s copc : Nat) (hs : s ≤ 15) (hc : copc < 256) :
    shlW 32 s 4 = s <<< 4 ∧ (s <<< 4) ||| copc < 256 := by
  have h1 : shlW 32 s 4 = s <<< 4 := by
    unfold shlW
    rw [Nat.shiftLeft_eq]
    omega
  refine ⟨h1, ?_⟩
  have : s <<< 4 < 2 ^ 8 := by rw [Nat.shiftLeft_eq]; omega
  exact Nat.or_lt_two_pow this (by omega)

theorem tag_or_reg (p d : Nat) (hp : p < 256) (hd : d ≤ 15) : p ||| d < 256 :=
  Nat.or_lt_two_pow (n := 8) (by omega) (by omega)

/-- C10: for a register-operand-class (`COMPRESS_XOP`) instruction that is not
the dual-instruction form, with condition 0xF, effect bits equal to the
opcode's expected default, resolved operands and destination d <= 15, a source
field s <= 15 yields exactly two bytes and no fixup: `PREFIX_REGIMM4 | d` then
`(s << 4) | copc` when the source is an immediate, `PREFIX_REGREG | d` then
`(s << 4) | copc` when it is a register. -/
theorem C10_xop_two_byte_forms (K : OpcodeConsts) (op : propeller_opcode) (st : AsmLocals)
    (hx : op.compress_type = K.COMPRESS_XOP) (hx0 : K.COMPRESS_XOP ≠ 0)
    (hcopc : op.copc < 256)
    (hp1 : K.PREFIX_REGIMM4 < 256) (hp2 : K.PREFIX_REGREG < 256)
    (hnc : st.insn_compressed = false) (hxm : st.xmov_flag = false)
    (hcond : st.condmask = 0xf)
    (hop1 : st.op1.reloc.type = BFD_RELOC_NONE) (hop2 : st.op2.reloc.type = BFD_RELOC_NONE)
    (heff : (st.insn.code >>> 23) &&& 0x7 = expectedeffects K op.copc)
    (hd : (st.insn.code >>> 9) &&& 0x1ff ≤ 15)
    (hs : st.insn.code &&& 0x1ff ≤ 15) :
    ((st.insn.code >>> 22) &&& 0x1 ≠ 0 →
      ∃ o, md_assemble_tail K true op st = .emitted o
        ∧ o.reserved = 2
        ∧ o.bytes = [K.PREFIX_REGIMM4 ||| ((st.insn.code >>> 9) &&& 0x1ff),
                     ((st.insn.code &&& 0x1ff) <<< 4) ||| op.copc]
        ∧ o.fixes = [])
    ∧ ((st.insn.code >>> 22) &&& 0x1 = 0 →
      ∃ o, md_assemble_tail K true op st = .emitted o
        ∧ o.reserved = 2
        ∧ o.bytes = [K.PREFIX_REGREG ||| ((st.insn.code >>> 9) &&& 0x1ff),
                     ((st.insn.code &&& 0x1ff) <<< 4) ||| op.copc]
        ∧ o.fixes = []) := by
  obtain ⟨hn1, hn2⟩ := nibble_byte _ _ hs hcopc
  have hd' : ¬ (st.insn.code >>> 9) &&& 0x1ff > 15 := by omega
  have hs' : ¬ st.insn.code &&& 0x1ff > 15 := by omega
  have hs19 : ¬ st.insn.code &&& 0x1ff = FFFFFFFF_REGNUM := by
    unfold FFFFFFFF_REGNUM; omega
  have hct : op.compress_type ≠ 0 := by rw [hx]; exact hx0
  constructor
  · intro himm
    have himm2 := himm
    simp at himm2
    have ha : compress_attempt K op st = .done
        ((K.PREFIX_REGIMM4 ||| ((st.insn.code >>> 9) &&& 0x1ff))
          ||| shlW 32 (((st.insn.code &&& 0x1ff) <<< 4) ||| op.copc) 8) 2 := by
      simp [compress_attempt, xmov_fields, compress_xop, hcond, hop1, hop2, hxm, hx, heff,
        hd', hs', himm, himm2, hs19, hn1]
    have hb := two_bytes _ _ (tag_or_reg _ _ hp1 hd) hn2
    simp [md_assemble_tail, hct, hnc, ha, compress_done, hcond, pack_fallback, emit,
      number_bytes_length, hb, fix_for]
  · intro himm
    have himm2 := himm
    simp at himm2
    have ha : compress_attempt K op st = .done
        ((K.PREFIX_REGREG ||| ((st.insn.code >>> 9) &&& 0x1ff))
          ||| shlW 32 (((st.insn.code &&& 0x1ff) <<< 4) ||| op.copc) 8) 2 := by
      simp [compress_attempt, xmov_fields, compress_xop, hcond, hop1, hop2, hxm, hx, heff,
        hd', hs', himm, himm2, hs19, hn1]
    have hb := two_bytes _ _ (tag_or_reg _ _ hp2 hd) hn2
    simp [md_assemble_tail, hct, hnc, ha, compress_done, hcond, pack_fallback, emit,
      number_bytes_length, hb, fix_for]

/-- C5 (witness): the canonicalization of -1 on a 64-bit host. -/
theorem C5_canonicalization_witness :
    (64 = 32 ∨ 64 = 64)
    ∧ ((-(2 : Int) ^ 31 ≤ toSigned 64 (canon_val 64 (toValueT 64 (-1)))
        ∧ toSigned 64 (canon_val 64 (toValueT 64 (-1))) < (2 : Int) ^ 31
        ∧ (toSigned 64 (canon_val 64 (toValueT 64 (-1))) - (-1)) % (2 : Int) ^ 32 = 0)
      ∧ (∀ c : Int, -(2 : Int) ^ 31 ≤ c → c < (2 : Int) ^ 31 →
          (c - (-1)) % (2 : Int) ^ 32 = 0 →
          c = toSigned 64 (canon_val 64 (toValueT 64 (-1))))
      ∧ canon_val 64 (canon_val 64 (toValueT 64 (-1))) = canon_val 64 (toValueT 64 (-1))
      ∧ (-(2 : Int) ^ 31 ≤ (-1 : Int) → (-1 : Int) < (2 : Int) ^ 31 →
          canon_val 64 (toValueT 64 (-1)) = toValueT 64 (-1))
      ∧ canon_offset 64 (-1) = toSigned 64 (canon_val 64 (toValueT 64 (-1)))
      ∧ canon_offset 64 (canon_offset 64 (-1)) = canon_offset 64 (-1)
      ∧ (-(2 : Int) ^ 31 ≤ (-1 : Int) → (-1 : Int) < (2 : Int) ^ 31 →
          canon_offset 64 (-1) = -1)) :=
  ⟨Or.inr rfl, C5_canonicalization 64 (Or.inr rfl) (-1)⟩

/-- C7 (witness): the sample `BFD_RELOC_16_PCREL` fixup, for a BFD that
represents every kind by itself. -/
theorem C7_tc_gen_reloc_addend_witness :
    (64 = 32 ∨ 64 = 64)
    ∧ sample_pcrel_fix.fx_addsy = some 0
    ∧ sample_pcrel_fix.fx_r_type ≠ BFD_RELOC_NONE
    ∧ (fun k => some k : bfd_reloc_code_real_type → Option bfd_reloc_code_real_type)
        sample_pcrel_fix.fx_r_type = some BFD_RELOC_16_PCREL
    ∧ ∃ r, tc_gen_reloc 64 (fun k => some k) sample_pcrel_fix = some r
      ∧ r.address = (sample_pcrel_fix.fr_address + sample_pcrel_fix.fx_where) % 2 ^ 64
      ∧ (sample_pcrel_fix.fr_address + sample_pcrel_fix.fx_where < 2 ^ 64 →
          r.address = sample_pcrel_fix.fr_address + sample_pcrel_fix.fx_where)
      ∧ (is_pcrel_kind sample_pcrel_fix.fx_r_type = true →
          r.addend = toValueT 64 (sample_pcrel_fix.fx_offset - sample_pcrel_fix.fx_size)
          ∧ (-(2 : Int) ^ (64 - 1) ≤ sample_pcrel_fix.fx_offset - sample_pcrel_fix.fx_size →
              sample_pcrel_fix.fx_offset - sample_pcrel_fix.fx_size < (2 : Int) ^ (64 - 1) →
              toSigned 64 r.addend = sample_pcrel_fix.fx_offset - sample_pcrel_fix.fx_size))
      ∧ (is_pcrel_kind sample_pcrel_fix.fx_r_type = false →
          r.addend = toValueT 64 sample_pcrel_fix.fx_offset
          ∧ (-(2 : Int) ^ (64 - 1) ≤ sample_pcrel_fix.fx_offset →
              sample_pcrel_fix.fx_offset < (2 : Int) ^ (64 - 1) →
              toSigned 64 r.addend = sample_pcrel_fix.fx_offset)) :=
  ⟨Or.inr rfl, rfl, by decide, rfl,
    C7_tc_gen_reloc_addend 64 (Or.inr rfl) (fun k => some k) sample_pcrel_fix
      BFD_RELOC_16_PCREL 0 rfl (by decide) rfl⟩

/-- C8 (witness): packing the word `0xA0FC0205` under the sample constants. -/
theorem C8_pack_native_layout_witness :
    (0xA0FC0205 : Nat) < 2 ^ 32
    ∧ sample_consts.PREFIX_PACK_NATIVE < 256
    ∧ sample_consts.PREFIX_PACK_NATIVE &&& 0xF = 0
    ∧ (pack_native sample_consts 0xA0FC0205
        = sample_consts.PREFIX_PACK_NATIVE ||| ((0xA0FC0205 >>> 22) &&& 0xF)
          ||| (((0xA0FC0205 &&& 0x3FFFF) ||| (((0xA0FC0205 >>> 26) &&& 0x3F) <<< 18)) <<< 8)
      ∧ ((0xA0FC0205 &&& 0x3FFFF) ||| (((0xA0FC0205 >>> 26) &&& 0x3F) <<< 18)) < 2 ^ 24
      ∧ pack_native sample_consts 0xA0FC0205 < 2 ^ 32
      ∧ pack_native sample_consts 0xA0FC0205 % 2 ^ 8
          = sample_consts.PREFIX_PACK_NATIVE + (0xA0FC0205 / 2 ^ 22) % 2 ^ 4
      ∧ pack_native sample_consts 0xA0FC0205 / 2 ^ 8
          = (0xA0FC0205 &&& 0x3FFFF) ||| (((0xA0FC0205 >>> 26) &&& 0x3F) <<< 18)
      ∧ ((0xA0FC0205 &&& 0x3FFFF) ||| (((0xA0FC0205 >>> 26) &&& 0x3F) <<< 18)) % 2 ^ 18
          = 0xA0FC0205 % 2 ^ 18
      ∧ ((0xA0FC0205 &&& 0x3FFFF) ||| (((0xA0FC0205 >>> 26) &&& 0x3F) <<< 18)) / 2 ^ 18
          = 0xA0FC0205 / 2 ^ 26
      ∧ number_bytes (pack_native sample_consts 0xA0FC0205) 4
          = [sample_consts.PREFIX_PACK_NATIVE + (0xA0FC0205 / 2 ^ 22) % 2 ^ 4,
             0xA0FC0205 % 2 ^ 8, (0xA0FC0205 / 2 ^ 8) % 2 ^ 8,
             (0xA0FC0205 / 2 ^ 26) * 2 ^ 2 + (0xA0FC0205 / 2 ^ 16) % 2 ^ 2]) :=
  ⟨by decide, by decide, by decide,
    C8_pack_native_layout sample_consts 0xA0FC0205 (by decide) (by decide) (by decide)⟩

/-- C9 (witness): a native word of an opcode without compressibility class,
under the sample constants. -/
theorem C9_fallback_encoding_witness :
    sample_consts.MACRO_NATIVE < 256
    ∧ (single_word 0x5C7C0010 0xf).insn_compressed = false
    ∧ ((sample_op 0 0).compress_type = 0
        ∨ compress_attempt sample_consts (sample_op 0 0) (single_word 0x5C7C0010 0xf)
            = Attempt.skip)
    ∧ (single_word 0x5C7C0010 0xf).insn2.code = 0
    ∧ (single_word 0x5C7C0010 0xf).insn2.reloc.type = BFD_RELOC_NONE
    ∧ (single_word 0x5C7C0010 0xf).size = 4
    ∧ (((single_word 0x5C7C0010 0xf).condmask = 0xf →
        ∃ o, md_assemble_tail sample_consts true (sample_op 0 0) (single_word 0x5C7C0010 0xf)
            = AsmResult.emitted o
          ∧ o.reserved = 4
          ∧ o.bytes = number_bytes
              (pack_native sample_consts (single_word 0x5C7C0010 0xf).insn.code) 4
          ∧ o.bytes.length = 4)
      ∧ ((single_word 0x5C7C0010 0xf).condmask ≠ 0xf →
        ∃ o, md_assemble_tail sample_consts true (sample_op 0 0) (single_word 0x5C7C0010 0xf)
            = AsmResult.emitted o
          ∧ o.reserved = 5
          ∧ o.bytes = sample_consts.MACRO_NATIVE
              :: number_bytes (single_word 0x5C7C0010 0xf).insn.code 4
          ∧ o.bytes = [sample_consts.MACRO_NATIVE,
              (single_word 0x5C7C0010 0xf).insn.code % 2 ^ 8,
              (single_word 0x5C7C0010 0xf).insn.code / 2 ^ 8 % 2 ^ 8,
              (single_word 0x5C7C0010 0xf).insn.code / 2 ^ 16 % 2 ^ 8,
              (single_word 0x5C7C0010 0xf).insn.code / 2 ^ 24 % 2 ^ 8]
          ∧ o.bytes.length = 5)) :=
  ⟨by decide, rfl, Or.inl rfl, rfl, rfl, rfl,
    C9_fallback_encoding sample_consts (sample_op 0 0) (single_word 0x5C7C0010 0xf)
      (by decide) rfl (Or.inl rfl) rfl rfl rfl⟩

/-- C10 (witness): `add r3, #5` as a register-operand-class word with default
effects, under the sample constants. -/
theorem C10_xop_two_byte_forms_witness :
    (sample_op 1 0).compress_type = sample_consts.COMPRESS_XOP
    ∧ sample_consts.COMPRESS_XOP ≠ 0
    ∧ (sample_op 1 0).copc < 256
    ∧ sample_consts.PREFIX_REGIMM4 < 256
    ∧ sample_consts.PREFIX_REGREG < 256
    ∧ (single_word 0x80FC0605 0xf).insn_compressed = false
    ∧ (single_word 0x80FC0605 0xf).xmov_flag = false
    ∧ (single_word 0x80FC0605 0xf).condmask = 0xf
    ∧ (single_word 0x80FC0605 0xf).op1.reloc.type = BFD_RELOC_NONE
    ∧ (single_word 0x80FC0605 0xf).op2.reloc.type = BFD_RELOC_NONE
    ∧ ((single_word 0x80FC0605 0xf).insn.code >>> 23) &&& 0x7
        = expectedeffects sample_consts (sample_op 1 0).copc
    ∧ ((single_word 0x80FC0605 0xf).insn.code >>> 9) &&& 0x1ff ≤ 15
    ∧ (single_word 0x80FC0605 0xf).insn.code &&& 0x1ff ≤ 15
    ∧ ((((single_word 0x80FC0605 0xf).insn.code >>> 22) &&& 0x1 ≠ 0 →
        ∃ o, md_assemble_tail sample_consts true (sample_op 1 0) (single_word 0x80FC0605 0xf)
            = AsmResult.emitted o
          ∧ o.reserved = 2
          ∧ o.bytes = [sample_consts.PREFIX_REGIMM4
                        ||| (((single_word 0x80FC0605 0xf).insn.code >>> 9) &&& 0x1ff),
                       (((single_word 0x80FC0605 0xf).insn.code &&& 0x1ff) <<< 4)
                        ||| (sample_op 1 0).copc]
          ∧ o.fixes = [])
      ∧ (((single_word 0x80FC0605 0xf).insn.code >>> 22) &&& 0x1 = 0 →
        ∃ o, md_assemble_tail sample_consts true (sample_op 1 0) (single_word 0x80FC0605 0xf)
            = AsmResult.emitted o
          ∧ o.reserved = 2
          ∧ o.bytes = [sample_consts.PREFIX_REGREG
                        ||| (((single_word 0x80FC0605 0xf).insn.code >>> 9) &&& 0x1ff),
                       (((single_word 0x80FC0605 0xf).insn.code &&& 0x1ff) <<< 4)
                        ||| (sample_op 1 0).copc]
          ∧ o.fixes = [])) :=
  ⟨rfl, by decide, by decide, by decide, by decide, rfl, rfl, rfl, rfl, rfl, by decide,
    by decide, by decide,
    C10_xop_two_byte_forms sample_consts (sample_op 1 0) (single_word 0x80FC0605 0xf)
      rfl (by decide) (by decide) (by decide) (by decide) rfl rfl rfl rfl rfl (by decide)
      (by decide) (by decide)⟩

theorem or_eq_zero_iff' (a b : Nat) : a ||| b = 0 ↔ a = 0 ∧ b = 0 := by
  constructor
  · intro h
    have hb : ∀ i, (a.testBit i || b.testBit i) = false := by
      intro i
      rw [← Nat.testBit_or, h, Nat.zero_testBit]
    constructor
    · apply Nat.eq_of_testBit_eq
      intro i
      have := hb i
      rw [Nat.zero_testBit]
      cases h1 : a.testBit i <;> simp_all
    · apply Nat.eq_of_testBit_eq
      intro i
      have := hb i
      rw [Nat.zero_testBit]
      cases h1 : b.testBit i <;> simp_all
  · rintro ⟨rfl, rfl⟩
    rfl

theorem or_and_right (a b m : Nat) : (a ||| b) &&& m = (a &&& m) ||| (b &&& m) := by
  rw [Nat.and_comm, Nat.and_or_distrib_left, Nat.and_comm m a, Nat.and_comm m b]

theorem patched_bits (W : Nat) (hW : 32 ≤ W) (buf : Nat → Nat) (size code t mask merged : Nat)
    (hc : md_chars_to_number W buf size = some code)
    (hm : ∀ i, i < W → merged.testBit i = if mask.testBit i then t.testBit i else code.testBit i) :
    ∃ code', md_chars_to_number W (md_number_to_chars buf merged size) size = some code'
      ∧ ∀ i, i < 8 * size →
          code'.testBit i = if mask.testBit i then t.testBit i else code.testBit i := by
  have hsz := (md_chars_to_number_testBit W hW buf size code hc).1
  obtain ⟨code', hc'⟩ := md_chars_to_number_some W (md_number_to_chars buf merged size) size hsz
  have hb := (md_chars_to_number_testBit W hW _ size code' hc').2
  refine ⟨code', hc', fun i hi => ?_⟩
  rw [hb i hi, md_number_to_chars_testBit buf merged size i hi, hm i (by omega)]

theorem mod_eq_of_low_bits (a b n : Nat) (h : ∀ i, i < n → a.testBit i = b.testBit i) :
    a % 2 ^ n = b % 2 ^ n := by
  apply Nat.eq_of_testBit_eq
  intro i
  rw [Nat.testBit_mod_two_pow, Nat.testBit_mod_two_pow]
  by_cases hi : i < n
  · simp [hi, h i hi]
  · simp [hi]

theorem switch_pcrel10 (W : Nat) (hW : W = 32 ∨ W = 64) (v : Nat) :
    reloc_switch W BFD_RELOC_PROPELLER_PCREL10 (canon_val W v) =
      if 2 ^ 31 ≤ v % 2 ^ 32 then
        some ((2 ^ 32 - v % 2 ^ 32) ||| 2 ^ 26, (2 ^ 9 - 1) ||| 2 ^ 26, 0, 0)
      else some (canon_val W v, 2 ^ 9 - 1, 0, 0) := by
  have e1 : (0xffffffff : Nat) = 2 ^ 32 - 1 := by norm_num
  have hm := (canon_val_mod W hW v).1
  simp only [reloc_switch, and_msb, hm]
  split_ifs with h
  · have hneg : negW W (canon_val W v) &&& 0xffffffff = 2 ^ 32 - v % 2 ^ 32 := by
      rw [e1, Nat.and_pow_two_sub_one_eq_mod, canon_val_eq W hW]
      unfold negW
      rcases hW with rfl | rfl <;> split <;> omega
    rw [hneg]
    rfl
  · rfl
theorem pcrel10_neg_overflow (W : Nat) (hW : W = 32 ∨ W = 64) (n : Nat) (hn : n ≤ 2 ^ 31) :
    overflows W (n ||| 2 ^ 26) ((2 ^ 9 - 1) ||| 2 ^ 26) 0 0
      = decide (n % 2 ^ 26 / 2 ^ 9 ≠ 0 ∨ n / 2 ^ 27 ≠ 0) := by
  have e1 : (0xffffffff : Nat) = 2 ^ 32 - 1 := by norm_num
  have hv : n ||| 2 ^ 26 < 2 ^ 32 := Nat.or_lt_two_pow (by omega) (by norm_num)
  have h32 : (2 : Nat) ^ 32 ≤ 2 ^ W := by rcases hW with rfl | rfl <;> norm_num
  have hnot : bitnot W ((2 ^ 9 - 1) ||| 2 ^ 26) = (2 ^ 26 - 2 ^ 9) ||| (2 ^ W - 2 ^ 27) := by
    rcases hW with rfl | rfl <;> decide
  have hz1 : 2 ^ 26 &&& (2 ^ 26 - 2 ^ 9) = 0 := by decide
  have hz2 : 2 ^ 26 &&& (2 ^ W - 2 ^ 27) = 0 := by
    rcases hW with rfl | rfl <;> decide
  have hW27 : 27 ≤ W := by rcases hW with rfl | rfl <;> omega
  have hnW : n % 2 ^ W = n := Nat.mod_eq_of_lt (by omega)
  unfold overflows
  rw [shifted_eq, hnot, e1, Nat.and_pow_two_sub_one_eq_mod]
  simp only [Nat.pow_zero, Nat.div_one, Nat.mul_one]
  rw [Nat.mod_eq_of_lt (by omega : n ||| 2 ^ 26 < 2 ^ W), Nat.mod_eq_of_lt hv,
    Nat.and_or_distrib_left, or_and_right, or_and_right, hz1, hz2, Nat.or_zero, Nat.or_zero,
    and_range n 26 9 (by omega), and_range n W 27 hW27, hnW]
  apply decide_eq_decide.mpr
  rw [Ne, or_eq_zero_iff']
  omega

/-- The behaviour of `md_apply_fix` on a resolved
`BFD_RELOC_PROPELLER_PCREL10` fixup of four bytes with canonical displacement
d: the in-range cases, the positive overflow, and the exact set of negative
displacements below -511 for which no overflow is reported (those whose
magnitude is `0x04000000 + k` with k <= 511). -/
theorem pcrel10_behaviour (W : Nat) (hW : W = 32 ∨ W = 64) (fixP : fixS) (valP : Nat)
    (buf : Nat → Nat)
    (hadd : fixP.fx_addsy = none) (hsub : fixP.fx_subsy = none) (hpc : fixP.fx_pcrel = false)
    (hk : fixP.fx_r_type = BFD_RELOC_PROPELLER_PCREL10) (hsz : fixP.fx_size = 4) :
    ∃ r code code', md_apply_fix W fixP valP buf = some r
      ∧ md_chars_to_number W buf fixP.fx_size = some code
      ∧ md_chars_to_number W r.buf fixP.fx_size = some code'
      ∧ r.valP = canon_val W valP
      ∧ (-511 ≤ toSigned W r.valP → toSigned W r.valP ≤ -1 →
          r.overflow = false
          ∧ ((code' % 2 ^ 9 : Nat) : Int) = -toSigned W r.valP
          ∧ code'.testBit 26 = true)
      ∧ (0 ≤ toSigned W r.valP → toSigned W r.valP ≤ 511 →
          r.overflow = false
          ∧ ((code' % 2 ^ 9 : Nat) : Int) = toSigned W r.valP
          ∧ code'.testBit 26 = code.testBit 26)
      ∧ (512 ≤ toSigned W r.valP → r.overflow = true)
      ∧ (toSigned W r.valP ≤ -512 →
          (r.overflow = false ↔
            (0x04000000 ≤ -toSigned W r.valP ∧ -toSigned W r.valP ≤ 0x040001ff))) := by
  have hsz4 : fixP.fx_size ≤ 4 := by omega
  obtain ⟨code, hc⟩ := md_chars_to_number_some W buf fixP.fx_size hsz4
  have hW32 : 32 ≤ W := by rcases hW with rfl | rfl <;> omega
  have hd := toSigned_canon_val W hW valP
  have hcm := canon_val_mod W hW valP
  have hsw := switch_pcrel10 W hW valP
  rw [← hk] at hsw
  have hu : valP % 2 ^ 32 < 2 ^ 32 := Nat.mod_lt _ (Nat.two_pow_pos 32)
  by_cases hf : 2 ^ 31 ≤ valP % 2 ^ 32
  · rw [if_pos hf] at hsw
    have hfix := md_apply_fix_eq W fixP valP buf code _ _ _ _ hc hsw
    simp only [final_val_resolved W fixP _ hadd hsub hpc] at hfix
    obtain ⟨code', hc', hbits⟩ := patched_bits W hW32 buf fixP.fx_size code
      (shifted W ((2 ^ 32 - valP % 2 ^ 32) ||| 2 ^ 26) 0 0) ((2 ^ 9 - 1) ||| 2 ^ 26) _ hc
      (fun i hi => merge_testBit W code _ _ 0 0 i hi)
    have hn : 2 ^ 32 - valP % 2 ^ 32 ≤ 2 ^ 31 := by omega
    have hv : (2 ^ 32 - valP % 2 ^ 32) ||| 2 ^ 26 < 2 ^ 32 :=
      Nat.or_lt_two_pow (by omega) (by norm_num)
    have h32 : (2 : Nat) ^ 32 ≤ 2 ^ W := by rcases hW with rfl | rfl <;> norm_num
    have ht : shifted W ((2 ^ 32 - valP % 2 ^ 32) ||| 2 ^ 26) 0 0
        = (2 ^ 32 - valP % 2 ^ 32) ||| 2 ^ 26 := by
      rw [shifted_eq]
      simp only [Nat.pow_zero, Nat.div_one, Nat.mul_one]
      exact Nat.mod_eq_of_lt (by omega)
    rw [ht] at hbits
    have hov := pcrel10_neg_overflow W hW _ hn
    have hlow : code' % 2 ^ 9 = (2 ^ 32 - valP % 2 ^ 32) % 2 ^ 9 := by
      apply mod_eq_of_low_bits
      intro i hi
      have h26 : ¬ 26 = i := by omega
      have hm : ((2 ^ 9 - 1) ||| 2 ^ 26).testBit i = true := by
        rw [Nat.testBit_or, Nat.testBit_two_pow_sub_one]
        simp [hi]
      have hx : ((2 ^ 32 - valP % 2 ^ 32) ||| 2 ^ 26).testBit i
          = (2 ^ 32 - valP % 2 ^ 32).testBit i := by
        rw [Nat.testBit_or, Nat.testBit_two_pow]
        simp [h26]
      rw [hbits i (by omega), hm, if_pos rfl, hx]
    have hb26 : code'.testBit 26 = true := by
      have hm : ((2 ^ 9 - 1) ||| 2 ^ 26).testBit 26 = true := by
        rw [Nat.testBit_or, Nat.testBit_two_pow_self]
        simp
      have hx : ((2 ^ 32 - valP % 2 ^ 32) ||| 2 ^ 26).testBit 26 = true := by
        rw [Nat.testBit_or, Nat.testBit_two_pow_self]
        simp
      rw [hbits 26 (by omega), hm, if_pos rfl, hx]
    refine ⟨_, code, code', hfix, hc, hc', rfl, ?_, ?_, ?_, ?_⟩
    · intro h1 h2
      change -511 ≤ toSigned W (canon_val W valP) at h1
      show overflows W _ _ 0 0 = false ∧ _ = -toSigned W (canon_val W valP) ∧ _
      rw [hd] at h1 ⊢
      rw [if_neg (by omega)] at h1 ⊢
      refine ⟨?_, ?_, hb26⟩
      · rw [hov, decide_eq_false_iff_not]
        omega
      · rw [hlow]
        omega
    · intro h1 _
      exfalso
      change 0 ≤ toSigned W (canon_val W valP) at h1
      rw [hd, if_neg (by omega)] at h1
      omega
    · intro h1
      exfalso
      change 512 ≤ toSigned W (canon_val W valP) at h1
      rw [hd, if_neg (by omega)] at h1
      omega
    · intro h1
      change toSigned W (canon_val W valP) ≤ -512 at h1
      show overflows W _ _ 0 0 = false ↔ (_ ≤ -toSigned W (canon_val W valP)
        ∧ -toSigned W (canon_val W valP) ≤ _)
      rw [hd] at h1 ⊢
      rw [if_neg (by omega)] at h1 ⊢
      rw [hov, decide_eq_false_iff_not]
      omega
  · rw [if_neg hf] at hsw
    have hfix := md_apply_fix_eq W fixP valP buf code _ _ _ _ hc hsw
    simp only [final_val_resolved W fixP _ hadd hsub hpc] at hfix
    have hmask : 2 ^ 9 - 1 < 2 ^ (8 * fixP.fx_size) := by
      rw [hsz]; norm_num
    obtain ⟨code', hc', hand, hframe⟩ := patched_word W hW32 buf fixP.fx_size code
      (shifted W (canon_val W valP) 0 0) (2 ^ 9 - 1) _ hc hmask
      (fun i hi => merge_testBit W code (canon_val W valP) (2 ^ 9 - 1) 0 0 i hi)
    have hlow := and_low_eq _ _ _ hand
    rw [shifted_eq] at hlow
    have hov : overflows W (canon_val W valP) (2 ^ 9 - 1) 0 0
        = decide (2 ^ 9 ≤ valP % 2 ^ 32) := by
      rw [overflows_low W 9 _ 0 0 hW (by omega), shifted_eq]
      congr 1
      rcases hW with rfl | rfl <;> simp <;> omega
    have hb26 : code'.testBit 26 = code.testBit 26 :=
      hframe 26 (by omega) (by rw [Nat.testBit_two_pow_sub_one]; decide)
    refine ⟨_, code, code', hfix, hc, hc', rfl, ?_, ?_, ?_, ?_⟩
    · intro _ h2
      exfalso
      change toSigned W (canon_val W valP) ≤ -1 at h2
      rw [hd, if_pos (by omega)] at h2
      omega
    · intro h1 h2
      change toSigned W (canon_val W valP) ≤ 511 at h2
      show overflows W _ _ 0 0 = false ∧ _ = toSigned W (canon_val W valP) ∧ _
      rw [hd] at h2 ⊢
      rw [if_pos (by omega)] at h2 ⊢
      refine ⟨?_, ?_, hb26⟩
      · rw [hov, decide_eq_false_iff_not]
        omega
      · rcases hW with rfl | rfl <;> norm_num at hlow hcm ⊢ <;> omega
    · intro h1
      change 512 ≤ toSigned W (canon_val W valP) at h1
      show overflows W _ _ 0 0 = true
      rw [hd, if_pos (by omega)] at h1
      rw [hov, decide_eq_true_iff]
      omega
    · intro h1
      exfalso
      change toSigned W (canon_val W valP) ≤ -512 at h1
      rw [hd, if_pos (by omega)] at h1
      omega

theorem dst_overflow (W : Nat) (hW : W = 32 ∨ W = 64) (c : Nat) :
    overflows W c (2 ^ 18 - 2 ^ 9) 9 2
      = decide ((c / 2 ^ 2 * 2 ^ 9) % 2 ^ W % 2 ^ 32 / 2 ^ 18 ≠ 0) := by
  have e1 : (0xffffffff : Nat) = 2 ^ 32 - 1 := by norm_num
  have hnot : bitnot W (2 ^ 18 - 2 ^ 9) = (2 ^ 9 - 1) ||| (2 ^ W - 2 ^ 18) := by
    rcases hW with rfl | rfl <;> decide
  have hW18 : 18 ≤ W := by rcases hW with rfl | rfl <;> omega
  unfold overflows
  rw [shifted_eq, hnot, e1, Nat.and_pow_two_sub_one_eq_mod, Nat.and_or_distrib_left,
    Nat.and_pow_two_sub_one_eq_mod, and_range _ W 18 hW18]
  apply decide_eq_decide.mpr
  rw [Ne, or_eq_zero_iff']
  rcases hW with rfl | rfl <;> omega

/-- The behaviour of `md_apply_fix` on resolved `BFD_RELOC_PROPELLER_SRC` and
`BFD_RELOC_PROPELLER_DST` fixups (fields of three or four bytes) with a
non-negative canonical byte address a: the in-range cases, the overflow of
the source kind, and the exact set of addresses from 2048 on for which the
destination kind reports no overflow (those whose word address a / 4 has
bits 9..22 clear). -/
theorem src_dst_behaviour (W : Nat) (hW : W = 32 ∨ W = 64) (fixP : fixS) (valP : Nat)
    (buf : Nat → Nat)
    (hadd : fixP.fx_addsy = none) (hsub : fixP.fx_subsy = none) (hpc : fixP.fx_pcrel = false)
    (hk : fixP.fx_r_type = BFD_RELOC_PROPELLER_SRC ∨ fixP.fx_r_type = BFD_RELOC_PROPELLER_DST)
    (hsz : 3 ≤ fixP.fx_size ∧ fixP.fx_size ≤ 4) :
    ∃ r code', md_apply_fix W fixP valP buf = some r
      ∧ md_chars_to_number W r.buf fixP.fx_size = some code'
      ∧ r.valP = canon_val W valP
      ∧ (fixP.fx_r_type = BFD_RELOC_PROPELLER_SRC →
          (0 ≤ toSigned W r.valP → toSigned W r.valP ≤ 2047 →
            r.overflow = false ∧ ((code' % 2 ^ 9 : Nat) : Int) = toSigned W r.valP / 4)
          ∧ (2048 ≤ toSigned W r.valP → r.overflow = true))
      ∧ (fixP.fx_r_type = BFD_RELOC_PROPELLER_DST →
          (0 ≤ toSigned W r.valP → toSigned W r.valP ≤ 2047 →
            r.overflow = false
            ∧ ((code' / 2 ^ 9 % 2 ^ 9 : Nat) : Int) = toSigned W r.valP / 4)
          ∧ (2048 ≤ toSigned W r.valP →
              (r.overflow = false ↔ toSigned W r.valP / 4 / 2 ^ 9 % 2 ^ 14 = 0))) := by
  obtain ⟨code, hc⟩ := md_chars_to_number_some W buf fixP.fx_size hsz.2
  have hW32 : 32 ≤ W := by rcases hW with rfl | rfl <;> omega
  have hd := toSigned_canon_val W hW valP
  have hce := canon_val_eq W hW valP
  have hu : valP % 2 ^ 32 < 2 ^ 32 := Nat.mod_lt _ (Nat.two_pow_pos 32)
  rcases hk with hk | hk
  · have hsw : reloc_switch W fixP.fx_r_type (canon_val W valP)
        = some (canon_val W valP, 2 ^ 9 - 1, 0, 2) := by
      rw [hk]; rfl
    have hfix := md_apply_fix_eq W fixP valP buf code _ _ _ _ hc hsw
    simp only [final_val_resolved W fixP _ hadd hsub hpc] at hfix
    have hmask : 2 ^ 9 - 1 < 2 ^ (8 * fixP.fx_size) := by
      have : 2 ^ 9 ≤ 2 ^ (8 * fixP.fx_size) := Nat.pow_le_pow_right (by decide) (by omega)
      omega
    obtain ⟨code', hc', hand, _⟩ := patched_word W hW32 buf fixP.fx_size code
      (shifted W (canon_val W valP) 0 2) (2 ^ 9 - 1) _ hc hmask
      (fun i hi => merge_testBit W code (canon_val W valP) (2 ^ 9 - 1) 0 2 i hi)
    have hlow := and_low_eq _ _ _ hand
    rw [shifted_eq] at hlow
    have hov := overflows_low W 9 (canon_val W valP) 0 2 hW (by omega)
    rw [shifted_eq] at hov
    refine ⟨_, code', hfix, hc', rfl, ?_, ?_⟩
    · intro _
      constructor
      · intro h1 h2
        change 0 ≤ toSigned W (canon_val W valP) at h1
        change toSigned W (canon_val W valP) ≤ 2047 at h2
        show overflows W (canon_val W valP) (2 ^ 9 - 1) 0 2 = false
          ∧ _ = toSigned W (canon_val W valP) / 4
        rw [hd] at h1 h2 ⊢
        have hlt : valP % 2 ^ 32 < 2 ^ 31 := by
          by_contra hge
          rw [if_neg hge] at h1
          omega
        rw [if_pos hlt] at h1 h2 ⊢
        rw [if_pos hlt] at hce
        rw [hce] at hlow hov
        refine ⟨?_, ?_⟩
        · rw [hce, hov, decide_eq_false_iff_not]
          rcases hW with rfl | rfl <;> omega
        · rw [hlow]
          rcases hW with rfl | rfl <;> omega
      · intro h1
        change 2048 ≤ toSigned W (canon_val W valP) at h1
        show overflows W (canon_val W valP) (2 ^ 9 - 1) 0 2 = true
        rw [hd] at h1
        have hlt : valP % 2 ^ 32 < 2 ^ 31 := by
          by_contra hge
          rw [if_neg hge] at h1
          omega
        rw [if_pos hlt] at h1 hce
        rw [hce] at hov
        rw [hce, hov, decide_eq_true_iff]
        rcases hW with rfl | rfl <;> omega
    · intro h
      rw [hk] at h
      exact absurd h (by decide)
  · have hsw : reloc_switch W fixP.fx_r_type (canon_val W valP)
        = some (canon_val W valP, 2 ^ 18 - 2 ^ 9, 9, 2) := by
      rw [hk]; rfl
    have hfix := md_apply_fix_eq W fixP valP buf code _ _ _ _ hc hsw
    simp only [final_val_resolved W fixP _ hadd hsub hpc] at hfix
    have hmask : 2 ^ 18 - 2 ^ 9 < 2 ^ (8 * fixP.fx_size) := by
      have : 2 ^ 24 ≤ 2 ^ (8 * fixP.fx_size) := Nat.pow_le_pow_right (by decide) (by omega)
      omega
    obtain ⟨code', hc', hand, _⟩ := patched_word W hW32 buf fixP.fx_size code
      (shifted W (canon_val W valP) 9 2) (2 ^ 18 - 2 ^ 9) _ hc hmask
      (fun i hi => merge_testBit W code (canon_val W valP) (2 ^ 18 - 2 ^ 9) 9 2 i hi)
    rw [and_range _ 18 9 (by omega), and_range _ 18 9 (by omega), shifted_eq] at hand
    have hov := dst_overflow W hW (canon_val W valP)
    refine ⟨_, code', hfix, hc', rfl, ?_, ?_⟩
    · intro h
      rw [hk] at h
      exact absurd h (by decide)
    · intro _
      constructor
      · intro h1 h2
        change 0 ≤ toSigned W (canon_val W valP) at h1
        change toSigned W (canon_val W valP) ≤ 2047 at h2
        show overflows W (canon_val W valP) (2 ^ 18 - 2 ^ 9) 9 2 = false
          ∧ _ = toSigned W (canon_val W valP) / 4
        rw [hd] at h1 h2 ⊢
        have hlt : valP % 2 ^ 32 < 2 ^ 31 := by
          by_contra hge
          rw [if_neg hge] at h1
          omega
        rw [if_pos hlt] at h1 h2 ⊢
        rw [if_pos hlt] at hce
        rw [hce] at hand hov
        refine ⟨?_, ?_⟩
        · rw [hce, hov, decide_eq_false_iff_not]
          rcases hW with rfl | rfl <;> omega
        · rcases hW with rfl | rfl <;> omega
      · intro h1
        change 2048 ≤ toSigned W (canon_val W valP) at h1
        show overflows W (canon_val W valP) (2 ^ 18 - 2 ^ 9) 9 2 = false
          ↔ toSigned W (canon_val W valP) / 4 / 2 ^ 9 % 2 ^ 14 = 0
        rw [hd] at h1 ⊢
        have hlt : valP % 2 ^ 32 < 2 ^ 31 := by
          by_contra hge
          rw [if_neg hge] at h1
          omega
        rw [if_pos hlt] at h1 hce ⊢
        rw [hce] at hov
        rw [hce, hov, decide_eq_false_iff_not]
        rcases hW with rfl | rfl <;> omega

theorem shlW_eq (x k : Nat) (h : x * 2 ^ k < 2 ^ 32) : shlW 32 x k = x <<< k := by
  unfold shlW
  rw [Nat.shiftLeft_eq]
  exact Nat.mod_eq_of_lt h

theorem three_bytes (b0 b1 b2 : Nat) (h0 : b0 < 256) (h1 : b1 < 256) (h2 : b2 < 256) :
    number_bytes (b0 ||| shlW 32 (b1 ||| shlW 32 b2 8) 8) 3 = [b0, b1, b2] := by
  have e2 : shlW 32 b2 8 = b2 <<< 8 := shlW_eq _ _ (by omega)
  have e1 : b1 ||| b2 <<< 8 = b2 * 2 ^ 8 + b1 := by
    rw [Nat.or_comm, or_shift_add b2 b1 8 (by omega)]
  have e3 : shlW 32 (b2 * 2 ^ 8 + b1) 8 = (b2 * 2 ^ 8 + b1) <<< 8 := shlW_eq _ _ (by omega)
  rw [e2, e1, e3, Nat.or_comm, or_shift_add _ b0 8 (by omega), number_bytes_three]
  simp only [List.cons.injEq, and_true]
  refine ⟨?_, ?_, ?_⟩ <;> omega

theorem one_byte (b : Nat) (h : b < 256) : number_bytes b 1 = [b] := by
  rw [number_bytes_one]
  congr 1
  omega

/-- The end of `md_assemble` when the compression engine reaches
`compress_done` with the form `newcode` of `size` bytes (at most 3): the line
is emitted in `size` bytes when the condition is 0xF and in `size + 1` bytes,
led by the skip prefix, otherwise; no fixup is recorded. -/
theorem tail_done (K : OpcodeConsts) (op : propeller_opcode) (st : AsmLocals)
    (newcode size : Nat)
    (hct : op.compress_type ≠ 0) (hnc : st.insn_compressed = false)
    (ha : compress_attempt K op st = .done newcode size) (hsz : size ≤ 3) :
    md_assemble_tail K true op st = .emitted
      { reserved := if st.condmask ≠ 0xf then size + 1 else size,
        bytes :=
          if st.condmask ≠ 0xf then
            number_bytes (shlW 32 newcode 8
              ||| ((if size = 3 then K.PREFIX_SKIP3 else K.PREFIX_SKIP2)
                    ||| (bitnot 32 st.condmask &&& 0xf))) (size + 1)
          else number_bytes newcode size,
        fixes := [],
        compress_flag := true } := by
  have h4 : ¬ size > 4 := by omega
  have h5 : ¬ size + 1 > 4 := by omega
  by_cases hc : st.condmask = 0xf
  · simp [md_assemble_tail, hct, hnc, ha, compress_done, hc, pack_fallback, emit,
      number_bytes_length, fix_for, h4]
  · by_cases h3 : size = 3
    · simp [md_assemble_tail, hct, hnc, ha, compress_done, hc, pack_fallback, emit,
        number_bytes_length, fix_for, h3]
    · simp [md_assemble_tail, hct, hnc, ha, compress_done, hc, pack_fallback, emit,
        number_bytes_length, fix_for, h3, h5]
theorem xop_imm_attempt (K : OpcodeConsts) (op : propeller_opcode) (st : AsmLocals)
    (hx : op.compress_type = K.COMPRESS_XOP)
    (hxm : st.xmov_flag = false) (hcond : st.size ≤ 4 ∨ st.condmask = 0xf)
    (hop1 : st.op1.reloc.type = BFD_RELOC_NONE) (hop2 : st.op2.reloc.type = BFD_RELOC_NONE)
    (heff : (st.insn.code >>> 23) &&& 0x7 = expectedeffects K op.copc)
    (hd : (st.insn.code >>> 9) &&& 0x1ff ≤ 15)
    (himm : (st.insn.code >>> 22) &&& 0x1 ≠ 0) :
    compress_attempt K op st =
      if st.insn.code &&& 0x1ff > 15 then
        .done ((K.PREFIX_REGIMM12 ||| ((st.insn.code >>> 9) &&& 0x1ff))
          ||| shlW 32 (((st.insn.code &&& 0x1ff) &&& 0xff)
            ||| shlW 32 ((((st.insn.code &&& 0x1ff) >>> 8) &&& 0xf) ||| shlW 32 op.copc 4) 8) 8) 3
      else
        .done ((K.PREFIX_REGIMM4 ||| ((st.insn.code >>> 9) &&& 0x1ff))
          ||| shlW 32 (shlW 32 (st.insn.code &&& 0x1ff) 4 ||| op.copc) 8) 2 := by
  have hd' : ¬ (st.insn.code >>> 9) &&& 0x1ff > 15 := by omega
  have himm2 := himm
  simp at himm2
  have h0 : ¬ (st.size > 4 ∧ 0xf ≠ st.condmask ∧ st.xmov_flag = false) := by
    rintro ⟨a, b, _⟩
    rcases hcond with h | h
    · omega
    · exact b h.symm
  unfold compress_attempt
  rw [if_neg h0]
  by_cases hs : st.insn.code &&& 0x1ff > 15
  · simp [xmov_fields, compress_xop, hop1, hop2, hxm, hx, heff, hd', himm, himm2, hs]
  · simp [xmov_fields, compress_xop, hop1, hop2, hxm, hx, heff, hd', himm, himm2, hs]

theorem and_1ff_lt (x : Nat) : x &&& 0x1ff < 512 := by
  have e : (0x1ff : Nat) = 2 ^ 9 - 1 := by norm_num
  rw [e, Nat.and_pow_two_sub_one_eq_mod]
  omega

theorem imm12_bytes (s copc : Nat) (hs : s < 4096) (hc : copc < 16) :
    s &&& 0xff < 256
      ∧ ((s >>> 8) &&& 0xf) ||| shlW 32 copc 4 = (copc <<< 4) ||| (s >>> 8)
      ∧ (copc <<< 4) ||| (s >>> 8) < 256 := by
  have e8 : (0xff : Nat) = 2 ^ 8 - 1 := by norm_num
  have e4 : (0xf : Nat) = 2 ^ 4 - 1 := by norm_num
  have h1 : s >>> 8 < 2 ^ 4 := by
    rw [Nat.shiftRight_eq_div_pow]; omega
  refine ⟨?_, ?_, ?_⟩
  · rw [e8, Nat.and_pow_two_sub_one_eq_mod]; omega
  · rw [e4, Nat.and_pow_two_sub_one_of_lt_two_pow h1, shlW_eq _ _ (by omega), Nat.or_comm]
  · rw [or_shift_add copc _ 4 h1]; omega

/-- C11: for a register-operand-class instruction (plain form, resolved
operands) with destination d <= 15, effect bits equal to the opcode's default,
condition 0xF and an immediate source s: if s <= 15 (in particular s = 15) the
line is the 2-byte reg/imm4 form `PREFIX_REGIMM4 | d`, `(s << 4) | copc`; if
s >= 16 (in particular s = 16) it is the 3-byte reg/imm12 form
`PREFIX_REGIMM12 | d`, `s & 0xff`, `(copc << 4) | (s >> 8)`. -/
theorem C11_imm4_imm12_boundary (K : OpcodeConsts) (op : propeller_opcode) (st : AsmLocals)
    (hx : op.compress_type = K.COMPRESS_XOP) (hx0 : K.COMPRESS_XOP ≠ 0)
    (hcopc : op.copc < 16)
    (hp1 : K.PREFIX_REGIMM4 < 256) (hp2 : K.PREFIX_REGIMM12 < 256)
    (hnc : st.insn_compressed = false) (hxm : st.xmov_flag = false)
    (hcond : st.condmask = 0xf)
    (hop1 : st.op1.reloc.type = BFD_RELOC_NONE) (hop2 : st.op2.reloc.type = BFD_RELOC_NONE)
    (heff : (st.insn.code >>> 23) &&& 0x7 = expectedeffects K op.copc)
    (hd : (st.insn.code >>> 9) &&& 0x1ff ≤ 15)
    (himm : (st.insn.code >>> 22) &&& 0x1 ≠ 0) :
    (st.insn.code &&& 0x1ff ≤ 15 →
      ∃ o, md_assemble_tail K true op st = .emitted o
        ∧ o.reserved = 2
        ∧ o.bytes = [K.PREFIX_REGIMM4 ||| ((st.insn.code >>> 9) &&& 0x1ff),
                     ((st.insn.code &&& 0x1ff) <<< 4) ||| op.copc]
        ∧ o.fixes = [])
    ∧ (16 ≤ st.insn.code &&& 0x1ff →
      ∃ o, md_assemble_tail K true op st = .emitted o
        ∧ o.reserved = 3
        ∧ o.bytes = [K.PREFIX_REGIMM12 ||| ((st.insn.code >>> 9) &&& 0x1ff),
                     (st.insn.code &&& 0x1ff) &&& 0xff,
                     (op.copc <<< 4) ||| ((st.insn.code &&& 0x1ff) >>> 8)]
        ∧ o.fixes = []) := by
  have hct : op.compress_type ≠ 0 := by rw [hx]; exact hx0
  have ha := xop_imm_attempt K op st hx hxm (Or.inr hcond) hop1 hop2 heff hd himm
  have hs512 := and_1ff_lt st.insn.code
  constructor
  · intro hs
    rw [if_neg (by omega)] at ha
    obtain ⟨hn1, hn2⟩ := nibble_byte _ _ hs (by omega : op.copc < 256)
    rw [hn1] at ha
    refine ⟨_, tail_done K op st _ 2 hct hnc ha (by omega), by simp [hcond], ?_, rfl⟩
    simp only [hcond]
    exact two_bytes _ _ (tag_or_reg _ _ hp1 hd) hn2
  · intro hs
    rw [if_pos (by omega)] at ha
    obtain ⟨hb1, hb2, hb3⟩ := imm12_bytes (st.insn.code &&& 0x1ff) op.copc (by omega) hcopc
    rw [hb2] at ha
    refine ⟨_, tail_done K op st _ 3 hct hnc ha (by omega), by simp [hcond], ?_, rfl⟩
    simp only [hcond]
    exact three_bytes _ _ _ (tag_or_reg _ _ hp2 hd) hb1 hb3
/-- C11 (witness): `add r3, #16` as a register-operand-class word with default
effects under the sample constants: three bytes, reg/imm12 form. -/
theorem C11_imm4_imm12_boundary_witness :
    (sample_op 1 0).compress_type = sample_consts.COMPRESS_XOP
    ∧ sample_consts.COMPRESS_XOP ≠ 0
    ∧ (sample_op 1 0).copc < 16
    ∧ sample_consts.PREFIX_REGIMM4 < 256
    ∧ sample_consts.PREFIX_REGIMM12 < 256
    ∧ (single_word 0x80FC0610 0xf).insn_compressed = false
    ∧ (single_word 0x80FC0610 0xf).xmov_flag = false
    ∧ (single_word 0x80FC0610 0xf).condmask = 0xf
    ∧ (single_word 0x80FC0610 0xf).op1.reloc.type = BFD_RELOC_NONE
    ∧ (single_word 0x80FC0610 0xf).op2.reloc.type = BFD_RELOC_NONE
    ∧ ((single_word 0x80FC0610 0xf).insn.code >>> 23) &&& 0x7
        = expectedeffects sample_consts (sample_op 1 0).copc
    ∧ ((single_word 0x80FC0610 0xf).insn.code >>> 9) &&& 0x1ff ≤ 15
    ∧ ((single_word 0x80FC0610 0xf).insn.code >>> 22) &&& 0x1 ≠ 0
    ∧ 16 ≤ (single_word 0x80FC0610 0xf).insn.code &&& 0x1ff
    ∧ (((single_word 0x80FC0610 0xf).insn.code &&& 0x1ff ≤ 15 →
        ∃ o, md_assemble_tail sample_consts true (sample_op 1 0) (single_word 0x80FC0610 0xf)
            = AsmResult.emitted o
          ∧ o.reserved = 2
          ∧ o.bytes = [sample_consts.PREFIX_REGIMM4
                        ||| (((single_word 0x80FC0610 0xf).insn.code >>> 9) &&& 0x1ff),
                       (((single_word 0x80FC0610 0xf).insn.code &&& 0x1ff) <<< 4)
                        ||| (sample_op 1 0).copc]
          ∧ o.fixes = [])
      ∧ (16 ≤ (single_word 0x80FC0610 0xf).insn.code &&& 0x1ff →
        ∃ o, md_assemble_tail sample_consts true (sample_op 1 0) (single_word 0x80FC0610 0xf)
            = AsmResult.emitted o
          ∧ o.reserved = 3
          ∧ o.bytes = [sample_consts.PREFIX_REGIMM12
                        ||| (((single_word 0x80FC0610 0xf).insn.code >>> 9) &&& 0x1ff),
                       ((single_word 0x80FC0610 0xf).insn.code &&& 0x1ff) &&& 0xff,
                       ((sample_op 1 0).copc <<< 4)
                        ||| (((single_word 0x80FC0610 0xf).insn.code &&& 0x1ff) >>> 8)]
          ∧ o.fixes = [])) :=
  ⟨rfl, by decide, by decide, by decide, by decide, rfl, rfl, rfl, rfl, rfl, by decide,
    by decide, by decide, by decide,
    C11_imm4_imm12_boundary sample_consts (sample_op 1 0) (single_word 0x80FC0610 0xf)
      rfl (by decide) (by decide) (by decide) (by decide) rfl rfl rfl rfl rfl (by decide)
      (by decide) (by decide)⟩

theorem attempt_plain (K : OpcodeConsts) (op : propeller_opcode) (st : AsmLocals)
    (hxm : st.xmov_flag = false) (hcond : st.size ≤ 4 ∨ st.condmask = 0xf)
    (hop1 : st.op1.reloc.type = BFD_RELOC_NONE) (hop2 : st.op2.reloc.type = BFD_RELOC_NONE) :
    compress_attempt K op st =
      if op.compress_type = K.COMPRESS_XOP then
        compress_xop K op.copc false ((st.insn.code >>> 9) &&& 0x1ff) (st.insn.code &&& 0x1ff)
          ((st.insn.code >>> 22) &&& 0x1) ((st.insn.code >>> 23) &&& 0x7) 0
      else if op.compress_type = K.COMPRESS_MOV then
        compress_mov K false st.condmask ((st.insn.code >>> 9) &&& 0x1ff)
          (st.insn.code &&& 0x1ff) ((st.insn.code >>> 22) &&& 0x1)
          ((st.insn.code >>> 23) &&& 0x7) 0
      else .skip := by
  have h0 : ¬ (st.size > 4 ∧ 0xf ≠ st.condmask ∧ st.xmov_flag = false) := by
    rintro ⟨a, b, _⟩
    rcases hcond with h | h
    · omega
    · exact b h.symm
  unfold compress_attempt
  rw [if_neg h0]
  simp [xmov_fields, hop1, hop2, hxm]

theorem attempt_big_conditional (K : OpcodeConsts) (op : propeller_opcode) (st : AsmLocals)
    (hxm : st.xmov_flag = false) (hs : st.size > 4) (hc : st.condmask ≠ 0xf) :
    compress_attempt K op st = .skip := by
  unfold compress_attempt
  rw [if_pos ⟨hs, fun h => hc h.symm, hxm⟩]

theorem subW_4_1 : subW 32 4 1 = 3 := by
  unfold subW
  norm_num

theorem skip_fallback (K : OpcodeConsts) (op : propeller_opcode) (st : AsmLocals)
    (hnat : K.MACRO_NATIVE < 256)
    (hnc : st.insn_compressed = false)
    (hskip : compress_attempt K op st = .skip)
    (h2c : st.insn2.code = 0) (h2r : st.insn2.reloc.type = BFD_RELOC_NONE)
    (h4 : st.size = 4) :
    md_assemble_tail K true op st = .emitted
      { reserved := if st.condmask = 0xf then 4 else 5,
        bytes := if st.condmask = 0xf then number_bytes (pack_native K st.insn.code) 4
                 else K.MACRO_NATIVE :: number_bytes st.insn.code 4,
        fixes := if st.condmask = 0xf then
                   fix_for st.insn 1 3 ++ fix_for st.op1 1 3 ++ fix_for st.op2 1 3
                 else fix_for st.insn (1 + st.reloc_prefix) (subW 32 4 st.reloc_prefix)
                   ++ fix_for st.op1 (1 + st.reloc_prefix) (subW 32 4 st.reloc_prefix)
                   ++ fix_for st.op2 (1 + st.reloc_prefix) (subW 32 4 st.reloc_prefix),
        compress_flag := decide (st.condmask = 0xf) } := by
  rw [tail_no_compaction K op st (Or.inr hskip)]
  by_cases hc : st.condmask = 0xf
  · have hp : pack_fallback K true st = { st with
        insn := { st.insn with code := pack_native K st.insn.code % 2 ^ 32 }
        reloc_prefix := 1
        insn_compressed := true } := by
      simp [pack_fallback, hnc, h4, hc]
    rw [hp]
    simp [emit, h2c, h2r, h4, number_bytes_length, hc, subW_4_1, fix_for]
    exact number_bytes_mod32 _
  · have hp : pack_fallback K true st = st := by
      simp [pack_fallback, hc]
    rw [hp]
    have h1 : number_bytes K.MACRO_NATIVE 1 = [K.MACRO_NATIVE] := one_byte _ hnat
    simp [emit, h2c, h2r, h4, hnc, number_bytes_length, h1, hc]
theorem neg_byte (s : Nat) (h : s < 128) :
    negW 32 s &&& 0xff = (256 - s) % 256 ∧ (256 - s) % 256 < 256 := by
  have e8 : (0xff : Nat) = 2 ^ 8 - 1 := by norm_num
  refine ⟨?_, by omega⟩
  rw [e8, Nat.and_pow_two_sub_one_eq_mod]
  unfold negW
  omega

/-- C13: for a register-operand-class instruction (plain form, resolved
operands) whose destination field is above 15: when the destination is the
stack pointer (16), the source is an immediate n < 128 and the effect bits are
the default, `add` gives the two bytes `MACRO_ADDSP`, n and `sub` gives the two
bytes `MACRO_ADDSP`, (256 - n) mod 256 (condition 0xF); in every other case no
compact form is chosen and the line goes to the fallback. -/
theorem C13_dest_above_15 (K : OpcodeConsts) (op : propeller_opcode) (st : AsmLocals)
    (hx : op.compress_type = K.COMPRESS_XOP) (hx0 : K.COMPRESS_XOP ≠ 0)
    (hne : K.XOP_ADD ≠ K.XOP_SUB) (hmac : K.MACRO_ADDSP < 256)
    (hnc : st.insn_compressed = false) (hxm : st.xmov_flag = false)
    (hop1 : st.op1.reloc.type = BFD_RELOC_NONE) (hop2 : st.op2.reloc.type = BFD_RELOC_NONE)
    (hd : (st.insn.code >>> 9) &&& 0x1ff > 15) :
    (st.condmask = 0xf → (st.insn.code >>> 9) &&& 0x1ff = SP_REGNUM →
      (st.insn.code >>> 22) &&& 0x1 ≠ 0 → st.insn.code &&& 0x1ff < 128 →
      (st.insn.code >>> 23) &&& 0x7 = expectedeffects K op.copc → op.copc = K.XOP_ADD →
      ∃ o, md_assemble_tail K true op st = .emitted o
        ∧ o.reserved = 2
        ∧ o.bytes = [K.MACRO_ADDSP, st.insn.code &&& 0x1ff]
        ∧ o.fixes = [])
    ∧ (st.condmask = 0xf → (st.insn.code >>> 9) &&& 0x1ff = SP_REGNUM →
      (st.insn.code >>> 22) &&& 0x1 ≠ 0 → st.insn.code &&& 0x1ff < 128 →
      (st.insn.code >>> 23) &&& 0x7 = expectedeffects K op.copc → op.copc = K.XOP_SUB →
      ∃ o, md_assemble_tail K true op st = .emitted o
        ∧ o.reserved = 2
        ∧ o.bytes = [K.MACRO_ADDSP, (256 - (st.insn.code &&& 0x1ff)) % 256]
        ∧ o.fixes = [])
    ∧ (¬ ((st.insn.code >>> 9) &&& 0x1ff = SP_REGNUM ∧ (st.insn.code >>> 22) &&& 0x1 ≠ 0
          ∧ st.insn.code &&& 0x1ff < 128
          ∧ (st.insn.code >>> 23) &&& 0x7 = expectedeffects K op.copc
          ∧ (op.copc = K.XOP_ADD ∨ op.copc = K.XOP_SUB)) →
      compress_attempt K op st = .skip
        ∧ md_assemble_tail K true op st = emit K true (pack_fallback K true st)) := by
  have hct : op.compress_type ≠ 0 := by rw [hx]; exact hx0
  refine ⟨?_, ?_, ?_⟩
  · intro hcond hsp himm hs heff hadd
    have himm2 := himm
    simp at himm2
    have ha : compress_attempt K op st
        = .done (K.MACRO_ADDSP ||| shlW 32 (st.insn.code &&& 0x1ff) 8) 2 := by
      rw [attempt_plain K op st hxm (Or.inr hcond) hop1 hop2, if_pos hx]
      simp [compress_xop, heff, hsp, himm, himm2, hs, hadd, SP_REGNUM]
    refine ⟨_, tail_done K op st _ 2 hct hnc ha (by omega), by simp [hcond], ?_, rfl⟩
    simp only [hcond]
    exact two_bytes _ _ hmac (by omega)
  · intro hcond hsp himm hs heff hsub
    have himm2 := himm
    simp at himm2
    obtain ⟨hn1, hn2⟩ := neg_byte _ hs
    have hsub2 : ¬ K.XOP_SUB = K.XOP_ADD := fun h => hne h.symm
    have ha : compress_attempt K op st
        = .done (K.MACRO_ADDSP ||| shlW 32 ((256 - (st.insn.code &&& 0x1ff)) % 256) 8) 2 := by
      rw [attempt_plain K op st hxm (Or.inr hcond) hop1 hop2, if_pos hx]
      simp [compress_xop, heff, hsp, himm, himm2, hs, hsub, hsub2, hn1, SP_REGNUM]
    refine ⟨_, tail_done K op st _ 2 hct hnc ha (by omega), by simp [hcond], ?_, rfl⟩
    simp only [hcond]
    exact two_bytes _ _ hmac hn2
  · intro hnot
    have ha : compress_attempt K op st = .skip := by
      by_cases hbig : st.size > 4 ∧ st.condmask ≠ 0xf
      · exact attempt_big_conditional K op st hxm hbig.1 hbig.2
      · have hcond : st.size ≤ 4 ∨ st.condmask = 0xf := by
          by_cases h4 : st.size ≤ 4
          · exact Or.inl h4
          · right
            by_contra hc
            exact hbig ⟨by omega, hc⟩
        rw [attempt_plain K op st hxm hcond hop1 hop2, if_pos hx]
        unfold compress_xop
        by_cases heff : (st.insn.code >>> 23) &&& 0x7 = expectedeffects K op.copc
        · rw [if_neg (by simpa using heff), if_pos hd]
          simp only [Bool.false_eq_true, if_false]
          by_cases h1 : (st.insn.code >>> 9) &&& 0x1ff = SP_REGNUM
              ∧ (st.insn.code >>> 22) &&& 0x1 ≠ 0 ∧ st.insn.code &&& 0x1ff < 128
          · rw [if_pos h1]
            have h2 : ¬ (op.copc = K.XOP_ADD ∨ op.copc = K.XOP_SUB) := fun h =>
              hnot ⟨h1.1, h1.2.1, h1.2.2, heff, h⟩
            rw [if_neg (fun h => h2 (Or.inl h)), if_neg (fun h => h2 (Or.inr h))]
          · rw [if_neg h1]
        · rw [if_pos heff]
    exact ⟨ha, tail_no_compaction K op st (Or.inr ha)⟩
/-- C13 (witness): `add sp, #8` under the sample constants. -/
theorem C13_dest_above_15_witness :
    (sample_op 1 0).compress_type = sample_consts.COMPRESS_XOP
    ∧ sample_consts.COMPRESS_XOP ≠ 0
    ∧ sample_consts.XOP_ADD ≠ sample_consts.XOP_SUB
    ∧ sample_consts.MACRO_ADDSP < 256
    ∧ add_sp_8.insn_compressed = false
    ∧ add_sp_8.xmov_flag = false
    ∧ add_sp_8.op1.reloc.type = BFD_RELOC_NONE
    ∧ add_sp_8.op2.reloc.type = BFD_RELOC_NONE
    ∧ (add_sp_8.insn.code >>> 9) &&& 0x1ff > 15
    ∧ add_sp_8.condmask = 0xf
    ∧ (add_sp_8.insn.code >>> 9) &&& 0x1ff = SP_REGNUM
    ∧ (add_sp_8.insn.code >>> 22) &&& 0x1 ≠ 0
    ∧ add_sp_8.insn.code &&& 0x1ff < 128
    ∧ (add_sp_8.insn.code >>> 23) &&& 0x7 = expectedeffects sample_consts (sample_op 1 0).copc
    ∧ (sample_op 1 0).copc = sample_consts.XOP_ADD
    ∧ ((add_sp_8.condmask = 0xf → (add_sp_8.insn.code >>> 9) &&& 0x1ff = SP_REGNUM →
        (add_sp_8.insn.code >>> 22) &&& 0x1 ≠ 0 → add_sp_8.insn.code &&& 0x1ff < 128 →
        (add_sp_8.insn.code >>> 23) &&& 0x7
          = expectedeffects sample_consts (sample_op 1 0).copc →
        (sample_op 1 0).copc = sample_consts.XOP_ADD →
        ∃ o, md_assemble_tail sample_consts true (sample_op 1 0) add_sp_8 = AsmResult.emitted o
          ∧ o.reserved = 2
          ∧ o.bytes = [sample_consts.MACRO_ADDSP, add_sp_8.insn.code &&& 0x1ff]
          ∧ o.fixes = [])
      ∧ (add_sp_8.condmask = 0xf → (add_sp_8.insn.code >>> 9) &&& 0x1ff = SP_REGNUM →
        (add_sp_8.insn.code >>> 22) &&& 0x1 ≠ 0 → add_sp_8.insn.code &&& 0x1ff < 128 →
        (add_sp_8.insn.code >>> 23) &&& 0x7
          = expectedeffects sample_consts (sample_op 1 0).copc →
        (sample_op 1 0).copc = sample_consts.XOP_SUB →
        ∃ o, md_assemble_tail sample_consts true (sample_op 1 0) add_sp_8 = AsmResult.emitted o
          ∧ o.reserved = 2
          ∧ o.bytes = [sample_consts.MACRO_ADDSP, (256 - (add_sp_8.insn.code &&& 0x1ff)) % 256]
          ∧ o.fixes = [])
      ∧ (¬ ((add_sp_8.insn.code >>> 9) &&& 0x1ff = SP_REGNUM
            ∧ (add_sp_8.insn.code >>> 22) &&& 0x1 ≠ 0
            ∧ add_sp_8.insn.code &&& 0x1ff < 128
            ∧ (add_sp_8.insn.code >>> 23) &&& 0x7
                = expectedeffects sample_consts (sample_op 1 0).copc
            ∧ ((sample_op 1 0).copc = sample_consts.XOP_ADD
                ∨ (sample_op 1 0).copc = sample_consts.XOP_SUB)) →
        compress_attempt sample_consts (sample_op 1 0) add_sp_8 = Attempt.skip
          ∧ md_assemble_tail sample_consts true (sample_op 1 0) add_sp_8
              = emit sample_consts true (pack_fallback sample_consts true add_sp_8))) :=
  ⟨rfl, by decide, by decide, by decide, rfl, rfl, rfl, rfl, by decide, rfl, by decide,
    by decide, by decide, by decide, rfl,
    C13_dest_above_15 sample_consts (sample_op 1 0) add_sp_8 rfl (by decide) (by decide)
      (by decide) rfl rfl rfl rfl (by decide)⟩

theorem all_ones_imm : toValueT 32 (-1) &&& 0x00000FFF = 0xFFF := by
  have h : toValueT 32 (-1) = 2 ^ 32 - 1 := by
    unfold toValueT
    norm_num
    rfl
  rw [h]
  decide

/-- C14: for a register-operand-class instruction (plain form, resolved
operands, default effects, condition 0xF) with destination d <= 15 whose
source is register 19 (`__MASK_FFFFFFFF`) and whose immediate bit is clear,
the engine proceeds exactly as for the immediate `(-1) & 0xFFF = 0xFFF`: the
line is the 3-byte reg/imm12 form `PREFIX_REGIMM12 | d`, 0xff,
`(copc << 4) | 0xf`. -/
theorem C14_all_ones_register (K : OpcodeConsts) (op : propeller_opcode) (st : AsmLocals)
    (hx : op.compress_type = K.COMPRESS_XOP) (hx0 : K.COMPRESS_XOP ≠ 0)
    (hcopc : op.copc < 16) (hp : K.PREFIX_REGIMM12 < 256)
    (hnc : st.insn_compressed = false) (hxm : st.xmov_flag = false)
    (hcond : st.condmask = 0xf)
    (hop1 : st.op1.reloc.type = BFD_RELOC_NONE) (hop2 : st.op2.reloc.type = BFD_RELOC_NONE)
    (heff : (st.insn.code >>> 23) &&& 0x7 = expectedeffects K op.copc)
    (hd : (st.insn.code >>> 9) &&& 0x1ff ≤ 15)
    (himm : (st.insn.code >>> 22) &&& 0x1 = 0)
    (hs : st.insn.code &&& 0x1ff = FFFFFFFF_REGNUM) :
    compress_attempt K op st
        = compress_xop K op.copc false ((st.insn.code >>> 9) &&& 0x1ff) 0xFFF 1
            ((st.insn.code >>> 23) &&& 0x7) 0
      ∧ ∃ o, md_assemble_tail K true op st = .emitted o
        ∧ o.reserved = 3
        ∧ o.bytes = [K.PREFIX_REGIMM12 ||| ((st.insn.code >>> 9) &&& 0x1ff), 0xff,
                     (op.copc <<< 4) ||| 0xf]
        ∧ o.fixes = [] := by
  have hct : op.compress_type ≠ 0 := by rw [hx]; exact hx0
  have hd' : ¬ (st.insn.code >>> 9) &&& 0x1ff > 15 := by omega
  have himm2 := himm
  simp at himm2
  obtain ⟨hb1, hb2, hb3⟩ := imm12_bytes 0xFFF op.copc (by omega) hcopc
  have e1 : (0xFFF : Nat) &&& 0xff = 0xff := by decide
  have e2 : ((0xFFF : Nat) >>> 8) &&& 0xf = 0xf := by decide
  have e3 : (0xFFF : Nat) >>> 8 = 0xf := by decide
  rw [e2, e3] at hb2
  rw [e3] at hb3
  have hx12 : compress_xop K op.copc false ((st.insn.code >>> 9) &&& 0x1ff) 0xFFF 1
      ((st.insn.code >>> 23) &&& 0x7) 0 = .done
      ((K.PREFIX_REGIMM12 ||| ((st.insn.code >>> 9) &&& 0x1ff))
        ||| shlW 32 (0xff ||| shlW 32 ((op.copc <<< 4) ||| 0xf) 8) 8) 3 := by
    rw [← hb2]
    simp [compress_xop, heff, hd', e1, e2, FFFFFFFF_REGNUM]
  have ha : compress_attempt K op st = .done
      ((K.PREFIX_REGIMM12 ||| ((st.insn.code >>> 9) &&& 0x1ff))
        ||| shlW 32 (0xff ||| shlW 32 ((op.copc <<< 4) ||| 0xf) 8) 8) 3 := by
    rw [attempt_plain K op st hxm (Or.inr hcond) hop1 hop2, if_pos hx, ← hb2]
    simp [compress_xop, heff, hd', himm, himm2, hs, all_ones_imm, e1, e2, FFFFFFFF_REGNUM]
  refine ⟨by rw [ha, hx12], _, tail_done K op st _ 3 hct hnc ha (by omega), by simp [hcond],
    ?_, rfl⟩
  simp only [hcond]
  exact three_bytes _ _ _ (tag_or_reg _ _ hp hd) (by omega) hb3
/-- C14 (witness): `add r3, __MASK_FFFFFFFF` under the sample constants. -/
theorem C14_all_ones_register_witness :
    (sample_op 1 0).compress_type = sample_consts.COMPRESS_XOP
    ∧ sample_consts.COMPRESS_XOP ≠ 0
    ∧ (sample_op 1 0).copc < 16
    ∧ sample_consts.PREFIX_REGIMM12 < 256
    ∧ add_r3_mask.insn_compressed = false
    ∧ add_r3_mask.xmov_flag = false
    ∧ add_r3_mask.condmask = 0xf
    ∧ add_r3_mask.op1.reloc.type = BFD_RELOC_NONE
    ∧ add_r3_mask.op2.reloc.type = BFD_RELOC_NONE
    ∧ (add_r3_mask.insn.code >>> 23) &&& 0x7 = expectedeffects sample_consts (sample_op 1 0).copc
    ∧ (add_r3_mask.insn.code >>> 9) &&& 0x1ff ≤ 15
    ∧ (add_r3_mask.insn.code >>> 22) &&& 0x1 = 0
    ∧ add_r3_mask.insn.code &&& 0x1ff = FFFFFFFF_REGNUM
    ∧ (compress_attempt sample_consts (sample_op 1 0) add_r3_mask
          = compress_xop sample_consts (sample_op 1 0).copc false
              ((add_r3_mask.insn.code >>> 9) &&& 0x1ff) 0xFFF 1
              ((add_r3_mask.insn.code >>> 23) &&& 0x7) 0
        ∧ ∃ o, md_assemble_tail sample_consts true (sample_op 1 0) add_r3_mask
            = AsmResult.emitted o
          ∧ o.reserved = 3
          ∧ o.bytes = [sample_consts.PREFIX_REGIMM12
                        ||| ((add_r3_mask.insn.code >>> 9) &&& 0x1ff), 0xff,
                       ((sample_op 1 0).copc <<< 4) ||| 0xf]
          ∧ o.fixes = []) :=
  ⟨rfl, by decide, by decide, by decide, rfl, rfl, rfl, rfl, rfl, by decide, by decide,
    by decide, by decide,
    C14_all_ones_register sample_consts (sample_op 1 0) add_r3_mask rfl (by decide) (by decide)
      (by decide) rfl rfl rfl rfl rfl (by decide) (by decide) (by decide) (by decide)⟩

theorem xop_precondition_skip (K : OpcodeConsts) (op : propeller_opcode) (st : AsmLocals)
    (hx : op.compress_type = K.COMPRESS_XOP) (hxm : st.xmov_flag = false)
    (hfail : (st.insn.code >>> 23) &&& 0x7 ≠ expectedeffects K op.copc
      ∨ ((st.insn.code >>> 9) &&& 0x1ff > 15
          ∧ ¬ ((st.insn.code >>> 9) &&& 0x1ff = SP_REGNUM ∧ (st.insn.code >>> 22) &&& 0x1 ≠ 0
                ∧ st.insn.code &&& 0x1ff < 128
                ∧ (op.copc = K.XOP_ADD ∨ op.copc = K.XOP_SUB)))
      ∨ ((st.insn.code >>> 9) &&& 0x1ff ≤ 15 ∧ (st.insn.code >>> 22) &&& 0x1 = 0
          ∧ st.insn.code &&& 0x1ff > 15 ∧ st.insn.code &&& 0x1ff ≠ FFFFFFFF_REGNUM)) :
    compress_attempt K op st = .skip := by
  by_cases hbig : st.size > 4 ∧ st.condmask ≠ 0xf
  · exact attempt_big_conditional K op st hxm hbig.1 hbig.2
  · have hcond : st.size ≤ 4 ∨ st.condmask = 0xf := by
      by_cases h4 : st.size ≤ 4
      · exact Or.inl h4
      · right
        by_contra hc
        exact hbig ⟨by omega, hc⟩
    by_cases hop2 : st.op2.reloc.type = BFD_RELOC_NONE
    · by_cases hop1 : st.op1.reloc.type = BFD_RELOC_NONE
      · rw [attempt_plain K op st hxm hcond hop1 hop2, if_pos hx]
        unfold compress_xop
        by_cases heff : (st.insn.code >>> 23) &&& 0x7 = expectedeffects K op.copc
        · rw [if_neg (by simpa using heff)]
          rcases hfail with h | h | h
          · exact absurd heff h
          · rw [if_pos h.1]
            simp only [Bool.false_eq_true, if_false]
            by_cases h1 : (st.insn.code >>> 9) &&& 0x1ff = SP_REGNUM
                ∧ (st.insn.code >>> 22) &&& 0x1 ≠ 0 ∧ st.insn.code &&& 0x1ff < 128
            · rw [if_pos h1]
              have h2 : ¬ (op.copc = K.XOP_ADD ∨ op.copc = K.XOP_SUB) := fun h' =>
                h.2 ⟨h1.1, h1.2.1, h1.2.2, h'⟩
              rw [if_neg (fun h' => h2 (Or.inl h')), if_neg (fun h' => h2 (Or.inr h'))]
            · rw [if_neg h1]
          · have hd' : ¬ (st.insn.code >>> 9) &&& 0x1ff > 15 := by omega
            have himm2 := h.2.1
            simp at himm2
            simp [hd', h.2.1, himm2, h.2.2.1, h.2.2.2]
        · rw [if_pos heff]
      · unfold compress_attempt
        simp [hop1, hop2]
    · unfold compress_attempt
      simp [hop2]

theorem pack_native_keeps (K : OpcodeConsts) (c : Nat) (htag : K.PREFIX_PACK_NATIVE < 256) :
    (pack_native K c / 2 ^ 8) % 2 ^ 18 = c % 2 ^ 18
      ∧ (K.PREFIX_PACK_NATIVE &&& 0xF = 0 → pack_native K c % 2 ^ 4 = (c / 2 ^ 22) % 2 ^ 4) := by
  obtain ⟨hp, hb⟩ := pack_native_eq K c htag
  have h4 : (c / 2 ^ 22) % 2 ^ 4 < 2 ^ 4 := Nat.mod_lt _ (Nat.two_pow_pos 4)
  constructor
  · rw [hp]
    omega
  · intro hnib
    have hn := hnib
    have e4 : (0xF : Nat) = 2 ^ 4 - 1 := by norm_num
    rw [e4, Nat.and_pow_two_sub_one_eq_mod] at hn
    rw [tag_or_eq_add _ _ hnib h4] at hp hb
    rw [hp]
    omega

/-- C15: with compression active, for a register-operand-class instruction in
the plain form (one native word, size 4) for which an XOP precondition fails
(effect bits differ from the expected default; or destination above 15 outside
the stack-pointer add/subtract case; or a register source above 15 other than
register 19), no compact form is chosen and the output is the fallback of the
complete word: with condition 0xF the four bytes of `pack_native (word)`,
which keep bits 0..17 (source and destination) and bits 22..25 (immediate bit
and effects) of the word; otherwise the `MACRO_NATIVE` byte followed by the
four bytes of the word. -/
theorem C15_xop_precondition_fallback (K : OpcodeConsts) (op : propeller_opcode)
    (st : AsmLocals)
    (hx : op.compress_type = K.COMPRESS_XOP)
    (hnat : K.MACRO_NATIVE < 256) (htag : K.PREFIX_PACK_NATIVE < 256)
    (hnc : st.insn_compressed = false) (hxm : st.xmov_flag = false)
    (h2c : st.insn2.code = 0) (h2r : st.insn2.reloc.type = BFD_RELOC_NONE)
    (h4 : st.size = 4)
    (hfail : (st.insn.code >>> 23) &&& 0x7 ≠ expectedeffects K op.copc
      ∨ ((st.insn.code >>> 9) &&& 0x1ff > 15
          ∧ ¬ ((st.insn.code >>> 9) &&& 0x1ff = SP_REGNUM ∧ (st.insn.code >>> 22) &&& 0x1 ≠ 0
                ∧ st.insn.code &&& 0x1ff < 128
                ∧ (op.copc = K.XOP_ADD ∨ op.copc = K.XOP_SUB)))
      ∨ ((st.insn.code >>> 9) &&& 0x1ff ≤ 15 ∧ (st.insn.code >>> 22) &&& 0x1 = 0
          ∧ st.insn.code &&& 0x1ff > 15 ∧ st.insn.code &&& 0x1ff ≠ FFFFFFFF_REGNUM)) :
    compress_attempt K op st = .skip
    ∧ (st.condmask = 0xf →
      ∃ o, md_assemble_tail K true op st = .emitted o
        ∧ o.reserved = 4
        ∧ o.bytes = number_bytes (pack_native K st.insn.code) 4
        ∧ (pack_native K st.insn.code / 2 ^ 8) % 2 ^ 18 = st.insn.code % 2 ^ 18
        ∧ (K.PREFIX_PACK_NATIVE &&& 0xF = 0 →
            pack_native K st.insn.code % 2 ^ 4 = (st.insn.code / 2 ^ 22) % 2 ^ 4))
    ∧ (st.condmask ≠ 0xf →
      ∃ o, md_assemble_tail K true op st = .emitted o
        ∧ o.reserved = 5
        ∧ o.bytes = [K.MACRO_NATIVE, st.insn.code % 2 ^ 8, st.insn.code / 2 ^ 8 % 2 ^ 8,
            st.insn.code / 2 ^ 16 % 2 ^ 8, st.insn.code / 2 ^ 24 % 2 ^ 8]) := by
  have ha := xop_precondition_skip K op st hx hxm hfail
  have ht := skip_fallback K op st hnat hnc ha h2c h2r h4
  obtain ⟨hk1, hk2⟩ := pack_native_keeps K st.insn.code htag
  refine ⟨ha, ?_, ?_⟩
  · intro hc
    refine ⟨_, ht, by simp [hc], by simp [hc], hk1, hk2⟩
  · intro hc
    refine ⟨_, ht, by simp [hc], ?_⟩
    simp only [hc, if_false]
    rw [number_bytes_four]
/-- C15 (witness): `add r3, sp`, whose register source 16 has no compact
form, under the sample constants. -/
theorem C15_xop_precondition_fallback_witness :
    (sample_op 1 0).compress_type = sample_consts.COMPRESS_XOP
    ∧ sample_consts.MACRO_NATIVE < 256
    ∧ sample_consts.PREFIX_PACK_NATIVE < 256
    ∧ add_r3_sp.insn_compressed = false
    ∧ add_r3_sp.xmov_flag = false
    ∧ add_r3_sp.insn2.code = 0
    ∧ add_r3_sp.insn2.reloc.type = BFD_RELOC_NONE
    ∧ add_r3_sp.size = 4
    ∧ ((add_r3_sp.insn.code >>> 23) &&& 0x7 ≠ expectedeffects sample_consts (sample_op 1 0).copc
      ∨ ((add_r3_sp.insn.code >>> 9) &&& 0x1ff > 15
          ∧ ¬ ((add_r3_sp.insn.code >>> 9) &&& 0x1ff = SP_REGNUM
                ∧ (add_r3_sp.insn.code >>> 22) &&& 0x1 ≠ 0
                ∧ add_r3_sp.insn.code &&& 0x1ff < 128
                ∧ ((sample_op 1 0).copc = sample_consts.XOP_ADD
                    ∨ (sample_op 1 0).copc = sample_consts.XOP_SUB)))
      ∨ ((add_r3_sp.insn.code >>> 9) &&& 0x1ff ≤ 15 ∧ (add_r3_sp.insn.code >>> 22) &&& 0x1 = 0
          ∧ add_r3_sp.insn.code &&& 0x1ff > 15
          ∧ add_r3_sp.insn.code &&& 0x1ff ≠ FFFFFFFF_REGNUM))
    ∧ (compress_attempt sample_consts (sample_op 1 0) add_r3_sp = Attempt.skip
      ∧ (add_r3_sp.condmask = 0xf →
        ∃ o, md_assemble_tail sample_consts true (sample_op 1 0) add_r3_sp = AsmResult.emitted o
          ∧ o.reserved = 4
          ∧ o.bytes = number_bytes (pack_native sample_consts add_r3_sp.insn.code) 4
          ∧ (pack_native sample_consts add_r3_sp.insn.code / 2 ^ 8) % 2 ^ 18
              = add_r3_sp.insn.code % 2 ^ 18
          ∧ (sample_consts.PREFIX_PACK_NATIVE &&& 0xF = 0 →
              pack_native sample_consts add_r3_sp.insn.code % 2 ^ 4
                = (add_r3_sp.insn.code / 2 ^ 22) % 2 ^ 4))
      ∧ (add_r3_sp.condmask ≠ 0xf →
        ∃ o, md_assemble_tail sample_consts true (sample_op 1 0) add_r3_sp = AsmResult.emitted o
          ∧ o.reserved = 5
          ∧ o.bytes = [sample_consts.MACRO_NATIVE, add_r3_sp.insn.code % 2 ^ 8,
              add_r3_sp.insn.code / 2 ^ 8 % 2 ^ 8, add_r3_sp.insn.code / 2 ^ 16 % 2 ^ 8,
              add_r3_sp.insn.code / 2 ^ 24 % 2 ^ 8])) :=
  ⟨rfl, by decide, by decide, rfl, rfl, rfl, rfl, rfl,
    Or.inr (Or.inr ⟨by decide, by decide, by decide, by decide⟩),
    C15_xop_precondition_fallback sample_consts (sample_op 1 0) add_r3_sp rfl (by decide)
      (by decide) rfl rfl rfl rfl rfl
      (Or.inr (Or.inr ⟨by decide, by decide, by decide, by decide⟩))⟩

theorem word_bytes (b s : Nat) (hb : b < 256) (hs : s < 2 ^ 16) :
    number_bytes (b ||| shlW 32 s 8) 3 = [b, s % 2 ^ 8, s / 2 ^ 8] := by
  have e : shlW 32 s 8 = s <<< 8 := shlW_eq _ _ (by omega)
  rw [e, Nat.or_comm, or_shift_add s b 8 (by omega), number_bytes_three]
  simp only [List.cons.injEq, and_true]
  refine ⟨?_, ?_, ?_⟩ <;> omega

/-- C16: for a move-class (`COMPRESS_MOV`) instruction in the plain form with
resolved operands, immediate source s, destination d <= 15 and effect bits
equal to 1: if s = 0 and the condition is 0xF the line is the single byte
`PREFIX_ZEROREG | d`; otherwise, if s <= 255, the compact form is
`PREFIX_MVIB | d` followed by the byte s (two bytes under condition 0xF);
otherwise it is `PREFIX_MVIW | d` followed by s as two bytes, low byte first
(three bytes under condition 0xF). -/
theorem C16_mov_immediate (K : OpcodeConsts) (op : propeller_opcode) (st : AsmLocals)
    (hm : op.compress_type = K.COMPRESS_MOV) (hmx : K.COMPRESS_MOV ≠ K.COMPRESS_XOP)
    (hm0 : K.COMPRESS_MOV ≠ 0)
    (hp0 : K.PREFIX_ZEROREG < 256) (hp1 : K.PREFIX_MVIB < 256) (hp2 : K.PREFIX_MVIW < 256)
    (hnc : st.insn_compressed = false) (hxm : st.xmov_flag = false)
    (hcond : st.size ≤ 4 ∨ st.condmask = 0xf)
    (hop1 : st.op1.reloc.type = BFD_RELOC_NONE) (hop2 : st.op2.reloc.type = BFD_RELOC_NONE)
    (heff : (st.insn.code >>> 23) &&& 0x7 = 1)
    (hd : (st.insn.code >>> 9) &&& 0x1ff ≤ 15)
    (himm : (st.insn.code >>> 22) &&& 0x1 ≠ 0) :
    (st.insn.code &&& 0x1ff = 0 → st.condmask = 0xf →
      ∃ o, md_assemble_tail K true op st = .emitted o
        ∧ o.reserved = 1
        ∧ o.bytes = [K.PREFIX_ZEROREG ||| ((st.insn.code >>> 9) &&& 0x1ff)]
        ∧ o.fixes = [])
    ∧ (¬ (st.insn.code &&& 0x1ff = 0 ∧ st.condmask = 0xf) → st.insn.code &&& 0x1ff ≤ 255 →
      compress_attempt K op st
          = .done ((K.PREFIX_MVIB ||| ((st.insn.code >>> 9) &&& 0x1ff))
              ||| shlW 32 (st.insn.code &&& 0x1ff) 8) 2
        ∧ (st.condmask = 0xf →
          ∃ o, md_assemble_tail K true op st = .emitted o
            ∧ o.reserved = 2
            ∧ o.bytes = [K.PREFIX_MVIB ||| ((st.insn.code >>> 9) &&& 0x1ff),
                         st.insn.code &&& 0x1ff]
            ∧ o.fixes = []))
    ∧ (255 < st.insn.code &&& 0x1ff →
      compress_attempt K op st
          = .done ((K.PREFIX_MVIW ||| ((st.insn.code >>> 9) &&& 0x1ff))
              ||| shlW 32 (st.insn.code &&& 0x1ff) 8) 3
        ∧ (st.condmask = 0xf →
          ∃ o, md_assemble_tail K true op st = .emitted o
            ∧ o.reserved = 3
            ∧ o.bytes = [K.PREFIX_MVIW ||| ((st.insn.code >>> 9) &&& 0x1ff),
                         (st.insn.code &&& 0x1ff) % 2 ^ 8, (st.insn.code &&& 0x1ff) / 2 ^ 8]
            ∧ o.fixes = [])) := by
  have hct : op.compress_type ≠ 0 := by rw [hm]; exact hm0
  have hnx : ¬ op.compress_type = K.COMPRESS_XOP := by rw [hm]; exact hmx
  have hd' : ¬ (st.insn.code >>> 9) &&& 0x1ff > 15 := by omega
  have himm2 := himm
  simp at himm2
  have hs512 := and_1ff_lt st.insn.code
  have hpl := attempt_plain K op st hxm hcond hop1 hop2
  rw [if_neg hnx, if_pos hm] at hpl
  refine ⟨?_, ?_, ?_⟩
  · intro hs hc
    have ha : compress_attempt K op st
        = .done (K.PREFIX_ZEROREG ||| ((st.insn.code >>> 9) &&& 0x1ff)) 1 := by
      rw [hpl]
      simp [compress_mov, heff, hd', himm, himm2, hs, hc]
    refine ⟨_, tail_done K op st _ 1 hct hnc ha (by omega), by simp [hc], ?_, rfl⟩
    simp only [hc]
    exact one_byte _ (tag_or_reg _ _ hp0 hd)
  · intro hz hs
    have ha : compress_attempt K op st
        = .done ((K.PREFIX_MVIB ||| ((st.insn.code >>> 9) &&& 0x1ff))
            ||| shlW 32 (st.insn.code &&& 0x1ff) 8) 2 := by
      rw [hpl]
      unfold compress_mov
      rw [if_neg hd', if_neg (by simpa using heff), if_pos himm]
      simp only [Bool.false_eq_true, if_false]
      rw [if_neg hz, if_pos hs]
    refine ⟨ha, fun hc => ⟨_, tail_done K op st _ 2 hct hnc ha (by omega), by simp [hc], ?_,
      rfl⟩⟩
    simp only [hc]
    exact two_bytes _ _ (tag_or_reg _ _ hp1 hd) (by omega)
  · intro hs
    have ha : compress_attempt K op st
        = .done ((K.PREFIX_MVIW ||| ((st.insn.code >>> 9) &&& 0x1ff))
            ||| shlW 32 (st.insn.code &&& 0x1ff) 8) 3 := by
      rw [hpl]
      unfold compress_mov
      rw [if_neg hd', if_neg (by simpa using heff), if_pos himm]
      simp only [Bool.false_eq_true, if_false]
      rw [if_neg (fun h => by omega), if_neg (by omega)]
    refine ⟨ha, fun hc => ⟨_, tail_done K op st _ 3 hct hnc ha (by omega), by simp [hc], ?_,
      rfl⟩⟩
    simp only [hc]
    exact word_bytes _ _ (tag_or_reg _ _ hp2 hd) (by omega)
/-- C16 (witness): `mov r1, #5` with condition 0xF under the sample constants:
two bytes. -/
theorem C16_mov_immediate_witness :
    (sample_op 2 0).compress_type = sample_consts.COMPRESS_MOV
    ∧ sample_consts.COMPRESS_MOV ≠ sample_consts.COMPRESS_XOP
    ∧ sample_consts.COMPRESS_MOV ≠ 0
    ∧ sample_consts.PREFIX_ZEROREG < 256
    ∧ sample_consts.PREFIX_MVIB < 256
    ∧ sample_consts.PREFIX_MVIW < 256
    ∧ (mov_r1_5 0xf).insn_compressed = false
    ∧ (mov_r1_5 0xf).xmov_flag = false
    ∧ ((mov_r1_5 0xf).size ≤ 4 ∨ (mov_r1_5 0xf).condmask = 0xf)
    ∧ (mov_r1_5 0xf).op1.reloc.type = BFD_RELOC_NONE
    ∧ (mov_r1_5 0xf).op2.reloc.type = BFD_RELOC_NONE
    ∧ ((mov_r1_5 0xf).insn.code >>> 23) &&& 0x7 = 1
    ∧ ((mov_r1_5 0xf).insn.code >>> 9) &&& 0x1ff ≤ 15
    ∧ ((mov_r1_5 0xf).insn.code >>> 22) &&& 0x1 ≠ 0
    ∧ ¬ ((mov_r1_5 0xf).insn.code &&& 0x1ff = 0 ∧ (mov_r1_5 0xf).condmask = 0xf)
    ∧ (mov_r1_5 0xf).insn.code &&& 0x1ff ≤ 255
    ∧ (((mov_r1_5 0xf).insn.code &&& 0x1ff = 0 → (mov_r1_5 0xf).condmask = 0xf →
        ∃ o, md_assemble_tail sample_consts true (sample_op 2 0) (mov_r1_5 0xf)
            = AsmResult.emitted o
          ∧ o.reserved = 1
          ∧ o.bytes = [sample_consts.PREFIX_ZEROREG
                        ||| (((mov_r1_5 0xf).insn.code >>> 9) &&& 0x1ff)]
          ∧ o.fixes = [])
      ∧ (¬ ((mov_r1_5 0xf).insn.code &&& 0x1ff = 0 ∧ (mov_r1_5 0xf).condmask = 0xf) →
        (mov_r1_5 0xf).insn.code &&& 0x1ff ≤ 255 →
        compress_attempt sample_consts (sample_op 2 0) (mov_r1_5 0xf)
            = Attempt.done ((sample_consts.PREFIX_MVIB
                  ||| (((mov_r1_5 0xf).insn.code >>> 9) &&& 0x1ff))
                ||| shlW 32 ((mov_r1_5 0xf).insn.code &&& 0x1ff) 8) 2
          ∧ ((mov_r1_5 0xf).condmask = 0xf →
            ∃ o, md_assemble_tail sample_consts true (sample_op 2 0) (mov_r1_5 0xf)
                = AsmResult.emitted o
              ∧ o.reserved = 2
              ∧ o.bytes = [sample_consts.PREFIX_MVIB
                            ||| (((mov_r1_5 0xf).insn.code >>> 9) &&& 0x1ff),
                           (mov_r1_5 0xf).insn.code &&& 0x1ff]
              ∧ o.fixes = []))
      ∧ (255 < (mov_r1_5 0xf).insn.code &&& 0x1ff →
        compress_attempt sample_consts (sample_op 2 0) (mov_r1_5 0xf)
            = Attempt.done ((sample_consts.PREFIX_MVIW
                  ||| (((mov_r1_5 0xf).insn.code >>> 9) &&& 0x1ff))
                ||| shlW 32 ((mov_r1_5 0xf).insn.code &&& 0x1ff) 8) 3
          ∧ ((mov_r1_5 0xf).condmask = 0xf →
            ∃ o, md_assemble_tail sample_consts true (sample_op 2 0) (mov_r1_5 0xf)
                = AsmResult.emitted o
              ∧ o.reserved = 3
              ∧ o.bytes = [sample_consts.PREFIX_MVIW
                            ||| (((mov_r1_5 0xf).insn.code >>> 9) &&& 0x1ff),
                           ((mov_r1_5 0xf).insn.code &&& 0x1ff) % 2 ^ 8,
                           ((mov_r1_5 0xf).insn.code &&& 0x1ff) / 2 ^ 8]
              ∧ o.fixes = []))) :=
  ⟨rfl, by decide, by decide, by decide, by decide, by decide, rfl, rfl, Or.inl (by decide),
    rfl, rfl, by decide, by decide, by decide, by decide, by decide,
    C16_mov_immediate sample_consts (sample_op 2 0) (mov_r1_5 0xf) rfl (by decide) (by decide)
      (by decide) (by decide) (by decide) rfl rfl (Or.inl (by decide)) rfl rfl (by decide)
      (by decide) (by decide)⟩

theorem attempt_xmov (K : OpcodeConsts) (op : propeller_opcode) (st : AsmLocals)
    (hxm : st.xmov_flag = true)
    (hop1 : st.op1.reloc.type = BFD_RELOC_NONE) (hop2 : st.op2.reloc.type = BFD_RELOC_NONE)
    (himm : (st.insn.code >>> 22) &&& 0x1 = 0)
    (heff : (st.insn.code >>> 23) &&& 0x7 = 1)
    (hd : (st.insn.code >>> 9) &&& 0x1ff ≤ 15)
    (hs : st.insn.code &&& 0x1ff ≤ 15) :
    compress_attempt K op st =
      if op.compress_type = K.COMPRESS_XOP then
        compress_xop K op.copc true ((st.insn2.code >>> 9) &&& 0x1ff) (st.insn2.code &&& 0x1ff)
          ((st.insn2.code >>> 22) &&& 0x1) ((st.insn2.code >>> 23) &&& 0x7)
          (shlW 32 ((st.insn.code >>> 9) &&& 0x1ff) 4 ||| (st.insn.code &&& 0x1ff))
      else if op.compress_type = K.COMPRESS_MOV then
        compress_mov K true st.condmask ((st.insn2.code >>> 9) &&& 0x1ff)
          (st.insn2.code &&& 0x1ff) ((st.insn2.code >>> 22) &&& 0x1)
          ((st.insn2.code >>> 23) &&& 0x7)
          (shlW 32 ((st.insn.code >>> 9) &&& 0x1ff) 4 ||| (st.insn.code &&& 0x1ff))
      else .skip := by
  have h0 : ¬ (st.size > 4 ∧ 0xf ≠ st.condmask ∧ st.xmov_flag = false) := by
    rintro ⟨_, _, c⟩
    rw [hxm] at c
    exact Bool.noConfusion c
  have hd' : ¬ (st.insn.code >>> 9) &&& 0x1ff > 15 := by omega
  have hs' : ¬ st.insn.code &&& 0x1ff > 15 := by omega
  have himm2 := himm
  simp at himm2
  unfold compress_attempt
  rw [if_neg h0]
  simp [xmov_fields, hop1, hop2, hxm, himm, himm2, heff, hd', hs']

theorem three_bytes_flat (b0 b1 b2 : Nat) (h0 : b0 < 256) (h1 : b1 < 256) (h2 : b2 < 256) :
    number_bytes (b0 ||| (shlW 32 b1 8 ||| shlW 32 b2 16)) 3 = [b0, b1, b2] := by
  have e1 : shlW 32 b1 8 = b1 <<< 8 := shlW_eq _ _ (by omega)
  have e2 : shlW 32 b2 16 = b2 <<< 16 := shlW_eq _ _ (by omega)
  have e3 : b1 <<< 8 < 2 ^ 16 := by rw [Nat.shiftLeft_eq]; omega
  rw [e1, e2, Nat.or_comm (b1 <<< 8), or_shift_add b2 _ 16 e3, Nat.or_comm,
    Nat.shiftLeft_eq]
  have e4 : b2 * 2 ^ 16 + b1 * 2 ^ 8 = (b2 * 2 ^ 8 + b1) <<< 8 := by
    rw [Nat.shiftLeft_eq]; ring
  rw [e4, or_shift_add _ b0 8 (by omega), number_bytes_three]
  simp only [List.cons.injEq, and_true]
  refine ⟨?_, ?_, ?_⟩ <;> omega

theorem mov_register_source_skip (K : OpcodeConsts) (op : propeller_opcode) (st : AsmLocals)
    (hm : op.compress_type = K.COMPRESS_MOV) (hmx : K.COMPRESS_MOV ≠ K.COMPRESS_XOP)
    (hxm : st.xmov_flag = false)
    (himm : (st.insn.code >>> 22) &&& 0x1 = 0) (hs : st.insn.code &&& 0x1ff > 15) :
    compress_attempt K op st = .skip := by
  have hnx : ¬ op.compress_type = K.COMPRESS_XOP := by rw [hm]; exact hmx
  by_cases hbig : st.size > 4 ∧ st.condmask ≠ 0xf
  · exact attempt_big_conditional K op st hxm hbig.1 hbig.2
  · have hcond : st.size ≤ 4 ∨ st.condmask = 0xf := by
      by_cases h4 : st.size ≤ 4
      · exact Or.inl h4
      · right
        by_contra hc
        exact hbig ⟨by omega, hc⟩
    by_cases hop2 : st.op2.reloc.type = BFD_RELOC_NONE
    · by_cases hop1 : st.op1.reloc.type = BFD_RELOC_NONE
      · rw [attempt_plain K op st hxm hcond hop1 hop2, if_neg hnx, if_pos hm]
        have himm2 := himm
        simp at himm2
        unfold compress_mov
        split_ifs <;> first | rfl | omega
      · unfold compress_attempt
        simp [hop1, hop2]
    · unfold compress_attempt
      simp [hop2]

theorem attempt_xmov_bad (K : OpcodeConsts) (op : propeller_opcode) (st : AsmLocals)
    (hxm : st.xmov_flag = true)
    (hop1 : st.op1.reloc.type = BFD_RELOC_NONE) (hop2 : st.op2.reloc.type = BFD_RELOC_NONE)
    (hbad : ¬ ((st.insn.code >>> 22) &&& 0x1 = 0 ∧ (st.insn.code >>> 23) &&& 0x7 = 1
      ∧ (st.insn.code >>> 9) &&& 0x1ff ≤ 15 ∧ st.insn.code &&& 0x1ff ≤ 15)) :
    ∃ msg, compress_attempt K op st = .bad msg := by
  have h0 : ¬ (st.size > 4 ∧ 0xf ≠ st.condmask ∧ st.xmov_flag = false) := by
    rintro ⟨_, _, c⟩
    rw [hxm] at c
    exact Bool.noConfusion c
  unfold compress_attempt xmov_fields
  rw [if_neg h0, if_neg (by simpa using hop2), if_neg (by simpa using hop1)]
  simp only [hxm, if_true]
  by_cases h1 : (st.insn.code >>> 22) &&& 0x1 = 0
  · by_cases h2 : (st.insn.code >>> 23) &&& 0x7 = 1
    · have h3 : (st.insn.code >>> 9) &&& 0x1ff > 15 ∨ st.insn.code &&& 0x1ff > 15 := by
        by_contra hc
        exact hbad ⟨h1, h2, by omega, by omega⟩
      rw [if_neg (by simpa using h1), if_neg (by simpa using h2), if_pos h3]
      exact ⟨_, rfl⟩
    · rw [if_neg (by simpa using h1), if_pos h2]
      exact ⟨_, rfl⟩
  · rw [if_pos h1]
    exact ⟨_, rfl⟩

theorem xmov_register_source_not_done (K : OpcodeConsts) (op : propeller_opcode)
    (st : AsmLocals)
    (hm : op.compress_type = K.COMPRESS_MOV) (hmx : K.COMPRESS_MOV ≠ K.COMPRESS_XOP)
    (hxm : st.xmov_flag = true)
    (hbad : st.insn.code &&& 0x1ff > 15
      ∨ ((st.insn2.code >>> 22) &&& 0x1 = 0 ∧ st.insn2.code &&& 0x1ff > 15))
    (newcode size : Nat) :
    compress_attempt K op st ≠ .done newcode size := by
  have hnx : ¬ op.compress_type = K.COMPRESS_XOP := by rw [hm]; exact hmx
  by_cases hop2 : st.op2.reloc.type = BFD_RELOC_NONE
  · by_cases hop1 : st.op1.reloc.type = BFD_RELOC_NONE
    · by_cases hv : (st.insn.code >>> 22) &&& 0x1 = 0 ∧ (st.insn.code >>> 23) &&& 0x7 = 1
          ∧ (st.insn.code >>> 9) &&& 0x1ff ≤ 15 ∧ st.insn.code &&& 0x1ff ≤ 15
      · rw [attempt_xmov K op st hxm hop1 hop2 hv.1 hv.2.1 hv.2.2.1 hv.2.2.2, if_neg hnx,
          if_pos hm]
        have h2 : (st.insn2.code >>> 22) &&& 0x1 = 0 ∧ st.insn2.code &&& 0x1ff > 15 := by
          rcases hbad with h | h
          · omega
          · exact h
        unfold compress_mov
        by_cases a : (st.insn2.code >>> 9) &&& 0x1ff > 15
        · rw [if_pos a]
          exact Attempt.noConfusion
        · rw [if_neg a]
          by_cases b : (st.insn2.code >>> 23) &&& 0x7 ≠ 1
          · rw [if_pos b]
            exact Attempt.noConfusion
          · rw [if_neg b, if_neg (by simpa using h2.1), if_pos h2.2]
            exact Attempt.noConfusion
      · obtain ⟨msg, hmsg⟩ := attempt_xmov_bad K op st hxm hop1 hop2 hv
        rw [hmsg]
        exact Attempt.noConfusion
    · unfold compress_attempt
      simp [hop1, hop2, hxm]
  · unfold compress_attempt
    simp [hop2, hxm]
theorem reg_pair_byte (d s : Nat) (hd : d ≤ 15) (hs : s ≤ 15) :
    shlW 32 d 4 ||| s = (d <<< 4) ||| s ∧ (d <<< 4) ||| s < 256 := by
  obtain ⟨h1, h2⟩ := nibble_byte d s hd (by omega)
  rw [h1]
  exact ⟨rfl, h2⟩

/-- C17: for a move-class (`COMPRESS_MOV`) register-to-register instruction
with default effects and condition 0xF: the plain form with destination
d <= 15 and source register s <= 15 is the two bytes `MACRO_MVREG`,
`(d << 4) | s`; the dual-instruction (xmov) form whose first move has
d1, s1 <= 15 and whose second instruction is such a move with d2, s2 <= 15 is
the three bytes `MACRO_XMVREG`, `(d1 << 4) | s1`, `(d2 << 4) | s2`; and a
register source above 15 never reaches a compact form (the plain form is
skipped; the xmov form is skipped or rejected with a diagnostic). -/
theorem C17_mov_register (K : OpcodeConsts) (op : propeller_opcode) (st : AsmLocals)
    (hm : op.compress_type = K.COMPRESS_MOV) (hmx : K.COMPRESS_MOV ≠ K.COMPRESS_XOP)
    (hm0 : K.COMPRESS_MOV ≠ 0)
    (hp1 : K.MACRO_MVREG < 256) (hp2 : K.MACRO_XMVREG < 256)
    (hnc : st.insn_compressed = false) :
    (st.xmov_flag = false → st.condmask = 0xf →
      st.op1.reloc.type = BFD_RELOC_NONE → st.op2.reloc.type = BFD_RELOC_NONE →
      (st.insn.code >>> 23) &&& 0x7 = 1 → (st.insn.code >>> 22) &&& 0x1 = 0 →
      (st.insn.code >>> 9) &&& 0x1ff ≤ 15 → st.insn.code &&& 0x1ff ≤ 15 →
      ∃ o, md_assemble_tail K true op st = .emitted o
        ∧ o.reserved = 2
        ∧ o.bytes = [K.MACRO_MVREG,
            (((st.insn.code >>> 9) &&& 0x1ff) <<< 4) ||| (st.insn.code &&& 0x1ff)]
        ∧ o.fixes = [])
    ∧ (st.xmov_flag = true → st.condmask = 0xf →
      st.op1.reloc.type = BFD_RELOC_NONE → st.op2.reloc.type = BFD_RELOC_NONE →
      (st.insn.code >>> 23) &&& 0x7 = 1 → (st.insn.code >>> 22) &&& 0x1 = 0 →
      (st.insn.code >>> 9) &&& 0x1ff ≤ 15 → st.insn.code &&& 0x1ff ≤ 15 →
      (st.insn2.code >>> 23) &&& 0x7 = 1 → (st.insn2.code >>> 22) &&& 0x1 = 0 →
      (st.insn2.code >>> 9) &&& 0x1ff ≤ 15 → st.insn2.code &&& 0x1ff ≤ 15 →
      ∃ o, md_assemble_tail K true op st = .emitted o
        ∧ o.reserved = 3
        ∧ o.bytes = [K.MACRO_XMVREG,
            (((st.insn.code >>> 9) &&& 0x1ff) <<< 4) ||| (st.insn.code &&& 0x1ff),
            (((st.insn2.code >>> 9) &&& 0x1ff) <<< 4) ||| (st.insn2.code &&& 0x1ff)]
        ∧ o.fixes = [])
    ∧ (st.xmov_flag = false → (st.insn.code >>> 22) &&& 0x1 = 0 →
      st.insn.code &&& 0x1ff > 15 → compress_attempt K op st = .skip)
    ∧ (st.xmov_flag = true →
      (st.insn.code &&& 0x1ff > 15
        ∨ ((st.insn2.code >>> 22) &&& 0x1 = 0 ∧ st.insn2.code &&& 0x1ff > 15)) →
      ∀ newcode size, compress_attempt K op st ≠ .done newcode size) := by
  have hct : op.compress_type ≠ 0 := by rw [hm]; exact hm0
  have hnx : ¬ op.compress_type = K.COMPRESS_XOP := by rw [hm]; exact hmx
  refine ⟨?_, ?_, ?_, ?_⟩
  · intro hxm hc hop1 hop2 heff himm hd hs
    obtain ⟨hb1, hb2⟩ := reg_pair_byte _ _ hd hs
    have ha : compress_attempt K op st = .done (K.MACRO_MVREG
        ||| shlW 32 ((((st.insn.code >>> 9) &&& 0x1ff) <<< 4) ||| (st.insn.code &&& 0x1ff)) 8)
        2 := by
      rw [attempt_plain K op st hxm (Or.inr hc) hop1 hop2, if_neg hnx, if_pos hm, ← hb1]
      unfold compress_mov
      rw [if_neg (by omega), if_neg (by simpa using heff), if_neg (by simpa using himm),
        if_neg (by omega)]
      simp
    refine ⟨_, tail_done K op st _ 2 hct hnc ha (by omega), by simp [hc], ?_, rfl⟩
    simp only [hc]
    exact two_bytes _ _ hp1 hb2
  · intro hxm hc hop1 hop2 heff himm hd hs heff2 himm2 hd2 hs2
    obtain ⟨hb1, hb2⟩ := reg_pair_byte _ _ hd hs
    obtain ⟨hc1, hc2⟩ := reg_pair_byte _ _ hd2 hs2
    have ha : compress_attempt K op st = .done (K.MACRO_XMVREG
        ||| (shlW 32 ((((st.insn.code >>> 9) &&& 0x1ff) <<< 4) ||| (st.insn.code &&& 0x1ff)) 8
          ||| shlW 32 ((((st.insn2.code >>> 9) &&& 0x1ff) <<< 4)
                ||| (st.insn2.code &&& 0x1ff)) 16)) 3 := by
      rw [attempt_xmov K op st hxm hop1 hop2 himm heff hd hs, if_neg hnx, if_pos hm, ← hb1,
        ← hc1]
      unfold compress_mov
      rw [if_neg (by omega), if_neg (by simpa using heff2), if_neg (by simpa using himm2),
        if_neg (by omega)]
      simp
    refine ⟨_, tail_done K op st _ 3 hct hnc ha (by omega), by simp [hc], ?_, rfl⟩
    simp only [hc]
    exact three_bytes_flat _ _ _ hp2 hb2 hc2
  · intro hxm himm hs
    exact mov_register_source_skip K op st hm hmx hxm himm hs
  · intro hxm hbad newcode size
    exact xmov_register_source_not_done K op st hm hmx hxm hbad newcode size
/-- C17 (witness): `xmov r1,r2 mov r3,r4` under the sample constants: three
bytes. -/
theorem C17_mov_register_witness :
    (sample_op 2 0).compress_type = sample_consts.COMPRESS_MOV
    ∧ sample_consts.COMPRESS_MOV ≠ sample_consts.COMPRESS_XOP
    ∧ sample_consts.COMPRESS_MOV ≠ 0
    ∧ sample_consts.MACRO_MVREG < 256
    ∧ sample_consts.MACRO_XMVREG < 256
    ∧ xmov_mov_mov.insn_compressed = false
    ∧ xmov_mov_mov.xmov_flag = true
    ∧ xmov_mov_mov.condmask = 0xf
    ∧ xmov_mov_mov.op1.reloc.type = BFD_RELOC_NONE
    ∧ xmov_mov_mov.op2.reloc.type = BFD_RELOC_NONE
    ∧ (xmov_mov_mov.insn.code >>> 23) &&& 0x7 = 1
    ∧ (xmov_mov_mov.insn.code >>> 22) &&& 0x1 = 0
    ∧ (xmov_mov_mov.insn.code >>> 9) &&& 0x1ff ≤ 15
    ∧ xmov_mov_mov.insn.code &&& 0x1ff ≤ 15
    ∧ (xmov_mov_mov.insn2.code >>> 23) &&& 0x7 = 1
    ∧ (xmov_mov_mov.insn2.code >>> 22) &&& 0x1 = 0
    ∧ (xmov_mov_mov.insn2.code >>> 9) &&& 0x1ff ≤ 15
    ∧ xmov_mov_mov.insn2.code &&& 0x1ff ≤ 15
    ∧ ((xmov_mov_mov.xmov_flag = false → xmov_mov_mov.condmask = 0xf →
        xmov_mov_mov.op1.reloc.type = BFD_RELOC_NONE →
        xmov_mov_mov.op2.reloc.type = BFD_RELOC_NONE →
        (xmov_mov_mov.insn.code >>> 23) &&& 0x7 = 1 →
        (xmov_mov_mov.insn.code >>> 22) &&& 0x1 = 0 →
        (xmov_mov_mov.insn.code >>> 9) &&& 0x1ff ≤ 15 → xmov_mov_mov.insn.code &&& 0x1ff ≤ 15 →
        ∃ o, md_assemble_tail sample_consts true (sample_op 2 0) xmov_mov_mov
            = AsmResult.emitted o
          ∧ o.reserved = 2
          ∧ o.bytes = [sample_consts.MACRO_MVREG,
              (((xmov_mov_mov.insn.code >>> 9) &&& 0x1ff) <<< 4)
                ||| (xmov_mov_mov.insn.code &&& 0x1ff)]
          ∧ o.fixes = [])
      ∧ (xmov_mov_mov.xmov_flag = true → xmov_mov_mov.condmask = 0xf →
        xmov_mov_mov.op1.reloc.type = BFD_RELOC_NONE →
        xmov_mov_mov.op2.reloc.type = BFD_RELOC_NONE →
        (xmov_mov_mov.insn.code >>> 23) &&& 0x7 = 1 →
        (xmov_mov_mov.insn.code >>> 22) &&& 0x1 = 0 →
        (xmov_mov_mov.insn.code >>> 9) &&& 0x1ff ≤ 15 → xmov_mov_mov.insn.code &&& 0x1ff ≤ 15 →
        (xmov_mov_mov.insn2.code >>> 23) &&& 0x7 = 1 →
        (xmov_mov_mov.insn2.code >>> 22) &&& 0x1 = 0 →
        (xmov_mov_mov.insn2.code >>> 9) &&& 0x1ff ≤ 15 →
        xmov_mov_mov.insn2.code &&& 0x1ff ≤ 15 →
        ∃ o, md_assemble_tail sample_consts true (sample_op 2 0) xmov_mov_mov
            = AsmResult.emitted o
          ∧ o.reserved = 3
          ∧ o.bytes = [sample_consts.MACRO_XMVREG,
              (((xmov_mov_mov.insn.code >>> 9) &&& 0x1ff) <<< 4)
                ||| (xmov_mov_mov.insn.code &&& 0x1ff),
              (((xmov_mov_mov.insn2.code >>> 9) &&& 0x1ff) <<< 4)
                ||| (xmov_mov_mov.insn2.code &&& 0x1ff)]
          ∧ o.fixes = [])
      ∧ (xmov_mov_mov.xmov_flag = false → (xmov_mov_mov.insn.code >>> 22) &&& 0x1 = 0 →
        xmov_mov_mov.insn.code &&& 0x1ff > 15 →
        compress_attempt sample_consts (sample_op 2 0) xmov_mov_mov = Attempt.skip)
      ∧ (xmov_mov_mov.xmov_flag = true →
        (xmov_mov_mov.insn.code &&& 0x1ff > 15
          ∨ ((xmov_mov_mov.insn2.code >>> 22) &&& 0x1 = 0
              ∧ xmov_mov_mov.insn2.code &&& 0x1ff > 15)) →
        ∀ newcode size,
          compress_attempt sample_consts (sample_op 2 0) xmov_mov_mov
            ≠ Attempt.done newcode size)) :=
  ⟨rfl, by decide, by decide, by decide, by decide, rfl, rfl, rfl, rfl, rfl, by decide,
    by decide, by decide, by decide, by decide, by decide, by decide, by decide,
    C17_mov_register sample_consts (sample_op 2 0) xmov_mov_mov rfl (by decide) (by decide)
      (by decide) (by decide) rfl⟩

theorem xop_done_size (K : OpcodeConsts) (copc : Nat) (x : Bool) (d s i e m B sz : Nat)
    (h : compress_xop K copc x d s i e m = .done B sz) : 2 ≤ sz ∧ sz ≤ 3 := by
  unfold compress_xop at h
  cases x <;> simp only [Bool.false_eq_true, if_true, if_false] at h
  all_goals (split_ifs at h <;> simp at h)
  all_goals omega

theorem mov_done_size (K : OpcodeConsts) (x : Bool) (c d s i e m B sz : Nat)
    (h : compress_mov K x c d s i e m = .done B sz) : 1 ≤ sz ∧ sz ≤ 3 := by
  unfold compress_mov at h
  split_ifs at h <;> simp at h <;> omega

theorem attempt_done_size (K : OpcodeConsts) (op : propeller_opcode) (st : AsmLocals)
    (B sz : Nat) (h : compress_attempt K op st = .done B sz) : 1 ≤ sz ∧ sz ≤ 3 := by
  unfold compress_attempt at h
  split_ifs at h
  all_goals dsimp only at h
  all_goals split at h
  all_goals first
    | exact Attempt.noConfusion h
    | exact ⟨Nat.le_trans (by decide) (xop_done_size _ _ _ _ _ _ _ _ _ _ h).1,
        (xop_done_size _ _ _ _ _ _ _ _ _ _ h).2⟩
    | exact mov_done_size _ _ _ _ _ _ _ _ _ _ h

theorem skip_prefix_bytes (B t s : Nat) (ht : t < 256) (hs : s ≤ 3) :
    number_bytes (shlW 32 B 8 ||| t) (s + 1) = t :: number_bytes B s := by
  have e : shlW 32 B 8 = (B % 2 ^ 24) <<< 8 := by
    unfold shlW
    rw [Nat.shiftLeft_eq, Nat.shiftLeft_eq]
    omega
  rw [e, or_shift_add _ t 8 (by omega)]
  have h24 : B % 2 ^ 24 < 2 ^ 24 := Nat.mod_lt _ (Nat.two_pow_pos 24)
  generalize hv : B % 2 ^ 24 * 2 ^ 8 + t = v
  have hs' : s = 0 ∨ s = 1 ∨ s = 2 ∨ s = 3 := by omega
  rcases hs' with h | h | h | h
  · subst h
    rw [number_bytes_one]
    simp only [number_bytes, List.range_zero, List.map_nil, List.cons.injEq, and_true]
    omega
  · subst h
    rw [number_bytes_two, number_bytes_one]
    simp only [List.cons.injEq, and_true]
    refine ⟨?_, ?_⟩ <;> omega
  · subst h
    rw [number_bytes_three, number_bytes_two]
    simp only [List.cons.injEq, and_true]
    refine ⟨?_, ?_, ?_⟩ <;> omega
  · subst h
    rw [number_bytes_four, number_bytes_three]
    simp only [List.cons.injEq, and_true]
    refine ⟨?_, ?_, ?_, ?_⟩ <;> omega

theorem skip_byte_lt (p c : Nat) (hp : p < 256) : p ||| (bitnot 32 c &&& 0xf) < 256 := by
  have h : bitnot 32 c &&& 0xf ≤ 0xf := Nat.and_le_right
  exact Nat.or_lt_two_pow (n := 8) (by omega) (by omega)

/-- C18: whenever the compression engine reaches `compress_done` with a
compact form `B` of size `s` (which is 1, 2 or 3): if the condition c is not
0xF, the line is encoded as `(B << 8) | (SKIP | (~c & 0xF))` with
`SKIP = PREFIX_SKIP3` when s = 3 and `PREFIX_SKIP2` otherwise, that is the
skip byte followed by the s bytes of `B`, in s + 1 bytes; if c = 0xF the line
is the s bytes of `B`. -/
theorem C18_skip_prefix (K : OpcodeConsts) (op : propeller_opcode) (st : AsmLocals)
    (B s : Nat)
    (hct : op.compress_type ≠ 0) (hnc : st.insn_compressed = false)
    (hsk2 : K.PREFIX_SKIP2 < 256) (hsk3 : K.PREFIX_SKIP3 < 256)
    (ha : compress_attempt K op st = .done B s) :
    1 ≤ s ∧ s ≤ 3
    ∧ (st.condmask ≠ 0xf →
      ∃ o, md_assemble_tail K true op st = .emitted o
        ∧ o.reserved = s + 1
        ∧ o.bytes = number_bytes (shlW 32 B 8
            ||| ((if s = 3 then K.PREFIX_SKIP3 else K.PREFIX_SKIP2)
                  ||| (bitnot 32 st.condmask &&& 0xf))) (s + 1)
        ∧ o.bytes = ((if s = 3 then K.PREFIX_SKIP3 else K.PREFIX_SKIP2)
                  ||| (bitnot 32 st.condmask &&& 0xf)) :: number_bytes B s
        ∧ o.bytes.length = s + 1
        ∧ o.fixes = [])
    ∧ (st.condmask = 0xf →
      ∃ o, md_assemble_tail K true op st = .emitted o
        ∧ o.reserved = s
        ∧ o.bytes = number_bytes B s
        ∧ o.fixes = []) := by
  obtain ⟨h1, h3⟩ := attempt_done_size K op st B s ha
  have ht := tail_done K op st B s hct hnc ha h3
  refine ⟨h1, h3, ?_, ?_⟩
  · intro hc
    have hb : (if s = 3 then K.PREFIX_SKIP3 else K.PREFIX_SKIP2)
        ||| (bitnot 32 st.condmask &&& 0xf) < 256 := by
      by_cases h : s = 3
      · rw [if_pos h]; exact skip_byte_lt _ _ hsk3
      · rw [if_neg h]; exact skip_byte_lt _ _ hsk2
    refine ⟨_, ht, by simp [hc], by simp [hc], ?_, ?_, rfl⟩
    · simp only [hc, ne_eq, not_false_eq_true, if_true]
      exact skip_prefix_bytes _ _ _ hb h3
    · simp only [hc, ne_eq, not_false_eq_true, if_true]
      exact number_bytes_length _ _
  · intro hc
    exact ⟨_, ht, by simp [hc], by simp [hc], rfl⟩
/-- C18 (witness): `mov r1, #5` under the condition 0xA, whose compact form
takes two bytes: three bytes are emitted, the skip byte first. -/
theorem C18_skip_prefix_witness :
    (sample_op 2 0).compress_type ≠ 0
    ∧ (mov_r1_5 0xA).insn_compressed = false
    ∧ sample_consts.PREFIX_SKIP2 < 256
    ∧ sample_consts.PREFIX_SKIP3 < 256
    ∧ compress_attempt sample_consts (sample_op 2 0) (mov_r1_5 0xA) = Attempt.done 0x571 2
    ∧ (mov_r1_5 0xA).condmask ≠ 0xf
    ∧ (1 ≤ 2 ∧ 2 ≤ 3
      ∧ ((mov_r1_5 0xA).condmask ≠ 0xf →
        ∃ o, md_assemble_tail sample_consts true (sample_op 2 0) (mov_r1_5 0xA)
            = AsmResult.emitted o
          ∧ o.reserved = 2 + 1
          ∧ o.bytes = number_bytes (shlW 32 0x571 8
              ||| ((if 2 = 3 then sample_consts.PREFIX_SKIP3 else sample_consts.PREFIX_SKIP2)
                    ||| (bitnot 32 (mov_r1_5 0xA).condmask &&& 0xf))) (2 + 1)
          ∧ o.bytes = ((if 2 = 3 then sample_consts.PREFIX_SKIP3
                          else sample_consts.PREFIX_SKIP2)
                    ||| (bitnot 32 (mov_r1_5 0xA).condmask &&& 0xf)) :: number_bytes 0x571 2
          ∧ o.bytes.length = 2 + 1
          ∧ o.fixes = [])
      ∧ ((mov_r1_5 0xA).condmask = 0xf →
        ∃ o, md_assemble_tail sample_consts true (sample_op 2 0) (mov_r1_5 0xA)
            = AsmResult.emitted o
          ∧ o.reserved = 2
          ∧ o.bytes = number_bytes 0x571 2
          ∧ o.fixes = [])) :=
  ⟨by decide, rfl, by decide, by decide, by decide, by decide,
    C18_skip_prefix sample_consts (sample_op 2 0) (mov_r1_5 0xA) 0x571 2 (by decide) rfl
      (by decide) (by decide) (by decide)⟩

theorem toValueT_nat (c : Nat) (h : c < 2 ^ 32) : toValueT 32 (c : Int) = c := by
  unfold toValueT
  have : ((c : Int) % (2 : Int) ^ 32) = (c : Int) := by
    apply Int.emod_eq_of_lt
    · omega
    · have : ((2 : Int) ^ 32) = ((2 ^ 32 : Nat) : Int) := by norm_num
      rw [this]
      exact_mod_cast h
  rw [this]
  simp

theorem const_range_check (v : Nat) (hv : v < 2 ^ 32) :
    v &&& bitnot 32 0x1ff ≠ 0 ↔ 512 ≤ v := by
  have e : (0x1ff : Nat) = 2 ^ 9 - 1 := by norm_num
  rw [e, bitnot_low 32 9 (by omega), and_range v 32 9 (by omega), div_mul_ne_zero_iff,
    Nat.mod_eq_of_lt hv]
  norm_num

theorem parse_src_hash_constant (compress pasm_default : Bool) (mark : Option Bool)
    (c : Nat) (hc : c < 2 ^ 32) (operand insn : propeller_code)
    (herr : operand.error = none) :
    parse_src_hash compress pasm_default PROPELLER_OPERAND_TWO_OPS mark
        (some (constant_exp c)) operand insn
      = if 512 ≤ c then
          ({ operand with
              error := some "9-bit constant out of range",
              reloc := { operand.reloc with exp := constant_exp c, pc_rel := false } },
           { insn with code := insn.code ||| (1 <<< 22) })
        else
          ({ operand with
              reloc := { operand.reloc with exp := constant_exp c, pc_rel := false } },
           { insn with code := (insn.code ||| (1 <<< 22)) ||| c }) := by
  have hv := const_range_check c hc
  by_cases h : 512 ≤ c
  · have h2 : c &&& bitnot 32 0x1ff ≠ 0 := hv.mpr h
    simp [parse_src_hash, parse_src_switch, constant_exp, herr, toValueT_nat c hc, h, h2,
      pasm_replace_expression]
  · have h2 : ¬ c &&& bitnot 32 0x1ff ≠ 0 := fun a => h (hv.mp a)
    simp [parse_src_hash, parse_src_switch, constant_exp, herr, toValueT_nat c hc, h, h2,
      pasm_replace_expression]
theorem set_r_default_frame (F : FlagConsts) (op : propeller_opcode) (st : AsmLocals) :
    (set_r_default F op st).op1 = st.op1 ∧ (set_r_default F op st).op2 = st.op2
      ∧ (set_r_default F op st).op3 = st.op3 ∧ (set_r_default F op st).op4 = st.op4
      ∧ (set_r_default F op st).insn2.error = st.insn2.error
      ∧ (set_r_default F op st).size = st.size
      ∧ (set_r_default F op st).condmask = st.condmask
      ∧ (set_r_default F op st).insn_compressed = st.insn_compressed
      ∧ (set_r_default F op st).insn2_compressed = st.insn2_compressed
      ∧ (set_r_default F op st).xmov_flag = st.xmov_flag
      ∧ (st.xmov_flag = false → (set_r_default F op st).insn2 = st.insn2) := by
  unfold set_r_default
  by_cases h : op.flags &&& F.FLAG_R ≠ 0
  · rw [if_pos h]
    cases hx : st.xmov_flag <;> simp
  · rw [if_neg h]
    simp

theorem effect_loop_frame (op : propeller_opcode) (effs : List propeller_effect) :
    ∀ st st2 : AsmLocals, effect_loop op effs st = .ok st2 →
      st2.op1 = st.op1 ∧ st2.op2 = st.op2 ∧ st2.op3 = st.op3 ∧ st2.op4 = st.op4
        ∧ st2.insn2.error = st.insn2.error
        ∧ st2.size = st.size
        ∧ st2.condmask = st.condmask
        ∧ st2.insn_compressed = st.insn_compressed
        ∧ st2.insn2_compressed = st.insn2_compressed
        ∧ st2.xmov_flag = st.xmov_flag
        ∧ (st.xmov_flag = false → st2.insn2 = st.insn2) := by
  induction effs with
  | nil =>
    intro st st2 h
    simp only [effect_loop, Except.ok.injEq] at h
    subst h
    simp
  | cons eff rest ih =>
    intro st st2 h
    unfold effect_loop at h
    by_cases ha : op.flags &&& eff.flag ≠ 0
    · rw [if_pos ha] at h
      cases hx : st.xmov_flag
      · rw [hx] at h
        simp only [Bool.false_eq_true, if_false] at h
        have := ih _ _ h
        simpa [hx] using this
      · rw [hx] at h
        simp only [if_true] at h
        have := ih _ _ h
        simpa [hx] using this
    · rw [if_neg ha] at h
      exact Except.noConfusion h

theorem after_switch_stored_error (K : OpcodeConsts) (F : FlagConsts) (compress : Bool)
    (op : propeller_opcode) (st : AsmLocals) (effs : List propeller_effect)
    (rest_blank : Bool) (e : String)
    (h1 : st.op1.error = none) (h2 : st.op2.error = some e) :
    (∃ msg, md_assemble_after_switch K F compress op st effs rest_blank = .bad msg)
      ∧ md_assemble_after_switch K F compress op st [] rest_blank = .bad e := by
  have hf := set_r_default_frame F op st
  constructor
  · unfold md_assemble_after_switch
    cases hl : effect_loop op effs (set_r_default F op st) with
    | error msg => exact ⟨msg, rfl⟩
    | ok st2 =>
      have hg := effect_loop_frame op effs _ _ hl
      refine ⟨e, ?_⟩
      simp [first_error, hg.1, hg.2.1, hf.1, hf.2.1, h1, h2]
  · unfold md_assemble_after_switch
    simp [effect_loop, first_error, hf.1, hf.2.1, h1, h2]
theorem shr_or (a b k : Nat) : (a ||| b) >>> k = a >>> k ||| b >>> k := by
  apply Nat.eq_of_testBit_eq
  intro i
  rw [Nat.testBit_shiftRight, Nat.testBit_or, Nat.testBit_or, Nat.testBit_shiftRight,
    Nat.testBit_shiftRight]

theorem merged_fields (x b c : Nat) (hc : c < 512) :
    (((x ||| (1 <<< 22)) ||| c) ||| b) &&& 0x1ff = ((x ||| b) &&& 0x1ff) ||| c
      ∧ ((((x ||| (1 <<< 22)) ||| c) ||| b) >>> 9) &&& 0x1ff = ((x ||| b) >>> 9) &&& 0x1ff
      ∧ ((((x ||| (1 <<< 22)) ||| c) ||| b) >>> 22) &&& 0x1 = 1
      ∧ ((((x ||| (1 <<< 22)) ||| c) ||| b) >>> 23) &&& 0x7 = ((x ||| b) >>> 23) &&& 0x7 := by
  have hz : ((x ||| (1 <<< 22)) ||| c) ||| b = ((x ||| b) ||| (1 <<< 22)) ||| c := by
    ac_rfl
  rw [hz]
  generalize x ||| b = y
  have c9 : c >>> 9 = 0 := by
    rw [Nat.shiftRight_eq_div_pow]
    exact Nat.div_eq_of_lt (by omega)
  have c22 : c >>> 22 = 0 := by
    rw [Nat.shiftRight_eq_div_pow]
    exact Nat.div_eq_of_lt (by omega)
  have c23 : c >>> 23 = 0 := by
    rw [Nat.shiftRight_eq_div_pow]
    exact Nat.div_eq_of_lt (by omega)
  have cm : c &&& 0x1ff = c := by
    have e : (0x1ff : Nat) = 2 ^ 9 - 1 := by norm_num
    rw [e, Nat.and_pow_two_sub_one_eq_mod]
    exact Nat.mod_eq_of_lt (by omega)
  refine ⟨?_, ?_, ?_, ?_⟩
  · rw [or_and_right, or_and_right, cm]
    have : ((1 : Nat) <<< 22) &&& 0x1ff = 0 := by decide
    rw [this, Nat.or_zero]
  · rw [shr_or, shr_or, c9, Nat.or_zero, or_and_right]
    have : (((1 : Nat) <<< 22) >>> 9) &&& 0x1ff = 0 := by decide
    rw [this, Nat.or_zero]
  · rw [shr_or, shr_or, c22, Nat.or_zero, or_and_right]
    have : (((1 : Nat) <<< 22) >>> 22) &&& 0x1 = 1 := by decide
    rw [this]
    have e : (0x1 : Nat) = 2 ^ 1 - 1 := by norm_num
    rw [e, Nat.and_pow_two_sub_one_eq_mod]
    have h2 : y >>> 22 % 2 ^ 1 < 2 := Nat.mod_lt _ (by norm_num)
    rcases (by omega : y >>> 22 % 2 ^ 1 = 0 ∨ y >>> 22 % 2 ^ 1 = 1) with h | h <;> rw [h] <;> rfl
  · rw [shr_or, shr_or, c23, Nat.or_zero, or_and_right]
    have : (((1 : Nat) <<< 22) >>> 23) &&& 0x7 = 0 := by decide
    rw [this, Nat.or_zero]

theorem set_r_default_plain (F : FlagConsts) (op : propeller_opcode) :
    ∃ b, ∀ st : AsmLocals, st.xmov_flag = false →
      set_r_default F op st = { st with insn := { st.insn with code := st.insn.code ||| b } } := by
  by_cases h : op.flags &&& F.FLAG_R ≠ 0
  · refine ⟨shlW 32 (if op.flags &&& F.FLAG_R_DEF ≠ 0 then 1 else 0) 23, fun st hx => ?_⟩
    unfold set_r_default
    rw [if_pos h]
    simp [hx]
  · refine ⟨0, fun st hx => ?_⟩
    unfold set_r_default
    rw [if_neg h]
    simp
theorem imm12_emitted (K : OpcodeConsts) (op : propeller_opcode) (st : AsmLocals)
    (hx : op.compress_type = K.COMPRESS_XOP) (hx0 : K.COMPRESS_XOP ≠ 0)
    (hcopc : op.copc < 16) (hp2 : K.PREFIX_REGIMM12 < 256)
    (hnc : st.insn_compressed = false) (hxm : st.xmov_flag = false)
    (hcond : st.condmask = 0xf)
    (hop1 : st.op1.reloc.type = BFD_RELOC_NONE) (hop2 : st.op2.reloc.type = BFD_RELOC_NONE)
    (heff : (st.insn.code >>> 23) &&& 0x7 = expectedeffects K op.copc)
    (hd : (st.insn.code >>> 9) &&& 0x1ff ≤ 15)
    (himm : (st.insn.code >>> 22) &&& 0x1 ≠ 0)
    (hs : 16 ≤ st.insn.code &&& 0x1ff) :
    ∃ o, md_assemble_tail K true op st = .emitted o
      ∧ o.reserved = 3
      ∧ o.bytes = [K.PREFIX_REGIMM12 ||| ((st.insn.code >>> 9) &&& 0x1ff),
                   (st.insn.code &&& 0x1ff) &&& 0xff,
                   (op.copc <<< 4) ||| ((st.insn.code &&& 0x1ff) >>> 8)]
      ∧ o.fixes = [] := by
  have hct : op.compress_type ≠ 0 := by rw [hx]; exact hx0
  have ha := xop_imm_attempt K op st hx hxm (Or.inr hcond) hop1 hop2 heff hd himm
  have hs512 := and_1ff_lt st.insn.code
  rw [if_pos (by omega)] at ha
  obtain ⟨hb1, hb2, hb3⟩ := imm12_bytes (st.insn.code &&& 0x1ff) op.copc (by omega) hcopc
  rw [hb2] at ha
  refine ⟨_, tail_done K op st _ 3 hct hnc ha (by omega), by simp [hcond], ?_, rfl⟩
  simp only [hcond]
  exact three_bytes _ _ _ (tag_or_reg _ _ hp2 hd) hb1 hb3

/-- C12: the source constant of a `#` operand is checked against the 9-bit
field by `parse_src`.  For a line `op dest, #c` of the two-operand format with
compression on: every constant 512 <= c < 2^32, in particular 4095 and 4096,
makes `parse_src` store "9-bit constant out of range", and `md_assemble`
reports a diagnostic and emits nothing (neither reg/imm12 nor the fallback);
for a register-operand-class instruction with destination <= 15, default
effects, condition 0xF and no effect flags, every constant 16 <= c <= 511 is
encoded in the 3-byte reg/imm12 form `PREFIX_REGIMM12 | dest`, `c & 0xff`,
`(copc << 4) | (c >> 8)`. -/
theorem C12_immediate_constant_range (K : OpcodeConsts) (F : FlagConsts)
    (op : propeller_opcode) (st : AsmLocals) (pasm_default : Bool) (mark : Option Bool)
    (c : Nat)
    (h1 : st.op1.error = none) (h2 : st.op2.error = none) :
    (512 ≤ c → c < 2 ^ 32 →
      (two_ops_hash_source true pasm_default mark (some (constant_exp c)) st).op2.error
          = some "9-bit constant out of range"
        ∧ (∀ effs rest_blank, ∃ msg,
            md_assemble_after_switch K F true op
              (two_ops_hash_source true pasm_default mark (some (constant_exp c)) st)
              effs rest_blank = .bad msg)
        ∧ (∀ rest_blank,
            md_assemble_after_switch K F true op
              (two_ops_hash_source true pasm_default mark (some (constant_exp c)) st)
              [] rest_blank = .bad "9-bit constant out of range"))
    ∧ (16 ≤ c → c ≤ 511 →
      op.compress_type = K.COMPRESS_XOP → K.COMPRESS_XOP ≠ 0 → op.copc < 16 →
      K.PREFIX_REGIMM12 < 256 →
      st.insn_compressed = false → st.xmov_flag = false → st.condmask = 0xf →
      st.op1.reloc.type = BFD_RELOC_NONE → st.op2.reloc.type = BFD_RELOC_NONE →
      st.insn2.error = none → st.op3.error = none → st.op4.error = none →
      (set_r_default F op st).insn.code &&& 0x1ff = 0 →
      ((set_r_default F op st).insn.code >>> 9) &&& 0x1ff ≤ 15 →
      ((set_r_default F op st).insn.code >>> 23) &&& 0x7 = expectedeffects K op.copc →
      ∃ o, md_assemble_after_switch K F true op
            (two_ops_hash_source true pasm_default mark (some (constant_exp c)) st)
            [] true = .emitted o
        ∧ o.reserved = 3
        ∧ o.bytes = [K.PREFIX_REGIMM12 ||| (((set_r_default F op st).insn.code >>> 9) &&& 0x1ff),
                     c &&& 0xff, (op.copc <<< 4) ||| (c >>> 8)]
        ∧ o.fixes = []) := by
  constructor
  · intro hlo hhi
    have hp := parse_src_hash_constant true pasm_default mark c hhi st.op2 st.insn h2
    rw [if_pos hlo] at hp
    have he : (two_ops_hash_source true pasm_default mark (some (constant_exp c)) st).op2.error
        = some "9-bit constant out of range" := by
      simp [two_ops_hash_source, hp]
    have h1' : (two_ops_hash_source true pasm_default mark (some (constant_exp c)) st).op1.error
        = none := by
      simp [two_ops_hash_source, h1]
    refine ⟨he, fun effs rest_blank => ?_, fun rest_blank => ?_⟩
    · exact (after_switch_stored_error K F true op _ effs rest_blank _ h1' he).1
    · exact (after_switch_stored_error K F true op _ [] rest_blank _ h1' he).2
  · intro hlo hhi hx hx0 hcopc hp2 hnc hxm hcond hop1 hop2 he2 he3 he4 hy0 hyd hyeff
    have hp := parse_src_hash_constant true pasm_default mark c (by omega) st.op2 st.insn h2
    rw [if_neg (by omega)] at hp
    obtain ⟨b, hb⟩ := set_r_default_plain F op
    have hst := hb st hxm
    rw [hst] at hy0 hyd hyeff ⊢
    simp only at hy0 hyd hyeff ⊢
    obtain ⟨f1, f2, f3, f4⟩ := merged_fields st.insn.code b c (by omega)
    rw [hy0, Nat.zero_or] at f1
    have hst' := hb (two_ops_hash_source true pasm_default mark (some (constant_exp c)) st)
      (by simp [two_ops_hash_source, hxm])
    have hm : md_assemble_after_switch K F true op
        (two_ops_hash_source true pasm_default mark (some (constant_exp c)) st) [] true
        = md_assemble_tail K true op
            (set_r_default F op
              (two_ops_hash_source true pasm_default mark (some (constant_exp c)) st)) := by
      unfold md_assemble_after_switch
      rw [hst']
      simp [effect_loop, first_error, two_ops_hash_source, hp, h1, h2, he2, he3, he4]
    rw [hm, hst']
    have hfin := imm12_emitted K op
      { two_ops_hash_source true pasm_default mark (some (constant_exp c)) st with
        insn := { (two_ops_hash_source true pasm_default mark (some (constant_exp c)) st).insn
          with code := (two_ops_hash_source true pasm_default mark
            (some (constant_exp c)) st).insn.code ||| b } }
      hx hx0 hcopc hp2
      (by simp [two_ops_hash_source, hnc]) (by simp [two_ops_hash_source, hxm])
      (by simp [two_ops_hash_source, hcond]) (by simp [two_ops_hash_source, hop1])
      (by simp [two_ops_hash_source, hp, hop2])
      (by simp only [two_ops_hash_source, hp]; rw [f4]; exact hyeff)
      (by simp only [two_ops_hash_source, hp]; rw [f2]; exact hyd)
      (by simp only [two_ops_hash_source, hp]; rw [f3]; decide)
      (by simp only [two_ops_hash_source, hp]; rw [f1]; exact hlo)
    obtain ⟨o, ho1, ho2, ho3, ho4⟩ := hfin
    refine ⟨o, ho1, ho2, ?_, ho4⟩
    rw [ho3]
    simp only [two_ops_hash_source, hp]
    rw [f1, f2]
/-- C12 (counterexample): `add r3, #4095` and `add r3, #4096` with compression
on: both constants are rejected by the 9-bit check of `parse_src`, so the
first is not encoded in the reg/imm12 form and the second is not emitted
through the fallback; nothing is emitted for either. -/
theorem C12_counterexample :
    md_assemble_after_switch sample_consts sample_flags true (sample_op 1 0)
        (two_ops_hash_source true false none (some (constant_exp 4095)) add_r3_pending)
        [] true = AsmResult.bad "9-bit constant out of range"
    ∧ md_assemble_after_switch sample_consts sample_flags true (sample_op 1 0)
        (two_ops_hash_source true false none (some (constant_exp 4096)) add_r3_pending)
        [] true = AsmResult.bad "9-bit constant out of range" := by
  constructor <;> rfl
/-- C12 (witness): `add r3, #4095` (rejected) and `add r3, #16` (reg/imm12,
three bytes) under the sample constants. -/
theorem C12_immediate_constant_range_witness :
    (add_r3_pending.op1.error = none ∧ add_r3_pending.op2.error = none
      ∧ (512 : Nat) ≤ 4095 ∧ (4095 : Nat) < 2 ^ 32
      ∧ (two_ops_hash_source true false none (some (constant_exp (4095 : Nat)))
            add_r3_pending).op2.error = some "9-bit constant out of range"
      ∧ (∀ effs rest_blank, ∃ msg,
          md_assemble_after_switch sample_consts sample_flags true (sample_op 1 0)
            (two_ops_hash_source true false none (some (constant_exp (4095 : Nat)))
              add_r3_pending) effs rest_blank = AsmResult.bad msg)
      ∧ (∀ rest_blank,
          md_assemble_after_switch sample_consts sample_flags true (sample_op 1 0)
            (two_ops_hash_source true false none (some (constant_exp (4095 : Nat)))
              add_r3_pending) [] rest_blank = AsmResult.bad "9-bit constant out of range"))
    ∧ (add_r3_pending.op1.error = none ∧ add_r3_pending.op2.error = none
      ∧ (16 : Nat) ≤ 16 ∧ (16 : Nat) ≤ 511
      ∧ ∃ o, md_assemble_after_switch sample_consts sample_flags true (sample_op 1 0)
            (two_ops_hash_source true false none (some (constant_exp (16 : Nat)))
              add_r3_pending) [] true = AsmResult.emitted o
        ∧ o.reserved = 3
        ∧ o.bytes = [sample_consts.PREFIX_REGIMM12
              ||| (((set_r_default sample_flags (sample_op 1 0) add_r3_pending).insn.code >>> 9)
                    &&& 0x1ff),
            16 &&& 0xff, ((sample_op 1 0).copc <<< 4) ||| (16 >>> 8)]
        ∧ o.fixes = []) :=
  ⟨⟨rfl, rfl, by decide, by decide,
      (C12_immediate_constant_range sample_consts sample_flags (sample_op 1 0) add_r3_pending
        false none 4095 rfl rfl).1 (by decide) (by decide)⟩,
    ⟨rfl, rfl, by decide, by decide,
      (C12_immediate_constant_range sample_consts sample_flags (sample_op 1 0) add_r3_pending
        false none 16 rfl rfl).2 (by decide) (by decide) rfl (by decide) (by decide)
        (by decide) rfl rfl rfl rfl rfl rfl rfl rfl (by decide) (by decide) (by decide)⟩⟩

/-- The part of the no-drop property that holds: the engine reaches
`compress_done` only when neither `op1` nor `op2` has a pending relocation. -/
theorem compaction_resolved_first_operands (K : OpcodeConsts) (op : propeller_opcode)
    (st : AsmLocals) (B s : Nat) (h : compress_attempt K op st = .done B s) :
    st.op1.reloc.type = BFD_RELOC_NONE ∧ st.op2.reloc.type = BFD_RELOC_NONE := by
  unfold compress_attempt at h
  by_cases h0 : st.size > 4 ∧ 0xf ≠ st.condmask ∧ st.xmov_flag = false
  · rw [if_pos h0] at h
    exact Attempt.noConfusion h
  · rw [if_neg h0] at h
    by_cases h2 : st.op2.reloc.type ≠ BFD_RELOC_NONE
    · rw [if_pos h2] at h
      exact Attempt.noConfusion h
    · rw [if_neg h2] at h
      by_cases h1 : st.op1.reloc.type ≠ BFD_RELOC_NONE
      · simp only [h1, ne_eq, not_false_eq_true, if_true] at h
        exact Attempt.noConfusion h
      · exact ⟨by simpa using h1, by simpa using h2⟩

/-- C19 (failing input): `xmov r0,r1 add r2,#foo` with compression on.  `op4`
holds a pending relocation against `foo`, yet the engine reaches
`compress_done`: the line is replaced by the three bytes of the compact form
with immediate 0 and no fixup is recorded.  With compression off the same
locals give 8 bytes and the fixup for `foo` at offset 4. -/
theorem C19_xmov_drops_relocation :
    xmov_add_symbol.op4.reloc.type = BFD_RELOC_PROPELLER_SRC_IMM
    ∧ compress_attempt sample_consts (sample_op 1 0) xmov_add_symbol = Attempt.done 0x152 3
    ∧ md_assemble_after_switch sample_consts sample_flags true (sample_op 1 0)
        xmov_add_symbol [] true
      = AsmResult.emitted
          { reserved := 3, bytes := [0x52, 0x01, 0x00], fixes := [], compress_flag := true }
    ∧ md_assemble_after_switch sample_consts sample_flags false (sample_op 1 0)
        xmov_add_symbol [] true
      = AsmResult.emitted
          { reserved := 8,
            bytes := [0x01, 0x00, 0xBC, 0xA0, 0x00, 0x04, 0xFC, 0x80],
            fixes := [{ fx_where := 4, fx_size := 4,
                        exp := { X_op := operatorT.O_symbol, X_add_number := 0,
                                 X_add_symbol := some "foo" },
                        pcrel := false, r_type := BFD_RELOC_PROPELLER_SRC_IMM }],
            compress_flag := false } := by
  refine ⟨rfl, ?_, ?_, ?_⟩
  · decide
  · rfl
  · rfl

theorem emit_reserved (K : OpcodeConsts) (compress : Bool) (st : AsmLocals) (o : Emitted)
    (h : emit K compress st = .emitted o) :
    o.reserved =
      if compress ∧ st.insn_compressed = false then
        st.size + 1 + (if (st.insn2.reloc.type ≠ BFD_RELOC_NONE ∨ st.insn2.code ≠ 0) then
          (if st.insn2_compressed then 0 else 1) else 0)
      else st.size := by
  cases hc : compress <;> cases hi : st.insn_compressed
    <;> by_cases h2 : (st.insn2.reloc.type ≠ BFD_RELOC_NONE ∨ st.insn2.code ≠ 0)
    <;> cases h2c : st.insn2_compressed
    <;> simp [emit, hc, hi, h2, h2c, number_bytes_length] at h ⊢
  all_goals
    split_ifs at h
  all_goals first
    | exact AsmResult.noConfusion h
    | (simp only [AsmResult.emitted.injEq] at h
       rw [← h])

theorem fallback_reserved (K : OpcodeConsts) (compress : Bool) (st : AsmLocals) (o : Emitted)
    (h : emit K compress (pack_fallback K compress st) = .emitted o) :
    o.reserved =
      if compress ∧ st.insn_compressed = false ∧ ¬ (st.size = 4 ∧ st.condmask = 0xf) then
        st.size + 1 + (if (st.insn2.reloc.type ≠ BFD_RELOC_NONE ∨ st.insn2.code ≠ 0) then
          (if st.insn2_compressed then 0 else 1) else 0)
      else st.size := by
  have hr := emit_reserved K compress _ o h
  by_cases hp : compress ∧ st.insn_compressed = false ∧ st.size = 4 ∧ st.condmask = 0xf
  · have e : pack_fallback K compress st = { st with
        insn := { st.insn with code := pack_native K st.insn.code % 2 ^ 32 }
        reloc_prefix := 1
        insn_compressed := true } := by
      unfold pack_fallback
      rw [if_pos hp]
    rw [e] at hr
    simp only [Bool.true_eq_false, and_false, if_false] at hr
    rw [hr, if_neg (fun a => a.2.2 ⟨hp.2.2.1, hp.2.2.2⟩)]
  · have e : pack_fallback K compress st = st := by
      unfold pack_fallback
      rw [if_neg hp]
    rw [e] at hr
    rw [hr]
    by_cases hc : compress ∧ st.insn_compressed = false
    · have hn : ¬ (st.size = 4 ∧ st.condmask = 0xf) := fun a => hp ⟨hc.1, hc.2, a.1, a.2⟩
      have hc3 : compress ∧ st.insn_compressed = false ∧ ¬ (st.size = 4 ∧ st.condmask = 0xf) :=
        ⟨hc.1, hc.2, hn⟩
      rw [if_pos hc, if_pos hc3]
    · have hc3 : ¬ (compress ∧ st.insn_compressed = false
          ∧ ¬ (st.size = 4 ∧ st.condmask = 0xf)) := fun a => hc ⟨a.1, a.2.1⟩
      rw [if_neg hc, if_neg hc3]

theorem tail_reserved (K : OpcodeConsts) (compress : Bool) (op : propeller_opcode)
    (st : AsmLocals) (o : Emitted)
    (h : md_assemble_tail K compress op st = .emitted o) :
    (compress = true ∧ st.insn_compressed = false ∧ 1 ≤ o.reserved ∧ o.reserved ≤ 4)
    ∨ o.reserved =
      if compress ∧ st.insn_compressed = false ∧ ¬ (st.size = 4 ∧ st.condmask = 0xf) then
        st.size + 1 + (if (st.insn2.reloc.type ≠ BFD_RELOC_NONE ∨ st.insn2.code ≠ 0) then
          (if st.insn2_compressed then 0 else 1) else 0)
      else st.size := by
  by_cases hE : compress = true ∧ op.compress_type ≠ 0 ∧ st.insn_compressed = false
  · obtain ⟨hc, hct, hnc⟩ := hE
    subst hc
    cases ha : compress_attempt K op st with
    | bad msg =>
      simp [md_assemble_tail, hct, hnc, ha] at h
    | skip =>
      rw [tail_no_compaction K op st (Or.inr ha)] at h
      exact Or.inr (fallback_reserved K true st o h)
    | done B s =>
      obtain ⟨h1, h3⟩ := attempt_done_size K op st B s ha
      rw [tail_done K op st B s hct hnc ha h3] at h
      simp only [AsmResult.emitted.injEq] at h
      left
      refine ⟨rfl, hnc, ?_, ?_⟩
      · rw [← h]
        show 1 ≤ if st.condmask ≠ 0xf then s + 1 else s
        split_ifs <;> omega
      · rw [← h]
        show (if st.condmask ≠ 0xf then s + 1 else s) ≤ 4
        split_ifs <;> omega
  · have e : md_assemble_tail K compress op st = emit K compress (pack_fallback K compress st) := by
      unfold md_assemble_tail
      rw [if_neg (by simpa using hE)]
    rw [e] at h
    exact Or.inr (fallback_reserved K compress st o h)

theorem layout_facts (compress : Bool) (format : operand_format) (condmask : Nat)
    (early_exit leasp_reg_ok mvi_clean copc_mviw macro_known : Bool) (L : Layout)
    (h : format_switch compress format condmask early_exit leasp_reg_ok mvi_clean copc_mviw
      macro_known = .layout L) :
    (L.insn_compressed = true →
      compress = true ∧ (L.size = 1 ∨ L.size = 2 ∨ L.size = 3 ∨ L.size = 5))
    ∧ (L.insn_compressed = false → (L.size = 4 ∧ L.insn2_empty = true) ∨ L.size = 8)
    ∧ (L.insn2_empty = true → L.xmov_flag = false) := by
  cases format <;> simp only [format_switch] at h <;> (try split_ifs at h)
    <;> simp only [SwitchOutcome.layout.injEq, reduceCtorEq] at h
    <;> subst h <;> simp_all

theorem after_switch_tail (K : OpcodeConsts) (F : FlagConsts) (compress : Bool)
    (op : propeller_opcode) (st : AsmLocals) (effs : List propeller_effect)
    (rest_blank : Bool) (o : Emitted)
    (h : md_assemble_after_switch K F compress op st effs rest_blank = .emitted o) :
    ∃ st2, md_assemble_tail K compress op st2 = .emitted o
      ∧ st2.size = st.size ∧ st2.condmask = st.condmask
      ∧ st2.insn_compressed = st.insn_compressed
      ∧ st2.insn2_compressed = st.insn2_compressed
      ∧ st2.xmov_flag = st.xmov_flag
      ∧ (st.xmov_flag = false → st2.insn2 = st.insn2) := by
  have hf := set_r_default_frame F op st
  unfold md_assemble_after_switch at h
  cases hl : effect_loop op effs (set_r_default F op st) with
  | error msg =>
    rw [hl] at h
    exact AsmResult.noConfusion h
  | ok st2 =>
    rw [hl] at h
    have hg := effect_loop_frame op effs _ _ hl
    cases he : first_error st2 rest_blank with
    | some err =>
      simp only [he] at h
      exact AsmResult.noConfusion h
    | none =>
      simp only [he] at h
      refine ⟨st2, h, ?_, ?_, ?_, ?_, ?_, ?_⟩
      · rw [hg.2.2.2.2.2.1, hf.2.2.2.2.2.1]
      · rw [hg.2.2.2.2.2.2.1, hf.2.2.2.2.2.2.1]
      · rw [hg.2.2.2.2.2.2.2.1, hf.2.2.2.2.2.2.2.1]
      · rw [hg.2.2.2.2.2.2.2.2.1, hf.2.2.2.2.2.2.2.2.1]
      · rw [hg.2.2.2.2.2.2.2.2.2.1, hf.2.2.2.2.2.2.2.2.2.1]
      · intro hx
        rw [hg.2.2.2.2.2.2.2.2.2.2 (by rw [hf.2.2.2.2.2.2.2.2.2.1]; exact hx),
          hf.2.2.2.2.2.2.2.2.2.2 hx]

/-- C20: for every line that `md_assemble` encodes after the format switch has
decided a layout, in either mode, the number of bytes reserved is one of 1, 2,
3, 4, 5, 8, 9 or 10.  With compression off it is 4 or 8.  The values 9 and 10
occur only with compression on, for an 8-byte line that was given no compact
form: one `MACRO_NATIVE` byte is added before the first word and one more
before a second word that is present and not marked as data. -/
theorem C20_reserved_sizes (K : OpcodeConsts) (F : FlagConsts) (compress : Bool)
    (format : operand_format) (condmask : Nat)
    (early_exit leasp_reg_ok mvi_clean copc_mviw macro_known : Bool) (L : Layout)
    (op : propeller_opcode) (st : AsmLocals) (effs : List propeller_effect)
    (rest_blank : Bool) (o : Emitted)
    (hsw : format_switch compress format condmask early_exit leasp_reg_ok mvi_clean copc_mviw
      macro_known = .layout L)
    (hl : has_layout st L)
    (h : md_assemble_after_switch K F compress op st effs rest_blank = .emitted o) :
    o.reserved ∈ [1, 2, 3, 4, 5, 8, 9, 10]
    ∧ (compress = false → o.reserved = 4 ∨ o.reserved = 8)
    ∧ (o.reserved = 9 ∨ o.reserved = 10 →
        compress = true ∧ L.size = 8 ∧ L.insn_compressed = false) := by
  obtain ⟨f1, f2, f3⟩ := layout_facts _ _ _ _ _ _ _ _ _ hsw
  obtain ⟨l1, l2, l3, l4, l5⟩ := hl
  obtain ⟨st2, ht, g1, -, g3, g4, g5, g6⟩ := after_switch_tail K F compress op st effs
    rest_blank o h
  have hr := tail_reserved K compress op st2 o ht
  rw [g1, g3, g4, l1, l2, l3] at hr
  simp only [List.mem_cons, List.mem_singleton, List.not_mem_nil, or_false]
  cases hic : L.insn_compressed
  · -- native layout
    rw [hic] at hr
    rcases f2 hic with ⟨hs, he⟩ | hs
    · have hx : st.xmov_flag = false := by rw [l4]; exact f3 he
      have h2 := l5 he
      rw [← g6 hx] at h2
      have hno : ¬ (st2.insn2.reloc.type ≠ BFD_RELOC_NONE ∨ st2.insn2.code ≠ 0) := by
        rintro (a | a)
        · exact a h2.2
        · exact a h2.1
      rw [if_neg hno, hs] at hr
      cases hc : compress
      · rw [hc] at hr
        simp only [Bool.false_eq_true, false_and, if_false, and_false] at hr
        rcases hr with hr | hr
        · exact hr.elim
        · refine ⟨by omega, fun _ => by omega, fun a => by omega⟩
      · rw [hc] at hr
        rcases hr with hr | hr
        · refine ⟨by omega, fun a => by simp at a, fun a => by omega⟩
        · have h45 : o.reserved = 4 ∨ o.reserved = 5 := by
            rw [hr]
            split_ifs <;> simp
          refine ⟨by omega, fun a => by simp at a, fun a => by omega⟩
    · rw [hs] at hr
      cases hc : compress
      · rw [hc] at hr
        simp only [Bool.false_eq_true, false_and, if_false, and_false] at hr
        rcases hr with hr | hr
        · exact hr.elim
        · refine ⟨by omega, fun _ => by omega, fun a => by omega⟩
      · rw [hc] at hr
        rcases hr with hr | hr
        · refine ⟨by omega, fun a => by simp at a, fun _ => ⟨rfl, hs, rfl⟩⟩
        · have h910 : o.reserved = 9 ∨ o.reserved = 10 := by
            rw [hr]
            split_ifs <;> simp_all
          refine ⟨by omega, fun a => by simp at a, fun _ => ⟨rfl, hs, rfl⟩⟩
  · -- compact layout chosen by the switch
    rw [hic] at hr
    obtain ⟨hc, hs⟩ := f1 hic
    simp only [Bool.true_eq_false, false_and, and_false, if_false] at hr
    rcases hr with hr | hr
    · exact hr.elim
    · refine ⟨by omega, fun a => by rw [hc] at a; simp at a, fun a => by omega⟩
/-- C20 (counterexample): `xmmio rdbyte,r0,r2` with compression on.  The
switch sets size 8 and leaves both words uncompressed; the emission adds one
`MACRO_NATIVE` byte before each word and reserves 10 bytes, which is none of
1, 2, 3, 4, 5, 8. -/
theorem C20_counterexample :
    format_switch true PROPELLER_OPERAND_XMMIO 0xf false false false false false
        = SwitchOutcome.layout xmmio_layout
    ∧ has_layout xmmio_line xmmio_layout
    ∧ (∃ o, md_assemble_after_switch sample_consts sample_flags true (sample_op 0 0)
          xmmio_line [] true = AsmResult.emitted o
        ∧ o.reserved = 10
        ∧ o.bytes = [0x01, 0x02, 0x00, 0xFC, 0xA0, 0x01, 0x00, 0x00, 0xFC, 0x5C]
        ∧ o.reserved ∉ [1, 2, 3, 4, 5, 8]) :=
  ⟨rfl, ⟨rfl, rfl, rfl, rfl, fun a => by simp [xmmio_layout] at a⟩,
    ⟨_, rfl, rfl, rfl, by decide⟩⟩

/-- C20 (witness): `mov r1, #5` with compression on under the sample
constants: the two-operand layout, 2 bytes reserved. -/
theorem C20_reserved_sizes_witness :
    format_switch true PROPELLER_OPERAND_TWO_OPS 0xf false false false false false
        = SwitchOutcome.layout two_ops_layout
    ∧ has_layout (mov_r1_5 0xf) two_ops_layout
    ∧ md_assemble_after_switch sample_consts sample_flags true (sample_op 2 0)
        (mov_r1_5 0xf) [] true = AsmResult.emitted mov_r1_5_emitted
    ∧ (mov_r1_5_emitted.reserved ∈ [1, 2, 3, 4, 5, 8, 9, 10]
      ∧ (true = false → mov_r1_5_emitted.reserved = 4 ∨ mov_r1_5_emitted.reserved = 8)
      ∧ (mov_r1_5_emitted.reserved = 9 ∨ mov_r1_5_emitted.reserved = 10 →
          true = true ∧ two_ops_layout.size = 8 ∧ two_ops_layout.insn_compressed = false)) :=
  ⟨rfl, ⟨rfl, rfl, rfl, rfl, fun _ => ⟨rfl, rfl⟩⟩, rfl,
    C20_reserved_sizes sample_consts sample_flags true PROPELLER_OPERAND_TWO_OPS 0xf
      false false false false false two_ops_layout (sample_op 2 0) (mov_r1_5 0xf) [] true
      mov_r1_5_emitted rfl ⟨rfl, rfl, rfl, rfl, fun _ => ⟨rfl, rfl⟩⟩ rfl⟩

theorem effect_loop_allowed (op : propeller_opcode) (effs : List propeller_effect) :
    ∀ st : AsmLocals, (∀ eff ∈ effs, op.flags &&& eff.flag ≠ 0) →
      effect_loop op effs st = .ok
        (if st.xmov_flag then
          { st with insn2 := { st.insn2 with code := spec_effects_word st.insn2.code effs } }
        else
          { st with insn := { st.insn with code := spec_effects_word st.insn.code effs } }) := by
  induction effs with
  | nil =>
    intro st _
    simp only [effect_loop, spec_effects_word, List.foldl_nil]
    congr 1
    split <;> rfl
  | cons eff rest ih =>
    intro st hall
    have ha : op.flags &&& eff.flag ≠ 0 := hall eff (List.mem_cons_self _ _)
    have hr : ∀ e ∈ rest, op.flags &&& e.flag ≠ 0 := fun e he =>
      hall e (List.mem_cons_of_mem _ he)
    unfold effect_loop
    rw [if_pos ha]
    cases hx : st.xmov_flag
    · simp only [Bool.false_eq_true, if_false]
      rw [ih _ hr]
      simp [hx, spec_effects_word]
    · simp only [if_true]
      rw [ih _ hr]
      simp [hx, spec_effects_word]

theorem first_error_frame (st st2 : AsmLocals) (rest_blank : Bool)
    (h1 : st2.op1 = st.op1) (h2 : st2.op2 = st.op2) (h3 : st2.op3 = st.op3)
    (h4 : st2.op4 = st.op4) (h5 : st2.insn2.error = st.insn2.error) :
    first_error st2 rest_blank = first_error st rest_blank := by
  unfold first_error
  rw [h1, h2, h3, h4, h5]

theorem after_switch_allowed (K : OpcodeConsts) (F : FlagConsts) (compress : Bool)
    (op : propeller_opcode) (st : AsmLocals) (effs : List propeller_effect)
    (rest_blank : Bool) (hall : ∀ eff ∈ effs, op.flags &&& eff.flag ≠ 0) :
    ∃ st2, effect_loop op effs (set_r_default F op st) = .ok st2
      ∧ first_error st2 rest_blank = first_error st rest_blank
      ∧ md_assemble_after_switch K F compress op st effs rest_blank =
        match first_error st rest_blank with
        | some err => .bad err
        | none => md_assemble_tail K compress op st2 := by
  obtain ⟨st2, hl⟩ : ∃ st2, effect_loop op effs (set_r_default F op st) = .ok st2 :=
    ⟨_, effect_loop_allowed op effs (set_r_default F op st) hall⟩
  have hf := set_r_default_frame F op st
  have hg := effect_loop_frame op effs _ _ hl
  have he := first_error_frame st st2 rest_blank (hg.1.trans hf.1) (hg.2.1.trans hf.2.1)
    (hg.2.2.1.trans hf.2.2.1) (hg.2.2.2.1.trans hf.2.2.2.1) (hg.2.2.2.2.1.trans hf.2.2.2.2.1)
  refine ⟨st2, hl, he, ?_⟩
  unfold md_assemble_after_switch
  rw [hl]
  cases hq : first_error st rest_blank with
  | none =>
    rw [hq] at he
    simp only [he]
  | some e =>
    rw [hq] at he
    simp only [he]

theorem after_switch_never_emits (K : OpcodeConsts) (F : FlagConsts) (compress : Bool)
    (op : propeller_opcode) (st : AsmLocals) (effs : List propeller_effect)
    (rest_blank : Bool) (h : first_error st rest_blank ≠ none) :
    ∃ msg, md_assemble_after_switch K F compress op st effs rest_blank = .bad msg := by
  have hf := set_r_default_frame F op st
  unfold md_assemble_after_switch
  cases hl : effect_loop op effs (set_r_default F op st) with
  | error msg => exact ⟨msg, rfl⟩
  | ok st2 =>
    have hg := effect_loop_frame op effs _ _ hl
    have he := first_error_frame st st2 rest_blank (hg.1.trans hf.1) (hg.2.1.trans hf.2.1)
      (hg.2.2.1.trans hf.2.2.1) (hg.2.2.2.1.trans hf.2.2.2.1) (hg.2.2.2.2.1.trans hf.2.2.2.2.1)
    simp only
    rw [he]
    cases hq : first_error st rest_blank with
    | none => exact absurd hq h
    | some e => exact ⟨e, rfl⟩

/-- C21: at the report of stored diagnostics, when every effect flag found on
the line is allowed for the opcode: the message reported is the first stored
one in the order op1, op2, insn2, op3, op4; if no slot holds a message and
text is left on the line, it is "Too many operands".  Whatever the effect
flags are, a stored message or leftover text ends `md_assemble` with one
diagnostic and nothing emitted. -/
theorem C21_error_report (K : OpcodeConsts) (F : FlagConsts) (compress : Bool)
    (op : propeller_opcode) (st : AsmLocals) (effs : List propeller_effect)
    (rest_blank : Bool) (hall : ∀ eff ∈ effs, op.flags &&& eff.flag ≠ 0) :
    (∀ e, st.op1.error = some e →
      md_assemble_after_switch K F compress op st effs rest_blank = .bad e)
    ∧ (∀ e, st.op1.error = none → st.op2.error = some e →
      md_assemble_after_switch K F compress op st effs rest_blank = .bad e)
    ∧ (∀ e, st.op1.error = none → st.op2.error = none → st.insn2.error = some e →
      md_assemble_after_switch K F compress op st effs rest_blank = .bad e)
    ∧ (∀ e, st.op1.error = none → st.op2.error = none → st.insn2.error = none →
      st.op3.error = some e →
      md_assemble_after_switch K F compress op st effs rest_blank = .bad e)
    ∧ (∀ e, st.op1.error = none → st.op2.error = none → st.insn2.error = none →
      st.op3.error = none → st.op4.error = some e →
      md_assemble_after_switch K F compress op st effs rest_blank = .bad e)
    ∧ (st.op1.error = none → st.op2.error = none → st.insn2.error = none →
      st.op3.error = none → st.op4.error = none → rest_blank = false →
      md_assemble_after_switch K F compress op st effs rest_blank = .bad "Too many operands")
    ∧ (∀ effs2 : List propeller_effect, first_error st rest_blank ≠ none →
      ∃ msg, md_assemble_after_switch K F compress op st effs2 rest_blank = .bad msg) := by
  obtain ⟨st2, -, -, hm⟩ := after_switch_allowed K F compress op st effs rest_blank hall
  refine ⟨?_, ?_, ?_, ?_, ?_, ?_, ?_⟩
  · intro e h1
    rw [hm]
    simp [first_error, h1]
  · intro e h1 h2
    rw [hm]
    simp [first_error, h1, h2]
  · intro e h1 h2 h3
    rw [hm]
    simp [first_error, h1, h2, h3]
  · intro e h1 h2 h3 h4
    rw [hm]
    simp [first_error, h1, h2, h3, h4]
  · intro e h1 h2 h3 h4 h5
    rw [hm]
    simp [first_error, h1, h2, h3, h4, h5]
  · intro h1 h2 h3 h4 h5 hb
    rw [hm]
    simp [first_error, h1, h2, h3, h4, h5, hb]
  · intro effs2 h
    exact after_switch_never_emits K F compress op st effs2 rest_blank h

/-- C21 (counterexample): a two-operand line without its comma, followed by
the effect `wc`, for an opcode that does not allow `wc`: `op2` holds the
message "Missing ','", but the diagnostic reported is the one of the effect
loop, not the first stored operand message. -/
theorem C21_counterexample :
    missing_comma_line.op2.error = some "Missing \x27,\x27"
    ∧ md_assemble_after_switch sample_consts sample_flags true (sample_op 1 0)
        missing_comma_line [sample_wc] true
      = AsmResult.bad "Effect \x27wc\x27 not allowed with this instruction"
    ∧ md_assemble_after_switch sample_consts sample_flags true (sample_op 1 0)
        missing_comma_line [sample_wc] true
      ≠ AsmResult.bad "Missing \x27,\x27" := by
  refine ⟨rfl, rfl, by decide⟩

/-- C21 (witness): the same line with the allowed effect `wc`: the stored
message of `op2` is reported. -/
theorem C21_error_report_witness :
    (∀ eff ∈ [sample_wc], (sample_op_effects 1 0).flags &&& eff.flag ≠ 0)
    ∧ missing_comma_line.op1.error = none
    ∧ missing_comma_line.op2.error = some "Missing \x27,\x27"
    ∧ md_assemble_after_switch sample_consts sample_flags true (sample_op_effects 1 0)
        missing_comma_line [sample_wc] true = AsmResult.bad "Missing \x27,\x27" :=
  ⟨by decide, rfl, rfl,
    (C21_error_report sample_consts sample_flags true (sample_op_effects 1 0)
      missing_comma_line [sample_wc] true (by decide)).2.1 _ rfl rfl⟩

theorem effect_loop_cons (op : propeller_opcode) (eff : propeller_effect)
    (rest : List propeller_effect) (st : AsmLocals) :
    effect_loop op (eff :: rest) st =
      if op.flags &&& eff.flag ≠ 0 then
        if st.xmov_flag then
          effect_loop op rest
            { st with insn2 := { st.insn2 with
                code := (st.insn2.code ||| eff.ormask) &&& eff.andmask } }
        else
          effect_loop op rest
            { st with insn := { st.insn with
                code := (st.insn.code ||| eff.ormask) &&& eff.andmask } }
      else .error ("Effect \x27" ++ eff.name ++ "\x27 not allowed with this instruction") := by
  rw [effect_loop]

theorem effect_loop_append (op : propeller_opcode) (pre l : List propeller_effect) :
    ∀ st : AsmLocals, effect_loop op (pre ++ l) st =
      match effect_loop op pre st with
      | .ok st2 => effect_loop op l st2
      | .error msg => .error msg := by
  induction pre with
  | nil =>
    intro st
    simp [effect_loop]
  | cons eff rest ih =>
    intro st
    simp only [List.cons_append]
    rw [effect_loop_cons, effect_loop_cons]
    by_cases ha : op.flags &&& eff.flag ≠ 0
    · rw [if_pos ha, if_pos ha]
      cases hx : st.xmov_flag
      · simp only [Bool.false_eq_true, if_false]
        exact ih _
      · simp only [if_true]
        exact ih _
    · rw [if_neg ha, if_neg ha]

/-- C29: for the effect flags found after the operands.  When the effects
`pre` are allowed by `op->flags` and the next one, `eff`, is not,
`md_assemble` ends with the diagnostic "Effect 'name' not allowed with this
instruction" and emits nothing.  An allowed effect changes the word w into
`(w | ormask) & andmask`, the word being `insn2.code` in the xmov form and
`insn.code` otherwise; after allowed effects the locals differ from the ones
before the loop in that word only, which is the fold of the effects. -/
theorem C29_effect_flags (K : OpcodeConsts) (F : FlagConsts) (compress : Bool)
    (op : propeller_opcode) (st : AsmLocals) (pre : List propeller_effect)
    (hpre : ∀ e ∈ pre, op.flags &&& e.flag ≠ 0) :
    (∀ (eff : propeller_effect) (rest : List propeller_effect) (rest_blank : Bool),
      op.flags &&& eff.flag = 0 →
      md_assemble_after_switch K F compress op st (pre ++ eff :: rest) rest_blank
        = .bad ("Effect \x27" ++ eff.name ++ "\x27 not allowed with this instruction"))
    ∧ (∀ (eff : propeller_effect) (rest : List propeller_effect),
      op.flags &&& eff.flag ≠ 0 →
      effect_loop op (eff :: rest) st =
        effect_loop op rest
          (if st.xmov_flag then
            { st with insn2 := { st.insn2 with
                code := (st.insn2.code ||| eff.ormask) &&& eff.andmask } }
          else
            { st with insn := { st.insn with
                code := (st.insn.code ||| eff.ormask) &&& eff.andmask } }))
    ∧ effect_loop op pre st = .ok
        (if st.xmov_flag then
          { st with insn2 := { st.insn2 with code := spec_effects_word st.insn2.code pre } }
        else
          { st with insn := { st.insn with code := spec_effects_word st.insn.code pre } }) := by
  refine ⟨?_, ?_, effect_loop_allowed op pre st hpre⟩
  · intro eff rest rest_blank hno
    unfold md_assemble_after_switch
    rw [effect_loop_append, effect_loop_allowed op pre _ hpre]
    simp only
    rw [effect_loop_cons, if_neg (by simpa using hno)]
  · intro eff rest ha
    rw [effect_loop_cons, if_pos ha]
    cases hx : st.xmov_flag <;> simp
/-- C29 (witness): `add r3, __MASK_FFFFFFFF wc wz` for a sample opcode that
allows `wc` and not `wz`: the diagnostic names `wz`; the allowed `wc` alone
sets bit 24 of the word. -/
theorem C29_effect_flags_witness :
    (∀ e ∈ [sample_wc], (sample_op_effects 1 0).flags &&& e.flag ≠ 0)
    ∧ (sample_op_effects 1 0).flags &&& sample_wz.flag = 0
    ∧ md_assemble_after_switch sample_consts sample_flags true (sample_op_effects 1 0)
        add_r3_mask ([sample_wc] ++ sample_wz :: []) true
      = AsmResult.bad ("Effect \x27" ++ sample_wz.name
          ++ "\x27 not allowed with this instruction")
    ∧ effect_loop (sample_op_effects 1 0) [sample_wc] add_r3_mask = Except.ok
        (if add_r3_mask.xmov_flag then
          { add_r3_mask with insn2 := { add_r3_mask.insn2 with
              code := spec_effects_word add_r3_mask.insn2.code [sample_wc] } }
        else
          { add_r3_mask with insn := { add_r3_mask.insn with
              code := spec_effects_word add_r3_mask.insn.code [sample_wc] } })
    ∧ spec_effects_word add_r3_mask.insn.code [sample_wc] = 0x81BC0613 :=
  ⟨by decide, by decide,
    (C29_effect_flags sample_consts sample_flags true (sample_op_effects 1 0) add_r3_mask
      [sample_wc] (by decide)).1 sample_wz [] true (by decide),
    (C29_effect_flags sample_consts sample_flags true (sample_op_effects 1 0) add_r3_mask
      [sample_wc] (by decide)).2.2,
    by decide⟩

theorem emit_secondary (K : OpcodeConsts) (compress : Bool) (st : AsmLocals) (o : Emitted)
    (h : emit K compress st = .emitted o)
    (h2 : st.insn2.reloc.type ≠ BFD_RELOC_NONE ∨ st.insn2.code ≠ 0)
    (hlong : ¬ (compress = true ∧ st.insn_compressed = true ∧ st.size > 4)) :
    o.bytes = secondary_head K compress st ++ number_bytes st.insn2.code 4
      ∧ o.fixes = primary_fixes compress st
          ++ (fix_for st.insn2 (secondary_head K compress st).length 4
          ++ fix_for st.op3 (secondary_head K compress st).length 4
          ++ fix_for st.op4 (secondary_head K compress st).length 4)
      ∧ (secondary_head K compress st).length =
          (if compress ∧ st.insn_compressed = false then 1 else 0)
          + (if compress ∧ st.insn_compressed = true then st.size else 4)
          + (if compress ∧ st.insn2_compressed = false then 1 else 0) := by
  cases hc : compress <;> cases hi : st.insn_compressed <;> cases h2c : st.insn2_compressed
    <;> simp [emit, hc, hi, h2, h2c, number_bytes_length, secondary_head, primary_fixes]
      at h hlong ⊢
  all_goals split_ifs at h
  all_goals first
    | omega
    | (simp only [AsmResult.emitted.injEq] at h
       subst h
       simp [number_bytes_length])

theorem emit_long (K : OpcodeConsts) (st : AsmLocals) (o : Emitted)
    (h : emit K true st = .emitted o)
    (hi : st.insn_compressed = true) (hs : st.size > 4) :
    o.bytes = number_bytes st.insn.code (st.size - 4) ++ number_bytes st.insn2.code 4
      ∧ o.fixes = fix_for st.insn2 (st.size - 4 + st.reloc_prefix) (subW 32 4 st.reloc_prefix)
          ++ fix_for st.op1 (st.size - 4 + st.reloc_prefix) (subW 32 4 st.reloc_prefix)
          ++ fix_for st.op2 (st.size - 4 + st.reloc_prefix) (subW 32 4 st.reloc_prefix)
      ∧ o.reserved = st.size := by
  simp [emit, hi, hs, number_bytes_length] at h
  split_ifs at h
  all_goals first
    | omega
    | (simp only [AsmResult.emitted.injEq] at h
       subst h
       simp [number_bytes_length])

theorem fix_for_fields (p : propeller_code) (w s : Nat) :
    ∀ f ∈ fix_for p w s, f.fx_where = w ∧ f.fx_size = s := by
  intro f hf
  unfold fix_for at hf
  split_ifs at hf
  · simp only [List.mem_singleton] at hf
    subst hf
    exact ⟨rfl, rfl⟩
  · simp at hf

theorem long_form_reloc_prefix (compress : Bool) (format : operand_format) (condmask : Nat)
    (early_exit leasp_reg_ok mvi_clean copc_mviw macro_known : Bool) (l : Layout)
    (h : format_switch compress format condmask early_exit leasp_reg_ok mvi_clean copc_mviw
      macro_known = .layout l)
    (hi : l.insn_compressed = true) (hs : l.size > 4) :
    switch_reloc_prefix compress format condmask early_exit leasp_reg_ok mvi_clean copc_mviw = 0
      ∧ l.size = 5
      ∧ (format = PROPELLER_OPERAND_BRL ∨ format = PROPELLER_OPERAND_MVI) := by
  cases format <;> simp only [format_switch, switch_reloc_prefix] at h ⊢
    <;> (try split_ifs at h)
    <;> simp only [SwitchOutcome.layout.injEq, reduceCtorEq] at h
    <;> subst h <;> simp_all
/-- C30: when the emission block of `md_assemble` stores a secondary word
(`insn2` carries a relocation or a nonzero code), then (1) outside the long
compact branch the output is the head (optional native tag, primary word,
optional native tag of the secondary word) followed by the four bytes of the
secondary word, and every fixup of `insn2`, `op3` and `op4` is recorded with
size 4 at the offset of that word, whatever `reloc_prefix` and the
compression mode are; (2) in the long compact branch, which only the compact
forms of size 5 decided by the cases BRL and MVI reach and where those cases
leave `reloc_prefix` at 0, the 32-bit word follows the one tag byte and its
fixup is recorded at offset 1 with size 4. -/
theorem C30_secondary_fixups (K : OpcodeConsts) (compress : Bool) (st : AsmLocals)
    (o : Emitted) (h : emit K compress st = .emitted o)
    (h2 : st.insn2.reloc.type ≠ BFD_RELOC_NONE ∨ st.insn2.code ≠ 0) :
    (¬ (compress = true ∧ st.insn_compressed = true ∧ st.size > 4) →
      o.bytes = secondary_head K compress st ++ number_bytes st.insn2.code 4
      ∧ o.fixes = primary_fixes compress st
          ++ (fix_for st.insn2 (secondary_head K compress st).length 4
          ++ fix_for st.op3 (secondary_head K compress st).length 4
          ++ fix_for st.op4 (secondary_head K compress st).length 4)
      ∧ (∀ f ∈ fix_for st.insn2 (secondary_head K compress st).length 4
            ++ fix_for st.op3 (secondary_head K compress st).length 4
            ++ fix_for st.op4 (secondary_head K compress st).length 4,
          f.fx_where = (secondary_head K compress st).length ∧ f.fx_size = 4)
      ∧ (secondary_head K compress st).length =
          (if compress ∧ st.insn_compressed = false then 1 else 0)
          + (if compress ∧ st.insn_compressed = true then st.size else 4)
          + (if compress ∧ st.insn2_compressed = false then 1 else 0))
    ∧ (∀ (format : operand_format) (condmask : Nat)
        (early_exit leasp_reg_ok mvi_clean copc_mviw macro_known : Bool) (l : Layout),
        format_switch compress format condmask early_exit leasp_reg_ok mvi_clean copc_mviw
          macro_known = .layout l →
        has_layout st l →
        st.reloc_prefix = switch_reloc_prefix compress format condmask early_exit leasp_reg_ok
          mvi_clean copc_mviw →
        compress = true → l.insn_compressed = true → l.size > 4 →
        o.bytes = number_bytes st.insn.code 1 ++ number_bytes st.insn2.code 4
        ∧ o.fixes = fix_for st.insn2 1 4 ++ fix_for st.op1 1 4 ++ fix_for st.op2 1 4
        ∧ (∀ f ∈ fix_for st.insn2 1 4, f.fx_where = 1 ∧ f.fx_size = 4)) := by
  refine ⟨fun hlong => ?_, ?_⟩
  · obtain ⟨hb, hf, hl⟩ := emit_secondary K compress st o h h2 hlong
    refine ⟨hb, hf, ?_, hl⟩
    intro f hf
    simp only [List.mem_append] at hf
    rcases hf with (hf | hf) | hf
    · exact fix_for_fields _ _ _ f hf
    · exact fix_for_fields _ _ _ f hf
    · exact fix_for_fields _ _ _ f hf
  · intro format condmask early_exit leasp_reg_ok mvi_clean copc_mviw macro_known l hsw hl hrp
      hc hi hs
    obtain ⟨hz, h5, _⟩ := long_form_reloc_prefix compress format condmask early_exit
      leasp_reg_ok mvi_clean copc_mviw macro_known l hsw hi hs
    subst hc
    have hsz : st.size = 5 := by rw [hl.1, h5]
    have hrp0 : st.reloc_prefix = 0 := by rw [hrp, hz]
    obtain ⟨hb, hf, _⟩ := emit_long K st o h (by rw [hl.2.1, hi]) (by omega)
    rw [hsz] at hb hf
    rw [hrp0] at hf
    refine ⟨hb, ?_, fix_for_fields _ _ _⟩
    rw [hf]
    rfl

theorem C30_secondary_fixups_witness :
    (emit sample_consts true xmmio_line = .emitted xmmio_emitted_compact
      ∧ (xmmio_line.insn2.reloc.type ≠ BFD_RELOC_NONE ∨ xmmio_line.insn2.code ≠ 0)
      ∧ xmmio_emitted_compact.fixes = primary_fixes true xmmio_line
          ++ (fix_for xmmio_line.insn2 (secondary_head sample_consts true xmmio_line).length 4
          ++ fix_for xmmio_line.op3 (secondary_head sample_consts true xmmio_line).length 4
          ++ fix_for xmmio_line.op4 (secondary_head sample_consts true xmmio_line).length 4)
      ∧ (secondary_head sample_consts true xmmio_line).length = 6)
    ∧ (emit sample_consts true brl_long_line = .emitted brl_long_emitted
      ∧ (brl_long_line.insn2.reloc.type ≠ BFD_RELOC_NONE ∨ brl_long_line.insn2.code ≠ 0)
      ∧ format_switch true PROPELLER_OPERAND_BRL 0xf false false false false false
          = .layout brl_long_layout
      ∧ has_layout brl_long_line brl_long_layout
      ∧ brl_long_emitted.fixes = fix_for brl_long_line.insn2 1 4
          ++ fix_for brl_long_line.op1 1 4 ++ fix_for brl_long_line.op2 1 4) :=
  ⟨⟨rfl, by decide,
     ((C30_secondary_fixups sample_consts true xmmio_line xmmio_emitted_compact rfl
        (by decide)).1 (by decide)).2.1,
     by decide⟩,
   ⟨rfl, by decide, rfl, ⟨rfl, rfl, rfl, rfl, by decide⟩,
     ((C30_secondary_fixups sample_consts true brl_long_line brl_long_emitted rfl
        (by decide)).2 PROPELLER_OPERAND_BRL 0xf false false false false false
        brl_long_layout rfl ⟨rfl, rfl, rfl, rfl, by decide⟩ rfl rfl rfl (by decide)).2.1⟩⟩

theorem cond_field (c opc : Nat) (hc : c < 16) :
    (((c <<< 18) ||| opc) >>> 18) &&& 0xf = c ||| ((opc >>> 18) &&& 0xf) := by
  rw [shr_or, Nat.shiftLeft_shiftRight, or_and_right]
  congr 1
  have e : (0xf : Nat) = 2 ^ 4 - 1 := by norm_num
  rw [e, Nat.and_pow_two_sub_one_eq_mod]
  exact Nat.mod_eq_of_lt hc

theorem cond_outside (c d opc i : Nat) (hc : c < 16) (hd : d < 16) (hi : i < 18 ∨ 21 < i) :
    ((c <<< 18) ||| opc).testBit i = ((d <<< 18) ||| opc).testBit i := by
  have key : ∀ x, x < 16 → (x <<< 18).testBit i = false := by
    intro x hx
    rw [Nat.testBit_shiftLeft]
    rcases hi with hi | hi
    · simp; intro; omega
    · have : x.testBit (i - 18) = false :=
        testBit_false_of_lt_of_le x 4 (i - 18) (by simpa using hx) (by omega)
      simp [this]
  rw [Nat.testBit_or, Nat.testBit_or, key c hc, key d hd]

theorem or_and_absorb (a x : Nat) : a ||| (x &&& a) = a := by
  apply Nat.eq_of_testBit_eq
  intro i
  rw [Nat.testBit_or, Nat.testBit_and]
  cases a.testBit i <;> simp

theorem cleared_field (w r : Nat) (hr : r < 2 ^ 18) :
    (((w &&& bitnot 32 (0xf <<< 18)) ||| r) >>> 18) &&& 0xf = 0 := by
  apply Nat.eq_of_testBit_eq
  intro i
  rw [Nat.zero_testBit, Nat.testBit_and, Nat.testBit_shiftRight, Nat.testBit_or,
    Nat.testBit_and, bitnot_testBit]
  have hr2 : r.testBit (18 + i) = false := testBit_false_of_lt_of_le r 18 (18 + i) hr (by omega)
  rw [hr2, Bool.or_false]
  by_cases hi : i < 4
  · have : (0xf <<< 18 : Nat).testBit (18 + i) = true := by
      rw [Nat.testBit_shiftLeft]
      have e : (0xf : Nat) = 2 ^ 4 - 1 := by norm_num
      rw [e, Nat.testBit_two_pow_sub_one]
      simp [hi]
    rw [this]
    simp
    intro _ h
    omega
  · have : (0xf : Nat).testBit i = false :=
      testBit_false_of_lt_of_le 0xf 4 i (by norm_num) (by omega)
    rw [this]
    simp

theorem parse_indx_plain (C : CondConsts) (name : pointer_name)
    (type : bfd_reloc_code_real_type) (operand insn : propeller_code)
    (hname : name = .inda ∨ name = .indb) :
    ∃ operand2, parse_indx C false false false name .no_update type operand insn
      = some (operand2,
              { insn with
                  code := (insn.code &&& bitnot 32 C.CC_MASK) |||
                    shlW 32 (if name = .inda then 0x1f6 else 0x1f7)
                      (if type = BFD_RELOC_PROPELLER_SRC then 0 else 9) }, true)
      ∧ operand2.error = operand.error ∧ operand2.reloc.type = BFD_RELOC_NONE := by
  refine ⟨{ operand with
      reloc := { type := BFD_RELOC_NONE, pc_rel := false,
                 exp := { operand.reloc.exp with
                            X_op := operatorT.O_register,
                            X_add_number := (if name = .inda then 0x1f6 else 0x1f7 : Nat) } } },
    ?_, rfl, rfl⟩
  rcases hname with rfl | rfl <;> simp [parse_indx]

theorem parse_indx_field (C : CondConsts) (name : pointer_name)
    (type : bfd_reloc_code_real_type) (w : Nat) (hM : C.CC_MASK = 0xf <<< 18) :
    (((w &&& bitnot 32 C.CC_MASK)
        ||| shlW 32 (if name = .inda then 0x1f6 else 0x1f7)
              (if type = BFD_RELOC_PROPELLER_SRC then 0 else 9)) >>> 18) &&& 0xf = 0 := by
  rw [hM]
  apply cleared_field
  split_ifs <;> decide

/-- With `CC_ALWAYS` the field value 1111 in bits 18..21, the head of
`md_assemble` (1) starts the word of a row that allows a condition as
`CC_ALWAYS | opcode` when no condition is written, so that bits 18..21 are
1111 and `condmask` is 0xf; (2) with a condition of 4-bit code `c` starts it
as `(c << 18) | opcode`, which agrees with the unconditioned word on every
bit outside 18..21 and holds `c` in bits 18..21 ORed with whatever the
opcode has there; (3) for a row that does not allow a condition starts the
word as the opcode alone and rejects a condition mnemonic; (4) the case
`PROPELLER_OPERAND_IGNORE` replaces the word by 0 whatever the head built; and
(5) with `CC_MASK` the mask of bits 18..21, `parse_indx` on a plain `inda` or
`indb` operand of a line without condition clears the field: bits 18..21 of
the word are 0000 afterwards. -/
theorem head_condition_field (C : CondConsts) (op : propeller_opcode)
    (hCC : C.CC_ALWAYS = 0xf <<< 18) :
    (op.flags &&& C.FLAG_CC ≠ 0 →
      ∃ st, md_assemble_head C none op = .ok st
        ∧ st.insn.code = C.CC_ALWAYS ||| op.opcode
        ∧ (st.insn.code >>> 18) &&& 0xf = 0xf ∧ st.condmask = 0xf)
    ∧ (∀ (name : String) (c : Nat), c < 16 → op.flags &&& C.FLAG_CC ≠ 0 →
      ∃ st st0, md_assemble_head C (some { name := name, value := c <<< 18 }) op = .ok st
        ∧ md_assemble_head C none op = .ok st0
        ∧ st.insn.code = (c <<< 18) ||| op.opcode
        ∧ (∀ i, i < 18 ∨ 21 < i → st.insn.code.testBit i = st0.insn.code.testBit i)
        ∧ (st.insn.code >>> 18) &&& 0xf = c ||| ((op.opcode >>> 18) &&& 0xf)
        ∧ st.condmask = c)
    ∧ (op.flags &&& C.FLAG_CC = 0 →
      (∃ st, md_assemble_head C none op = .ok st ∧ st.insn.code = op.opcode
        ∧ st.condmask = 0xf)
      ∧ ∀ cond, md_assemble_head C (some cond) op
          = .error "Condition code not allowed with this instruction")
    ∧ (∀ (compress : Bool) (st : AsmLocals),
      ∃ st2, case_ignore compress op st = .ok (op, st2) ∧ st2.insn.code = 0)
    ∧ (C.CC_MASK = 0xf <<< 18 →
      ∀ (name : pointer_name) (type : bfd_reloc_code_real_type)
        (operand insn : propeller_code), name = .inda ∨ name = .indb →
      ∃ operand2 insn2,
        parse_indx C false false false name .no_update type operand insn
          = some (operand2, insn2, true)
        ∧ operand2.error = operand.error
        ∧ (insn2.code >>> 18) &&& 0xf = 0) := by
  refine ⟨fun hf => ?_, fun name c hc hf => ?_, fun hf => ⟨?_, fun cond => ?_⟩,
    fun compress st => ?_, fun hM name type operand insn hname => ?_⟩
  · refine ⟨_, by simp only [md_assemble_head, hf, Option.isSome_none, Bool.false_eq_true,
      and_false, if_false]; rfl, rfl, ?_, ?_⟩
    · show ((C.CC_ALWAYS ||| op.opcode) >>> 18) &&& 0xf = 0xf
      rw [hCC, cond_field 0xf op.opcode (by decide)]
      exact or_and_absorb 0xf _
    · show 0xf &&& (C.CC_ALWAYS >>> 18) = 0xf
      rw [hCC]
      rfl
  · refine ⟨_, _, by simp only [md_assemble_head, hf, false_and, if_false]; rfl,
      by simp only [md_assemble_head, hf, false_and, if_false]; rfl, rfl, ?_, ?_, ?_⟩
    · intro i hi
      show ((c <<< 18) ||| op.opcode).testBit i = (C.CC_ALWAYS ||| op.opcode).testBit i
      rw [hCC]
      exact cond_outside c 0xf op.opcode i hc (by decide) hi
    · exact cond_field c op.opcode hc
    · show 0xf &&& ((c <<< 18) >>> 18) = c
      rw [Nat.shiftLeft_shiftRight, Nat.and_comm]
      have e : (0xf : Nat) = 2 ^ 4 - 1 := by norm_num
      rw [e, Nat.and_pow_two_sub_one_eq_mod]
      exact Nat.mod_eq_of_lt hc
  · refine ⟨_, by simp only [md_assemble_head, hf, Option.isSome_none, Bool.false_eq_true,
      and_false, if_false, if_true]; rfl, ?_, ?_⟩
    · show 0 ||| op.opcode = op.opcode
      exact Nat.zero_or _
    · show 0xf &&& (C.CC_ALWAYS >>> 18) = 0xf
      rw [hCC]
      rfl
  · simp [md_assemble_head, hf]
  · cases compress
    · exact ⟨_, rfl, rfl⟩
    · exact ⟨_, rfl, rfl⟩
  · obtain ⟨operand2, h, he, _⟩ := parse_indx_plain C name type operand insn hname
    exact ⟨operand2, _, h, he, parse_indx_field C name type insn.code hM⟩

theorem spec_decimal_value_mod (ds : List Char) (a : Nat) :
    spec_decimal_value a ds % 2 ^ 32 = spec_decimal_value (a % 2 ^ 32) ds % 2 ^ 32 := by
  induction ds generalizing a with
  | nil => simp [spec_decimal_value]
  | cons c cs ih =>
    have e1 : spec_decimal_value a (c :: cs) = spec_decimal_value (10 * a + (c.toNat - 48)) cs :=
      rfl
    have e2 : spec_decimal_value (a % 2 ^ 32) (c :: cs)
        = spec_decimal_value (10 * (a % 2 ^ 32) + (c.toNat - 48)) cs := rfl
    rw [e1, e2, ih (10 * a + (c.toNat - 48)), ih (10 * (a % 2 ^ 32) + (c.toNat - 48))]
    congr 2
    omega

theorem regspec_digits_all (ds : List Char) (hd : ∀ c ∈ ds, c.isDigit = true) (reg : Nat)
    (hr : reg < 2 ^ 32) :
    regspec_digits ds reg = ([], spec_decimal_value reg ds % 2 ^ 32) := by
  induction ds generalizing reg with
  | nil =>
    simp only [regspec_digits, spec_decimal_value, List.foldl_nil]
    rw [Nat.mod_eq_of_lt hr]
  | cons c cs ih =>
    have hc : c.isDigit = true := hd c (List.mem_cons_self _ _)
    have e1 : spec_decimal_value reg (c :: cs) = spec_decimal_value (10 * reg + (c.toNat - 48)) cs :=
      rfl
    rw [regspec_digits, if_pos hc, ih (fun x hx => hd x (List.mem_cons_of_mem _ hx)) _
      (Nat.mod_lt _ (by norm_num)), e1, ← spec_decimal_value_mod]

theorem regspec_no_name (c : Char) (hc : c = 'r' ∨ c = 'R') (rest : List Char) :
    find_regname (c :: rest) lmm_regs = none := by
  rcases hc with hc | hc <;> subst hc <;> rfl

theorem regspec_no_blank (c : Char) (hc : c = 'r' ∨ c = 'R') (rest : List Char) :
    skip_whitespace (c :: rest) = c :: rest := by
  rcases hc with hc | hc <;> subst hc <;> rfl
theorem parse_regspec_digits (compress give_error : Bool) (c d : Char) (ds : List Char)
    (hc : c = 'r' ∨ c = 'R') (hd : d.isDigit = true) (hds : ∀ x ∈ ds, x.isDigit = true) :
    parse_regspec compress give_error (c :: d :: ds) =
      if toSigned 32 (spec_decimal_value 0 (d :: ds) % 2 ^ 32) > 15
          ∨ toSigned 32 (spec_decimal_value 0 (d :: ds) % 2 ^ 32) < 0 then
        { rest := some [], regnum := none,
          error := if give_error then some "illegal register number" else none }
      else
        { rest := some [], regnum := some (spec_decimal_value 0 (d :: ds) % 2 ^ 32),
          error := none } := by
  have hall : ∀ x ∈ d :: ds, x.isDigit = true := by
    intro x hx
    rcases List.mem_cons.1 hx with h | h
    · rw [h]; exact hd
    · exact hds x h
  have hcr : ¬ (c ≠ 'r' ∧ c ≠ 'R') := by
    rcases hc with h | h <;> simp [h]
  unfold parse_regspec
  simp only [regspec_no_blank c hc, regspec_no_name c hc, hd, hcr, false_or,
    Bool.true_eq_false, if_false, regspec_digits_all (d :: ds) hall 0 (by norm_num)]

theorem toSigned_window (n : Nat) (h : n < 2 ^ 32) :
    (toSigned 32 (n % 2 ^ 32) > 15 ∨ toSigned 32 (n % 2 ^ 32) < 0) ↔ 15 < n := by
  unfold toSigned
  rw [Nat.mod_mod, Nat.mod_eq_of_lt h]
  split_ifs with hlt
  · constructor
    · rintro (h1 | h1) <;> omega
    · intro h1; left; omega
  · constructor
    · intro _
      norm_num at hlt
      omega
    · intro _
      right
      norm_num at hlt ⊢
      omega

/-- Where the digits denote a number below 2^32, `parse_regspec` on `r` or `R`
followed by the digits stores the number exactly when it is at most 15, and
otherwise stores nothing and, when errors are requested, the message
"illegal register number". -/
theorem regspec_in_range (compress give_error : Bool) (c d : Char) (ds : List Char)
    (hc : c = 'r' ∨ c = 'R') (hd : d.isDigit = true) (hds : ∀ x ∈ ds, x.isDigit = true)
    (hn : spec_decimal_value 0 (d :: ds) < 2 ^ 32) :
    (parse_regspec compress give_error (c :: d :: ds)).regnum =
        (if spec_decimal_value 0 (d :: ds) ≤ 15 then some (spec_decimal_value 0 (d :: ds))
         else none)
    ∧ (parse_regspec compress give_error (c :: d :: ds)).error =
        (if spec_decimal_value 0 (d :: ds) ≤ 15 then none
         else if give_error then some "illegal register number" else none)
    ∧ (parse_regspec compress give_error (c :: d :: ds)).rest = some [] := by
  rw [parse_regspec_digits compress give_error c d ds hc hd hds]
  by_cases h15 : spec_decimal_value 0 (d :: ds) ≤ 15
  · rw [if_neg (by rw [toSigned_window _ hn]; omega), if_pos h15, if_pos h15,
      Nat.mod_eq_of_lt hn]
    exact ⟨rfl, rfl, rfl⟩
  · rw [if_pos (by rw [toSigned_window _ hn]; omega), if_neg h15, if_neg h15]
    exact ⟨rfl, rfl, rfl⟩

/-- The other outcomes of `parse_regspec`: text that starts with neither a
register name nor `r`/`R` is left alone, with the message "expected register
number" only when errors are requested; `lr`, `sp` and `pc` give 15, 16 and
17. -/
theorem regspec_names :
    parse_regspec true true "x1".toList
      = { rest := some "x1".toList, regnum := none, error := some "expected register number" }
    ∧ parse_regspec true false "x1".toList
      = { rest := some "x1".toList, regnum := none, error := none }
    ∧ parse_regspec false true "rx".toList
      = { rest := some "rx".toList, regnum := none, error := some "expected register number" }
    ∧ (∀ compress give_error,
        parse_regspec compress give_error "lr".toList
          = { rest := some [], regnum := some 15, error := none }
        ∧ parse_regspec compress give_error "sp".toList
          = { rest := some [], regnum := some 16, error := none }
        ∧ parse_regspec compress give_error "pc".toList
          = { rest := some [], regnum := some 17, error := none }) := by
  refine ⟨by decide, by decide, by decide, ?_⟩
  intro compress give_error
  cases compress <;> cases give_error <;> decide

/-- C26 (code evaluated at the failing input): on the text `r4294967297`
`parse_regspec` stores register number 1 and no message, because the
accumulation `reg = 10*reg + digit` is done in a 32-bit `int` and
4294967297 = 2^32 + 1. -/
theorem C26_register_number_wraps :
    parse_regspec true true "r4294967297".toList
      = { rest := some [], regnum := some 1, error := none }
    ∧ spec_decimal_value 0 "4294967297".toList = 4294967297 := by
  refine ⟨by decide, by decide⟩

theorem dest_field_or (w n : Nat) (hn : n < 512) (hw : (w >>> 9) &&& 0x1ff = 0) :
    ((w ||| (n <<< 9)) >>> 9) &&& 0x1ff = n
    ∧ ∀ i, i < 9 ∨ 17 < i → (w ||| (n <<< 9)).testBit i = w.testBit i := by
  constructor
  · rw [shr_or, Nat.shiftLeft_shiftRight, or_and_right, hw, Nat.zero_or]
    have e : (0x1ff : Nat) = 2 ^ 9 - 1 := by norm_num
    rw [e, Nat.and_pow_two_sub_one_eq_mod]
    exact Nat.mod_eq_of_lt hn
  · intro i hi
    rw [Nat.testBit_or, Nat.testBit_shiftLeft]
    rcases hi with hi | hi
    · have : ¬ (i ≥ 9) := by omega
      simp [this]
    · have : n.testBit (i - 9) = false :=
        testBit_false_of_lt_of_le n 9 (i - 9) (by simpa using hn) (by omega)
      simp [this]

theorem parse_dest_register (W : Nat) (pasm_default : Bool) (c d : Char) (ds : List Char)
    (hc : c = 'r' ∨ c = 'R') (hd : d.isDigit = true) (hds : ∀ x ∈ ds, x.isDigit = true)
    (hn : spec_decimal_value 0 (d :: ds) ≤ 15)
    (parsed : Option expressionS) (operand insn : propeller_code) :
    parse_dest W true pasm_default none (c :: d :: ds) parsed operand insn
      = ({ operand with
            reloc := { type := BFD_RELOC_NONE, pc_rel := false,
                       exp := { operand.reloc.exp with
                                  X_op := operatorT.O_register,
                                  X_add_number := (spec_decimal_value 0 (d :: ds) : Nat) } } },
         { insn with code := insn.code ||| (spec_decimal_value 0 (d :: ds) <<< 9) }) := by
  have hr := regspec_in_range true false c d ds hc hd hds (by omega)
  rw [if_pos hn] at hr
  have hs : shlW 32 (spec_decimal_value 0 (d :: ds)) 9 = spec_decimal_value 0 (d :: ds) <<< 9 :=
    shlW_eq _ _ (by omega)
  unfold parse_dest parse_src_or_dest
  simp only [regspec_no_blank c hc, hr.1, if_true, hs]
  cases pasm_default <;> simp [pasm_replace_expression, hs]

/-- C23: with compression on, for `r` or `R` followed by decimal digits of
value n <= 15, `parse_dest` ORs `n << 9` into the instruction word, leaves the
operand without relocation and stores no message; when bits 9..17 of the
word were zero they then hold n and every bit outside 9..17 is unchanged.
With compression off the register syntax is not recognised: when the
expression parser yields a symbol for the text, the word is left unchanged and
the operand carries a pending `BFD_RELOC_PROPELLER_DST` relocation. -/
theorem C23_dest_register (W : Nat) (pasm_default : Bool) (c d : Char) (ds : List Char)
    (hc : c = 'r' ∨ c = 'R') (hd : d.isDigit = true) (hds : ∀ x ∈ ds, x.isDigit = true)
    (hn : spec_decimal_value 0 (d :: ds) ≤ 15)
    (parsed : Option expressionS) (operand insn : propeller_code) :
    (parse_dest W true pasm_default none (c :: d :: ds) parsed operand insn).2.code
        = insn.code ||| (spec_decimal_value 0 (d :: ds) <<< 9)
    ∧ (parse_dest W true pasm_default none (c :: d :: ds) parsed operand insn).1.reloc.type
        = BFD_RELOC_NONE
    ∧ (parse_dest W true pasm_default none (c :: d :: ds) parsed operand insn).1.error
        = operand.error
    ∧ ((insn.code >>> 9) &&& 0x1ff = 0 →
        ((parse_dest W true pasm_default none (c :: d :: ds) parsed operand insn).2.code >>> 9)
            &&& 0x1ff = spec_decimal_value 0 (d :: ds)
        ∧ ∀ i, i < 9 ∨ 17 < i →
            (parse_dest W true pasm_default none (c :: d :: ds) parsed operand
              insn).2.code.testBit i = insn.code.testBit i)
    ∧ (∀ exp : expressionS, exp.X_op = operatorT.O_symbol → operand.error = none →
        (parse_dest W false pasm_default none (c :: d :: ds) (some exp) operand insn).2 = insn
        ∧ (parse_dest W false pasm_default none (c :: d :: ds) (some exp) operand
            insn).1.reloc.type = BFD_RELOC_PROPELLER_DST
        ∧ (parse_dest W false pasm_default none (c :: d :: ds) (some exp) operand
            insn).1.error = none) := by
  rw [parse_dest_register W pasm_default c d ds hc hd hds hn parsed operand insn]
  refine ⟨rfl, rfl, rfl, fun hw => dest_field_or _ _ (by omega) hw, ?_⟩
  intro exp hx he
  unfold parse_dest parse_src_or_dest
  cases pasm_default <;> simp [hx, he, pasm_replace_expression]

/-- C23 (counterexample): with compression off, `parse_dest` on the text `r1`,
which the expression parser reads as the symbol `r1`, leaves the word
unchanged (destination field 0, not 1) and attaches a pending
`BFD_RELOC_PROPELLER_DST` relocation against `r1`. -/
theorem C23_counterexample :
    parse_dest 64 false false none "r1".toList (some (symbol_exp "r1")) empty_code
        mov_head_insn
      = (symbol_operand BFD_RELOC_PROPELLER_DST "r1", mov_head_insn)
    ∧ (mov_head_insn.code >>> 9) &&& 0x1ff = 0
    ∧ (symbol_operand BFD_RELOC_PROPELLER_DST "r1").reloc.type ≠ BFD_RELOC_NONE := by
  refine ⟨by decide, by decide, by decide⟩

theorem C23_dest_register_witness :
    ('r' = 'r' ∨ 'r' = 'R') ∧ '7'.isDigit = true ∧ (∀ x ∈ ([] : List Char), x.isDigit = true)
    ∧ spec_decimal_value 0 ['7'] ≤ 15
    ∧ (parse_dest 64 true false none ['r', '7'] none empty_code mov_head_insn).2.code
        = mov_head_insn.code ||| (spec_decimal_value 0 ['7'] <<< 9) :=
  ⟨by decide, by decide, by simp, by decide,
    (C23_dest_register 64 false 'r' '7' [] (by decide) (by decide) (by simp) (by decide)
      none empty_code mov_head_insn).1⟩

theorem mov_native_symbol (K : OpcodeConsts) (F : FlagConsts) (C : CondConsts)
    (H : HardwareConsts) (prop2 lmm : Bool) (table : List propeller_opcode)
    (op : propeller_opcode) (dest : List Char) (exp : expressionS)
    (hfind : hash_find_insn (insn_hash H prop2 lmm table) "mov" = some op)
    (hcc : op.flags &&& C.FLAG_CC ≠ 0)
    (hr : op.flags &&& F.FLAG_R ≠ 0) (hrd : op.flags &&& F.FLAG_R_DEF ≠ 0)
    (hx : exp.X_op = operatorT.O_symbol) :
    md_assemble K F C H false prop2 lmm table none "mov"
        (case_two_ops_hash 64 false false dest (some exp) none (some (constant_exp 5))) [] true
      = .emitted
          { reserved := 4,
            bytes := number_bytes
              (C.CC_ALWAYS ||| op.opcode ||| (1 <<< 22) ||| 5 ||| (1 <<< 23)) 4,
            fixes := [{ fx_where := 0, fx_size := 4, exp := exp, pcrel := false,
                        r_type := BFD_RELOC_PROPELLER_DST }],
            compress_flag := false } := by
  have e1 : toValueT 32 5 = 5 := by decide
  have e2 : (5 : Nat) &&& bitnot 32 511 = 0 := by decide
  have e3 : shlW 32 1 23 = 1 <<< 23 := by decide
  have e4 : subW 32 4 0 = 4 := by decide
  have e5 : (1 : Nat) <<< 22 = 4194304 := by decide
  unfold md_assemble
  rw [hfind]
  simp only [md_assemble_head, hcc, false_and, if_false, case_two_ops_hash, parse_dest,
    parse_src_or_dest, two_ops_hash_source, parse_src_hash, parse_src_switch]
  simp [hx, empty_code, constant_exp, md_assemble_after_switch, set_r_default, hr, hrd,
    effect_loop, first_error, md_assemble_tail, pack_fallback, emit, fix_for,
    pasm_replace_expression, e1, e2, e3, e4, e5, number_bytes_length]

theorem mov_native_constant (K : OpcodeConsts) (F : FlagConsts) (C : CondConsts)
    (H : HardwareConsts) (prop2 lmm : Bool) (table : List propeller_opcode)
    (op : propeller_opcode) (dest : List Char)
    (hfind : hash_find_insn (insn_hash H prop2 lmm table) "mov" = some op)
    (hcc : op.flags &&& C.FLAG_CC ≠ 0)
    (hr : op.flags &&& F.FLAG_R ≠ 0) (hrd : op.flags &&& F.FLAG_R_DEF ≠ 0) :
    md_assemble K F C H false prop2 lmm table none "mov"
        (case_two_ops_hash 64 false false dest (some (constant_exp 1)) none
          (some (constant_exp 5))) [] true
      = .emitted
          { reserved := 4,
            bytes := number_bytes
              (C.CC_ALWAYS ||| op.opcode ||| (1 <<< 9) ||| (1 <<< 22) ||| 5 ||| (1 <<< 23)) 4,
            fixes := [], compress_flag := false } := by
  have e1 : toValueT 32 5 = 5 := by decide
  have e2 : (5 : Nat) &&& bitnot 32 511 = 0 := by decide
  have e3 : shlW 32 1 23 = 1 <<< 23 := by decide
  have e4 : subW 32 4 0 = 4 := by decide
  have e5 : (1 : Nat) <<< 22 = 4194304 := by decide
  have e6 : toValueT 64 (1 + 0) = 1 := by decide
  have e7 : (1 : Nat) &&& bitnot 64 511 = 0 := by decide
  have e8 : shlW 32 1 9 = 1 <<< 9 := by decide
  have e9 : toValueT 64 1 = 1 := by decide
  unfold md_assemble
  rw [hfind]
  simp only [md_assemble_head, hcc, false_and, if_false, case_two_ops_hash, parse_dest,
    parse_src_or_dest, two_ops_hash_source, parse_src_hash, parse_src_switch]
  simp [empty_code, constant_exp, md_assemble_after_switch, set_r_default, hr, hrd,
    effect_loop, first_error, md_assemble_tail, pack_fallback, emit, fix_for,
    pasm_replace_expression, e1, e2, e3, e4, e5, e6, e7, e8, e9, number_bytes_length]

theorem dest_field_untouched (w : Nat) :
    ((w ||| (1 <<< 22) ||| 5 ||| (1 <<< 23)) >>> 9) &&& 0x1ff = (w >>> 9) &&& 0x1ff := by
  rw [shr_or, shr_or, shr_or, or_and_right, or_and_right, or_and_right]
  have a : ((1 <<< 22) >>> 9) &&& 0x1ff = 0 := by decide
  have b : (5 >>> 9) &&& 0x1ff = 0 := by decide
  have c : ((1 <<< 23) >>> 9) &&& 0x1ff = 0 := by decide
  rw [a, b, c, Nat.or_zero, Nat.or_zero, Nat.or_zero]

/-- C24: with compression off, for a `mov` row that allows a condition and
writes its result by default, `md_assemble` on `mov dest, #5` without a
condition and without effects emits 4 bytes.  (1) When the expression parser
reads the destination text as a symbol (as it does for `r1`, which is not a
predefined register), the word is `CC_ALWAYS | opcode | 1<<22 | 5 | 1<<23`,
whose destination field is the one of `CC_ALWAYS | opcode`, and one fixup
`BFD_RELOC_PROPELLER_DST` of size 4 at offset 0 is recorded for the
destination.  (2) When the destination text is an absolute expression of
value 1, the word also has `1 << 9` and no fixup is recorded. -/
theorem C24_mov_native (K : OpcodeConsts) (F : FlagConsts) (C : CondConsts)
    (H : HardwareConsts) (prop2 lmm : Bool) (table : List propeller_opcode)
    (op : propeller_opcode) (dest : List Char)
    (hfind : hash_find_insn (insn_hash H prop2 lmm table) "mov" = some op)
    (hcc : op.flags &&& C.FLAG_CC ≠ 0)
    (hr : op.flags &&& F.FLAG_R ≠ 0) (hrd : op.flags &&& F.FLAG_R_DEF ≠ 0) :
    (∀ exp : expressionS, exp.X_op = operatorT.O_symbol →
      md_assemble K F C H false prop2 lmm table none "mov"
          (case_two_ops_hash 64 false false dest (some exp) none (some (constant_exp 5)))
          [] true
        = .emitted
            { reserved := 4,
              bytes := number_bytes
                (C.CC_ALWAYS ||| op.opcode ||| (1 <<< 22) ||| 5 ||| (1 <<< 23)) 4,
              fixes := [{ fx_where := 0, fx_size := 4, exp := exp, pcrel := false,
                          r_type := BFD_RELOC_PROPELLER_DST }],
              compress_flag := false })
    ∧ ((C.CC_ALWAYS ||| op.opcode ||| (1 <<< 22) ||| 5 ||| (1 <<< 23)) >>> 9) &&& 0x1ff
        = ((C.CC_ALWAYS ||| op.opcode) >>> 9) &&& 0x1ff
    ∧ md_assemble K F C H false prop2 lmm table none "mov"
          (case_two_ops_hash 64 false false dest (some (constant_exp 1)) none
            (some (constant_exp 5))) [] true
        = .emitted
            { reserved := 4,
              bytes := number_bytes
                (C.CC_ALWAYS ||| op.opcode ||| (1 <<< 9) ||| (1 <<< 22) ||| 5 ||| (1 <<< 23)) 4,
              fixes := [], compress_flag := false } :=
  ⟨fun exp hx => mov_native_symbol K F C H prop2 lmm table op dest exp hfind hcc hr hrd hx,
   dest_field_untouched _,
   mov_native_constant K F C H prop2 lmm table op dest hfind hcc hr hrd⟩

/-- C24 (counterexample): under the sample constants and the sample `mov`
row, `md_assemble` on `mov r1, #5` with compression off emits the bytes of
the word 0xA0FC0005, whose destination field (bits 9..17) is 0 and not 1, and
records a fixup for the destination. -/
theorem C24_counterexample :
    md_assemble sample_consts sample_flags sample_cond sample_hw false false false
        [mov_row] none "mov"
        (case_two_ops_hash 64 false false "r1".toList (some (symbol_exp "r1")) none
          (some (constant_exp 5))) [] true
      = .emitted mov_r1_5_native
    ∧ mov_r1_5_native.bytes = number_bytes 0xA0FC0005 4
    ∧ ((0xA0FC0005 : Nat) >>> 9) &&& 0x1ff = 0
    ∧ mov_r1_5_native.fixes ≠ [] := by
  refine ⟨by rfl, by decide, by decide, by decide⟩

theorem C24_mov_native_witness :
    hash_find_insn (insn_hash sample_hw false false [mov_row]) "mov" = some mov_row
    ∧ mov_row.flags &&& sample_cond.FLAG_CC ≠ 0
    ∧ mov_row.flags &&& sample_flags.FLAG_R ≠ 0
    ∧ mov_row.flags &&& sample_flags.FLAG_R_DEF ≠ 0
    ∧ md_assemble sample_consts sample_flags sample_cond sample_hw false false false
          [mov_row] none "mov"
          (case_two_ops_hash 64 false false "r1".toList (some (constant_exp 1)) none
            (some (constant_exp 5))) [] true
        = .emitted
            { reserved := 4,
              bytes := number_bytes
                (sample_cond.CC_ALWAYS ||| mov_row.opcode ||| (1 <<< 9) ||| (1 <<< 22) ||| 5
                  ||| (1 <<< 23)) 4,
              fixes := [], compress_flag := false } :=
  ⟨by decide, by decide, by decide, by decide,
    (C24_mov_native sample_consts sample_flags sample_cond sample_hw false false [mov_row]
      mov_row "r1".toList (by decide) (by decide) (by decide) (by decide)).2.2⟩

theorem toValueT_lt (v : Int) : toValueT 32 v < 2 ^ 32 := by
  unfold toValueT
  have h1 : 0 ≤ v % (2 : Int) ^ 32 := Int.emod_nonneg _ (by norm_num)
  have h2 : v % (2 : Int) ^ 32 < (2 : Int) ^ 32 := Int.emod_lt_of_pos _ (by norm_num)
  omega

/-- The constant case of `parse_src` for every value `v` of `X_add_number`
and every format other than the repeat count: the test is made on the low 32
bits of `v`, so the operand is accepted exactly when `v mod 2^32 <= 511`, and
`v mod 2^32` is ORed into the word. -/
theorem parse_src_constant_mod (format : operand_format)
    (pcrel_reloc : Option bfd_reloc_code_real_type) (integer_reloc : Bool)
    (operand insn : propeller_code) (v : Int)
    (hf : format ≠ PROPELLER_OPERAND_REPD)
    (hx : operand.reloc.exp.X_op = operatorT.O_constant)
    (hv : operand.reloc.exp.X_add_number = v) :
    parse_src_switch format pcrel_reloc integer_reloc operand insn
      = if 512 ≤ toValueT 32 v then
          ({ operand with error := some "9-bit constant out of range" }, insn)
        else (operand, { insn with code := insn.code ||| toValueT 32 v }) := by
  have hc := const_range_check (toValueT 32 v) (toValueT_lt v)
  unfold parse_src_switch
  simp only [hx, hv, hf, if_false]
  by_cases h : 512 ≤ toValueT 32 v
  · rw [if_pos (hc.2 h), if_pos h]
  · rw [if_neg (fun a => h (hc.1 a)), if_neg h]

theorem toValueT_window (v : Int) (h0 : -(2 : Int) ^ 31 ≤ v) (h1 : v < (2 : Int) ^ 32) :
    (512 ≤ toValueT 32 v ↔ (v < 0 ∨ 511 < v))
    ∧ (0 ≤ v → toValueT 32 v = v.toNat) := by
  unfold toValueT
  by_cases hn : 0 ≤ v
  · have e : v % (2 : Int) ^ 32 = v := Int.emod_eq_of_lt hn h1
    rw [e]
    constructor
    · constructor
      · intro h; right; omega
      · rintro (h | h) <;> omega
    · intro _; rfl
  · have e : v % (2 : Int) ^ 32 = v + (2 : Int) ^ 32 := by
      have : (v + (2 : Int) ^ 32) % (2 : Int) ^ 32 = v + (2 : Int) ^ 32 :=
        Int.emod_eq_of_lt (by omega) (by omega)
      rw [← this, Int.add_emod_self]
    rw [e]
    constructor
    · constructor
      · intro _; left; omega
      · intro _
        have : (2 : Int) ^ 31 = 2147483648 := by norm_num
        have : (2 : Int) ^ 32 = 4294967296 := by norm_num
        omega
    · intro h; omega

/-- Where the value of the constant lies between -2^31 and 2^32 - 1, the
constant case of `parse_src` stores "9-bit constant out of range" exactly
when the value is outside 0..511, and otherwise ORs the value into the
word. -/
theorem parse_src_constant_window (format : operand_format)
    (pcrel_reloc : Option bfd_reloc_code_real_type) (integer_reloc : Bool)
    (operand insn : propeller_code) (v : Int)
    (hf : format ≠ PROPELLER_OPERAND_REPD)
    (hx : operand.reloc.exp.X_op = operatorT.O_constant)
    (hv : operand.reloc.exp.X_add_number = v)
    (h0 : -(2 : Int) ^ 31 ≤ v) (h1 : v < (2 : Int) ^ 32) :
    parse_src_switch format pcrel_reloc integer_reloc operand insn
      = if v < 0 ∨ 511 < v then
          ({ operand with error := some "9-bit constant out of range" }, insn)
        else (operand, { insn with code := insn.code ||| v.toNat }) := by
  rw [parse_src_constant_mod format pcrel_reloc integer_reloc operand insn v hf hx hv]
  obtain ⟨hw, hz⟩ := toValueT_window v h0 h1
  by_cases h : v < 0 ∨ 511 < v
  · rw [if_pos (hw.2 h), if_pos h]
  · rw [if_neg (fun a => h (hw.1 a)), if_neg h, hz (by omega)]

/-- C25 (code evaluated at the failing input): for the source operand
`#4294967301` (2^32 + 5) on a two-operand line, `parse_src` stores no message
and ORs 5 into the source field, because the range test is made on the
`int` copy of the 64-bit value. -/
theorem C25_silent_truncation :
    (parse_src_hash false false PROPELLER_OPERAND_TWO_OPS none
        (some (constant_exp 4294967301)) empty_code add_r3_pending.insn).1.error = none
    ∧ (parse_src_hash false false PROPELLER_OPERAND_TWO_OPS none
        (some (constant_exp 4294967301)) empty_code add_r3_pending.insn).2.code
        = 0x80BC0600 ||| (1 <<< 22) ||| 5
    ∧ ¬ ((0 : Int) ≤ 4294967301 ∧ (4294967301 : Int) ≤ 511) := by
  refine ⟨by decide, by decide, by decide⟩

theorem negW_toValueT (v : Int) : negW 32 (toValueT 32 v) = toValueT 32 (-v) := by
  have p32 : (2 : Int) ^ 32 = 4294967296 := by norm_num
  have q32 : (2 : Nat) ^ 32 = 4294967296 := by norm_num
  unfold negW toValueT
  rw [q32, p32]
  have h1 : 0 ≤ v % 4294967296 := Int.emod_nonneg _ (by norm_num)
  have h2 : v % 4294967296 < 4294967296 := Int.emod_lt_of_pos _ (by norm_num)
  have h3 : 0 ≤ (-v) % 4294967296 := Int.emod_nonneg _ (by norm_num)
  have h4 : (-v) % 4294967296 < 4294967296 := Int.emod_lt_of_pos _ (by norm_num)
  omega

/-- Where the bracketed constant, if written, lies strictly between -2^31 and
2^31, `parse_ptr` on a `ptra`/`ptrb` operand with at most one update accepts
the operand exactly when the specified index is within -32..31, stores
"6-bit value out of range" otherwise, and ORs the specified field into the
word at the place that the shape selects. -/
theorem parse_ptr_in_range (prefix_op suffix_op : update_op) (name : pointer_name)
    (k : Option Int) (format : operand_format) (operand insn : propeller_code)
    (hname : name = .ptra ∨ name = .ptrb)
    (hnot : prefix_op = .no_update ∨ suffix_op = .no_update)
    (hk : ∀ v, k = some v → -(2 : Int) ^ 31 < v ∧ v < (2 : Int) ^ 31)
    (hfmt : format = PROPELLER_OPERAND_PTRS_OPS ∨ format = PROPELLER_OPERAND_PTRD_OPS)
    (herr : operand.error = none) :
    parse_ptr prefix_op suffix_op name (ptr_index k) format operand insn
      = if spec_ptr_ndx prefix_op suffix_op k < -32 ∨ 31 < spec_ptr_ndx prefix_op suffix_op k
        then ({ ptr_operand_after k operand with error := some "6-bit value out of range" },
              insn)
        else
          (ptr_operand_after k operand,
           { insn with code := insn.code |||
              (if format = PROPELLER_OPERAND_PTRS_OPS then
                 0x00400000 ||| spec_ptr_field prefix_op suffix_op name
                   (spec_ptr_ndx prefix_op suffix_op k)
               else 0x00c00000 ||| shlW 32 (spec_ptr_field prefix_op suffix_op name
                   (spec_ptr_ndx prefix_op suffix_op k)) 9) }) := by
  have m1 : toSigned 32 (toValueT 32 (-1)) = -1 := by decide
  have s1 : toSigned 32 1 = 1 := by decide
  have s0 : toSigned 32 0 = 0 := by decide
  have v1 : toValueT 32 1 = 1 := by decide
  have v0 : toValueT 32 0 = 0 := by decide
  cases k with
  | none =>
    rcases hname with rfl | rfl <;> rcases hfmt with rfl | rfl
      <;> rcases hnot with rfl | rfl
      <;> first
        | (cases suffix_op <;>
            simp [parse_ptr, ptr_index, spec_ptr_ndx, spec_ptr_field, ptr_operand_after,
              m1, s1, s0, v1, v0])
        | (cases prefix_op <;>
            simp [parse_ptr, ptr_index, spec_ptr_ndx, spec_ptr_field, ptr_operand_after,
              m1, s1, s0, v1, v0])
  | some v =>
    obtain ⟨h0, h1⟩ := hk v rfl
    have a1 : toSigned 32 (toValueT 32 v) = v :=
      toSigned_toValueT 32 (Or.inl rfl) v (by norm_num at h0 ⊢; omega) (by norm_num at h1 ⊢; omega)
    have a2 : toSigned 32 (toValueT 32 (-v)) = -v :=
      toSigned_toValueT 32 (Or.inl rfl) (-v) (by norm_num at h1 ⊢; omega)
        (by norm_num at h0 ⊢; omega)
    have n1 : negW 32 (toValueT 32 v) = toValueT 32 (-v) := negW_toValueT v
    rcases hname with rfl | rfl <;> rcases hfmt with rfl | rfl
      <;> rcases hnot with rfl | rfl
      <;> first
        | (cases suffix_op <;>
            simp [parse_ptr, ptr_index, spec_ptr_ndx, spec_ptr_field, ptr_operand_after,
              constant_exp, herr, m1, s1, s0, v1, v0, a1, a2, n1])
        | (cases prefix_op <;>
            simp [parse_ptr, ptr_index, spec_ptr_ndx, spec_ptr_field, ptr_operand_after,
              constant_exp, herr, m1, s1, s0, v1, v0, a1, a2, n1])

/-- An operand with both a prefix and a postfix update is rejected and the
word is left unchanged. -/
theorem parse_ptr_both_updates (prefix_op suffix_op : update_op) (name : pointer_name)
    (index : Option (Option expressionS × Bool)) (format : operand_format)
    (operand insn : propeller_code)
    (hname : name ≠ .other_name)
    (hp : prefix_op ≠ .no_update) (hs : suffix_op ≠ .no_update) :
    parse_ptr prefix_op suffix_op name index format operand insn
      = ({ operand with error := some "Can\x27t use both prefix and postfix update" }, insn) := by
  unfold parse_ptr
  simp [hname, hp, hs]

/-- C27 (code evaluated at the failing input): for the pointer operand
`ptra[4294967296]` in the pointer-source shape, whose index 2^32 is outside
-32..31, `parse_ptr` stores no message and ORs 0x00400000 with index bits 0,
because the index is copied into an `int`. -/
theorem C27_index_wraps :
    parse_ptr .no_update .no_update .ptra (ptr_index (some 4294967296))
        PROPELLER_OPERAND_PTRS_OPS empty_code add_r3_pending.insn
      = (ptr_operand_after (some 4294967296) empty_code,
         { add_r3_pending.insn with code := 0x80BC0600 ||| 0x00400000 })
    ∧ (ptr_operand_after (some 4294967296) empty_code).error = none
    ∧ spec_ptr_ndx .no_update .no_update (some 4294967296) = 4294967296
    ∧ ¬ ((-32 : Int) ≤ 4294967296 ∧ (4294967296 : Int) ≤ 31) := by
  refine ⟨by decide, by decide, by decide, by decide⟩

theorem hash_find_unregistered (H : HardwareConsts) (prop2 lmm : Bool)
    (table : List propeller_opcode) (str : String)
    (hrows : ∀ row ∈ table, row.name = str → md_begin_adds H prop2 lmm row.hardware = false) :
    hash_find_insn (insn_hash H prop2 lmm table) str = none := by
  unfold hash_find_insn insn_hash
  rw [List.find?_eq_none]
  intro row hrow
  rw [List.mem_filter] at hrow
  intro hname
  have hn : row.name = str := by simpa using hname
  have := hrows row hrow.1 hn
  rw [this] at hrow
  exact Bool.noConfusion hrow.2

theorem md_begin_adds_lmm_only (H : HardwareConsts) (prop2 : Bool) (hardware : Nat)
    (h : (if prop2 then hardware &&& H.PROP_2 else hardware &&& H.PROP_1) = 0) :
    md_begin_adds H prop2 false hardware = false := by
  unfold md_begin_adds
  cases prop2 <;> simp at h ⊢ <;> exact h

/-- With LMM mode off, a mnemonic all of whose table rows lack the hardware
bit of the selected chip (`PROP_1`, or `PROP_2` with `prop2`), that is, rows
that `md_begin` registers only in LMM mode, is not in `insn_hash`:
`md_assemble` reports "Unknown instruction" and returns, whatever the operand
text is, so that no byte is emitted and no fixup is recorded. -/
theorem lmm_only_unknown (K : OpcodeConsts) (F : FlagConsts) (C : CondConsts)
    (H : HardwareConsts) (compress prop2 : Bool) (table : List propeller_opcode)
    (cond : Option propeller_condition) (str : String)
    (format_case : propeller_opcode → AsmLocals → Except String (propeller_opcode × AsmLocals))
    (effs : List propeller_effect) (rest_blank : Bool)
    (hrows : ∀ row ∈ table, row.name = str →
      (if prop2 then row.hardware &&& H.PROP_2 else row.hardware &&& H.PROP_1) = 0) :
    md_assemble K F C H compress prop2 false table cond str format_case effs rest_blank
      = .bad ("Unknown instruction \x27" ++ str ++ "\x27") := by
  unfold md_assemble
  rw [hash_find_unregistered H prop2 false table str
    (fun row hrow hn => md_begin_adds_lmm_only H prop2 row.hardware (hrows row hrow hn))]

theorem lmm_only_unknown_sample :
    md_assemble sample_consts sample_flags sample_cond sample_hw false false false
        [lcall_row, mov_row] none "lcall" (fun op _ => .ok (op, lcall_line)) [] true
      = .bad "Unknown instruction \x27lcall\x27" :=
  lmm_only_unknown sample_consts sample_flags sample_cond sample_hw false false
    [lcall_row, mov_row] none "lcall" (fun op _ => .ok (op, lcall_line)) [] true (by decide)

/-- The checks of `lmm` inside the switch report their message and go on:
whenever one of them fires on a case that is not left early, the case ends
with a native layout of size 8, and the line is then encoded and emitted like
any other.  For the locals of `lcall #far` the emission reserves 8 bytes and
records two fixups. -/
theorem lmm_check_continues :
    (∀ (compress : Bool) (format : operand_format) (condmask : Nat)
        (leasp_reg_ok mvi_clean copc_mviw : Bool) (msg : String),
        switch_lmm_diagnostic compress false format (!(compress && mvi_clean)) = some msg →
        ∃ l, format_switch compress format condmask false leasp_reg_ok mvi_clean copc_mviw true
            = .layout l ∧ l.size = 8 ∧ l.insn_compressed = false)
    ∧ switch_lmm_diagnostic false false PROPELLER_OPERAND_LCALL true
        = some "lcall only supported in LMM mode"
    ∧ ∃ o, md_assemble_after_switch sample_consts sample_flags false lcall_row lcall_line []
          true = .emitted o
        ∧ o.reserved = 8 ∧ o.bytes.length = 8 ∧ o.fixes.length = 2 := by
  refine ⟨?_, rfl, ⟨_, rfl, rfl, rfl, rfl⟩⟩
  intro compress format condmask leasp_reg_ok mvi_clean copc_mviw msg h
  cases format <;> cases compress <;> cases mvi_clean
    <;> simp [switch_lmm_diagnostic] at h
    <;> simp [format_switch]

theorem unpack_bits (K : OpcodeConsts) (c : Nat) (hc : c < 2 ^ 32)
    (htag : K.PREFIX_PACK_NATIVE < 256) (hnib : K.PREFIX_PACK_NATIVE &&& 0xF = 0) :
    ((pack_native K c >>> 8) &&& 0x3FFFF) ||| (((pack_native K c >>> 26) &&& 0x3F) <<< 26)
        ||| ((pack_native K c &&& 0xF) <<< 22)
      = c &&& bitnot 32 0x3C0000 := by
  obtain ⟨hp, hb⟩ := pack_native_eq K c htag
  obtain ⟨hk1, hk2⟩ := pack_native_keeps K c htag
  have hk2 := hk2 hnib
  have h4 : (c / 2 ^ 22) % 2 ^ 4 < 2 ^ 4 := Nat.mod_lt _ (Nat.two_pow_pos 4)
  have e18 : (0x3FFFF : Nat) = 2 ^ 18 - 1 := by norm_num
  have e6 : (0x3F : Nat) = 2 ^ 6 - 1 := by norm_num
  have e4 : (0xF : Nat) = 2 ^ 4 - 1 := by norm_num
  have em : (0x3C0000 : Nat) = 2 ^ 22 - 2 ^ 18 := by norm_num
  have a1 : (pack_native K c >>> 8) &&& 0x3FFFF = c % 2 ^ 18 := by
    rw [e18, Nat.and_pow_two_sub_one_eq_mod, Nat.shiftRight_eq_div_pow, hk1]
  have a2 : (pack_native K c >>> 26) &&& 0x3F = c / 2 ^ 26 := by
    rw [e6, Nat.and_pow_two_sub_one_eq_mod, Nat.shiftRight_eq_div_pow]
    have hP : pack_native K c / 2 ^ 8 = (c / 2 ^ 26) % 2 ^ 6 * 2 ^ 18 + c % 2 ^ 18 := by
      rw [hp]
      omega
    have hd : pack_native K c / 2 ^ 26 = pack_native K c / 2 ^ 8 / 2 ^ 18 := by
      rw [Nat.div_div_eq_div_mul]
      norm_num
    have hq : pack_native K c / 2 ^ 8 / 2 ^ 18 = (c / 2 ^ 26) % 2 ^ 6 := by
      rw [hP]
      omega
    rw [hd, hq]
    omega
  have a3 : pack_native K c &&& 0xF = (c / 2 ^ 22) % 2 ^ 4 := by
    rw [e4, Nat.and_pow_two_sub_one_eq_mod, hk2]
  rw [a1, a2, a3, em]
  apply Nat.eq_of_testBit_eq
  intro i
  rw [Nat.testBit_or, Nat.testBit_or, Nat.testBit_and, bitnot_testBit,
    testBit_range 22 18 i (by norm_num), Nat.testBit_mod_two_pow, Nat.testBit_shiftLeft,
    Nat.testBit_shiftLeft, Nat.testBit_mod_two_pow, ← Nat.shiftRight_eq_div_pow,
    ← Nat.shiftRight_eq_div_pow, Nat.testBit_shiftRight, Nat.testBit_shiftRight]
  by_cases h32 : i < 32
  · by_cases h18 : i < 18
    · have : ¬ (i ≥ 26) := by omega
      have : ¬ (i ≥ 22) := by omega
      have : ¬ (18 ≤ i ∧ i < 22) := by omega
      simp [*]
    · by_cases h22 : i < 22
      · have : ¬ (i ≥ 26) := by omega
        have : ¬ (i ≥ 22) := by omega
        have : (18 ≤ i ∧ i < 22) := by omega
        simp [*]
      · by_cases h26 : i < 26
        · have : ¬ (i ≥ 26) := by omega
          have : (i ≥ 22) := by omega
          have : ¬ (18 ≤ i ∧ i < 22) := by omega
          have : i - 22 < 4 := by omega
          have : 22 + (i - 22) = i := by omega
          simp [*]
        · have : (i ≥ 26) := by omega
          have : (i ≥ 22) := by omega
          have : ¬ (18 ≤ i ∧ i < 22) := by omega
          have : ¬ (i - 22 < 4) := by omega
          have : 26 + (i - 26) = i := by omega
          simp [*]
  · have : c.testBit i = false := testBit_false_of_lt_of_le c 32 i hc (by omega)
    have hge : i ≥ 26 := by omega
    have : 26 + (i - 26) = i := by omega
    have : ¬ (i < 18) := by omega
    have : ¬ (i - 22 < 4) := by omega
    simp [*]

theorem split_cond (c : Nat) (hc : c < 2 ^ 32) :
    c = (c &&& bitnot 32 0x3C0000) ||| (((c >>> 18) &&& 0xF) <<< 18) := by
  have e4 : (0xF : Nat) = 2 ^ 4 - 1 := by norm_num
  have em : (0x3C0000 : Nat) = 2 ^ 22 - 2 ^ 18 := by norm_num
  rw [e4, em]
  apply Nat.eq_of_testBit_eq
  intro i
  rw [Nat.testBit_or, Nat.testBit_and, bitnot_testBit, testBit_range 22 18 i (by norm_num),
    Nat.testBit_shiftLeft, Nat.testBit_and, Nat.testBit_shiftRight,
    Nat.testBit_two_pow_sub_one]
  by_cases h32 : i < 32
  · by_cases h18 : i < 18
    · have : ¬ (i ≥ 18) := by omega
      have : ¬ (18 ≤ i ∧ i < 22) := by omega
      simp [*]
    · by_cases h22 : i < 22
      · have : (i ≥ 18) := by omega
        have : (18 ≤ i ∧ i < 22) := by omega
        have : i - 18 < 4 := by omega
        have : 18 + (i - 18) = i := by omega
        simp [*]
      · have : (i ≥ 18) := by omega
        have : ¬ (18 ≤ i ∧ i < 22) := by omega
        have : ¬ (i - 18 < 4) := by omega
        simp [*]
  · have : c.testBit i = false := testBit_false_of_lt_of_le c 32 i hc (by omega)
    have : ¬ (i - 18 < 4) := by omega
    simp [*]

/-- C36: with a tag that fits one byte and has a zero low nibble, for every
32-bit word `c` the packed word `p = pack_native c` is below 2^32 and
`((p >> 8) & 0x3FFFF) | (((p >> 26) & 0x3F) << 26) | ((p & 0xF) << 22)` is `c`
with bits 18..21 cleared; two 32-bit words with the same bits 18..21 and the
same packed word are equal. -/
theorem C36_pack_native_lossless (K : OpcodeConsts) (c : Nat) (hc : c < 2 ^ 32)
    (htag : K.PREFIX_PACK_NATIVE < 256) (hnib : K.PREFIX_PACK_NATIVE &&& 0xF = 0) :
    ((pack_native K c >>> 8) &&& 0x3FFFF) ||| (((pack_native K c >>> 26) &&& 0x3F) <<< 26)
        ||| ((pack_native K c &&& 0xF) <<< 22)
      = c &&& bitnot 32 0x3C0000
    ∧ pack_native K c < 2 ^ 32
    ∧ (∀ c2, c2 < 2 ^ 32 → (c2 >>> 18) &&& 0xF = (c >>> 18) &&& 0xF →
        pack_native K c2 = pack_native K c → c2 = c) := by
  refine ⟨unpack_bits K c hc htag hnib, ?_, ?_⟩
  · obtain ⟨hp, hb⟩ := pack_native_eq K c htag
    rw [hp]
    have h18 : c % 2 ^ 18 < 2 ^ 18 := Nat.mod_lt _ (Nat.two_pow_pos 18)
    have h6 : (c / 2 ^ 26) % 2 ^ 6 < 2 ^ 6 := Nat.mod_lt _ (Nat.two_pow_pos 6)
    omega
  · intro c2 hc2 hcond hpk
    have u1 := unpack_bits K c hc htag hnib
    have u2 := unpack_bits K c2 hc2 htag hnib
    rw [hpk, u1] at u2
    rw [split_cond c hc, split_cond c2 hc2, ← u2, hcond]

theorem C36_pack_native_lossless_witness :
    (0xA0FC0205 : Nat) < 2 ^ 32
    ∧ sample_consts.PREFIX_PACK_NATIVE < 256
    ∧ sample_consts.PREFIX_PACK_NATIVE &&& 0xF = 0
    ∧ ((pack_native sample_consts 0xA0FC0205 >>> 8) &&& 0x3FFFF)
        ||| (((pack_native sample_consts 0xA0FC0205 >>> 26) &&& 0x3F) <<< 26)
        ||| ((pack_native sample_consts 0xA0FC0205 &&& 0xF) <<< 22)
      = 0xA0FC0205 &&& bitnot 32 0x3C0000
    ∧ pack_native sample_consts 0xA0FC0205 < 2 ^ 32 :=
  ⟨by decide, by decide, by decide,
    (C36_pack_native_lossless sample_consts 0xA0FC0205 (by decide) (by decide) (by decide)).1,
    (C36_pack_native_lossless sample_consts 0xA0FC0205 (by decide) (by decide) (by decide)).2.1⟩

theorem payload_testBit (K : OpcodeConsts) (c k : Nat) (hc : c < 2 ^ 32)
    (htag : K.PREFIX_PACK_NATIVE < 256) :
    (pack_native K c / 2 ^ 8).testBit k
      = if k < 18 then c.testBit k else (decide (k < 24) && c.testBit (k + 8)) := by
  obtain ⟨hp, hb⟩ := pack_native_eq K c htag
  have hP : pack_native K c / 2 ^ 8 = (c / 2 ^ 26) % 2 ^ 6 * 2 ^ 18 + c % 2 ^ 18 := by
    rw [hp]
    omega
  have h18 : c % 2 ^ 18 < 2 ^ 18 := Nat.mod_lt _ (Nat.two_pow_pos 18)
  have h26 : (c / 2 ^ 26) % 2 ^ 6 = c / 2 ^ 26 := by omega
  rw [hP, h26, ← or_shift_add _ _ 18 h18, Nat.testBit_or, Nat.testBit_shiftLeft,
    Nat.testBit_mod_two_pow, ← Nat.shiftRight_eq_div_pow, Nat.testBit_shiftRight]
  by_cases h : k < 18
  · have : ¬ (k ≥ 18) := by omega
    simp [h, this]
  · have hge : k ≥ 18 := by omega
    have e : 26 + (k - 18) = k + 8 := by omega
    rw [e]
    by_cases h24 : k < 24
    · simp [h, hge, h24]
    · have : c.testBit (k + 8) = false := testBit_false_of_lt_of_le c 32 (k + 8) hc (by omega)
      simp [h, hge, h24, this]

theorem payload_buf_testBit (K : OpcodeConsts) (c k : Nat) (hk : k < 24) :
    (byte_at (packed_payload_buf K c) (k / 8)).testBit (k % 8)
      = (pack_native K c / 2 ^ 8).testBit k := by
  have h := md_number_to_chars_testBit (fun _ => 0) (pack_native K c) 4 (k + 8) (by omega)
  have e1 : (k + 8) / 8 = k / 8 + 1 := by omega
  have e2 : (k + 8) % 8 = k % 8 := by omega
  rw [e1, e2] at h
  unfold packed_payload_buf word_buf
  unfold byte_at at h ⊢
  rw [h, ← Nat.shiftRight_eq_div_pow, Nat.testBit_shiftRight, Nat.add_comm]

theorem byte_eq_of_bits (a b : Nat → Nat) (i : Nat)
    (h : ∀ j, j < 8 → (byte_at a i).testBit j = (byte_at b i).testBit j) :
    byte_at a i = byte_at b i := by
  apply Nat.eq_of_testBit_eq
  intro j
  by_cases hj : j < 8
  · exact h j hj
  · rw [byte_at_testBit_ge a i j (by omega), byte_at_testBit_ge b i j (by omega)]
theorem fix_commutes_core (W : Nat) (hW : 32 ≤ W) (K : OpcodeConsts)
    (htag : K.PREFIX_PACK_NATIVE < 256) (c : Nat) (hc : c < 2 ^ 32)
    (fixP : fixS) (valP mask shift rshift : Nat)
    (hs : reloc_switch W fixP.fx_r_type (canon_val W valP)
      = some (canon_val W valP, mask, shift, rshift))
    (hm : mask < 2 ^ 18) :
    ∃ ra rb cw,
      md_apply_fix W (resize_fix fixP 3) valP (packed_payload_buf K c) = some ra
      ∧ md_apply_fix W (resize_fix fixP 4) valP (word_buf c) = some rb
      ∧ md_chars_to_number W rb.buf 4 = some cw
      ∧ (∀ i, i < 3 → byte_at ra.buf i = byte_at (packed_payload_buf K (cw % 2 ^ 32)) i)
      ∧ ra.overflow = rb.overflow := by
  obtain ⟨code3, hc3⟩ := md_chars_to_number_some W (packed_payload_buf K c) 3 (by omega)
  obtain ⟨code4, hc4⟩ := md_chars_to_number_some W (word_buf c) 4 (by omega)
  have e3 := md_apply_fix_eq W (resize_fix fixP 3) valP _ code3 _ mask shift rshift hc3 hs
  have e4 := md_apply_fix_eq W (resize_fix fixP 4) valP _ code4 _ mask shift rshift hc4 hs
  have b3 := (md_chars_to_number_testBit W hW _ 3 code3 hc3).2
  have b4 := (md_chars_to_number_testBit W hW _ 4 code4 hc4).2
  obtain ⟨cw, hcw, hbits⟩ := patched_bits W hW (word_buf c) 4 code4
    (shifted W (final_val W (resize_fix fixP 4)
      (if (resize_fix fixP 4).fx_addsy.isNone && !(resize_fix fixP 4).fx_pcrel then true
       else (resize_fix fixP 4).fx_done) (canon_val W valP)) shift rshift) mask
    (merge W code4 (final_val W (resize_fix fixP 4)
      (if (resize_fix fixP 4).fx_addsy.isNone && !(resize_fix fixP 4).fx_pcrel then true
       else (resize_fix fixP 4).fx_done) (canon_val W valP)) mask shift rshift) hc4
    (fun i hi => merge_testBit W code4 _ mask shift rshift i hi)
  have hmask : ∀ k, 18 ≤ k → mask.testBit k = false :=
    fun k hk => testBit_false_of_lt_of_le mask 18 k hm hk
  have hcode4 : ∀ k, k < 32 → code4.testBit k = c.testBit k := by
    intro k hk
    rw [b4 k (by omega)]
    exact md_number_to_chars_testBit (fun _ => 0) c 4 k (by omega)
  refine ⟨_, _, cw, e3, e4, hcw, ?_, rfl⟩
  intro i hi
  apply byte_eq_of_bits
  intro j hj
  have hk : 8 * i + j < 24 := by omega
  have d1 : (8 * i + j) / 8 = i := by omega
  have d2 : (8 * i + j) % 8 = j := by omega
  have l1 := md_number_to_chars_testBit (packed_payload_buf K c)
    (merge W code3 (final_val W (resize_fix fixP 3)
      (if (resize_fix fixP 3).fx_addsy.isNone && !(resize_fix fixP 3).fx_pcrel then true
       else (resize_fix fixP 3).fx_done) (canon_val W valP)) mask shift rshift) 3
    (8 * i + j) (by omega)
  have r1 := payload_buf_testBit K (cw % 2 ^ 32) (8 * i + j) hk
  rw [d1, d2] at l1 r1
  have hcw32 : cw % 2 ^ 32 < 2 ^ 32 := Nat.mod_lt _ (by norm_num)
  show (byte_at (md_number_to_chars (packed_payload_buf K c) _ 3) i).testBit j = _
  rw [l1, r1, merge_testBit W code3 _ mask shift rshift _ (by omega),
    payload_testBit K (cw % 2 ^ 32) _ hcw32 htag, b3 _ (by omega),
    payload_buf_testBit K c _ hk, payload_testBit K c _ hc htag,
    Nat.testBit_mod_two_pow, Nat.testBit_mod_two_pow]
  by_cases h18 : 8 * i + j < 18
  · rw [if_pos h18, if_pos h18, hbits _ (by omega), hcode4 _ (by omega)]
    have : 8 * i + j < 32 := by omega
    simp only [this, decide_True, Bool.true_and]
    rfl
  · rw [if_neg h18, if_neg h18, hmask _ (by omega), hbits _ (by omega), hmask _ (by omega),
      hcode4 _ (by omega)]
    have : 8 * i + j + 8 < 32 := by omega
    simp [this, hk]
/-- C37: for every 32-bit native word `c`, every value and every fixup of one
of the kinds SRC, SRC_IMM, DST, DST_IMM, `md_apply_fix` applied with size 3 to
the three bytes that follow the tag byte of `pack_native (c)` leaves the same
three bytes as packing the word that `md_apply_fix` with size 4 leaves when
applied to the four bytes of `c`, and the two calls report "Relocation
overflows" in the same cases. -/
theorem C37_pack_commutes_with_fix (W : Nat) (hW : W = 32 ∨ W = 64) (K : OpcodeConsts)
    (htag : K.PREFIX_PACK_NATIVE < 256) (c : Nat) (hc : c < 2 ^ 32)
    (fixP : fixS) (valP : Nat)
    (hk : fixP.fx_r_type = BFD_RELOC_PROPELLER_SRC
      ∨ fixP.fx_r_type = BFD_RELOC_PROPELLER_SRC_IMM
      ∨ fixP.fx_r_type = BFD_RELOC_PROPELLER_DST
      ∨ fixP.fx_r_type = BFD_RELOC_PROPELLER_DST_IMM) :
    ∃ ra rb cw,
      md_apply_fix W (resize_fix fixP 3) valP (packed_payload_buf K c) = some ra
      ∧ md_apply_fix W (resize_fix fixP 4) valP (word_buf c) = some rb
      ∧ md_chars_to_number W rb.buf 4 = some cw
      ∧ (∀ i, i < 3 → byte_at ra.buf i = byte_at (packed_payload_buf K (cw % 2 ^ 32)) i)
      ∧ ra.overflow = rb.overflow := by
  have hW32 : 32 ≤ W := by rcases hW with rfl | rfl <;> omega
  rcases hk with h | h | h | h
  · exact fix_commutes_core W hW32 K htag c hc fixP valP 0x1ff 0 2
      (by rw [h]; rfl) (by norm_num)
  · exact fix_commutes_core W hW32 K htag c hc fixP valP 0x1ff 0 0
      (by rw [h]; rfl) (by norm_num)
  · exact fix_commutes_core W hW32 K htag c hc fixP valP 0x3fe00 9 2
      (by rw [h]; rfl) (by norm_num)
  · exact fix_commutes_core W hW32 K htag c hc fixP valP 0x3fe00 9 0
      (by rw [h]; rfl) (by norm_num)

theorem C37_pack_commutes_with_fix_witness :
    ((64 : Nat) = 32 ∨ (64 : Nat) = 64)
    ∧ sample_consts.PREFIX_PACK_NATIVE < 256
    ∧ (0xA0FC0205 : Nat) < 2 ^ 32
    ∧ ((resolved_fix BFD_RELOC_PROPELLER_DST_IMM 4).fx_r_type = BFD_RELOC_PROPELLER_SRC
      ∨ (resolved_fix BFD_RELOC_PROPELLER_DST_IMM 4).fx_r_type = BFD_RELOC_PROPELLER_SRC_IMM
      ∨ (resolved_fix BFD_RELOC_PROPELLER_DST_IMM 4).fx_r_type = BFD_RELOC_PROPELLER_DST
      ∨ (resolved_fix BFD_RELOC_PROPELLER_DST_IMM 4).fx_r_type = BFD_RELOC_PROPELLER_DST_IMM)
    ∧ ∃ ra rb cw,
      md_apply_fix 64 (resize_fix (resolved_fix BFD_RELOC_PROPELLER_DST_IMM 4) 3) 7
          (packed_payload_buf sample_consts 0xA0FC0205) = some ra
      ∧ md_apply_fix 64 (resize_fix (resolved_fix BFD_RELOC_PROPELLER_DST_IMM 4) 4) 7
          (word_buf 0xA0FC0205) = some rb
      ∧ md_chars_to_number 64 rb.buf 4 = some cw
      ∧ (∀ i, i < 3 →
          byte_at ra.buf i = byte_at (packed_payload_buf sample_consts (cw % 2 ^ 32)) i)
      ∧ ra.overflow = rb.overflow :=
  ⟨Or.inr rfl, by decide, by decide, Or.inr (Or.inr (Or.inr rfl)),
    C37_pack_commutes_with_fix 64 (Or.inr rfl) sample_consts (by decide) 0xA0FC0205
      (by decide) (resolved_fix BFD_RELOC_PROPELLER_DST_IMM 4) 7
      (Or.inr (Or.inr (Or.inr rfl)))⟩

theorem emit_written_count (K : OpcodeConsts) (compress : Bool) (st : AsmLocals) (o : Emitted)
    (h : emit K compress st = .emitted o) :
    o.bytes.length =
      (if compress ∧ st.insn_compressed = false then 1 else 0)
      + (if compress ∧ st.insn_compressed = true then st.size else 4)
      + (if (st.insn2.reloc.type ≠ BFD_RELOC_NONE ∨ st.insn2.code ≠ 0)
            ∧ ¬ (compress ∧ st.insn_compressed = true ∧ st.size > 4) then
          (if compress ∧ st.insn2_compressed = false then 1 else 0) + 4
         else 0)
    ∧ o.bytes.length ≤ o.reserved := by
  cases hc : compress <;> cases hi : st.insn_compressed
    <;> by_cases h2 : (st.insn2.reloc.type ≠ BFD_RELOC_NONE ∨ st.insn2.code ≠ 0)
    <;> cases h2c : st.insn2_compressed
    <;> simp [emit, hc, hi, h2, h2c, number_bytes_length] at h ⊢
  all_goals
    split_ifs at h
  all_goals first
    | exact AsmResult.noConfusion h
    | (simp only [AsmResult.emitted.injEq] at h
       rw [← h]
       simp [number_bytes_length] at *
       first | done | omega | (split_ifs <;> omega))

/-- When the emission block ends without `abort`, the bytes stored fill the
bytes reserved exactly when, for a compact first word, the line is a long
compact form or has no second word, and otherwise when the size decided by
the switch is 4 without a second word or 8 with one. -/
theorem emit_complete_iff (K : OpcodeConsts) (compress : Bool) (st : AsmLocals) (o : Emitted)
    (h : emit K compress st = .emitted o) :
    o.bytes.length = o.reserved ↔
      (if compress ∧ st.insn_compressed = true then
         st.size > 4 ∨ ¬ (st.insn2.reloc.type ≠ BFD_RELOC_NONE ∨ st.insn2.code ≠ 0)
       else
         st.size = 4 + (if (st.insn2.reloc.type ≠ BFD_RELOC_NONE ∨ st.insn2.code ≠ 0)
                        then 4 else 0)) := by
  obtain ⟨hw, hle⟩ := emit_written_count K compress st o h
  have hr := emit_reserved K compress st o h
  rw [hw, hr]
  cases hc : compress <;> cases hi : st.insn_compressed
    <;> by_cases h2 : (st.insn2.reloc.type ≠ BFD_RELOC_NONE ∨ st.insn2.code ≠ 0)
    <;> cases h2c : st.insn2_compressed
    <;> simp [hc, hi, h2, h2c]
    <;> omega

/-- A native line of size 8 whose second word is empty: 8 bytes are reserved
and 4 are stored. -/
theorem native_short_write (K : OpcodeConsts) (st : AsmLocals) (o : Emitted)
    (h : emit K false st = .emitted o)
    (h2r : st.insn2.reloc.type = BFD_RELOC_NONE) (h2c : st.insn2.code = 0) :
    o.bytes.length = 4 ∧ o.reserved = st.size := by
  obtain ⟨hw, -⟩ := emit_written_count K false st o h
  have hr := emit_reserved K false st o h
  simp [h2r, h2c] at hw hr
  exact ⟨hw, hr⟩

/-- C38 (code evaluated at the failing input): under the sample constants,
with LMM on and compression off, `md_assemble` on `lcall #0` reserves 8 bytes
and stores only the 4 bytes of the `jmp` word: the operand word 0 leaves
`insn2` with code 0 and no relocation, so the block that stores the second
word is skipped. -/
theorem C38_second_word_not_written :
    md_assemble sample_consts sample_flags sample_cond sample_hw false false true
        [lcall_row] none "lcall"
        (case_lcall_native 64 false (some (symbol_exp "__LMM_CALL")) true
          (some (constant_exp 0))) [] true
      = .emitted lcall_zero_emitted
    ∧ lcall_zero_emitted.reserved = 8
    ∧ lcall_zero_emitted.bytes.length = 4 := by
  refine ⟨by rfl, rfl, rfl⟩

theorem skip_whitespace_suffix (s : List Char) : skip_whitespace s <:+ s := by
  induction s with
  | nil => exact List.suffix_refl _
  | cons c cs ih =>
    unfold skip_whitespace
    split_ifs
    · exact List.IsSuffix.trans ih (List.suffix_cons c cs)
    · exact List.suffix_refl _

theorem matchregname_suffix (str name r : List Char) (h : matchregname str name = some r) :
    r <:+ str := by
  unfold matchregname at h
  split_ifs at h
  cases hd : List.drop name.length str with
  | nil =>
    rw [hd] at h
    simp only [Option.some.injEq] at h
    rw [← h]
    exact List.nil_suffix
  | cons c cs =>
    rw [hd] at h
    simp only at h
    split_ifs at h
    simp only [Option.some.injEq] at h
    rw [← h, ← hd]
    exact List.drop_suffix _ _

theorem find_regname_suffix (str : List Char) (rows : List (String × Nat)) (r : List Char)
    (reg : Nat) (h : find_regname str rows = some (r, reg)) : r <:+ str := by
  induction rows with
  | nil => simp [find_regname] at h
  | cons row rows ih =>
    obtain ⟨name, regno⟩ := row
    unfold find_regname at h
    cases hm : matchregname str (String.toList name) with
    | none =>
      rw [hm] at h
      exact ih h
    | some newstr =>
      rw [hm] at h
      simp only [Option.some.injEq, Prod.mk.injEq] at h
      rw [← h.1]
      exact matchregname_suffix _ _ _ hm

theorem regspec_digits_suffix (cs : List Char) (reg : Nat) :
    (regspec_digits cs reg).1 <:+ cs := by
  induction cs generalizing reg with
  | nil => exact List.suffix_refl _
  | cons c cs ih =>
    unfold regspec_digits
    split_ifs
    · exact List.IsSuffix.trans (ih _) (List.suffix_cons c cs)
    · exact List.suffix_refl _

/-- The pointer returned by `parse_regspec` is `NULL` exactly in the "bad
register" branch (compression off and a name above `pc`); in every other
case it points at or after the start of the text. -/
theorem regspec_rest (compress give_error : Bool) (str : List Char) :
    ((parse_regspec compress give_error str).rest = none ↔
      compress = false ∧ ∃ newstr reg,
        find_regname (skip_whitespace str) lmm_regs = some (newstr, reg) ∧ reg > PC_REGNUM)
    ∧ ∀ r, (parse_regspec compress give_error str).rest = some r → r <:+ str := by
  have hs := skip_whitespace_suffix str
  cases hf : find_regname (skip_whitespace str) lmm_regs with
  | some p =>
    obtain ⟨newstr, reg⟩ := p
    have hn := find_regname_suffix _ _ _ _ hf
    by_cases hb : compress = false ∧ reg > PC_REGNUM
    · have e : (parse_regspec compress give_error str).rest = none := by
        simp only [parse_regspec, hf, hb, and_self, if_true]
      rw [e]
      refine ⟨⟨fun _ => ⟨hb.1, newstr, reg, rfl, hb.2⟩, fun _ => rfl⟩, ?_⟩
      intro r hr
      exact Option.noConfusion hr
    · have e : (parse_regspec compress give_error str).rest = some newstr := by
        simp only [parse_regspec, hf, hb, if_false]
      rw [e]
      refine ⟨⟨fun h => Option.noConfusion h, ?_⟩, ?_⟩
      · rintro ⟨hc, n2, r2, he, hr⟩
        simp only [Option.some.injEq, Prod.mk.injEq] at he
        exact absurd ⟨hc, he.2 ▸ hr⟩ hb
      · intro r hr
        simp only [Option.some.injEq] at hr
        rw [← hr]
        exact hn.trans hs
  | none =>
    have hne : ¬ (compress = false ∧ ∃ newstr reg,
        (none : Option (List Char × Nat)) = some (newstr, reg) ∧ reg > PC_REGNUM) := by
      rintro ⟨-, n2, r2, he, -⟩
      exact Option.noConfusion he
    have e : ∃ r, (parse_regspec compress give_error str).rest = some r ∧ r <:+ str := by
      cases hstr : skip_whitespace str with
      | nil =>
        rw [hstr] at hf
        refine ⟨[], ?_, List.nil_suffix⟩
        simp only [parse_regspec, hstr, hf]
      | cons c cs =>
        rw [hstr] at hs hf
        cases cs with
        | nil =>
          refine ⟨[c], ?_, hs⟩
          simp only [parse_regspec, hstr, hf, or_true, if_true]
        | cons d ds =>
          by_cases h1 : (c ≠ 'r' ∧ c ≠ 'R') ∨ d.isDigit = false
          · refine ⟨c :: d :: ds, ?_, hs⟩
            simp only [parse_regspec, hstr, hf, h1, if_true]
          · refine ⟨(regspec_digits (d :: ds) 0).1, ?_,
              ((regspec_digits_suffix (d :: ds) 0).trans (List.suffix_cons c _)).trans hs⟩
            simp only [parse_regspec, hstr, hf, h1, if_false]
            split_ifs <;> rfl
    obtain ⟨r0, hr0, hsuf⟩ := e
    rw [hr0]
    refine ⟨⟨fun h => Option.noConfusion h, fun h => absurd h hne⟩, ?_⟩
    intro r hr
    simp only [Option.some.injEq] at hr
    rw [← hr]
    exact hsuf

/-- C39 (code evaluated at the failing input): with compression off,
`parse_regspec` on the text `ccr` stores "bad register" and returns `NULL`;
the MVI case then passes that pointer to `parse_separator`. -/
theorem C39_regspec_returns_null :
    parse_regspec false true "ccr,#1".toList
      = { rest := none, regnum := none, error := some "bad register" }
    ∧ mvi_register_and_separator false "ccr,#1".toList = none := by
  refine ⟨by decide, by decide⟩

theorem store_saved_reg_ok (cache : propeller_frame_cache) (reg v : Nat) :
    (∃ c, store_saved_reg cache reg v = .ok c) ↔ reg < PROPELLER_NUM_REGS := by
  unfold store_saved_reg
  split_ifs with h
  · exact ⟨fun _ => h, fun _ => ⟨_, rfl⟩⟩
  · constructor
    · rintro ⟨c, hc⟩
      simp at hc
    · intro h2
      exact absurd h2 h

/-- The push-multiple loop stores into `saved_regs[reg]`, ...,
`saved_regs[reg + count - 1]`: it stays inside the array exactly when
`count` is 0 or `reg + count <= 19`. -/
theorem push_multiple_in_bounds (count reg : Nat) (cache : propeller_frame_cache) :
    (∃ c, push_multiple_loop count reg cache = .ok c) ↔ (count = 0 ∨ reg + count ≤ 19) := by
  induction count generalizing reg cache with
  | zero => exact ⟨fun _ => Or.inl rfl, fun _ => ⟨_, rfl⟩⟩
  | succ n ih =>
    unfold push_multiple_loop
    by_cases hr : reg < 19
    · have h17 : (17 : Nat) < 19 := by decide
      simp only [store_saved_reg, PROPELLER_NUM_REGS, PROPELLER_PC_REGNUM, hr, h17, if_true]
      split_ifs
      all_goals
        simp only []
        rw [ih]
        rw [false_or]
        constructor <;> intro h <;> omega
    · simp only [store_saved_reg, PROPELLER_NUM_REGS, PROPELLER_PC_REGNUM, hr, if_false]
      have h15 : ¬ reg = 15 := by omega
      simp only [h15, if_false]
      constructor
      · rintro ⟨c, hc⟩
        exact Except.noConfusion hc
      · intro h
        omega

/-- C40 (code evaluated at the failing inputs): on a prologue `sub sp, #4`
followed by a `wrlong` whose destination field is 0x1ff,
`propeller_analyze_prologue` stores into `cache->saved_regs[511]`; on a
push-multiple prologue whose `mov` has source 0x5f (first register 15,
count 5) it stores into `cache->saved_regs[19]`.  Both indices are outside
the array of `PROPELLER_NUM_REGS` = 19 elements. -/
theorem C40_saved_regs_out_of_bounds (call_ins fuel : Nat) :
    propeller_analyze_prologue call_ins wrlong_prologue_mem fuel 0x100 0x200 zero_cache
      = .error 511
    ∧ GET_DST 0x083ffe00 = 511
    ∧ propeller_analyze_prologue 0x5cfc0000 pushm_prologue_mem fuel 0x100 0x200 zero_cache
      = .error 19
    ∧ ¬ (511 < PROPELLER_NUM_REGS) ∧ ¬ (19 < PROPELLER_NUM_REGS) := by
  refine ⟨by rfl, by decide, by rfl, by decide, by decide⟩

theorem toValueT_natCast (W c : Nat) (hc : c < 2 ^ W) : toValueT W (c : Int) = c := by
  unfold toValueT
  have h2 : ((2 : Int) ^ W) = ((2 ^ W : Nat) : Int) := by push_cast; rfl
  rw [h2, ← Int.natCast_mod, Int.toNat_natCast, Nat.mod_eq_of_lt hc]

theorem and_bitnot_low (W n c : Nat) (hn : n ≤ W) (hc : c < 2 ^ n) :
    c &&& bitnot W (2 ^ n - 1) = 0 := by
  rw [bitnot_low W n hn, and_range c W n hn]
  have : c % 2 ^ W / 2 ^ n = 0 := by
    apply Nat.div_eq_of_lt
    exact Nat.lt_of_le_of_lt (Nat.mod_le _ _) hc
  rw [this, Nat.zero_mul]

theorem field_absorb (v s n : Nat) (hv : v < 2 ^ n) :
    (v <<< s) &&& (2 ^ (n + s) - 2 ^ s) = v <<< s := by
  rw [and_range _ (n + s) s (by omega), Nat.shiftLeft_eq]
  have h1 : v * 2 ^ s < 2 ^ (n + s) := by
    rw [Nat.pow_add]
    exact Nat.mul_lt_mul_of_pos_right hv (Nat.two_pow_pos s)
  rw [Nat.mod_eq_of_lt h1, Nat.mul_div_cancel _ (Nat.two_pow_pos s)]

theorem setind_constant_code (W : Nat) (hW : W = 32 ∨ W = 64) (pasm_default : Bool)
    (form : setind_form) (c : Nat) (type : bfd_reloc_code_real_type)
    (operand insn : propeller_code) (herr : operand.error = none)
    (hc : c ≤ (if form = .inc ∨ form = .dec then 255 else 511)) :
    (parse_setind_operand W pasm_default form (some (constant_exp c)) type operand insn).2.code
      = (if form = .inc ∨ form = .dec then
           insn.code ||| (1 <<< (if type = BFD_RELOC_PROPELLER_DST then 21 else 19))
         else insn.code)
        ||| ((if form = .dec then 512 - c else c)
              <<< (if type = BFD_RELOC_PROPELLER_DST then 9 else 0))
    ∧ (parse_setind_operand W pasm_default form (some (constant_exp c)) type operand
        insn).1.error = none := by
  have hW32 : (2 : Nat) ^ 32 ≤ 2 ^ W := Nat.pow_le_pow_right (by decide)
    (by rcases hW with rfl | rfl <;> omega)
  have h9 : 9 ≤ W := by rcases hW with rfl | rfl <;> omega
  have h8 : 8 ≤ W := by rcases hW with rfl | rfl <;> omega
  have e9 : (0x1ff : Nat) = 2 ^ 9 - 1 := by norm_num
  have e8 : (0xff : Nat) = 2 ^ 8 - 1 := by norm_num
  have f19 : shlW 32 1 19 = 1 <<< 19 := by decide
  have f21 : shlW 32 1 21 = 1 <<< 21 := by decide
  have hcW : c < 2 ^ W := by
    have : c ≤ 511 := by
      split_ifs at hc <;> omega
    omega
  have tv : toValueT W (c : Int) = c := toValueT_natCast W c hcW
  have hsub : c ≤ 255 → toValueT W (512 - (c : Int)) = 512 - c := by
    intro h
    have : (512 - (c : Int)) = ((512 - c : Nat) : Int) := by omega
    rw [this]
    exact toValueT_natCast W _ (by omega)
  have sh0 : ∀ v, v ≤ 512 → shlW 32 v 0 = v := fun v hv => by
    rw [shlW_eq v 0 (by omega)]
    rfl
  have sh9 : ∀ v, v ≤ 512 → shlW 32 v 9 = v <<< 9 := fun v hv => shlW_eq v 9 (by omega)
  cases form
  all_goals
    simp only [reduceCtorEq, or_self, or_false, false_or, or_true, if_true, if_false] at hc
  · -- plain
    have hr : c &&& bitnot W 0x1ff = 0 := by
      rw [e9]
      exact and_bitnot_low W 9 c h9 (by omega)
    by_cases ht : type = BFD_RELOC_PROPELLER_DST
    · simp [parse_setind_operand, constant_exp, herr, ht, tv, hr, sh9 c (by omega)]
    · simp [parse_setind_operand, constant_exp, herr, ht, tv, hr, sh0 c (by omega)]
  · -- hash
    have hr : c &&& bitnot W 0x1ff = 0 := by
      rw [e9]
      exact and_bitnot_low W 9 c h9 (by omega)
    by_cases ht : type = BFD_RELOC_PROPELLER_DST
    · simp [parse_setind_operand, constant_exp, herr, ht, tv, hr, sh9 c (by omega)]
    · simp [parse_setind_operand, constant_exp, herr, ht, tv, hr, sh0 c (by omega)]
  · -- inc
    have hr : c &&& bitnot W 0xff = 0 := by
      rw [e8]
      exact and_bitnot_low W 8 c h8 (by omega)
    by_cases ht : type = BFD_RELOC_PROPELLER_DST
    · simp [parse_setind_operand, constant_exp, herr, ht, tv, hr, sh9 c (by omega), f21]
    · simp [parse_setind_operand, constant_exp, herr, ht, tv, hr, f19, sh0 c (by omega)]
  · -- dec
    have hr : c &&& bitnot W 0xff = 0 := by
      rw [e8]
      exact and_bitnot_low W 8 c h8 (by omega)
    by_cases ht : type = BFD_RELOC_PROPELLER_DST
    · simp [parse_setind_operand, constant_exp, herr, ht, tv, hr, hsub hc,
        sh9 (512 - c) (by omega), f21]
    · simp [parse_setind_operand, constant_exp, herr, ht, tv, hr, hsub hc, f19,
        sh0 (512 - c) (by omega)]

theorem within_left (a m n : Nat) (h : a &&& m = a) : a &&& (m ||| n) = a := by
  apply Nat.eq_of_testBit_eq
  intro i
  have hi := congrArg (fun x => x.testBit i) h
  simp only [Nat.testBit_and] at hi
  rw [Nat.testBit_and, Nat.testBit_or]
  cases ha : a.testBit i
  · simp
  · rw [ha] at hi
    simp at hi
    simp [hi]

theorem within_right (a m n : Nat) (h : a &&& n = a) : a &&& (m ||| n) = a := by
  rw [Nat.or_comm]
  exact within_left a n m h

theorem or_within (a b m : Nat) (ha : a &&& m = a) (hb : b &&& m = b) :
    (a ||| b) &&& m = a ||| b := by
  rw [or_and_right, ha, hb]

/-- Apart from the form `--` with the constant 0, every constant that
`parse_setind_operand` accepts only adds bits of the operand's own field and
update flag: bits 0..8 and bit 19 for the source type, bits 9..17 and bit 21
for the destination type. -/
theorem setind_constant_within (W : Nat) (hW : W = 32 ∨ W = 64) (pasm_default : Bool)
    (form : setind_form) (c : Nat) (type : bfd_reloc_code_real_type)
    (operand insn : propeller_code) (herr : operand.error = none)
    (hc : c ≤ (if form = .inc ∨ form = .dec then 255 else 511))
    (hne : ¬ (form = .dec ∧ c = 0)) :
    ∃ added,
      (parse_setind_operand W pasm_default form (some (constant_exp c)) type operand
        insn).2.code = insn.code ||| added
      ∧ added &&& (if type = BFD_RELOC_PROPELLER_DST then 0x3fe00 ||| (1 <<< 21)
                   else 0x1ff ||| (1 <<< 19)) = added
      ∧ (parse_setind_operand W pasm_default form (some (constant_exp c)) type operand
          insn).1.error = none := by
  obtain ⟨hcode, herr2⟩ := setind_constant_code W hW pasm_default form c type operand insn
    herr hc
  have hv : (if form = .dec then 512 - c else c) < 2 ^ 9 := by
    have : c ≤ 511 := by
      split_ifs at hc <;> omega
    by_cases hd : form = .dec
    · have : c ≠ 0 := fun h0 => hne ⟨hd, h0⟩
      rw [if_pos hd]
      omega
    · rw [if_neg hd]
      omega
  have m0 : (0x1ff : Nat) = 2 ^ (9 + 0) - 2 ^ 0 := by norm_num
  have m9 : (0x3fe00 : Nat) = 2 ^ (9 + 9) - 2 ^ 9 := by norm_num
  refine ⟨(if form = .inc ∨ form = .dec then
      (1 <<< (if type = BFD_RELOC_PROPELLER_DST then 21 else 19)) else 0)
    ||| ((if form = .dec then 512 - c else c)
          <<< (if type = BFD_RELOC_PROPELLER_DST then 9 else 0)), ?_, ?_, herr2⟩
  · rw [hcode]
    split_ifs <;> simp [Nat.or_assoc]
  · by_cases ht : type = BFD_RELOC_PROPELLER_DST
    · simp only [ht, if_true]
      apply or_within
      · split_ifs
        · exact within_right _ _ _ (Nat.and_self _)
        · exact Nat.zero_and _
      · apply within_left
        rw [m9]
        exact field_absorb _ 9 9 hv
    · simp only [ht, if_false]
      apply or_within
      · split_ifs
        · exact within_right _ _ _ (Nat.and_self _)
        · exact Nat.zero_and _
      · apply within_left
        rw [m0]
        exact field_absorb _ 0 9 hv

/-- C34 (code evaluated at the failing input): for the operand `--0`,
`parse_setind_operand` stores 512 - 0 = 512 shifted to the field.  For the
source type the word receives bit 19 and bit 9, the lowest bit of the
destination field; for the destination type it receives bit 21 and bit 18,
which lies outside bits 9..17. -/
theorem C34_setind_dec_zero :
    (parse_setind_operand 64 false .dec (some (constant_exp 0)) BFD_RELOC_PROPELLER_SRC
        empty_code empty_code).2.code = (1 <<< 19) ||| (1 <<< 9)
    ∧ (parse_setind_operand 64 false .dec (some (constant_exp 0)) BFD_RELOC_PROPELLER_SRC
        empty_code empty_code).1.error = none
    ∧ (parse_setind_operand 64 false .dec (some (constant_exp 0)) BFD_RELOC_PROPELLER_DST
        empty_code empty_code).2.code = (1 <<< 21) ||| (1 <<< 18)
    ∧ (parse_setind_operand 64 false .dec (some (constant_exp 0)) BFD_RELOC_PROPELLER_DST
        empty_code empty_code).1.error = none
    ∧ ((1 <<< 19) ||| (1 <<< 9)) &&& bitnot 32 (0x1ff ||| (1 <<< 19)) ≠ 0
    ∧ ((1 <<< 21) ||| (1 <<< 18)) &&& bitnot 32 (0x3fe00 ||| (1 <<< 21)) ≠ 0 := by
  refine ⟨by decide, by decide, by decide, by decide, by decide, by decide⟩

theorem reps_extract (code m : Nat) (hm : m < 2 ^ 14)
    (h9 : (code >>> 9) &&& 0x1ff = 0) (h25 : (code >>> 25) &&& 1 = 0) :
    ((((code &&& bitnot 32 0x003c0000) ||| ((m &&& 0x1fff) <<< 9)
          ||| ((m &&& 0x2000) <<< 12)) >>> 9) &&& 0x1fff)
      ||| ((((((code &&& bitnot 32 0x003c0000) ||| ((m &&& 0x1fff) <<< 9)
          ||| ((m &&& 0x2000) <<< 12)) >>> 25) &&& 1) <<< 13)) = m := by
  have e13 : (0x1fff : Nat) = 2 ^ 13 - 1 := by norm_num
  have e9 : (0x1ff : Nat) = 2 ^ 9 - 1 := by norm_num
  have e1 : (1 : Nat) = 2 ^ 1 - 1 := by norm_num
  have ep : (0x2000 : Nat) = 2 ^ 13 := by norm_num
  have em : (0x003c0000 : Nat) = 2 ^ 22 - 2 ^ 18 := by norm_num
  have c9 : ∀ j, j < 9 → code.testBit (9 + j) = false := by
    intro j hj
    have := congrArg (fun x => x.testBit j) h9
    simp only [Nat.testBit_and, Nat.testBit_shiftRight, Nat.zero_testBit, e9,
      Nat.testBit_two_pow_sub_one] at this
    simpa [hj] using this
  have c25 : code.testBit 25 = false := by
    have := congrArg (fun x => x.testBit 0) h25
    simp only [Nat.testBit_and, Nat.testBit_shiftRight, Nat.zero_testBit] at this
    simpa using this
  have base : ∀ k, (9 ≤ k ∧ k < 22) ∨ k = 25 →
      (code &&& bitnot 32 0x003c0000).testBit k = false := by
    intro k hk
    rw [Nat.testBit_and, bitnot_testBit, em, testBit_range 22 18 k (by norm_num)]
    rcases hk with ⟨h1, h2⟩ | rfl
    · by_cases h18 : k < 18
      · have := c9 (k - 9) (by omega)
        have e : 9 + (k - 9) = k := by omega
        rw [e] at this
        simp [this]
      · have a : k < 32 := by omega
        have b : 18 ≤ k ∧ k < 22 := by omega
        simp [a, b]
    · simp [c25]
  have wbit : ∀ k, ((code &&& bitnot 32 0x003c0000) ||| ((m &&& 0x1fff) <<< 9)
      ||| ((m &&& 0x2000) <<< 12)).testBit k
      = ((code &&& bitnot 32 0x003c0000).testBit k
          || (decide (k ≥ 9) && (m.testBit (k - 9) && decide (k - 9 < 13)))
          || (decide (k ≥ 12) && (m.testBit (k - 12) && decide (13 = k - 12)))) := by
    intro k
    rw [Nat.testBit_or, Nat.testBit_or, Nat.testBit_shiftLeft, Nat.testBit_shiftLeft,
      Nat.testBit_and m 0x1fff, Nat.testBit_and m 0x2000, e13, Nat.testBit_two_pow_sub_one, ep,
      Nat.testBit_two_pow]
  apply Nat.eq_of_testBit_eq
  intro i
  rw [Nat.testBit_or, Nat.testBit_and, Nat.testBit_shiftRight, Nat.testBit_shiftLeft,
    Nat.testBit_and, Nat.testBit_shiftRight, wbit, wbit, e13, Nat.testBit_two_pow_sub_one]
  by_cases h13 : i < 13
  · rw [base (9 + i) (Or.inl (by omega))]
    have a1 : 9 + i ≥ 9 := by omega
    have a2 : 9 + i - 9 = i := by omega
    have a3 : ¬ (i ≥ 13) := by omega
    have a4 : ¬ (13 = 9 + i - 12) := by omega
    simp [a1, a2, a3, a4, h13]
  · by_cases h : i = 13
    · subst h
      rw [base 25 (Or.inr rfl)]
      simp
    · have hmi : m.testBit i = false := testBit_false_of_lt_of_le m 14 i hm (by omega)
      have h1 : (1 : Nat).testBit (i - 13) = false :=
        testBit_false_of_lt_of_le 1 1 (i - 13) (by norm_num) (by omega)
      rw [h1, hmi]
      simp [h13]

theorem reps_count_accepted (W : Nat) (hW : W = 32 ∨ W = 64) (m : Nat) (hm : m < 16384)
    (op1 insn : propeller_code) (herr : op1.error = none) :
    (parse_reps_count W true (some (constant_exp ((m : Int) + 1))) op1 insn).1.error = none
    ∧ (parse_reps_count W true (some (constant_exp ((m : Int) + 1))) op1 insn).2.1.code
        = (insn.code &&& bitnot 32 0x003c0000) ||| ((m &&& 0x1fff) <<< 9)
            ||| ((m &&& 0x2000) <<< 12)
    ∧ (parse_reps_count W true (some (constant_exp ((m : Int) + 1))) op1 insn).2.2 = true := by
  have hmW : m < 2 ^ W := by
    have : (2 : Nat) ^ 32 ≤ 2 ^ W := Nat.pow_le_pow_right (by decide)
      (by rcases hW with rfl | rfl <;> omega)
    omega
  have tv : toValueT W (m : Int) = m := toValueT_natCast W m hmW
  have a1 : m &&& 0x1fff ≤ 0x1fff := Nat.and_le_right
  have a2 : m &&& 0x2000 ≤ 0x2000 := Nat.and_le_right
  have s1 : shlW 32 (m &&& 0x1fff) 9 = (m &&& 0x1fff) <<< 9 := shlW_eq _ 9 (by omega)
  have s2 : shlW 32 (m &&& 0x2000) 12 = (m &&& 0x2000) <<< 12 := shlW_eq _ 12 (by omega)
  have hn : ¬ ((m : Int) < 0 ∨ (m : Int) ≥ 1 <<< 14) := by
    have : (((1 <<< 14 : Nat)) : Int) = 16384 := by decide
    rw [this]
    omega
  simp only [parse_reps_count, constant_exp, herr, add_sub_cancel_right, hn, tv, s1, s2,
    ne_eq, not_true_eq_false, if_false, Bool.true_eq_false]
  simp

theorem reps_count_rejected (W : Nat) (n : Int) (hn : n < 1 ∨ 16384 < n)
    (op1 insn : propeller_code) (herr : op1.error = none) :
    parse_reps_count W true (some (constant_exp n)) op1 insn
      = ({ op1 with
            error := some "14-bit value out of range",
            reloc := { op1.reloc with exp := constant_exp (n - 1), pc_rel := false } },
          { insn with code := insn.code &&& bitnot 32 0x003c0000 }, false) := by
  have e : (((1 <<< 14 : Nat)) : Int) = 16384 := by decide
  simp only [parse_reps_count, constant_exp, herr, ne_eq, not_true_eq_false, if_false,
    Bool.true_eq_false]
  split_ifs with hc
  · rfl
  · exfalso
    apply hc
    rw [e]
    omega

theorem reps_cond_ignored (W : Nat) (x : Nat) (hx : x &&& bitnot 32 0x003c0000 = 0)
    (hash : Bool) (parsed : Option expressionS) (op1 insn : propeller_code) :
    parse_reps_count W hash parsed op1 { insn with code := insn.code ||| x }
      = parse_reps_count W hash parsed op1 insn := by
  have e : (insn.code ||| x) &&& bitnot 32 0x003c0000 = insn.code &&& bitnot 32 0x003c0000 := by
    rw [Nat.and_distrib_right, hx, Nat.or_zero]
  simp only [parse_reps_count, e]

theorem parse_reps_count_first (W : Nat) (hash : Bool) (parsed : Option expressionS)
    (comma : Bool) (form : reps_range_form)
    (src : propeller_code → propeller_code → propeller_code × propeller_code)
    (parsed2 : Option expressionS) (op1 op2 insn : propeller_code) :
    (parse_reps W hash parsed comma form src parsed2 op1 op2 insn).1
      = (parse_reps_count W hash parsed op1 insn).1 := by
  unfold parse_reps
  simp only []
  split_ifs
  · rfl
  · rfl
  · cases form <;> rfl

/-- C35: `parse_reps` drops whatever stood in bits 18..21 of the word, with
no message about a condition: the result is the same when any bits of that
field are added to the incoming word.  For a constant repeat count `n`
(after `#`, with no earlier error) the count is accepted exactly when
`1 ≤ n ≤ 16384`; otherwise the operand carries "14-bit value out of range"
and the word is the incoming word with bits 18..21 cleared.  For an accepted
`n` the word receives the low 13 bits of `n - 1` at bits 9..21 and bit 13 of
`n - 1` at bit 25, so that when bits 9..17 and bit 25 of the incoming word
were zero the count field read back from the word is `n - 1`. -/
theorem C35_parse_reps (W : Nat) (hW : W = 32 ∨ W = 64) (n : Int)
    (op1 insn : propeller_code) (herr : op1.error = none) :
    (∀ (x : Nat) (hash : Bool) (parsed : Option expressionS) (comma : Bool)
        (form : reps_range_form)
        (src : propeller_code → propeller_code → propeller_code × propeller_code)
        (parsed2 : Option expressionS) (op2 : propeller_code),
        x &&& bitnot 32 0x003c0000 = 0 →
        parse_reps W hash parsed comma form src parsed2 op1 op2
            { insn with code := insn.code ||| x }
          = parse_reps W hash parsed comma form src parsed2 op1 op2 insn)
    ∧ (∀ (comma : Bool) (form : reps_range_form)
        (src : propeller_code → propeller_code → propeller_code × propeller_code)
        (parsed2 : Option expressionS) (op2 : propeller_code),
        ((parse_reps W true (some (constant_exp n)) comma form src parsed2 op1 op2 insn).1.error
            = none ↔ 1 ≤ n ∧ n ≤ 16384)
        ∧ (¬ (1 ≤ n ∧ n ≤ 16384) →
            parse_reps W true (some (constant_exp n)) comma form src parsed2 op1 op2 insn
              = ({ op1 with
                    error := some "14-bit value out of range",
                    reloc := { op1.reloc with exp := constant_exp (n - 1), pc_rel := false } },
                  op2, { insn with code := insn.code &&& bitnot 32 0x003c0000 })))
    ∧ (1 ≤ n → n ≤ 16384 →
        (parse_reps_count W true (some (constant_exp n)) op1 insn).2.2 = true
        ∧ (parse_reps_count W true (some (constant_exp n)) op1 insn).2.1.code
            = (insn.code &&& bitnot 32 0x003c0000) ||| (((n - 1).toNat &&& 0x1fff) <<< 9)
                ||| (((n - 1).toNat &&& 0x2000) <<< 12)
        ∧ ((insn.code >>> 9) &&& 0x1ff = 0 → (insn.code >>> 25) &&& 1 = 0 →
            Int.ofNat
              ((((parse_reps_count W true (some (constant_exp n)) op1 insn).2.1.code >>> 9)
                  &&& 0x1fff)
                ||| ((((parse_reps_count W true (some (constant_exp n)) op1 insn).2.1.code
                  >>> 25) &&& 1) <<< 13)) = n - 1)) := by
  refine ⟨?_, ?_, ?_⟩
  · intro x hash parsed comma form src parsed2 op2 hx
    unfold parse_reps
    rw [reps_cond_ignored W x hx]
  · intro comma form src parsed2 op2
    rw [parse_reps_count_first]
    by_cases hn : 1 ≤ n ∧ n ≤ 16384
    · obtain ⟨m, rfl⟩ : ∃ m : Nat, n = (m : Int) + 1 := ⟨(n - 1).toNat, by omega⟩
      have := reps_count_accepted W hW m (by omega) op1 insn herr
      exact ⟨⟨fun _ => hn, fun _ => this.1⟩, fun h => absurd hn h⟩
    · have hr := reps_count_rejected W n (by omega) op1 insn herr
      refine ⟨⟨fun h => ?_, fun h => absurd h hn⟩, fun _ => ?_⟩
      · rw [hr] at h
        exact absurd h (by simp)
      · unfold parse_reps
        rw [hr]
        rfl
  · intro h1 h2
    obtain ⟨m, rfl⟩ : ∃ m : Nat, n = (m : Int) + 1 := ⟨(n - 1).toNat, by omega⟩
    have hm : m < 16384 := by omega
    have := reps_count_accepted W hW m hm op1 insn herr
    have em : ((m : Int) + 1 - 1).toNat = m := by simp
    rw [em]
    refine ⟨this.2.2, this.2.1, fun h9 h25 => ?_⟩
    rw [this.2.1, reps_extract insn.code m (by omega) h9 h25]
    simp

theorem C35_parse_reps_witness :
    ((64 : Nat) = 32 ∨ (64 : Nat) = 64)
    ∧ empty_code.error = none
    ∧ (parse_reps_count 64 true (some (constant_exp 16384)) empty_code
          { empty_code with code := 0xC03C0000 }).2.2 = true
    ∧ Int.ofNat
        ((((parse_reps_count 64 true (some (constant_exp 16384)) empty_code
              { empty_code with code := 0xC03C0000 }).2.1.code >>> 9) &&& 0x1fff)
          ||| ((((parse_reps_count 64 true (some (constant_exp 16384)) empty_code
              { empty_code with code := 0xC03C0000 }).2.1.code >>> 25) &&& 1) <<< 13))
        = 16384 - 1 :=
  ⟨Or.inr rfl, rfl,
    ((C35_parse_reps 64 (Or.inr rfl) 16384 empty_code { empty_code with code := 0xC03C0000 }
      rfl).2.2 (by decide) (by decide)).1,
    ((C35_parse_reps 64 (Or.inr rfl) 16384 empty_code { empty_code with code := 0xC03C0000 }
      rfl).2.2 (by decide) (by decide)).2.2 (by decide) (by decide)⟩

theorem globals_frame (K : OpcodeConsts) (F : FlagConsts) (C : CondConsts)
    (H : HardwareConsts) (EF_PROPELLER_COMPRESS : Nat) (g : Globals)
    (table : List propeller_opcode) (start : line_start)
    (format_case : Globals → propeller_opcode → AsmLocals →
      Except String (propeller_opcode × AsmLocals) × Bool)
    (effs : List propeller_effect) (rest_blank : Bool) :
    ∃ f c e,
      (md_assemble_globals K F C H EF_PROPELLER_COMPRESS g table start format_case effs
          rest_blank).2
        = { g with cc_flag := f, cc_cleared := c, elf_flags := e } := by
  unfold md_assemble_globals
  cases start with
  | ignored => exact ⟨g.cc_flag, g.cc_cleared, g.elf_flags, rfl⟩
  | no_instruction => exact ⟨0, 0, g.elf_flags, rfl⟩
  | no_instruction_after_condition => exact ⟨0, 0, g.elf_flags, rfl⟩
  | mnemonic cond str =>
    simp only []
    split
    · split_ifs <;> exact ⟨_, _, _, rfl⟩
    · split
      · split_ifs <;> exact ⟨_, _, _, rfl⟩
      · split
        · split_ifs <;> exact ⟨_, _, _, rfl⟩
        · split
          · split_ifs <;> exact ⟨_, _, _, rfl⟩
          · split_ifs <;> exact ⟨_, _, _, rfl⟩

theorem globals_result (K : OpcodeConsts) (F : FlagConsts) (C : CondConsts)
    (H : HardwareConsts) (EF_PROPELLER_COMPRESS : Nat) (g : Globals)
    (table : List propeller_opcode) (cond : Option propeller_condition) (str : String)
    (format_case : Globals → propeller_opcode → AsmLocals →
      Except String (propeller_opcode × AsmLocals) × Bool)
    (effs : List propeller_effect) (rest_blank : Bool) :
    (md_assemble_globals K F C H EF_PROPELLER_COMPRESS g table (.mnemonic cond str)
        format_case effs rest_blank).1
      = some (md_assemble K F C H (decide (g.compress ≠ 0)) (decide (g.prop2 ≠ 0))
          (decide (g.lmm ≠ 0)) table cond str
          (fun op st =>
            (format_case
              { g with cc_flag := if cond.isSome then 1 else 0, cc_cleared := 0 } op st).1)
          effs rest_blank) := by
  unfold md_assemble_globals md_assemble
  cases cond with
  | none =>
    simp only [Option.isSome_none, Bool.false_eq_true, if_false]
    split
    · rfl
    · split
      · rfl
      · split
        · split_ifs <;> rfl
        · split_ifs
          · split <;> simp_all
          · split <;> simp_all
  | some c =>
    simp only [Option.isSome_some, if_true]
    split
    · rfl
    · split
      · rfl
      · split
        · split_ifs <;> rfl
        · split_ifs
          · split <;> simp_all
          · split <;> simp_all

/-- C31: with the eight static variables of lines 81 to 88 passed explicitly,
`md_assemble` returns `pasm_default`, `lmm`, `compress`, `prop2` and
`compress_default` as it received them, on every path: input ignored, a
message followed by `return`, `abort ()`, or an emitted line.  The state after
the call differs from the state before it in `cc_flag`, `cc_cleared` and
`elf_flags` at most, and the outcome for a line with a mnemonic is the one of
`md_assemble` with the mode read from the state before the call. -/
theorem C31_mode_state_unchanged (K : OpcodeConsts) (F : FlagConsts) (C : CondConsts)
    (H : HardwareConsts) (EF_PROPELLER_COMPRESS : Nat) (g : Globals)
    (table : List propeller_opcode) (start : line_start)
    (format_case : Globals → propeller_opcode → AsmLocals →
      Except String (propeller_opcode × AsmLocals) × Bool)
    (effs : List propeller_effect) (rest_blank : Bool) :
    (md_assemble_globals K F C H EF_PROPELLER_COMPRESS g table start format_case effs
        rest_blank).2.compress = g.compress
    ∧ (md_assemble_globals K F C H EF_PROPELLER_COMPRESS g table start format_case effs
        rest_blank).2.compress_default = g.compress_default
    ∧ (md_assemble_globals K F C H EF_PROPELLER_COMPRESS g table start format_case effs
        rest_blank).2.lmm = g.lmm
    ∧ (md_assemble_globals K F C H EF_PROPELLER_COMPRESS g table start format_case effs
        rest_blank).2.prop2 = g.prop2
    ∧ (md_assemble_globals K F C H EF_PROPELLER_COMPRESS g table start format_case effs
        rest_blank).2.pasm_default = g.pasm_default
    ∧ (∃ f c e,
        (md_assemble_globals K F C H EF_PROPELLER_COMPRESS g table start format_case effs
            rest_blank).2
          = { g with cc_flag := f, cc_cleared := c, elf_flags := e })
    ∧ (∀ cond str, start = .mnemonic cond str →
        (md_assemble_globals K F C H EF_PROPELLER_COMPRESS g table start format_case effs
            rest_blank).1
          = some (md_assemble K F C H (decide (g.compress ≠ 0)) (decide (g.prop2 ≠ 0))
              (decide (g.lmm ≠ 0)) table cond str
              (fun op st =>
                (format_case
                  { g with cc_flag := if cond.isSome then 1 else 0, cc_cleared := 0 }
                  op st).1)
              effs rest_blank)) := by
  obtain ⟨f, c, e, h⟩ := globals_frame K F C H EF_PROPELLER_COMPRESS g table start format_case
    effs rest_blank
  refine ⟨?_, ?_, ?_, ?_, ?_, ⟨f, c, e, h⟩, ?_⟩
  · rw [h]
  · rw [h]
  · rw [h]
  · rw [h]
  · rw [h]
  · intro cond str hs
    subst hs
    exact globals_result K F C H EF_PROPELLER_COMPRESS g table cond str format_case effs
      rest_blank

theorem or_keeps_bit (a b i : Nat) (h : a.testBit i = true) : (a ||| b).testBit i = true := by
  rw [Nat.testBit_or, h, Bool.true_or]

/-- For `inda` and `indb`, `parse_ptr` only ORs into the instruction word: the
word it leaves is the incoming word, or the incoming word with the update code
at bit 18 and the register number. -/
theorem parse_ptr_indx_code (prefix_op suffix_op : update_op) (name : pointer_name)
    (index : Option (Option expressionS × Bool)) (format : operand_format)
    (operand insn : propeller_code) (hname : name = .inda ∨ name = .indb) :
    (parse_ptr prefix_op suffix_op name index format operand insn).2.code = insn.code
    ∨ ∃ sel, (parse_ptr prefix_op suffix_op name index format operand insn).2.code
        = insn.code ||| sel ||| (if name = .inda then 0x1f6 else 0x1f7) := by
  rcases hname with rfl | rfl <;> cases prefix_op <;> cases suffix_op <;>
    first
      | (left; rfl)
      | (right; exact ⟨_, rfl⟩)
      | (right; refine ⟨0, ?_⟩; simp [parse_ptr])

theorem parse_ptr_indx_keeps_bits (prefix_op suffix_op : update_op) (name : pointer_name)
    (index : Option (Option expressionS × Bool)) (format : operand_format)
    (operand insn : propeller_code) (hname : name = .inda ∨ name = .indb) (i : Nat)
    (h : insn.code.testBit i = true) :
    (parse_ptr prefix_op suffix_op name index format operand insn).2.code.testBit i = true := by
  rcases parse_ptr_indx_code prefix_op suffix_op name index format operand insn hname
    with e | ⟨sel, e⟩
  · rw [e]; exact h
  · rw [e]; exact or_keeps_bit _ _ _ (or_keeps_bit _ _ _ h)

theorem selector_after_clear (w s r sh : Nat) (hs : s < 4) (hsh : sh = 18 ∨ sh = 20)
    (hr : r < 2 ^ 18) :
    ((((w &&& bitnot 32 (0xf <<< 18)) ||| (s <<< sh)) ||| r) >>> sh) &&& 3 = s := by
  apply Nat.eq_of_testBit_eq
  intro i
  have e3 : (3 : Nat) = 2 ^ 2 - 1 := by norm_num
  have hr2 : r.testBit (sh + i) = false :=
    testBit_false_of_lt_of_le r 18 (sh + i) hr (by omega)
  have hsub : sh + i - sh = i := by omega
  rw [Nat.testBit_and, Nat.testBit_shiftRight, Nat.testBit_or, Nat.testBit_or,
    Nat.testBit_and, bitnot_testBit, Nat.testBit_shiftLeft s, hr2, Bool.or_false, e3,
    Nat.testBit_two_pow_sub_one, hsub]
  by_cases hi : i < 2
  · have hm : (0xf <<< 18 : Nat).testBit (sh + i) = true := by
      have : i = 0 ∨ i = 1 := by omega
      rcases hsh with rfl | rfl <;> rcases this with rfl | rfl <;> decide
    have hlt : sh + i < 32 := by omega
    rw [hm]
    simp [hlt, hi]
  · have : s.testBit i = false := testBit_false_of_lt_of_le s 2 i (by simpa using hs) (by omega)
    simp [hi, this]

/-- For an accepted `inda`/`indb` operand that is the first of its line
(`cc_cleared` is 0) `parse_indx` leaves the update code in the selector of the
operand: bits 18..19 for the source type, bits 20..21 otherwise. -/
theorem parse_indx_selector (C : CondConsts) (hM : C.CC_MASK = 0xf <<< 18)
    (prefix_inc : Bool) (name : pointer_name) (suffix_op : update_op)
    (type : bfd_reloc_code_real_type) (operand insn : propeller_code)
    (hname : name = .inda ∨ name = .indb)
    (hboth : ¬ (prefix_inc = true ∧ suffix_op ≠ .no_update)) :
    ∃ operand2 insn2,
      parse_indx C false false prefix_inc name suffix_op type operand insn
        = some (operand2, insn2, true)
      ∧ operand2.error = operand.error
      ∧ (insn2.code >>> (if type = BFD_RELOC_PROPELLER_SRC then 18 else 20)) &&& 3
          = spec_update_code prefix_inc suffix_op := by
  have hn : ¬ (name ≠ .inda ∧ name ≠ .indb) := by
    rcases hname with rfl | rfl <;> simp
  have hreg : ∀ (fs : Nat), fs = 0 ∨ fs = 9 →
      shlW 32 (if name = .inda then 0x1f6 else 0x1f7) fs < 2 ^ 18 := by
    intro fs hfs
    rcases hfs with rfl | rfl <;> split_ifs <;> decide
  have hfs : (if type = BFD_RELOC_PROPELLER_SRC then 0 else 9) = 0
      ∨ (if type = BFD_RELOC_PROPELLER_SRC then 0 else 9) = 9 := by
    split_ifs
    · exact Or.inl rfl
    · exact Or.inr rfl
  have hsh : (if type = BFD_RELOC_PROPELLER_SRC then 18 else 20) = 18
      ∨ (if type = BFD_RELOC_PROPELLER_SRC then 18 else 20) = 20 := by
    split_ifs
    · exact Or.inl rfl
    · exact Or.inr rfl
  have key : ∀ s, s < 4 →
      ((((insn.code &&& bitnot 32 C.CC_MASK)
          ||| shlW 32 s (if type = BFD_RELOC_PROPELLER_SRC then 18 else 20))
          ||| shlW 32 (if name = .inda then 0x1f6 else 0x1f7)
                (if type = BFD_RELOC_PROPELLER_SRC then 0 else 9))
        >>> (if type = BFD_RELOC_PROPELLER_SRC then 18 else 20)) &&& 3 = s := by
    intro s hs
    have e : shlW 32 s (if type = BFD_RELOC_PROPELLER_SRC then 18 else 20)
        = s <<< (if type = BFD_RELOC_PROPELLER_SRC then 18 else 20) := by
      apply shlW_eq
      rcases hsh with h | h <;> rw [h] <;> omega
    rw [e, hM]
    exact selector_after_clear _ s _ _ hs hsh (hreg _ hfs)
  have key0 :
      (((insn.code &&& bitnot 32 C.CC_MASK)
          ||| shlW 32 (if name = .inda then 0x1f6 else 0x1f7)
                (if type = BFD_RELOC_PROPELLER_SRC then 0 else 9))
        >>> (if type = BFD_RELOC_PROPELLER_SRC then 18 else 20)) &&& 3 = 0 := by
    have := key 0 (by decide)
    have z : shlW 32 0 (if type = BFD_RELOC_PROPELLER_SRC then 18 else 20) = 0 := by
      simp [shlW]
    rw [z, Nat.or_zero] at this
    exact this
  cases prefix_inc with
  | true =>
    have hs : suffix_op = .no_update := by
      by_contra h
      exact hboth ⟨rfl, h⟩
    subst hs
    simp only [parse_indx, hn, if_false, Bool.false_eq_true, ne_eq, not_true_eq_false,
      and_false, if_true]
    exact ⟨_, _, rfl, rfl, key 3 (by decide)⟩
  | false =>
    cases suffix_op with
    | no_update =>
      simp only [parse_indx, hn, if_false, Bool.false_eq_true, ne_eq, not_true_eq_false,
        and_false, false_and]
      exact ⟨_, _, rfl, rfl, key0⟩
    | increment =>
      simp only [parse_indx, hn, if_false, Bool.false_eq_true, ne_eq, false_and]
      exact ⟨_, _, rfl, rfl, by simpa [spec_update_code] using key 1 (by decide)⟩
    | decrement =>
      simp only [parse_indx, hn, if_false, Bool.false_eq_true, ne_eq, false_and]
      exact ⟨_, _, rfl, rfl, by simpa [spec_update_code] using key 2 (by decide)⟩

/-- C32 (code evaluated at the failing input): under the sample constants, on
the second chip with compression off, the line `rdlong 1, inda++` of the
pointer-source shape is accepted and emitted as the word 0x08BC03F6.  The
second operand goes through `parse_ptr`, which ORs the update code 1 at bit 18
without clearing the condition field, so bits 18..19 of the word hold 3 and
not 1; the same happens for `inda--`, whose update code is 2. -/
theorem C32_pointer_source_keeps_always :
    md_assemble sample_consts sample_flags sample_cond sample_hw false true false
        [rdlong_row] none "rdlong"
        (case_ptrs_ops_ptr 64 false false none ['1'] (some (constant_exp 1))
          .no_update .increment .inda none) [] true
      = .emitted { reserved := 4, bytes := number_bytes 0x08BC03F6 4, fixes := [],
                   compress_flag := false }
    ∧ (0x08BC03F6 >>> 18) &&& 3 = 3
    ∧ spec_update_code false .increment = 1
    ∧ (parse_ptr .no_update .increment .inda none PROPELLER_OPERAND_PTRS_OPS empty_code
        { empty_code with code := 0x083C0200 })
        = ({ empty_code with
              reloc := { empty_code.reloc with
                exp := { empty_code.reloc.exp with X_op := operatorT.O_register,
                                                   X_add_number := 0x1f6 } } },
           { empty_code with code := 0x083C0200 ||| (1 <<< 18) ||| 0x1f6 })
    ∧ ((parse_ptr .no_update .decrement .inda none PROPELLER_OPERAND_PTRS_OPS empty_code
        { empty_code with code := 0x083C0200 }).2.code >>> 18) &&& 3 = 3
    ∧ spec_update_code false .decrement = 2 := by
  refine ⟨by rfl, by decide, rfl, by rfl, by decide, rfl⟩

/-- With `cc_cleared` set, `parse_indx` clears no bit of the instruction word
and leaves `cc_cleared` set. -/
theorem parse_indx_cleared_keeps_bits (C : CondConsts) (cc_flag prefix_inc : Bool)
    (name : pointer_name) (suffix_op : update_op) (type : bfd_reloc_code_real_type)
    (operand insn : propeller_code) (r : propeller_code × propeller_code × Bool)
    (h : parse_indx C cc_flag true prefix_inc name suffix_op type operand insn = some r) :
    r.2.2 = true ∧ ∀ i, insn.code.testBit i = true → r.2.1.code.testBit i = true := by
  unfold parse_indx at h
  simp only [if_true] at h
  split_ifs at h
  all_goals
    simp only [Option.some.injEq, reduceCtorEq] at h
  all_goals
    subst h
    refine ⟨rfl, fun i hi => ?_⟩
    first
      | exact hi
      | exact or_keeps_bit _ _ _ hi
      | exact or_keeps_bit _ _ _ (or_keeps_bit _ _ _ hi)

/-- With `cc_cleared` clear, an accepted `inda`/`indb` operand leaves the word
with the condition field cleared, then the update code and the register
number ORed into the fields of the operand, and sets `cc_cleared`. -/
theorem parse_indx_first_clears (C : CondConsts) (cc_flag prefix_inc : Bool)
    (name : pointer_name) (suffix_op : update_op) (type : bfd_reloc_code_real_type)
    (operand insn : propeller_code) (r : propeller_code × propeller_code × Bool)
    (h : parse_indx C cc_flag false prefix_inc name suffix_op type operand insn = some r)
    (hacc : r.1.error = none) :
    r.2.2 = true
    ∧ r.2.1.code = (insn.code &&& bitnot 32 C.CC_MASK)
        ||| shlW 32 (spec_update_code prefix_inc suffix_op)
              (if type = BFD_RELOC_PROPELLER_SRC then 18 else 20)
        ||| shlW 32 (if name = .inda then 0x1f6 else 0x1f7)
              (if type = BFD_RELOC_PROPELLER_SRC then 0 else 9) := by
  have z : ∀ k, shlW 32 0 k = 0 := by
    intro k
    simp [shlW]
  unfold parse_indx at h
  simp only [Bool.false_eq_true, if_false] at h
  split_ifs at h
  all_goals
    simp only [Option.some.injEq, reduceCtorEq] at h
  all_goals
    subst h
    first
      | (simp at hacc; done)
      | skip
  all_goals
    refine ⟨rfl, ?_⟩
    cases suffix_op <;> simp_all [spec_update_code]

theorem globals_reset (K : OpcodeConsts) (F : FlagConsts) (C : CondConsts)
    (H : HardwareConsts) (EF_PROPELLER_COMPRESS : Nat) (g : Globals)
    (table : List propeller_opcode) (start : line_start)
    (format_case : Globals → propeller_opcode → AsmLocals →
      Except String (propeller_opcode × AsmLocals) × Bool)
    (effs : List propeller_effect) (rest_blank : Bool) (hs : start ≠ .ignored) :
    md_assemble_globals K F C H EF_PROPELLER_COMPRESS g table start format_case effs rest_blank
      = md_assemble_globals K F C H EF_PROPELLER_COMPRESS
          { g with cc_flag := 0, cc_cleared := 0 } table start
          (fun g2 => format_case { g2 with cc_cleared := 0 }) effs rest_blank := by
  cases start with
  | ignored => exact absurd rfl hs
  | no_instruction => rfl
  | no_instruction_after_condition => rfl
  | mnemonic cond str =>
    cases cond <;> rfl

/-- C33: on a line, the first accepted `inda`/`indb` operand of `parse_indx`
(`cc_cleared` is 0) leaves the word with the condition field cleared and its
own update code and register number ORed in, and sets `cc_cleared`.  A second
call of `parse_indx` on the same line starts from that flag and clears no bit:
every bit set after the first operand, in particular the selector and register
bits the first operand wrote, is still set after the second, and `cc_cleared`
stays set.  `md_assemble` stores 0 in `cc_cleared` before anything else on
every line that is not ignored: its outcome and the static variables it leaves
do not depend on the value of `cc_cleared` left by the previous line, and the
switch is entered with `cc_cleared` 0. -/
theorem C33_condition_cleared_once (C : CondConsts) (cc_flag p1 p2 : Bool)
    (n1 n2 : pointer_name) (s1 s2 : update_op) (t1 t2 : bfd_reloc_code_real_type)
    (o1 o2 insn : propeller_code) (r1 r2 : propeller_code × propeller_code × Bool)
    (h1 : parse_indx C cc_flag false p1 n1 s1 t1 o1 insn = some r1)
    (hacc : r1.1.error = none)
    (h2 : parse_indx C cc_flag r1.2.2 p2 n2 s2 t2 o2 r1.2.1 = some r2) :
    r1.2.1.code = (insn.code &&& bitnot 32 C.CC_MASK)
        ||| shlW 32 (spec_update_code p1 s1) (if t1 = BFD_RELOC_PROPELLER_SRC then 18 else 20)
        ||| shlW 32 (if n1 = .inda then 0x1f6 else 0x1f7)
              (if t1 = BFD_RELOC_PROPELLER_SRC then 0 else 9)
    ∧ r1.2.2 = true
    ∧ (∀ i, r1.2.1.code.testBit i = true → r2.2.1.code.testBit i = true)
    ∧ r2.2.1.code &&&
          (shlW 32 (spec_update_code p1 s1) (if t1 = BFD_RELOC_PROPELLER_SRC then 18 else 20)
            ||| shlW 32 (if n1 = .inda then 0x1f6 else 0x1f7)
                  (if t1 = BFD_RELOC_PROPELLER_SRC then 0 else 9))
        = shlW 32 (spec_update_code p1 s1) (if t1 = BFD_RELOC_PROPELLER_SRC then 18 else 20)
            ||| shlW 32 (if n1 = .inda then 0x1f6 else 0x1f7)
                  (if t1 = BFD_RELOC_PROPELLER_SRC then 0 else 9)
    ∧ r2.2.2 = true
    ∧ (∀ (K : OpcodeConsts) (F : FlagConsts) (H : HardwareConsts) (EF_PROPELLER_COMPRESS : Nat)
        (g : Globals) (table : List propeller_opcode) (start : line_start)
        (format_case : Globals → propeller_opcode → AsmLocals →
          Except String (propeller_opcode × AsmLocals) × Bool)
        (effs : List propeller_effect) (rest_blank : Bool), start ≠ .ignored →
        md_assemble_globals K F C H EF_PROPELLER_COMPRESS g table start format_case effs
            rest_blank
          = md_assemble_globals K F C H EF_PROPELLER_COMPRESS
              { g with cc_flag := 0, cc_cleared := 0 } table start
              (fun g2 => format_case { g2 with cc_cleared := 0 }) effs rest_blank) := by
  obtain ⟨hc1, hcode⟩ := parse_indx_first_clears C cc_flag p1 n1 s1 t1 o1 insn r1 h1 hacc
  rw [hc1] at h2
  obtain ⟨hc2, hbits⟩ := parse_indx_cleared_keeps_bits C cc_flag p2 n2 s2 t2 o2 r1.2.1 r2 h2
  refine ⟨hcode, hc1, hbits, ?_, hc2, ?_⟩
  · apply Nat.eq_of_testBit_eq
    intro i
    rw [Nat.testBit_and]
    cases hb : (shlW 32 (spec_update_code p1 s1)
        (if t1 = BFD_RELOC_PROPELLER_SRC then 18 else 20)
      ||| shlW 32 (if n1 = .inda then 0x1f6 else 0x1f7)
            (if t1 = BFD_RELOC_PROPELLER_SRC then 0 else 9)).testBit i
    · rw [Bool.and_false]
    · rw [Bool.and_true]
      apply hbits
      rw [hcode, Nat.or_assoc, Nat.testBit_or, hb, Bool.or_true]
  · intro K F H EF g table start format_case effs rest_blank hs
    exact globals_reset K F C H EF g table start format_case effs rest_blank hs

theorem C33_condition_cleared_once_witness :
    parse_indx sample_cond false false false .inda .increment BFD_RELOC_PROPELLER_DST
        empty_code mov_head_insn
      = some (index_register_operand 0x1f6, { empty_code with code := 0xA013EC00 }, true)
    ∧ (index_register_operand 0x1f6).error = none
    ∧ parse_indx sample_cond false true true .indb .no_update BFD_RELOC_PROPELLER_SRC
        empty_code { empty_code with code := 0xA013EC00 }
      = some (index_register_operand 0x1f7, { empty_code with code := 0xA01FEDF7 }, true)
    ∧ (0xA013EC00 : Nat) = (mov_head_insn.code &&& bitnot 32 sample_cond.CC_MASK)
        ||| shlW 32 (spec_update_code false .increment) 20 ||| shlW 32 0x1f6 9
    ∧ (0xA01FEDF7 : Nat) &&& (shlW 32 (spec_update_code false .increment) 20
        ||| shlW 32 0x1f6 9)
        = shlW 32 (spec_update_code false .increment) 20 ||| shlW 32 0x1f6 9 :=
  ⟨by rfl, rfl, by rfl,
    (C33_condition_cleared_once sample_cond false false true .inda .indb .increment .no_update
      BFD_RELOC_PROPELLER_DST BFD_RELOC_PROPELLER_SRC empty_code empty_code mov_head_insn
      (index_register_operand 0x1f6, { empty_code with code := 0xA013EC00 }, true)
      (index_register_operand 0x1f7, { empty_code with code := 0xA01FEDF7 }, true)
      (by rfl) rfl (by rfl)).1,
    (C33_condition_cleared_once sample_cond false false true .inda .indb .increment .no_update
      BFD_RELOC_PROPELLER_DST BFD_RELOC_PROPELLER_SRC empty_code empty_code mov_head_insn
      (index_register_operand 0x1f6, { empty_code with code := 0xA013EC00 }, true)
      (index_register_operand 0x1f7, { empty_code with code := 0xA01FEDF7 }, true)
      (by rfl) rfl (by rfl)).2.2.2.1⟩

theorem after_switch_compact (K : OpcodeConsts) (F : FlagConsts) (op : propeller_opcode)
    (st : AsmLocals) (effs : List propeller_effect) (rest_blank : Bool) (o : Emitted)
    (hic : st.insn_compressed = true)
    (h : md_assemble_after_switch K F true op st effs rest_blank = .emitted o) :
    ∃ st2, effect_loop op effs (set_r_default F op st) = .ok st2
      ∧ emit K true st2 = .emitted o := by
  unfold md_assemble_after_switch at h
  cases hl : effect_loop op effs (set_r_default F op st) with
  | error msg =>
    rw [hl] at h
    exact AsmResult.noConfusion h
  | ok st2 =>
    rw [hl] at h
    simp only [] at h
    refine ⟨st2, rfl, ?_⟩
    have hf := set_r_default_frame F op st
    have hg := effect_loop_frame op effs _ _ hl
    have hc2 : st2.insn_compressed = true := by
      rw [hg.2.2.2.2.2.2.2.1, hf.2.2.2.2.2.2.2.1, hic]
    cases hfe : first_error st2 rest_blank with
    | some err =>
      rw [hfe] at h
      exact AsmResult.noConfusion h
    | none =>
      rw [hfe] at h
      simp only [md_assemble_tail, hc2, Bool.true_eq_false, and_false, if_false,
        pack_fallback, false_and] at h
      exact h

theorem compact_emit (K : OpcodeConsts) (st : AsmLocals) (n : Nat) (hn : n = 1 ∨ n = 2)
    (hic : st.insn_compressed = true) (hsz : st.size = n + 1) (hrp : st.reloc_prefix = 1)
    (h2r : st.insn2.reloc.type = BFD_RELOC_NONE) (h2c : st.insn2.code = 0) :
    emit K true st = .emitted
      { reserved := n + 1, bytes := number_bytes st.insn.code (n + 1),
        fixes := fix_for st.insn 1 n ++ fix_for st.op1 1 n ++ fix_for st.op2 1 n,
        compress_flag := true } := by
  have hs : subW 32 (n + 1) 1 = n := by
    rcases hn with rfl | rfl <;> decide
  have h4 : ¬ (n + 1 > 4) := by omega
  simp only [emit, hic, hsz, hrp, h2r, h2c, Bool.true_eq_false, and_false, if_false, h4,
    List.length_nil, Nat.zero_le, not_lt_zero', ne_eq, not_true_eq_false, or_self,
    List.nil_append, number_bytes_length, Nat.zero_add, hs, gt_iff_lt, lt_self_iff_false,
    if_true]

theorem and_or_and_zero (c o a m : Nat) (hc : c &&& m = 0) (ho : o &&& m = 0) :
    ((c ||| o) &&& a) &&& m = 0 := by
  apply Nat.eq_of_testBit_eq
  intro i
  have h1 := congrArg (fun x => x.testBit i) hc
  have h2 := congrArg (fun x => x.testBit i) ho
  simp only [Nat.testBit_and, Nat.zero_testBit] at h1 h2
  rw [Nat.testBit_and, Nat.testBit_and, Nat.testBit_or, Nat.zero_testBit]
  cases hm : m.testBit i
  · simp
  · rw [hm] at h1 h2
    simp only [Bool.and_true] at h1 h2
    simp [h1, h2]

/-- The effect flags keep a set of bits of the instruction word clear when no
mask ORs one of them in, and they leave the relocation of the word and
`reloc_prefix` alone. -/
theorem effect_loop_clear_bits (op : propeller_opcode) (m : Nat)
    (effs : List propeller_effect) (heff : ∀ e ∈ effs, e.ormask &&& m = 0) :
    ∀ st st2 : AsmLocals, effect_loop op effs st = .ok st2 → st.xmov_flag = false →
      st.insn.code &&& m = 0 →
      st2.insn.code &&& m = 0 ∧ st2.insn.reloc = st.insn.reloc
        ∧ st2.reloc_prefix = st.reloc_prefix := by
  induction effs with
  | nil =>
    intro st st2 h _ hc
    simp only [effect_loop, Except.ok.injEq] at h
    subst h
    exact ⟨hc, rfl, rfl⟩
  | cons e rest ih =>
    intro st st2 h hx hc
    unfold effect_loop at h
    split_ifs at h with hfl hxx
    · rw [hx] at hxx
      exact Bool.noConfusion hxx
    · have he := heff e (List.mem_cons_self _ _)
      obtain ⟨a, b, c⟩ := ih (fun e2 h2 => heff e2 (List.mem_cons_of_mem _ h2)) _ _ h hx
        (and_or_and_zero _ _ _ _ hc he)
      exact ⟨a, b, c⟩

theorem set_r_default_offset (F : FlagConsts) (op : propeller_opcode) (st : AsmLocals) :
    AsmLocals.reloc_prefix (set_r_default F op st) = st.reloc_prefix := by
  unfold set_r_default
  split_ifs <;> rfl

/-- A line whose first word the switch left compact with `reloc_prefix` 1 and
size `n + 1` (n = 1 or 2), without second word, and in which neither the
default R bit nor an effect sets one of the bits 8 .. 8n+7 of the word: the
bytes stored are the tag byte followed by `n` zero bytes, and every fixup of
the line is recorded at offset 1 with size `n`, on a field of zero bytes. -/
theorem compact_field_zero (K : OpcodeConsts) (F : FlagConsts) (op : propeller_opcode)
    (st : AsmLocals) (effs : List propeller_effect) (rest_blank : Bool) (o : Emitted)
    (n : Nat) (hn : n = 1 ∨ n = 2)
    (hic : st.insn_compressed = true) (hsz : st.size = n + 1) (hrp : st.reloc_prefix = 1)
    (h2r : st.insn2.reloc.type = BFD_RELOC_NONE) (h2c : st.insn2.code = 0)
    (hx : st.xmov_flag = false)
    (hcode : (set_r_default F op st).insn.code &&& (2 ^ (8 * (n + 1)) - 2 ^ 8) = 0)
    (heff : ∀ e ∈ effs, e.ormask &&& (2 ^ (8 * (n + 1)) - 2 ^ 8) = 0)
    (h : md_assemble_after_switch K F true op st effs rest_blank = .emitted o) :
    o.bytes.length = n + 1
    ∧ ∀ f ∈ o.fixes, f.fx_where = 1 ∧ f.fx_size = n ∧ ∀ i, i < n → fixup_field o f i = 0 := by
  obtain ⟨st2, hl, he⟩ := after_switch_compact K F op st effs rest_blank o hic h
  have hf := set_r_default_frame F op st
  have hg := effect_loop_frame op effs _ _ hl
  have hx1 : (set_r_default F op st).xmov_flag = false := by rw [hf.2.2.2.2.2.2.2.2.2.1, hx]
  obtain ⟨hc2, -, hrp2⟩ := effect_loop_clear_bits op _ effs heff _ _ hl hx1 hcode
  rw [set_r_default_offset, hrp] at hrp2
  have hic2 : st2.insn_compressed = true := by
    rw [hg.2.2.2.2.2.2.2.1, hf.2.2.2.2.2.2.2.1, hic]
  have hsz2 : st2.size = n + 1 := by rw [hg.2.2.2.2.2.1, hf.2.2.2.2.2.1, hsz]
  have hi2 : st2.insn2 = st.insn2 := by
    rw [hg.2.2.2.2.2.2.2.2.2.2 hx1, hf.2.2.2.2.2.2.2.2.2.2 hx]
  rw [compact_emit K st2 n hn hic2 hsz2 hrp2 (by rw [hi2, h2r]) (by rw [hi2, h2c])] at he
  simp only [AsmResult.emitted.injEq] at he
  subst he
  refine ⟨number_bytes_length _ _, ?_⟩
  intro f hf2
  simp only [List.mem_append] at hf2
  have hfields : f.fx_where = 1 ∧ f.fx_size = n := by
    rcases hf2 with (hf2 | hf2) | hf2
    · exact fix_for_fields _ _ _ f hf2
    · exact fix_for_fields _ _ _ f hf2
    · exact fix_for_fields _ _ _ f hf2
  refine ⟨hfields.1, hfields.2, ?_⟩
  intro i hi
  simp only [fixup_field, hfields.1]
  rw [and_range _ _ 8 (by omega)] at hc2
  rcases hn with rfl | rfl
  · have hi0 : i = 0 := by omega
    subst hi0
    rw [number_bytes_two]
    simp only [List.getD_cons_succ, List.getD_cons_zero]
    norm_num at hc2 ⊢
    omega
  · rw [number_bytes_three]
    have hi0 : i = 0 ∨ i = 1 := by omega
    rcases hi0 with rfl | rfl
    · simp only [List.getD_cons_succ, List.getD_cons_zero]
      norm_num at hc2 ⊢
      omega
    · simp only [List.getD_cons_succ, List.getD_cons_zero]
      norm_num at hc2 ⊢
      omega

theorem byte_and_high (x m : Nat) (hx : x < 256) (hm : m = 16 ∨ m = 24) :
    x &&& (2 ^ m - 2 ^ 8) = 0 := by
  rw [and_range _ _ 8 (by omega)]
  rcases hm with rfl | rfl <;> norm_num <;> omega

theorem set_r_default_high (F : FlagConsts) (op : propeller_opcode) (st : AsmLocals)
    (hx : st.xmov_flag = false) (hc : st.insn.code < 256) :
    (set_r_default F op st).insn.code &&& (2 ^ 16 - 2 ^ 8) = 0
    ∧ (op.flags &&& F.FLAG_R = 0 ∨ op.flags &&& F.FLAG_R_DEF = 0 →
        (set_r_default F op st).insn.code &&& (2 ^ 24 - 2 ^ 8) = 0) := by
  have h16 := byte_and_high st.insn.code 16 hc (Or.inl rfl)
  have h24 := byte_and_high st.insn.code 24 hc (Or.inr rfl)
  unfold set_r_default
  by_cases hR : op.flags &&& F.FLAG_R ≠ 0
  · rw [if_pos hR]
    simp only [hx, Bool.false_eq_true, if_false]
    by_cases hD : op.flags &&& F.FLAG_R_DEF ≠ 0
    · rw [if_pos hD]
      refine ⟨?_, fun h => ?_⟩
      · show (st.insn.code ||| shlW 32 1 23) &&& (2 ^ 16 - 2 ^ 8) = 0
        rw [Nat.and_distrib_right, h16]
        decide
      · rcases h with h | h
        · exact absurd h hR
        · exact absurd h hD
    · rw [if_neg hD]
      have z : shlW 32 0 23 = 0 := by decide
      show (st.insn.code ||| shlW 32 0 23) &&& (2 ^ 16 - 2 ^ 8) = 0
        ∧ (_ → (st.insn.code ||| shlW 32 0 23) &&& (2 ^ 24 - 2 ^ 8) = 0)
      rw [z, Nat.or_zero]
      exact ⟨h16, fun _ => h24⟩
  · rw [if_neg hR]
    exact ⟨h16, fun _ => h24⟩

theorem head_locals (C : CondConsts) (cond : Option propeller_condition)
    (op : propeller_opcode) (st : AsmLocals) (h : md_assemble_head C cond op = .ok st) :
    st.xmov_flag = false ∧ st.insn2 = empty_code ∧ st.condmask < 16
    ∧ st.op1 = empty_code ∧ st.op2 = empty_code ∧ st.op3 = empty_code ∧ st.op4 = empty_code
    ∧ st.insn.error = none ∧ st.insn.reloc = empty_code.reloc := by
  unfold md_assemble_head at h
  split_ifs at h
  all_goals
    simp only [Except.ok.injEq] at h
    subst h
    refine ⟨rfl, rfl, ?_, rfl, rfl, rfl, rfl, rfl, rfl⟩
    show 0xf &&& _ < 16
    exact Nat.lt_of_le_of_lt Nat.and_le_left (by decide)

/-- The compact form of `brs`: whatever the operand, the flags of the row and
the condition are, the line is stored as the tag byte and one zero byte, and
its fixup (the `BFD_RELOC_8_PCREL` of the operand) is recorded at offset 1
with size 1, on a byte that holds 0. -/
theorem brs_compact_field_zero (K : OpcodeConsts) (F : FlagConsts) (C : CondConsts)
    (H : HardwareConsts) (W PREFIX_BRS : Nat) (pasm_default : Bool) (mark : Option Bool)
    (parsed : Option expressionS) (prop2 lmm : Bool) (table : List propeller_opcode)
    (cond : Option propeller_condition) (str : String) (effs : List propeller_effect)
    (rest_blank : Bool) (o : Emitted)
    (hp : PREFIX_BRS < 256) (heff : ∀ e ∈ effs, e.ormask &&& 0xff00 = 0)
    (h : md_assemble K F C H true prop2 lmm table cond str
          (case_brs_compact W PREFIX_BRS pasm_default mark parsed) effs rest_blank
        = .emitted o) :
    o.bytes.length = 2
    ∧ ∀ f ∈ o.fixes, f.fx_where = 1 ∧ f.fx_size = 1 ∧ fixup_field o f 0 = 0 := by
  unfold md_assemble at h
  cases hfind : hash_find_insn (insn_hash H prop2 lmm table) str with
  | none =>
    rw [hfind] at h
    exact AsmResult.noConfusion h
  | some op =>
    rw [hfind] at h
    simp only [] at h
    cases hh : md_assemble_head C cond op with
    | error msg =>
      rw [hh] at h
      exact AsmResult.noConfusion h
    | ok st =>
      rw [hh] at h
      simp only [case_brs_compact] at h
      obtain ⟨hx, hi2, -⟩ := head_locals C cond op st hh
      have hb : PREFIX_BRS ||| (((parse_src_hash true pasm_default PROPELLER_OPERAND_BRS mark
          parsed st.op2 (parse_dest W true pasm_default none ['p', 'c'] none st.op1
            st.insn).2).2.code >>> 18) &&& 0xf) < 256 := by
        apply Nat.or_lt_two_pow (n := 8) hp
        exact Nat.lt_of_le_of_lt Nat.and_le_right (by decide)
      have e16 : (2 : Nat) ^ (8 * (1 + 1)) - 2 ^ 8 = 0xff00 := by norm_num
      have key := compact_field_zero K F op _ effs rest_blank o 1 (Or.inl rfl)
        ?_ ?_ ?_ ?_ ?_ ?_ ?_ ?_ h
      rotate_left
      · rfl
      · rfl
      · rfl
      · show st.insn2.reloc.type = BFD_RELOC_NONE
        rw [hi2]; rfl
      · show st.insn2.code = 0
        rw [hi2]; rfl
      · exact hx
      · refine (set_r_default_high F op _ ?_ ?_).1
        · exact hx
        · exact hb
      · rw [e16]; exact heff
      obtain ⟨hlen, hfix⟩ := key
      refine ⟨hlen, fun f hf => ?_⟩
      obtain ⟨a, b, c⟩ := hfix f hf
      exact ⟨a, b, c 0 (by decide)⟩

/-- The compact form of `brw`, for a row on which the R bit is not set by
default and effects that do not set one of the bits 8..23: the line is stored
as the tag byte and two zero bytes, and its fixup (the `BFD_RELOC_16_PCREL` of
the operand) is recorded at offset 1 with size 2, on bytes that hold 0. -/
theorem brw_compact_field_zero (K : OpcodeConsts) (F : FlagConsts) (C : CondConsts)
    (H : HardwareConsts) (W PREFIX_BRW : Nat) (parsed : Option expressionS)
    (prop2 lmm : Bool) (table : List propeller_opcode) (op : propeller_opcode)
    (cond : Option propeller_condition) (str : String) (effs : List propeller_effect)
    (rest_blank : Bool) (o : Emitted)
    (hp : PREFIX_BRW < 256)
    (hfind : hash_find_insn (insn_hash H prop2 lmm table) str = some op)
    (hR : op.flags &&& F.FLAG_R = 0 ∨ op.flags &&& F.FLAG_R_DEF = 0)
    (heff : ∀ e ∈ effs, e.ormask &&& 0xffff00 = 0)
    (h : md_assemble K F C H true prop2 lmm table cond str
          (case_brw_compact W PREFIX_BRW parsed) effs rest_blank
        = .emitted o) :
    o.bytes.length = 3
    ∧ ∀ f ∈ o.fixes, f.fx_where = 1 ∧ f.fx_size = 2
        ∧ fixup_field o f 0 = 0 ∧ fixup_field o f 1 = 0 := by
  unfold md_assemble at h
  rw [hfind] at h
  simp only [] at h
  cases hh : md_assemble_head C cond op with
  | error msg =>
    rw [hh] at h
    exact AsmResult.noConfusion h
  | ok st =>
    rw [hh] at h
    simp only [case_brw_compact] at h
    obtain ⟨hx, hi2, hcm, -⟩ := head_locals C cond op st hh
    have hb : PREFIX_BRW ||| st.condmask < 256 := by
      apply Nat.or_lt_two_pow (n := 8) hp
      omega
    have e24 : (2 : Nat) ^ (8 * (2 + 1)) - 2 ^ 8 = 0xffff00 := by norm_num
    have key := compact_field_zero K F op _ effs rest_blank o 2 (Or.inr rfl)
      ?_ ?_ ?_ ?_ ?_ ?_ ?_ ?_ h
    rotate_left
    · rfl
    · rfl
    · rfl
    · show st.insn2.reloc.type = BFD_RELOC_NONE
      rw [hi2]; rfl
    · show st.insn2.code = 0
      rw [hi2]; rfl
    · exact hx
    · refine (set_r_default_high F op _ ?_ ?_).2 hR
      · exact hx
      · exact hb
    · rw [e24]; exact heff
    obtain ⟨hlen, hfix⟩ := key
    refine ⟨hlen, fun f hf => ?_⟩
    obtain ⟨a, b, c⟩ := hfix f hf
    exact ⟨a, b, c 0 (by decide), c 1 (by decide)⟩

/-- The restriction on the row in `brw_compact_field_zero` is needed: for a
`brw` row on which the R bit is set by default, the statement after the
switch ORs bit 23 into the word that holds the tag byte, and the three bytes
stored for the compact line end with 0x80, the top bit of the 16-bit field of
the fixup. -/
theorem brw_default_r_sets_top_bit :
    md_assemble sample_consts sample_flags sample_cond sample_hw true false true
        [brw_wr_row] none "brw" (case_brw_compact 64 0xD0 (some (symbol_exp "far"))) [] true
      = .emitted
          { reserved := 3, bytes := [0xDF, 0x00, 0x80],
            fixes := [{ fx_where := 1, fx_size := 2, exp := symbol_exp "far", pcrel := true,
                        r_type := BFD_RELOC_16_PCREL }],
            compress_flag := true } := by
  rfl

theorem field_eq_iff (x y : Nat) :
    spec_condition_field x = spec_condition_field y
      ↔ ∀ i, 18 ≤ i → i ≤ 21 → x.testBit i = y.testBit i := by
  unfold spec_condition_field
  have e : (0xf : Nat) = 2 ^ 4 - 1 := by norm_num
  constructor
  · intro h i h1 h2
    have := congrArg (fun z => z.testBit (i - 18)) h
    simp only [Nat.testBit_and, Nat.testBit_shiftRight, e, Nat.testBit_two_pow_sub_one] at this
    have h3 : i - 18 < 4 := by omega
    have h4 : 18 + (i - 18) = i := by omega
    simpa [h3, h4] using this
  · intro h
    apply Nat.eq_of_testBit_eq
    intro j
    rw [Nat.testBit_and, Nat.testBit_and, Nat.testBit_shiftRight, Nat.testBit_shiftRight, e,
      Nat.testBit_two_pow_sub_one]
    by_cases hj : j < 4
    · rw [h (18 + j) (by omega) (by omega)]
    · simp [hj]

theorem mask_testBit (i : Nat) : (0xf <<< 18 : Nat).testBit i = decide (18 ≤ i ∧ i ≤ 21) := by
  have e : (0xf : Nat) = 2 ^ 4 - 1 := by norm_num
  rw [Nat.testBit_shiftLeft, e, Nat.testBit_two_pow_sub_one]
  by_cases h1 : 18 ≤ i
  · by_cases h2 : i ≤ 21
    · have : i - 18 < 4 := by omega
      simp [h1, h2, this]
    · have : ¬ i - 18 < 4 := by omega
      simp [h1, h2, this]
  · simp [h1]

theorem outside_testBit (x i : Nat) :
    (spec_outside_condition x).testBit i = (x.testBit i && !decide (18 ≤ i ∧ i ≤ 21)) := by
  unfold spec_outside_condition
  rw [Nat.testBit_xor, Nat.testBit_and, mask_testBit]
  cases x.testBit i <;> cases decide (18 ≤ i ∧ i ≤ 21) <;> rfl

theorem outside_eq_iff (x y : Nat) :
    spec_outside_condition x = spec_outside_condition y
      ↔ ∀ i, i < 18 ∨ 21 < i → x.testBit i = y.testBit i := by
  constructor
  · intro h i hi
    have := congrArg (fun z => z.testBit i) h
    simp only [outside_testBit] at this
    have hn : ¬ (18 ≤ i ∧ i ≤ 21) := by omega
    simpa [hn] using this
  · intro h
    apply Nat.eq_of_testBit_eq
    intro i
    rw [outside_testBit, outside_testBit]
    by_cases hi : 18 ≤ i ∧ i ≤ 21
    · simp [hi]
    · rw [h i (by omega)]

theorem mask_zero_bits (o i : Nat) (h : o &&& (0xf <<< 18) = 0) (h1 : 18 ≤ i) (h2 : i ≤ 21) :
    o.testBit i = false := by
  have := congrArg (fun z => z.testBit i) h
  simp only [Nat.testBit_and, mask_testBit, Nat.zero_testBit] at this
  simpa [h1, h2] using this

theorem or_keeps_field (x v : Nat) (hv : v &&& (0xf <<< 18) = 0) :
    spec_condition_field (x ||| v) = spec_condition_field x := by
  rw [field_eq_iff]
  intro i h1 h2
  rw [Nat.testBit_or, mask_zero_bits v i hv h1 h2, Bool.or_false]

theorem or_keeps_outside (x y v : Nat)
    (h : spec_outside_condition x = spec_outside_condition y) :
    spec_outside_condition (x ||| v) = spec_outside_condition (y ||| v) := by
  rw [outside_eq_iff] at h ⊢
  intro i hi
  rw [Nat.testBit_or, Nat.testBit_or, h i hi]

theorem agree_iff (a b : AsmLocals) :
    agree_outside_condition a b = true ↔
      (spec_outside_condition a.insn.code = spec_outside_condition b.insn.code
        ∧ a.insn.error = b.insn.error ∧ a.insn.reloc = b.insn.reloc
        ∧ a.insn2 = b.insn2 ∧ a.op1 = b.op1 ∧ a.op2 = b.op2 ∧ a.op3 = b.op3 ∧ a.op4 = b.op4
        ∧ a.size = b.size ∧ a.insn_compressed = b.insn_compressed
        ∧ a.insn2_compressed = b.insn2_compressed ∧ a.reloc_prefix = b.reloc_prefix
        ∧ a.xmov_flag = b.xmov_flag) := by
  unfold agree_outside_condition
  rw [decide_eq_true_iff]

theorem head_words_agree (c opc : Nat) (hc : c < 16) :
    agree_outside_condition (single_word ((0xf <<< 18) ||| opc) 0xf)
      (single_word ((c <<< 18) ||| opc) c) = true := by
  rw [agree_iff]
  simp only [single_word, and_self, and_true]
  rw [outside_eq_iff]
  intro i hi
  exact cond_outside 0xf c opc i (by decide) hc hi

theorem low_bits_outside_field (v : Nat) (hv : v < 2 ^ 18) : v &&& (0xf <<< 18) = 0 := by
  apply Nat.eq_of_testBit_eq
  intro i
  rw [Nat.testBit_and, mask_testBit, Nat.zero_testBit]
  by_cases hi : 18 ≤ i
  · rw [testBit_false_of_lt_of_le v 18 i hv hi, Bool.false_and]
  · have : ¬ (18 ≤ i ∧ i ≤ 21) := by omega
    simp [this]

theorem or_outside_field (a b : Nat) (ha : a &&& (0xf <<< 18) = 0) (hb : b &&& (0xf <<< 18) = 0) :
    (a ||| b) &&& (0xf <<< 18) = 0 := by
  rw [Nat.and_distrib_right, ha, hb]
  rfl

theorem range_check_low (W : Nat) (hW : W = 32 ∨ W = 64) (x : Nat) (hx : x < 2 ^ W)
    (h : ¬ (x &&& bitnot W 0x1ff ≠ 0)) : x < 512 := by
  have e : (0x1ff : Nat) = 2 ^ 9 - 1 := by norm_num
  have h0 : x &&& bitnot W 0x1ff = 0 := by
    by_contra hc
    exact h hc
  rw [e, bitnot_low W 9 (by rcases hW with rfl | rfl <;> omega),
    and_range x W 9 (by rcases hW with rfl | rfl <;> omega), Nat.mod_eq_of_lt hx] at h0
  have : x / 2 ^ 9 = 0 := by
    rcases Nat.mul_eq_zero.1 h0 with h1 | h1
    · exact h1
    · exact absurd h1 (by norm_num)
  have := Nat.div_add_mod x (2 ^ 9)
  have := Nat.mod_lt x (show 0 < 2 ^ 9 by norm_num)
  omega

theorem toValueT_lt_pow (W : Nat) (v : Int) : toValueT W v < 2 ^ W := by
  unfold toValueT
  have hp : (0 : Int) < (2 : Int) ^ W := by positivity
  have h1 : 0 ≤ v % (2 : Int) ^ W := Int.emod_nonneg _ (by omega)
  have h2 : v % (2 : Int) ^ W < (2 : Int) ^ W := Int.emod_lt_of_pos _ hp
  have h3 : ((v % (2 : Int) ^ W).toNat : Int) = v % (2 : Int) ^ W := Int.toNat_of_nonneg h1
  have h4 : (((2 : Nat) ^ W : Nat) : Int) = (2 : Int) ^ W := by push_cast; rfl
  omega

theorem shl_field_outside (v s : Nat) (hv : v < 512) (hs : s = 0 ∨ s = 9) :
    shlW 32 v s &&& (0xf <<< 18) = 0 := by
  apply low_bits_outside_field
  unfold shlW
  rcases hs with rfl | rfl
  · rw [Nat.shiftLeft_eq]
    have : v * 2 ^ 0 % 2 ^ 32 ≤ v * 2 ^ 0 := Nat.mod_le _ _
    omega
  · rw [Nat.shiftLeft_eq]
    have : v * 2 ^ 9 % 2 ^ 32 ≤ v * 2 ^ 9 := Nat.mod_le _ _
    omega

theorem find_regname_mem (str : List Char) (rows : List (String × Nat)) (n : List Char)
    (r : Nat) (h : find_regname str rows = some (n, r)) : ∃ name, (name, r) ∈ rows := by
  induction rows with
  | nil => simp [find_regname] at h
  | cons row rest ih =>
    obtain ⟨name, regno⟩ := row
    unfold find_regname at h
    cases hm : matchregname str (String.toList name) with
    | some newstr =>
      rw [hm] at h
      simp only [Option.some.injEq, Prod.mk.injEq] at h
      exact ⟨name, by rw [← h.2]; exact List.mem_cons_self _ _⟩
    | none =>
      rw [hm] at h
      obtain ⟨nm, hnm⟩ := ih h
      exact ⟨nm, List.mem_cons_of_mem _ hnm⟩

theorem toSigned_small (x : Nat) (h1 : ¬ (toSigned 32 x > 15 ∨ toSigned 32 x < 0)) :
    x % 2 ^ 32 ≤ 15 := by
  unfold toSigned at h1
  split_ifs at h1 with hlt
  · omega
  · exfalso
    apply h1
    right
    have : x % 2 ^ 32 < 2 ^ 32 := Nat.mod_lt _ (by norm_num)
    norm_num at hlt ⊢
    omega

theorem regspec_digits_lt (ds : List Char) (reg : Nat) (hr : reg < 2 ^ 32) :
    (regspec_digits ds reg).2 < 2 ^ 32 := by
  induction ds generalizing reg with
  | nil => exact hr
  | cons c cs ih =>
    unfold regspec_digits
    split_ifs
    · exact ih _ (Nat.mod_lt _ (by norm_num))
    · exact hr

/-- A register number that `parse_regspec` stores is at most 19. -/
theorem regspec_regnum_le (compress give_error : Bool) (str : List Char) (r : Nat)
    (h : (parse_regspec compress give_error str).regnum = some r) : r ≤ 19 := by
  unfold parse_regspec at h
  simp only [] at h
  cases hf : find_regname (skip_whitespace str) lmm_regs with
  | some p =>
    obtain ⟨newstr, reg⟩ := p
    rw [hf] at h
    simp only [] at h
    obtain ⟨name, hmem⟩ := find_regname_mem _ _ _ _ hf
    have hle : reg ≤ 19 := by
      simp only [lmm_regs, SP_REGNUM, PC_REGNUM, CC_REGNUM, FFFFFFFF_REGNUM, List.mem_cons,
        Prod.mk.injEq, List.mem_singleton, List.not_mem_nil, or_false] at hmem
      omega
    split_ifs at h
    simp only [Option.some.injEq] at h
    omega
  | none =>
    rw [hf] at h
    simp only [] at h
    cases hs : skip_whitespace str with
    | nil =>
      rw [hs] at h
      simp at h
    | cons c cs =>
      rw [hs] at h
      simp only [] at h
      split_ifs at h with h1 h2
      simp only [Option.some.injEq] at h
      have := toSigned_small _ h2
      have hlt := regspec_digits_lt cs 0 (by norm_num)
      rw [Nat.mod_eq_of_lt hlt] at this
      omega

theorem or_zero_code (insn : propeller_code) : { insn with code := insn.code ||| 0 } = insn := by
  rw [Nat.or_zero]

/-- `parse_src_or_dest` only ORs into the instruction word, a value without a
bit in the condition field that does not depend on the word; the operand it
leaves does not depend on the word either. -/
theorem parse_src_or_dest_ors (W : Nat) (hW : W = 32 ∨ W = 64) (compress : Bool)
    (str : List Char) (parsed : Option expressionS) (type : bfd_reloc_code_real_type)
    (delta : Int) (operand : propeller_code) :
    ∃ v x, v &&& (0xf <<< 18) = 0 ∧ ∀ insn,
      parse_src_or_dest W compress str parsed type delta operand insn
        = (x, { insn with code := insn.code ||| v }) := by
  have hshift : (if (type = BFD_RELOC_PROPELLER_DST || type = BFD_RELOC_PROPELLER_DST_IMM) = true
      then 9 else 0) = 0
      ∨ (if (type = BFD_RELOC_PROPELLER_DST || type = BFD_RELOC_PROPELLER_DST_IMM) = true
      then 9 else 0) = 9 := by
    split_ifs
    · exact Or.inr rfl
    · exact Or.inl rfl
  have zero : ∀ x : propeller_code, ∃ v y, v &&& (0xf <<< 18) = 0 ∧ ∀ insn : propeller_code,
      (x, insn) = (y, { insn with code := insn.code ||| v }) :=
    fun x => ⟨0, x, by decide, fun insn => by rw [or_zero_code]⟩
  have checked : ∀ (t : Nat) (x1 x2 : propeller_code), t < 2 ^ W →
      ∃ v y, v &&& (0xf <<< 18) = 0 ∧ ∀ insn : propeller_code,
      (if ¬ t &&& bitnot W 0x1ff = 0 then (x1, insn)
        else
          (x2, { insn with
                code := insn.code ||| shlW 32 t
                  (if (type = BFD_RELOC_PROPELLER_DST || type = BFD_RELOC_PROPELLER_DST_IMM)
                      = true then 9 else 0) }))
        = (y, { insn with code := insn.code ||| v }) := by
    intro t x1 x2 ht
    by_cases hr : ¬ t &&& bitnot W 0x1ff = 0
    · obtain ⟨v, y, hv, hy⟩ := zero x1
      exact ⟨v, y, hv, fun insn => by rw [if_pos hr]; exact hy insn⟩
    · exact ⟨_, x2, shl_field_outside _ _ (range_check_low W hW _ ht hr) hshift,
        fun insn => by rw [if_neg hr]⟩
  unfold parse_src_or_dest
  cases hreg : (if compress = true then
      (parse_regspec compress false (skip_whitespace str)).regnum else none) with
  | some regnum =>
    simp only [hreg]
    have hle : regnum ≤ 19 := by
      split_ifs at hreg
      exact regspec_regnum_le _ _ _ _ hreg
    exact ⟨_, _, shl_field_outside _ _ (by omega) hshift, fun insn => rfl⟩
  | none =>
    simp only [hreg]
    cases parsed with
    | none => exact zero _
    | some exp =>
      simp only []
      by_cases herr : operand.error = none
      · simp only [herr, ne_eq, not_true_eq_false, if_false]
        cases hx : exp.X_op <;> simp only [] <;> first | exact zero _ | exact checked _ _ _ (toValueT_lt_pow W _)
      · simp only [herr, ne_eq, not_false_eq_true, if_true]
        exact zero _

theorem parse_dest_ors (W : Nat) (hW : W = 32 ∨ W = 64) (compress pasm_default : Bool)
    (str : List Char) (parsed : Option expressionS) (operand : propeller_code) :
    ∃ v x, v &&& (0xf <<< 18) = 0 ∧ ∀ insn,
      parse_dest W compress pasm_default none str parsed operand insn
        = (x, { insn with code := insn.code ||| v }) := by
  obtain ⟨v, x, hv, h⟩ := parse_src_or_dest_ors W hW compress str parsed
    BFD_RELOC_PROPELLER_DST 0 operand
  cases pasm_default
  · exact ⟨v, x, hv, fun insn => by simp only [parse_dest, h insn, Bool.false_eq_true, if_false]⟩
  · exact ⟨v, { x with reloc := { x.reloc with exp := (pasm_replace_expression x.reloc.exp).1 } },
      hv, fun insn => by simp only [parse_dest, h insn, if_true]⟩

theorem range_check_low32 (n x : Nat) (hn : n ≤ 32) (hx : x < 2 ^ 32)
    (h : ¬ (x &&& bitnot 32 (2 ^ n - 1) ≠ 0)) : x < 2 ^ n := by
  have h0 : x &&& bitnot 32 (2 ^ n - 1) = 0 := by
    by_contra hc
    exact h hc
  rw [bitnot_low 32 n hn, and_range x 32 n hn, Nat.mod_eq_of_lt hx] at h0
  have hp : 0 < 2 ^ n := Nat.two_pow_pos n
  have : x / 2 ^ n = 0 := by
    rcases Nat.mul_eq_zero.1 h0 with h1 | h1
    · exact h1
    · omega
  exact (Nat.div_eq_zero_iff hp).1 this

theorem subW_lt (a b : Nat) : subW 32 a b < 2 ^ 32 := by
  unfold subW
  exact Nat.mod_lt _ (by norm_num)

/-- The switch of `parse_src` only ORs into the instruction word, a value
below 512 that does not depend on the word. -/
theorem parse_src_switch_ors (format : operand_format)
    (pcrel_reloc : Option bfd_reloc_code_real_type) (integer_reloc : Bool)
    (operand : propeller_code) :
    ∃ v x, v &&& (0xf <<< 18) = 0 ∧ ∀ insn,
      parse_src_switch format pcrel_reloc integer_reloc operand insn
        = (x, { insn with code := insn.code ||| v }) := by
  have zero : ∀ x : propeller_code, ∃ v y, v &&& (0xf <<< 18) = 0 ∧ ∀ insn : propeller_code,
      (x, insn) = (y, { insn with code := insn.code ||| v }) :=
    fun x => ⟨0, x, by decide, fun insn => by rw [or_zero_code]⟩
  have e9 : (0x1ff : Nat) = 2 ^ 9 - 1 := by norm_num
  have e6 : (0x3f : Nat) = 2 ^ 6 - 1 := by norm_num
  have constant : ∃ v x, v &&& (0xf <<< 18) = 0 ∧ ∀ insn : propeller_code,
      (if format = PROPELLER_OPERAND_REPD then
        if subW 32 (toValueT 32 operand.reloc.exp.X_add_number) 1 &&& bitnot 32 0x3f ≠ 0 then
          ({ operand with error := some "6-bit constant out of range" }, insn)
        else (operand, { insn with
          code := insn.code ||| subW 32 (toValueT 32 operand.reloc.exp.X_add_number) 1 })
      else
        if toValueT 32 operand.reloc.exp.X_add_number &&& bitnot 32 0x1ff ≠ 0 then
          ({ operand with error := some "9-bit constant out of range" }, insn)
        else (operand, { insn with
          code := insn.code ||| toValueT 32 operand.reloc.exp.X_add_number }))
        = (x, { insn with code := insn.code ||| v }) := by
    by_cases hf : format = PROPELLER_OPERAND_REPD
    · by_cases hr : subW 32 (toValueT 32 operand.reloc.exp.X_add_number) 1 &&& bitnot 32 0x3f ≠ 0
      · obtain ⟨v, y, hv, hy⟩ := zero { operand with error := some "6-bit constant out of range" }
        exact ⟨v, y, hv, fun insn => by rw [if_pos hf, if_pos hr]; exact hy insn⟩
      · refine ⟨_, operand, low_bits_outside_field _ ?_, fun insn => by rw [if_pos hf, if_neg hr]⟩
        rw [e6] at hr
        have := range_check_low32 6 _ (by norm_num) (subW_lt _ _) hr
        omega
    · by_cases hr : toValueT 32 operand.reloc.exp.X_add_number &&& bitnot 32 0x1ff ≠ 0
      · obtain ⟨v, y, hv, hy⟩ := zero { operand with error := some "9-bit constant out of range" }
        exact ⟨v, y, hv, fun insn => by rw [if_neg hf, if_pos hr]; exact hy insn⟩
      · refine ⟨_, operand, low_bits_outside_field _ ?_, fun insn => by rw [if_neg hf, if_neg hr]⟩
        rw [e9] at hr
        have := range_check_low32 9 _ (by norm_num) (toValueT_lt _) hr
        omega
  unfold parse_src_switch
  cases hx : operand.reloc.exp.X_op <;> simp only [] <;>
    first
      | exact constant
      | exact zero _
      | (cases pcrel_reloc <;> exact zero _)

/-- `parse_src` on a `#` operand only ORs into the instruction word: the
immediate bit 22 and a value below 512, neither depending on the word. -/
theorem parse_src_hash_ors (compress pasm_default : Bool) (format : operand_format)
    (mark : Option Bool) (parsed : Option expressionS) (operand : propeller_code) :
    ∃ v x, v &&& (0xf <<< 18) = 0 ∧ ∀ insn,
      parse_src_hash compress pasm_default format mark parsed operand insn
        = (x, { insn with code := insn.code ||| v }) := by
  have zero : ∀ x : propeller_code, ∃ v y, v &&& (0xf <<< 18) = 0 ∧ ∀ insn : propeller_code,
      (x, insn) = (y, { insn with code := insn.code ||| v }) :=
    fun x => ⟨0, x, by decide, fun insn => by rw [or_zero_code]⟩
  have imm : ∀ x : propeller_code, ∃ v y, v &&& (0xf <<< 18) = 0 ∧ ∀ insn : propeller_code,
      (x, { insn with code := insn.code ||| (1 <<< 22) })
        = (y, { insn with code := insn.code ||| v }) :=
    fun x => ⟨1 <<< 22, x, by decide, fun insn => rfl⟩
  have main : ∀ (pe : Bool) (exp : expressionS), ∃ v x, v &&& (0xf <<< 18) = 0 ∧
      ∀ insn : propeller_code,
      (if pe = true ∧
          ((parse_src_switch format
              (if format = PROPELLER_OPERAND_BRS then
                some (if compress = true then BFD_RELOC_8_PCREL else BFD_RELOC_PROPELLER_PCREL10)
               else none)
              (pe || (format ≠ PROPELLER_OPERAND_JMP && format ≠ PROPELLER_OPERAND_JMPRET
                && format ≠ PROPELLER_OPERAND_MOVA))
              { error := none, code := operand.code,
                reloc := { type := operand.reloc.type, exp := exp, pc_rel := false } }
              { insn with code := insn.code ||| (1 <<< 22) }).1.reloc.type
                = BFD_RELOC_PROPELLER_SRC_IMM
            ∨ (parse_src_switch format
              (if format = PROPELLER_OPERAND_BRS then
                some (if compress = true then BFD_RELOC_8_PCREL else BFD_RELOC_PROPELLER_PCREL10)
               else none)
              (pe || (format ≠ PROPELLER_OPERAND_JMP && format ≠ PROPELLER_OPERAND_JMPRET
                && format ≠ PROPELLER_OPERAND_MOVA))
              { error := none, code := operand.code,
                reloc := { type := operand.reloc.type, exp := exp, pc_rel := false } }
              { insn with code := insn.code ||| (1 <<< 22) }).1.reloc.type
                = BFD_RELOC_PROPELLER_SRC)
          ∧ (pasm_replace_expression
              (parse_src_switch format
                (if format = PROPELLER_OPERAND_BRS then
                  some (if compress = true then BFD_RELOC_8_PCREL
                    else BFD_RELOC_PROPELLER_PCREL10)
                 else none)
                (pe || (format ≠ PROPELLER_OPERAND_JMP && format ≠ PROPELLER_OPERAND_JMPRET
                  && format ≠ PROPELLER_OPERAND_MOVA))
                { error := none, code := operand.code,
                  reloc := { type := operand.reloc.type, exp := exp, pc_rel := false } }
                { insn with code := insn.code ||| (1 <<< 22) }).1.reloc.exp).2 = true then
          ({ (parse_src_switch format
                (if format = PROPELLER_OPERAND_BRS then
                  some (if compress = true then BFD_RELOC_8_PCREL
                    else BFD_RELOC_PROPELLER_PCREL10)
                 else none)
                (pe || (format ≠ PROPELLER_OPERAND_JMP && format ≠ PROPELLER_OPERAND_JMPRET
                  && format ≠ PROPELLER_OPERAND_MOVA))
                { error := none, code := operand.code,
                  reloc := { type := operand.reloc.type, exp := exp, pc_rel := false } }
                { insn with code := insn.code ||| (1 <<< 22) }).1 with
              reloc := { (parse_src_switch format
                (if format = PROPELLER_OPERAND_BRS then
                  some (if compress = true then BFD_RELOC_8_PCREL
                    else BFD_RELOC_PROPELLER_PCREL10)
                 else none)
                (pe || (format ≠ PROPELLER_OPERAND_JMP && format ≠ PROPELLER_OPERAND_JMPRET
                  && format ≠ PROPELLER_OPERAND_MOVA))
                { error := none, code := operand.code,
                  reloc := { type := operand.reloc.type, exp := exp, pc_rel := false } }
                { insn with code := insn.code ||| (1 <<< 22) }).1.reloc with
                exp := (pasm_replace_expression
                  (parse_src_switch format
                    (if format = PROPELLER_OPERAND_BRS then
                      some (if compress = true then BFD_RELOC_8_PCREL
                        else BFD_RELOC_PROPELLER_PCREL10)
                     else none)
                    (pe || (format ≠ PROPELLER_OPERAND_JMP && format ≠ PROPELLER_OPERAND_JMPRET
                      && format ≠ PROPELLER_OPERAND_MOVA))
                    { error := none, code := operand.code,
                      reloc := { type := operand.reloc.type, exp := exp, pc_rel := false } }
                    { insn with code := insn.code ||| (1 <<< 22) }).1.reloc.exp).1,
                type := BFD_RELOC_PROPELLER_SRC } },
           (parse_src_switch format
                (if format = PROPELLER_OPERAND_BRS then
                  some (if compress = true then BFD_RELOC_8_PCREL
                    else BFD_RELOC_PROPELLER_PCREL10)
                 else none)
                (pe || (format ≠ PROPELLER_OPERAND_JMP && format ≠ PROPELLER_OPERAND_JMPRET
                  && format ≠ PROPELLER_OPERAND_MOVA))
                { error := none, code := operand.code,
                  reloc := { type := operand.reloc.type, exp := exp, pc_rel := false } }
                { insn with code := insn.code ||| (1 <<< 22) }).2)
        else
          parse_src_switch format
                (if format = PROPELLER_OPERAND_BRS then
                  some (if compress = true then BFD_RELOC_8_PCREL
                    else BFD_RELOC_PROPELLER_PCREL10)
                 else none)
                (pe || (format ≠ PROPELLER_OPERAND_JMP && format ≠ PROPELLER_OPERAND_JMPRET
                  && format ≠ PROPELLER_OPERAND_MOVA))
                { error := none, code := operand.code,
                  reloc := { type := operand.reloc.type, exp := exp, pc_rel := false } }
                { insn with code := insn.code ||| (1 <<< 22) })
        = (x, { insn with code := insn.code ||| v }) := by
    intro pe exp
    obtain ⟨v, x, hv, h⟩ := parse_src_switch_ors format
      (if format = PROPELLER_OPERAND_BRS then
        some (if compress = true then BFD_RELOC_8_PCREL else BFD_RELOC_PROPELLER_PCREL10)
       else none)
      (pe || (format ≠ PROPELLER_OPERAND_JMP && format ≠ PROPELLER_OPERAND_JMPRET
        && format ≠ PROPELLER_OPERAND_MOVA))
      { error := none, code := operand.code,
        reloc := { type := operand.reloc.type, exp := exp, pc_rel := false } }
    simp only [h]
    have hv2 : ((1 <<< 22) ||| v) &&& (0xf <<< 18) = 0 :=
      or_outside_field _ _ (by decide) hv
    split_ifs
    · exact ⟨_, _, hv2, fun insn => by rw [Nat.or_assoc]⟩
    · exact ⟨_, _, hv2, fun insn => by rw [Nat.or_assoc]⟩
  unfold parse_src_hash
  by_cases hf : format = PROPELLER_OPERAND_PTRS_OPS
  · simp only [hf, if_true]
    exact zero _
  · simp only [hf, if_false]
    cases parsed with
    | none => exact imm _
    | some exp =>
      simp only []
      by_cases herr : operand.error = none
      · have hnn : ((none : Option String) ≠ none) = False := by simp
        simp only [herr, hnn, if_false]
        cases mark with
        | none => exact main pasm_default exp
        | some b => exact main b exp
      · simp only [herr, ne_eq, not_false_eq_true, if_true]
        exact imm _

/-- The case `PROPELLER_OPERAND_TWO_OPS` on a line `op dest, #expr` ORs into
the word a value without a bit in 18..21, the same value from every state with
the same operand records. -/
theorem two_ops_hash_ors (W : Nat) (hW : W = 32 ∨ W = 64) (compress pasm_default : Bool)
    (dest : List Char) (dest_parsed : Option expressionS) (mark : Option Bool)
    (src_parsed : Option expressionS) (op : propeller_opcode) (op1 op2 : propeller_code) :
    ∃ v x1 x2, v &&& (0xf <<< 18) = 0 ∧ ∀ st : AsmLocals, st.op1 = op1 → st.op2 = op2 →
      case_two_ops_hash W compress pasm_default dest dest_parsed mark src_parsed op st
        = .ok (op, { st with op1 := x1, op2 := x2,
                             insn := { st.insn with code := st.insn.code ||| v } }) := by
  obtain ⟨v1, x1, hv1, h1⟩ := parse_dest_ors W hW compress pasm_default dest dest_parsed op1
  obtain ⟨v2, x2, hv2, h2⟩ := parse_src_hash_ors compress pasm_default
    PROPELLER_OPERAND_TWO_OPS mark src_parsed op2
  refine ⟨v1 ||| v2, x1, x2, or_outside_field _ _ hv1 hv2, ?_⟩
  intro st e1 e2
  simp only [case_two_ops_hash, two_ops_hash_source, e1, e2, h1, h2, Nat.or_assoc]

/-- The case `PROPELLER_OPERAND_TWO_OPS` on a line `op dest, #expr` leaves
bits 18..21 of the word as `md_assemble` set them before the switch. -/
theorem two_ops_hash_keeps (W : Nat) (hW : W = 32 ∨ W = 64) (compress pasm_default : Bool)
    (dest : List Char) (dest_parsed : Option expressionS) (mark : Option Bool)
    (src_parsed : Option expressionS) (op : propeller_opcode) (st : AsmLocals) :
    keeps_condition_field
      (case_two_ops_hash W compress pasm_default dest dest_parsed mark src_parsed op st) st
      = true := by
  obtain ⟨v, x1, x2, hv, h⟩ := two_ops_hash_ors W hW compress pasm_default dest dest_parsed
    mark src_parsed op st.op1 st.op2
  rw [h st rfl rfl]
  simp only [keeps_condition_field, decide_eq_true_eq]
  exact or_keeps_field _ _ hv

/-- The case `PROPELLER_OPERAND_TWO_OPS` on a line `op dest, #expr` does the
same from two states that differ only in bits 18..21 of the word. -/
theorem two_ops_hash_blind (W : Nat) (hW : W = 32 ∨ W = 64) (compress pasm_default : Bool)
    (dest : List Char) (dest_parsed : Option expressionS) (mark : Option Bool)
    (src_parsed : Option expressionS) (op : propeller_opcode) (a b : AsmLocals)
    (hab : agree_outside_condition a b = true) :
    condition_blind
      (case_two_ops_hash W compress pasm_default dest dest_parsed mark src_parsed op a)
      (case_two_ops_hash W compress pasm_default dest dest_parsed mark src_parsed op b)
      = true := by
  obtain ⟨v, x1, x2, hv, h⟩ := two_ops_hash_ors W hW compress pasm_default dest dest_parsed
    mark src_parsed op a.op1 a.op2
  have hab2 := (agree_iff a b).1 hab
  rw [h a rfl rfl, h b hab2.2.2.2.2.1.symm hab2.2.2.2.2.2.1.symm]
  simp only [condition_blind, decide_True, Bool.true_and]
  rw [agree_iff]
  obtain ⟨c0, c1, c2, c3, c4, c5, c6, c7, c8, c9, c10, c11, c12⟩ := hab2
  exact ⟨or_keeps_outside _ _ v c0, c1, c2, c3, rfl, rfl, c6, c7, c8, c9, c10, c11, c12⟩

end Propeller
